import Mathlib

/-! Transform3D (libEM/transform.cpp): a shallow embedding.

The 4x4 affine transform of `src/libEM/transform.cpp` is embedded over an
arbitrary field `K` (exact arithmetic; the `float` casts of the source are
dropped).  Loops are kept as folds over their index lists and an assignment
`matrix[i][j] = v` is the functional update `Transform3D.set`.
-/

namespace EMAN

/-! ## Definitions -/

/-- Modelled from the spec: the lightweight 3-vector type `Vec3f` (its header
`vec3.h` is not among the sources): three components with indexing. -/
structure Vec3f (K : Type) where
  x : K
  y : K
  z : K

namespace Vec3f

variable {K : Type}

/-- Component access, `v[i]` and `v.at(i)` of the source. -/
def get (v : Vec3f K) (i : Fin 3) : K :=
  match i with
  | 0 => v.x
  | 1 => v.y
  | 2 => v.z

/-- Componentwise difference, `operator-` of `Vec3f`. -/
def sub [Sub K] (a b : Vec3f K) : Vec3f K := ⟨a.x - b.x, a.y - b.y, a.z - b.z⟩

/-- Assignment to one component, `set_value_at`. -/
def set_value_at (v : Vec3f K) (i : Fin 3) (a : K) : Vec3f K :=
  match i with
  | 0 => ⟨a, v.y, v.z⟩
  | 1 => ⟨v.x, a, v.z⟩
  | 2 => ⟨v.x, v.y, a⟩

end Vec3f

/-- The class `Transform3D`: its only data member is `float matrix[4][4]`. -/
@[ext]
structure Transform3D (K : Type) where
  matrix : Fin 4 → Fin 4 → K

/-- The index list of a loop `for (i = 0; i < 4; i++)`. -/
def idx4 : List (Fin 4) := [0, 1, 2, 3]

/-- The index list of a loop `for (i = 0; i < 3; i++)` over matrix indices. -/
def idx3 : List (Fin 4) := [0, 1, 2]

/-- The index list of a loop `for (i = 0; i < 3; i++)` over vector indices. -/
def vidx3 : List (Fin 3) := [0, 1, 2]

/-- A vector index used as a matrix index. -/
def up (i : Fin 3) : Fin 4 := Fin.castSucc i

/-- The functions and the constant of the C mathematics library that the
source calls (`cos`, `sin`, `acos`, `asin`, `atan2`, `sqrt`, `M_PI`), taken as
parameters: the theorems instantiate them with the exact real functions. -/
structure Libm (K : Type) where
  cos : K → K
  sin : K → K
  acos : K → K
  asin : K → K
  atan2 : K → K → K
  sqrt : K → K
  M_PI : K

/-- The C library `fmod` in exact arithmetic: `x - n * y` where `n` is the
quotient `x / y` truncated towards zero. -/
def fmod {K : Type} [LinearOrderedField K] [FloorRing K] (x y : K) : K :=
  x - ((if 0 ≤ x / y then Int.floor (x / y) else Int.ceil (x / y) : Int) : K) * y

/-- Modelled from the spec: the typed parameter map `Dict` (its header
`emobject.h` is not among the sources), represented by its lookup function. -/
def Dict (K : Type) : Type := String → K

namespace Dict

variable {K : Type}

/-- The empty map (a key that was never assigned reads as 0). -/
def empty [Zero K] : Dict K := fun _ => 0

/-- The assignment `d[key] = v`. -/
def put (d : Dict K) (key : String) (v : K) : Dict K :=
  fun s => if s = key then v else d s

/-- The read `d[key]`. -/
def get (d : Dict K) (key : String) : K := d key

end Dict

/-- Modelled from the spec: the enumeration `EulerType` (declared in
`transform.h`, not among the sources): the nine conventions the `switch`
statements of `set_rotation` and `get_rotation` name, and one further value
that reaches their `default:` branch. -/
inductive EulerType where
  | UNKNOWN
  | EMAN
  | IMAGIC
  | SPIN
  | QUATERNION
  | SGIROT
  | SPIDER
  | MRC
  | XYZ
  | MATRIX
deriving DecidableEq

/-- The ways a call can fail: the exceptions the source throws, a read
outside the bounds of an array, the bare `throw;` outside a handler, which
terminates the program, and `NotRepresentable`, which is no exception: it
marks a floating-point operation whose result is not a real number or does
not fit its target type (a division by zero, a conversion to `int` out of
range) in a run that is not followed further. -/
inductive Fault where
  | InvalidValueException (desc : String)
  | OutOfBoundsRead
  | InvalidParameterException (desc : String)
  | Terminate
  | NotRepresentable
  | NotExistingObjectException (desc : String)
deriving DecidableEq

namespace Transform3D

variable {K : Type}

/-- The assignment `matrix[i][j] = v`. -/
def set (t : Transform3D K) (i j : Fin 4) (v : K) : Transform3D K :=
  ⟨fun a b => if a = i ∧ b = j then v else t.matrix a b⟩

/-- `Transform3D::init` (M1): every entry 0, then the diagonal entry 1, row by row. -/
def init [Zero K] [One K] (t : Transform3D K) : Transform3D K :=
  idx4.foldl (fun t i => (idx4.foldl (fun t j => t.set i j 0) t).set i i 1) t

/-- The default constructor `Transform3D()` (C1): `init()` on fresh storage. -/
def new [Zero K] [One K] : Transform3D K := init ⟨fun _ _ => 0⟩

/-- `Transform3D::is_identity`: the first entry that differs from the identity
matrix makes the double loop return 0; it returns 1 when there is none. -/
def is_identity [Zero K] [One K] [DecidableEq K] (t : Transform3D K) : Bool :=
  idx4.all fun i => idx4.all fun j =>
    !(decide (i = j ∧ t.matrix i j ≠ 1)) && !(decide (i ≠ j ∧ t.matrix i j ≠ 0))

/-- `Transform3D::get_posttrans(int flag)`. -/
def get_posttrans (t : Transform3D K) (flag : Int) : Vec3f K :=
  if flag = 0 then ⟨t.matrix 3 0, t.matrix 3 1, t.matrix 3 2⟩
  else ⟨t.matrix 0 3, t.matrix 1 3, t.matrix 2 3⟩

/-- `EMAN::operator*(const Transform3D & M2, const Transform3D & M1)`. -/
def mul [Field K] (M2 M1 : Transform3D K) : Transform3D K :=
  let resultant : Transform3D K := new
  let resultant := idx3.foldl (fun r i =>
    let r := idx4.foldl (fun r j =>
      r.set i j (M2.matrix i 0 * M1.matrix 0 j + M2.matrix i 1 * M1.matrix 1 j
        + M2.matrix i 2 * M1.matrix 2 j)) r
    r.set i 3 (r.matrix i 3 + M2.matrix i 3)) resultant
  let resultant := idx3.foldl (fun r j => r.set 3 j (M2.matrix 3 j)) resultant
  resultant

/-- The value of the local `Det` of `Transform3D::inverse`: the cofactor
expansion `m00*cof00 + m02*cof02 - m01*cof01` of the 3x3 block. -/
def Det [Field K] (t : Transform3D K) : K :=
  t.matrix 0 0 * (t.matrix 1 1 * t.matrix 2 2 - t.matrix 1 2 * t.matrix 2 1)
    + t.matrix 0 2 * (t.matrix 1 0 * t.matrix 2 1 - t.matrix 2 0 * t.matrix 1 1)
    - t.matrix 0 1 * (t.matrix 1 0 * t.matrix 2 2 - t.matrix 2 0 * t.matrix 1 2)

/-- `Transform3D::inverse`. -/
def inverse [Field K] (t : Transform3D K) : Transform3D K :=
  let m00 := t.matrix 0 0
  let m01 := t.matrix 0 1
  let m02 := t.matrix 0 2
  let m10 := t.matrix 1 0
  let m11 := t.matrix 1 1
  let m12 := t.matrix 1 2
  let m20 := t.matrix 2 0
  let m21 := t.matrix 2 1
  let m22 := t.matrix 2 2
  let v0 := t.matrix 0 3
  let v1 := t.matrix 1 3
  let v2 := t.matrix 2 3
  let cof00 := m11 * m22 - m12 * m21
  let cof11 := m22 * m00 - m20 * m02
  let cof22 := m00 * m11 - m01 * m10
  let cof01 := m10 * m22 - m20 * m12
  let cof02 := m10 * m21 - m20 * m11
  let cof12 := m00 * m21 - m01 * m20
  let cof10 := m01 * m22 - m02 * m21
  let cof20 := m01 * m12 - m02 * m11
  let cof21 := m00 * m12 - m10 * m02
  let Det := m00 * cof00 + m02 * cof02 - m01 * cof01
  let invM : Transform3D K := new
  let invM := invM.set 0 0 (cof00 / Det)
  let invM := invM.set 0 1 (-cof10 / Det)
  let invM := invM.set 0 2 (cof20 / Det)
  let invM := invM.set 1 0 (-cof01 / Det)
  let invM := invM.set 1 1 (cof11 / Det)
  let invM := invM.set 1 2 (-cof21 / Det)
  let invM := invM.set 2 0 (cof02 / Det)
  let invM := invM.set 2 1 (-cof12 / Det)
  let invM := invM.set 2 2 (cof22 / Det)
  let invM := invM.set 0 3 ((-cof00 * v0 + cof10 * v1 - cof20 * v2) / Det)
  let invM := invM.set 1 3 ((cof01 * v0 - cof11 * v1 + cof21 * v2) / Det)
  let invM := invM.set 2 3 ((-cof02 * v0 + cof12 * v1 - cof22 * v2) / Det)
  invM

/-- `Transform3D::ERR_LIMIT = 0.000001f`. -/
def ERR_LIMIT [Field K] : K := 1 / 1000000

/-- `Transform3D::get_pretrans(int flag)`: `Rinv * (v_total - v_post)`. -/
def get_pretrans [Field K] (t : Transform3D K) (flag : Int) : Vec3f K :=
  let pretrans : Vec3f K := ⟨0, 0, 0⟩
  let posttrans : Vec3f K := ⟨t.matrix 3 0, t.matrix 3 1, t.matrix 3 2⟩
  let tottrans : Vec3f K := ⟨t.matrix 0 3, t.matrix 1 3, t.matrix 2 3⟩
  let totminuspost := tottrans
  let totminuspost := if flag = 0 then Vec3f.sub tottrans posttrans else totminuspost
  let Rinv := inverse t
  vidx3.foldl (fun pretrans i =>
    let ptnow : K := 0
    let ptnow := vidx3.foldl (fun ptnow j =>
      ptnow + Rinv.matrix (up i) (up j) * totminuspost.get j) ptnow
    pretrans.set_value_at i ptnow) pretrans

/-- `Transform3D::set_pretrans(const Vec3f & preT)`; the local `flag` is the
constant 0, so only the first block runs. -/
def set_pretrans [Field K] (t : Transform3D K) (preT : Vec3f K) : Transform3D K :=
  let flag : Int := 0
  let t := if flag = 0 then
      let t := t.set 0 3 (t.matrix 3 0 + t.matrix 0 0 * preT.get 0
        + t.matrix 0 1 * preT.get 1 + t.matrix 0 2 * preT.get 2)
      let t := t.set 1 3 (t.matrix 3 1 + t.matrix 1 0 * preT.get 0
        + t.matrix 1 1 * preT.get 1 + t.matrix 1 2 * preT.get 2)
      let t := t.set 2 3 (t.matrix 3 2 + t.matrix 2 0 * preT.get 0
        + t.matrix 2 1 * preT.get 1 + t.matrix 2 2 * preT.get 2)
      t
    else t
  let t := if flag = 1 then
      let t := t.set 3 0 (t.matrix 0 3 - (t.matrix 0 0 * preT.get 0
        + t.matrix 0 1 * preT.get 1 + t.matrix 0 2 * preT.get 2))
      let t := t.set 3 1 (t.matrix 1 3 - (t.matrix 1 0 * preT.get 0
        + t.matrix 1 1 * preT.get 1 + t.matrix 1 2 * preT.get 2))
      let t := t.set 3 2 (t.matrix 2 3 - (t.matrix 2 0 * preT.get 0
        + t.matrix 2 1 * preT.get 1 + t.matrix 2 2 * preT.get 2))
      t
    else t
  t

/-- `Transform3D::set_posttrans(const Vec3f & posttrans)`; the local `flag` is
the constant 0. -/
def set_posttrans [Field K] (t : Transform3D K) (posttrans : Vec3f K) : Transform3D K :=
  let flag : Int := 0
  let preT := get_pretrans t 0
  let t := vidx3.foldl (fun t i => t.set 3 (up i) (posttrans.get i)) t
  let t := if flag = 0 then
      let t := t.set 0 3 (t.matrix 3 0 + t.matrix 0 0 * preT.get 0
        + t.matrix 0 1 * preT.get 1 + t.matrix 0 2 * preT.get 2)
      let t := t.set 1 3 (t.matrix 3 1 + t.matrix 1 0 * preT.get 0
        + t.matrix 1 1 * preT.get 1 + t.matrix 1 2 * preT.get 2)
      let t := t.set 2 3 (t.matrix 3 2 + t.matrix 2 0 * preT.get 0
        + t.matrix 2 1 * preT.get 1 + t.matrix 2 2 * preT.get 2)
      t
    else t
  t

/-- `Transform3D::get_scale`. -/
def get_scale [Field K] (L : Libm K) (t : Transform3D K) : K :=
  let scale : K := 0
  let scale := idx3.foldl (fun scale i =>
    idx3.foldl (fun scale j => scale + t.matrix i j * t.matrix i j) scale) scale
  L.sqrt (scale / 3)

/-- The local variables that the `switch` of
`Transform3D::set_rotation(EulerType, const Dict&)` assigns, together with the
object itself (the `MATRIX` case writes the matrix inside the `switch`). -/
structure RotationLocals (K : Type) where
  e0 : K
  e1 : K
  e2 : K
  e3 : K
  Omega : K
  az : K
  alt : K
  phi : K
  is_quaternion : Bool
  is_matrix : Bool
  self : Transform3D K

/-- The declarations and the `switch (euler_type)` of `set_rotation`
(transform.cpp lines 580-672). -/
def set_rotation_switch [LinearOrderedField K] (L : Libm K) (t : Transform3D K)
    (euler_type : EulerType) (rotation : Dict K) : Except Fault (RotationLocals K) :=
  let s : RotationLocals K := ⟨0, 0, 0, 0, 0, 0, 0, 0, false, false, t⟩
  match euler_type with
  | .EMAN => .ok { s with
      az := rotation.get "az"
      alt := rotation.get "alt"
      phi := rotation.get "phi" }
  | .IMAGIC => .ok { s with
      az := rotation.get "alpha"
      alt := rotation.get "beta"
      phi := rotation.get "gamma" }
  | .SPIDER => .ok { s with
      az := rotation.get "phi" + 90
      alt := rotation.get "theta"
      phi := rotation.get "psi" - 90 }
  | .XYZ =>
      let cxtilt := L.cos ((L.M_PI / 180) * rotation.get "xtilt")
      let sxtilt := L.sin ((L.M_PI / 180) * rotation.get "xtilt")
      let cytilt := L.cos ((L.M_PI / 180) * rotation.get "ytilt")
      let sytilt := L.sin ((L.M_PI / 180) * rotation.get "ytilt")
      .ok { s with
        az := (180 / L.M_PI) * L.atan2 (-cytilt * sxtilt) sytilt + 90
        alt := (180 / L.M_PI) * L.acos (cytilt * cxtilt)
        phi := rotation.get "ztilt" + (180 / L.M_PI) * L.atan2 sxtilt (cxtilt * sytilt) - 90 }
  | .MRC => .ok { s with
      az := rotation.get "phi" + 90
      alt := rotation.get "theta"
      phi := -rotation.get "omega" + 90 }
  | .QUATERNION => .ok { s with
      is_quaternion := false
      e0 := rotation.get "e0"
      e1 := rotation.get "e1"
      e2 := rotation.get "e2"
      e3 := rotation.get "e3" }
  | .SPIN =>
      let Omega := rotation.get "Omega"
      .ok { s with
        is_quaternion := true
        Omega := Omega
        e0 := L.cos (Omega * L.M_PI / 360)
        e1 := L.sin (Omega * L.M_PI / 360) * rotation.get "n1"
        e2 := L.sin (Omega * L.M_PI / 360) * rotation.get "n2"
        e3 := L.sin (Omega * L.M_PI / 360) * rotation.get "n3" }
  | .SGIROT =>
      let Omega := rotation.get "q"
      .ok { s with
        is_quaternion := true
        Omega := Omega
        e0 := L.cos (Omega * L.M_PI / 360)
        e1 := L.sin (Omega * L.M_PI / 360) * rotation.get "n1"
        e2 := L.sin (Omega * L.M_PI / 360) * rotation.get "n2"
        e3 := L.sin (Omega * L.M_PI / 360) * rotation.get "n3" }
  | .MATRIX =>
      let t := t.set 0 0 (rotation.get "m11")
      let t := t.set 0 1 (rotation.get "m12")
      let t := t.set 0 2 (rotation.get "m13")
      let t := t.set 1 0 (rotation.get "m21")
      let t := t.set 1 1 (rotation.get "m22")
      let t := t.set 1 2 (rotation.get "m23")
      let t := t.set 2 0 (rotation.get "m31")
      let t := t.set 2 1 (rotation.get "m32")
      let t := t.set 2 2 (rotation.get "m33")
      .ok { s with is_matrix := true, self := t }
  | .UNKNOWN => .error (.InvalidValueException "unknown Euler Type")

/-- The part of `set_rotation` after the `switch` (transform.cpp lines
675-710): the translations are read, the 3x3 block is filled from the Euler
angles or from the quaternion, and the total translation is recomputed.
`get_posttrans( )` and `get_pretrans( )` are called with their default
argument, taken to be `flag = 0` (the declaration is in `transform.h`). -/
def set_rotation_fill [LinearOrderedField K] [FloorRing K] (L : Libm K)
    (s : RotationLocals K) : Transform3D K :=
  let t := s.self
  let postT := get_posttrans t 0
  let preT := get_pretrans t 0
  let azp := fmod s.az 360 * L.M_PI / 180
  let altp := s.alt * L.M_PI / 180
  let phip := fmod s.phi 360 * L.M_PI / 180
  let t := if !s.is_quaternion && !s.is_matrix then
      let t := t.set 0 0 (L.cos phip * L.cos azp - L.cos altp * L.sin azp * L.sin phip)
      let t := t.set 0 1 (L.cos phip * L.sin azp + L.cos altp * L.cos azp * L.sin phip)
      let t := t.set 0 2 (L.sin altp * L.sin phip)
      let t := t.set 1 0 (-L.sin phip * L.cos azp - L.cos altp * L.sin azp * L.cos phip)
      let t := t.set 1 1 (-L.sin phip * L.sin azp + L.cos altp * L.cos azp * L.cos phip)
      let t := t.set 1 2 (L.sin altp * L.cos phip)
      let t := t.set 2 0 (L.sin altp * L.sin azp)
      let t := t.set 2 1 (-L.sin altp * L.cos azp)
      let t := t.set 2 2 (L.cos altp)
      t
    else t
  let t := if s.is_quaternion then
      let t := t.set 0 0 (s.e0 * s.e0 + s.e1 * s.e1 - s.e2 * s.e2 - s.e3 * s.e3)
      let t := t.set 0 1 (2 * (s.e1 * s.e2 + s.e0 * s.e3))
      let t := t.set 0 2 (2 * (s.e1 * s.e3 - s.e0 * s.e2))
      let t := t.set 1 0 (2 * (s.e2 * s.e1 - s.e0 * s.e3))
      let t := t.set 1 1 (s.e0 * s.e0 - s.e1 * s.e1 + s.e2 * s.e2 - s.e3 * s.e3)
      let t := t.set 1 2 (2 * (s.e2 * s.e3 + s.e0 * s.e1))
      let t := t.set 2 0 (2 * (s.e3 * s.e1 + s.e0 * s.e2))
      let t := t.set 2 1 (2 * (s.e3 * s.e2 - s.e0 * s.e1))
      let t := t.set 2 2 (s.e0 * s.e0 - s.e1 * s.e1 - s.e2 * s.e2 + s.e3 * s.e3)
      t
    else t
  let t := t.set 0 3 (postT.get 0 + t.matrix 0 0 * preT.get 0
    + t.matrix 0 1 * preT.get 1 + t.matrix 0 2 * preT.get 2)
  let t := t.set 1 3 (postT.get 1 + t.matrix 1 0 * preT.get 0
    + t.matrix 1 1 * preT.get 1 + t.matrix 1 2 * preT.get 2)
  let t := t.set 2 3 (postT.get 2 + t.matrix 2 0 * preT.get 0
    + t.matrix 2 1 * preT.get 1 + t.matrix 2 2 * preT.get 2)
  t

/-- `Transform3D::set_rotation(EulerType euler_type, const Dict& rotation)`. -/
def set_rotation [LinearOrderedField K] [FloorRing K] (L : Libm K) (t : Transform3D K)
    (euler_type : EulerType) (rotation : Dict K) : Except Fault (Transform3D K) :=
  match set_rotation_switch L t euler_type rotation with
  | .ok s => .ok (set_rotation_fill L s)
  | .error e => .error e

/-- `Transform3D::set_rotation(float az, float alt, float phi)`. -/
def set_rotation_eman [LinearOrderedField K] [FloorRing K] (L : Libm K) (t : Transform3D K)
    (az alt phi : K) : Except Fault (Transform3D K) :=
  let euler_type := EulerType.EMAN
  let rot : Dict K := Dict.empty
  let rot := rot.put "az" az
  let rot := rot.put "alt" alt
  let rot := rot.put "phi" phi
  set_rotation L t euler_type rot

/-- The constructor `Transform3D(EulerType euler_type, float a1, float a2, float a3)` (C4). -/
def ofEuler [LinearOrderedField K] [FloorRing K] (L : Libm K) (euler_type : EulerType)
    (a1 a2 a3 : K) : Except Fault (Transform3D K) :=
  let t : Transform3D K := init ⟨fun _ _ => 0⟩
  let rot : Dict K := Dict.empty
  match euler_type with
  | .EMAN =>
      let rot := rot.put "az" a1
      let rot := rot.put "alt" a2
      let rot := rot.put "phi" a3
      set_rotation L t euler_type rot
  | .SPIDER =>
      let rot := rot.put "phi" a1
      let rot := rot.put "theta" a2
      let rot := rot.put "psi" a3
      set_rotation L t euler_type rot
  | _ => .error (.InvalidValueException "cannot instantiate this Euler Type")

/-- The EMAN angles that `get_rotation` extracts before its `switch`. -/
structure EmanAngles (K : Type) where
  az : K
  alt : K
  phi : K
  cosalt : K

/-- The first part of `Transform3D::get_rotation` (transform.cpp lines
808-838): `cosalt` and the EMAN angles `alt`, `az`, `phi`. -/
def get_rotation_eman [LinearOrderedField K] [FloorRing K] (L : Libm K)
    (t : Transform3D K) : EmanAngles K :=
  let max : K := 1 - ERR_LIMIT
  let sca := get_scale L t
  let cosalt := t.matrix 2 2 / sca
  let r : EmanAngles K :=
    if cosalt > max then
      ⟨0, 0, (180 / L.M_PI) * L.atan2 (t.matrix 0 1) (t.matrix 0 0), cosalt⟩
    else if cosalt < -max then
      ⟨0, 180, 360 - (180 / L.M_PI) * L.atan2 (t.matrix 0 1) (t.matrix 0 0), cosalt⟩
    else
      ⟨360 + (180 / L.M_PI) * L.atan2 (t.matrix 2 0) (-t.matrix 2 1),
        (180 / L.M_PI) * L.acos cosalt,
        360 + (180 / L.M_PI) * L.atan2 (t.matrix 0 2) (t.matrix 1 2), cosalt⟩
  let az := fmod (r.az + 180) 360 - 180
  let phi := fmod (r.phi + 180) 360 - 180
  ⟨az, r.alt, phi, cosalt⟩

/-- `Transform3D::get_rotation(EulerType euler_type)`. -/
def get_rotation [LinearOrderedField K] [FloorRing K] (L : Libm K) (t : Transform3D K)
    (euler_type : EulerType) : Except Fault (Dict K) :=
  let result : Dict K := Dict.empty
  let max : K := 1 - ERR_LIMIT
  let a := get_rotation_eman L t
  let cosalt := a.cosalt
  let az := a.az
  let alt := a.alt
  let phi := a.phi
  let phiS : K := if |cosalt| > max then 0 else az - 90
  let psiS : K := if |cosalt| > max then phi else phi + 90
  let phiS := fmod (phiS + 360) 360
  let psiS := fmod (psiS + 360) 360
  let nphi := (az - phi) / 2
  let cosOover2 := L.cos ((az + phi) * L.M_PI / 360) * L.cos (alt * L.M_PI / 360)
  let sinOover2 := L.sqrt (1 - cosOover2 * cosOover2)
  let cosnTheta := L.sin ((az + phi) * L.M_PI / 360) * L.cos (alt * L.M_PI / 360)
    / L.sqrt (1 - cosOover2 * cosOover2)
  let sinnTheta := L.sqrt (1 - cosnTheta * cosnTheta)
  let n1 := sinnTheta * L.cos (nphi * L.M_PI / 180)
  let n2 := sinnTheta * L.sin (nphi * L.M_PI / 180)
  let n3 := cosnTheta
  let neg := decide (cosOover2 < 0)
  let n1 := if neg then n1 * -1 else n1
  let n2 := if neg then n2 * -1 else n2
  let n3 := if neg then n3 * -1 else n3
  let cosOover2 := if neg then cosOover2 * -1 else cosOover2
  match euler_type with
  | .EMAN => .ok (((result.put "az" az).put "alt" alt).put "phi" phi)
  | .IMAGIC => .ok (((result.put "alpha" az).put "beta" alt).put "gamma" phi)
  | .SPIDER => .ok (((result.put "phi" phiS).put "theta" alt).put "psi" psiS)
  | .MRC => .ok (((result.put "phi" phiS).put "theta" alt).put "omega" (-psiS))
  | .XYZ =>
      let xtilt := L.atan2 (-L.sin ((L.M_PI / 180) * phiS) * L.sin ((L.M_PI / 180) * alt))
        (L.cos ((L.M_PI / 180) * alt))
      let ytilt := L.asin (L.cos ((L.M_PI / 180) * phiS) * L.sin ((L.M_PI / 180) * alt))
      let ztilt := psiS * L.M_PI / 180 - L.atan2 (L.sin xtilt) (L.cos xtilt * L.sin ytilt)
      let xtilt := fmod (xtilt * 180 / L.M_PI + 540) 360 - 180
      let ztilt := fmod (ztilt * 180 / L.M_PI + 540) 360 - 180
      .ok (((result.put "xtilt" xtilt).put "ytilt" (ytilt * 180 / L.M_PI)).put "ztilt" ztilt)
  | .QUATERNION =>
      .ok ((((result.put "e0" cosOover2).put "e1" (sinOover2 * n1)).put "e2"
        (sinOover2 * n2)).put "e3" (sinOover2 * n3))
  | .SPIN =>
      .ok ((((result.put "Omega" (360 * L.acos cosOover2 / L.M_PI)).put "n1" n1).put "n2"
        n2).put "n3" n3)
  | .SGIROT =>
      .ok ((((result.put "q" (360 * L.acos cosOover2 / L.M_PI)).put "n1" n1).put "n2"
        n2).put "n3" n3)
  | .MATRIX =>
      .ok (((((((((result.put "m11" (t.matrix 0 0)).put "m12" (t.matrix 0 1)).put "m13"
        (t.matrix 0 2)).put "m21" (t.matrix 1 0)).put "m22" (t.matrix 1 1)).put "m23"
        (t.matrix 1 2)).put "m31" (t.matrix 2 0)).put "m32" (t.matrix 2 1)).put "m33"
        (t.matrix 2 2))
  | .UNKNOWN => .error (.InvalidValueException "unknown Euler Type")

/-- The 3x3 top-left block `R` of the transform, as a Mathlib matrix. -/
def block3 (t : Transform3D K) : Matrix (Fin 3) (Fin 3) K :=
  Matrix.of fun i j => t.matrix (up i) (up j)

end Transform3D

/-! ### Symmetry groups: `get_sym` -/

/-- A read `table[i]` of a static C array: it is defined only inside the bounds. -/
def tableRead {K : Type} (table : List K) (i : Int) : Except Fault K :=
  if 0 ≤ i then
    match table.get? i.toNat with
    | some v => .ok v
    | none => .error .OutOfBoundsRead
  else .error .OutOfBoundsRead

/-- `CSym`, with its parameter `nsym` (read by `params.set_default("nsym",0)`). -/
structure CSym where
  nsym : Int

/-- `DSym`, with its parameter `nsym`. -/
structure DSym where
  nsym : Int

/-- `CSym::get_sym(int n)`; `%` is the truncated remainder of C++. -/
def CSym.get_sym {K : Type} [LinearOrderedField K] [FloorRing K] (L : Libm K) (sym : CSym)
    (n : Int) : Except Fault (Transform3D K) :=
  let nsym := sym.nsym
  if nsym ≤ 0 then
    .error (.InvalidValueException "Error, you must specify a positive non zero nsym")
  else
    let ret : Transform3D K := Transform3D.new
    Transform3D.set_rotation_eman L ret (((Int.tmod n nsym : Int) : K) * 360 / (nsym : K)) 0 0

/-- `DSym::get_sym(int n)`; `/` on `int` is the truncated quotient of C++. -/
def DSym.get_sym {K : Type} [LinearOrderedField K] [FloorRing K] (L : Libm K) (sym : DSym)
    (n : Int) : Except Fault (Transform3D K) :=
  let nsym := 2 * sym.nsym
  if nsym ≤ 0 then
    .error (.InvalidValueException "Error, you must specify a positive non zero nsym")
  else
    let ret : Transform3D K := Transform3D.new
    if n ≥ Int.tdiv nsym 2 then
      Transform3D.set_rotation_eman L ret
        (((Int.tmod n nsym - Int.tdiv nsym 2 : Int) : K) * 360 / ((Int.tdiv nsym 2 : Int) : K))
        180 0
    else
      Transform3D.set_rotation_eman L ret
        (((Int.tmod n nsym : Int) : K) * 360 / ((Int.tdiv nsym 2 : Int) : K)) 0 0

/-- The table `ICOS[180]` of `IcosahedralSym::get_sym`. -/
def ICOS {K : Type} [Field K] : List K :=
  let lvl0 : K := 0
  let lvl1 : K := 634349 / 10000
  let lvl2 : K := 1165651 / 10000
  let lvl3 : K := 180
  [0,lvl0,0,    0,lvl0,288,   0,lvl0,216,   0,lvl0,144,  0,lvl0,72,
   0,lvl1,36,   0,lvl1,324,   0,lvl1,252,   0,lvl1,180,  0,lvl1,108,
   72,lvl1,36,  72,lvl1,324,  72,lvl1,252,  72,lvl1,180,  72,lvl1,108,
   144,lvl1,36, 144,lvl1,324, 144,lvl1,252, 144,lvl1,180, 144,lvl1,108,
   216,lvl1,36, 216,lvl1,324, 216,lvl1,252, 216,lvl1,180, 216,lvl1,108,
   288,lvl1,36, 288,lvl1,324, 288,lvl1,252, 288,lvl1,180, 288,lvl1,108,
   36,lvl2,0,   36,lvl2,288,  36,lvl2,216,  36,lvl2,144,  36,lvl2,72,
   108,lvl2,0,  108,lvl2,288, 108,lvl2,216, 108,lvl2,144, 108,lvl2,72,
   180,lvl2,0,  180,lvl2,288, 180,lvl2,216, 180,lvl2,144, 180,lvl2,72,
   252,lvl2,0,  252,lvl2,288, 252,lvl2,216, 252,lvl2,144, 252,lvl2,72,
   324,lvl2,0,  324,lvl2,288, 324,lvl2,216, 324,lvl2,144, 324,lvl2,72,
   0,lvl3,0,    0,lvl3,288,   0,lvl3,216,   0,lvl3,144,   0,lvl3,72]

/-- The table `OCT[72]` of `OctahedralSym::get_sym`. -/
def OCT {K : Type} [Field K] : List K :=
  let lvl0 : K := 0
  let lvl1 : K := 90
  let lvl2 : K := 180
  [0,lvl0,0,   0,lvl0,90,    0,lvl0,180,    0,lvl0,270,
   0,lvl1,0,   0,lvl1,90,    0,lvl1,180,    0,lvl1,270,
   90,lvl1,0,  90,lvl1,90,   90,lvl1,180,   90,lvl1,270,
   180,lvl1,0, 180,lvl1,90,  180,lvl1,180,  180,lvl1,270,
   270,lvl1,0, 270,lvl1,90,  270,lvl1,180,  270,lvl1,270,
   0,lvl2,0,   0,lvl2,90,    0,lvl2,180,    0,lvl2,270]

/-- The table `TET[36]` of `TetrahedralSym::get_sym`. -/
def TET {K : Type} [Field K] : List K :=
  let lvl0 : K := 0
  let lvl1 : K := 1094712 / 10000
  [0,lvl0,0,   0,lvl0,120,    0,lvl0,240,
   0,lvl1,60,   0,lvl1,180,    0,lvl1,300,
   120,lvl1,60, 120,lvl1,180,  120,lvl1,300,
   240,lvl1,60, 240,lvl1,180,  240,lvl1,300]

/-- The common body of the three platonic `get_sym`: `idx = n % order`, three
table reads and one `set_rotation` on a fresh transform. -/
def platonic_get_sym {K : Type} [LinearOrderedField K] [FloorRing K] (L : Libm K)
    (table : List K) (order : Int) (n : Int) : Except Fault (Transform3D K) :=
  let idx := Int.tmod n order
  let ret : Transform3D K := Transform3D.new
  match tableRead table (idx * 3), tableRead table (idx * 3 + 1),
      tableRead table (idx * 3 + 2) with
  | .ok a, .ok b, .ok c => Transform3D.set_rotation_eman L ret a b c
  | _, _, _ => .error .OutOfBoundsRead

/-- `IcosahedralSym::get_sym(int n)`. -/
def IcosahedralSym.get_sym {K : Type} [LinearOrderedField K] [FloorRing K] (L : Libm K)
    (n : Int) : Except Fault (Transform3D K) :=
  platonic_get_sym L ICOS 60 n

/-- `OctahedralSym::get_sym(int n)`. -/
def OctahedralSym.get_sym {K : Type} [LinearOrderedField K] [FloorRing K] (L : Libm K)
    (n : Int) : Except Fault (Transform3D K) :=
  platonic_get_sym L OCT 24 n

/-- `TetrahedralSym::get_sym(int n)`. -/
def TetrahedralSym.get_sym {K : Type} [LinearOrderedField K] [FloorRing K] (L : Libm K)
    (n : Int) : Except Fault (Transform3D K) :=
  platonic_get_sym L TET 12 n

namespace Transform3D

/-- The local variables of `set_rotation` after its `switch` in the `EMAN` case. -/
def emanLocals {K : Type} [Zero K] (t : Transform3D K) (az alt phi : K) : RotationLocals K :=
  ⟨0, 0, 0, 0, 0, az, alt, phi, false, false, t⟩

/-- Degrees to radians, as the source converts them: `a * M_PI / 180`. -/
def deg2rad {K : Type} [Field K] (L : Libm K) (a : K) : K := a * L.M_PI / 180

/-- The matrix `Rz(a)` of the specification, `a` in degrees. -/
def specRz {K : Type} [Field K] (L : Libm K) (a : K) : Matrix (Fin 3) (Fin 3) K :=
  !![L.cos (deg2rad L a), L.sin (deg2rad L a), 0;
     -L.sin (deg2rad L a), L.cos (deg2rad L a), 0;
     0, 0, 1]

/-- The matrix `Rx(a)` of the specification, `a` in degrees. -/
def specRx {K : Type} [Field K] (L : Libm K) (a : K) : Matrix (Fin 3) (Fin 3) K :=
  !![1, 0, 0;
     0, L.cos (deg2rad L a), L.sin (deg2rad L a);
     0, -L.sin (deg2rad L a), L.cos (deg2rad L a)]

/-- The EMAN table of the specification (section 4.2), with α = az, β = alt,
φ = phi in degrees. -/
def specEmanTable {K : Type} [Field K] (L : Libm K) (az alt phi : K) :
    Matrix (Fin 3) (Fin 3) K :=
  let ca := L.cos (deg2rad L az)
  let sa := L.sin (deg2rad L az)
  let cb := L.cos (deg2rad L alt)
  let sb := L.sin (deg2rad L alt)
  let cp := L.cos (deg2rad L phi)
  let sp := L.sin (deg2rad L phi)
  !![cp * ca - cb * sa * sp, cp * sa + cb * ca * sp, sb * sp;
     -sp * ca - cb * sa * cp, -sp * sa + cb * ca * cp, sb * cp;
     sb * sa, -sb * ca, cb]

/-- A transform is a rotation when its 3x3 block `R` satisfies `R·Rᵀ = I` and
`det R = 1`. -/
def IsRotation {K : Type} [Field K] (t : Transform3D K) : Prop :=
  t.block3 * t.block3.transpose = 1 ∧ t.block3.det = 1

/-- The dictionary `{az, alt, phi}` of the EMAN convention. -/
def emanDict {K : Type} [Zero K] (az alt phi : K) : Dict K :=
  ((Dict.empty.put "az" az).put "alt" alt).put "phi" phi

/-- The dictionary `{phi, theta, omega}` of the MRC convention. -/
def mrcDict {K : Type} [Zero K] (phi theta omega : K) : Dict K :=
  ((Dict.empty.put "phi" phi).put "theta" theta).put "omega" omega

/-- The dictionary `{e0, e1, e2, e3}` of the QUATERNION convention. -/
def quaternionDict {K : Type} [Zero K] (e0 e1 e2 e3 : K) : Dict K :=
  (((Dict.empty.put "e0" e0).put "e1" e1).put "e2" e2).put "e3" e3

/-- The standard unit-quaternion matrix of the specification (the one the
`SPIN` branch fills in). -/
def specQuaternionMatrix {K : Type} [Field K] (e0 e1 e2 e3 : K) : Matrix (Fin 3) (Fin 3) K :=
  !![e0 * e0 + e1 * e1 - e2 * e2 - e3 * e3, 2 * (e1 * e2 + e0 * e3), 2 * (e1 * e3 - e0 * e2);
     2 * (e2 * e1 - e0 * e3), e0 * e0 - e1 * e1 + e2 * e2 - e3 * e3, 2 * (e2 * e3 + e0 * e1);
     2 * (e3 * e1 + e0 * e2), 2 * (e3 * e2 - e0 * e1), e0 * e0 - e1 * e1 - e2 * e2 + e3 * e3]

end Transform3D

/-- A transform over the rationals with a non-singular block, a translation
column and a post-translation row, used to evaluate the operations. -/
def exampleT : Transform3D ℚ :=
  ⟨fun i j => ![![2, 0, 0, 1], ![0, 1, 1, 2], ![0, 0, 1, 3], ![4, 5, 6, 1]] i j⟩

/-! ### Symmetry names: `get_sym_type` and `get_nsym` -/

/-- Modelled from the spec: the enumeration `Transform3D::SymType` (declared in
`transform.h`, not among the sources), with the values that `get_sym_type`
and `get_nsym` name. -/
inductive SymType where
  | CSYM
  | DSYM
  | TET_SYM
  | ICOS_SYM
  | OCT_SYM
  | ISYM
  | UNKNOWN_SYM
deriving DecidableEq

/-- The C `int`: a result outside `[-2^31, 2^31)` (undefined behaviour in C)
is modelled by wrap-around. -/
def wrapInt (x : Int) : Int := (x + 2147483648) % 4294967296 - 2147483648

/-- The digits that `atoi` reads: the value of the longest prefix of decimal
digits, most significant first. -/
def atoiDigits : List Char → Int → Int
  | [], acc => acc
  | c :: cs, acc => if c.isDigit then atoiDigits cs (10 * acc + (c.toNat - 48 : Nat)) else acc

/-- The C library `atoi`: leading white space is skipped, an optional sign is
read, then the decimal digits; the result is an `int`. -/
def atoi (s : List Char) : Int :=
  match s.dropWhile Char.isWhitespace with
  | [] => 0
  | c :: cs =>
    if c = '-' then wrapInt (-(atoiDigits cs 0))
    else if c = '+' then wrapInt (atoiDigits cs 0)
    else wrapInt (atoiDigits (c :: cs) 0)

/-- `Transform3D::get_sym_type(const string & name)`; `name[0]` of the empty
string is the terminating NUL. -/
def get_sym_type (name : String) : SymType :=
  let t := SymType.UNKNOWN_SYM
  if name.data.headD (Char.ofNat 0) = 'c' then SymType.CSYM
  else if name.data.headD (Char.ofNat 0) = 'd' then SymType.DSYM
  else if name = "icos" then SymType.ICOS_SYM
  else if name = "oct" then SymType.OCT_SYM
  else if name = "tet" then SymType.TET_SYM
  else if name = "i" ∨ name = "" then SymType.ISYM
  else t

/-- The static `Transform3D::symmetry_map`, a `map<string, int>`, by its lookup
function (`none` when `find` returns `end()`). -/
def SymmetryMap : Type := String → Option Int

/-- The assignment `symmetry_map[key] = v`. -/
def SymmetryMap.insert (m : SymmetryMap) (key : String) (v : Int) : SymmetryMap :=
  fun s => if s = key then some v else m s

/-- The loop of `get_nsym` that lower-cases the name (transform.cpp lines
1193-1199). -/
def lowerName (name : String) : String :=
  String.mk (name.data.map fun c => if c.isAlpha then c.toLower else c)

/-- The `switch (type)` of `get_nsym` (transform.cpp lines 1208-1230);
`symname.c_str() + 1` is the name without its first character. -/
def nsymOfType (type : SymType) (symname name : String) : Except Fault Int :=
  match type with
  | .CSYM => .ok (atoi (symname.data.drop 1))
  | .DSYM => .ok (wrapInt (atoi (symname.data.drop 1) * 2))
  | .ICOS_SYM => .ok 60
  | .OCT_SYM => .ok 24
  | .TET_SYM => .ok 12
  | .ISYM => .ok 1
  | .UNKNOWN_SYM => .error (.InvalidValueException name)

/-- `Transform3D::get_nsym(const string & name)`, with the static
`symmetry_map` passed in and returned.  `symmetry_map[key]` on an absent key
inserts and returns 0. -/
def get_nsym (symmetry_map : SymmetryMap) (name : String) :
    Except Fault (Int × SymmetryMap) :=
  match symmetry_map name with
  | some v => .ok (v, symmetry_map)
  | none =>
    let symname : String := lowerName name
    match symmetry_map name with
    | some _ =>
      match symmetry_map symname with
      | some v => .ok (v, symmetry_map)
      | none => .ok (0, symmetry_map.insert symname 0)
    | none =>
      let type := get_sym_type symname
      match nsymOfType type symname name with
      | .ok nsym => .ok (nsym, symmetry_map.insert symname nsym)
      | .error e => .error e

/-- The character of a decimal digit. -/
def digitChar (d : Fin 10) : Char := Char.ofNat (48 + d.val)

/-- The number that a string of decimal digits writes, most significant digit
first. -/
def decimalValue (ds : List (Fin 10)) : Int :=
  ds.foldl (fun acc d => 10 * acc + (d.val : Int)) 0

/-- The symmetry name made of a leading letter and a string of decimal digits,
such as `c4` or `d12`. -/
def symName (c : Char) (ds : List (Fin 10)) : String := String.mk (c :: ds.map digitChar)

/-- Every entry of the cache is a value that `get_nsym` computes for its key
on an empty cache: this holds of the initial, empty map and of every map that
calls of `get_nsym` produce from it. -/
def CacheSound (m : SymmetryMap) : Prop :=
  ∀ key v, m key = some v → ∃ m2, get_nsym (fun _ => none) key = .ok (v, m2)

/-! ### Asymmetric units of the cyclic, dihedral and helical groups -/

/-- Modelled from the spec: the constant `EMConsts::deg2rad` (its header is not
among the sources), `π / 180`. -/
def EMConsts_deg2rad {K : Type} [Field K] (L : Libm K) : K := L.M_PI / 180

/-- Modelled from the spec: the constant `EMConsts::rad2deg` (its header is not
among the sources), `180 / π`. -/
def EMConsts_rad2deg {K : Type} [Field K] (L : Libm K) : K := 180 / L.M_PI

/-- `CSym::get_delimiters(const bool inc_mirror)`. -/
def CSym.get_delimiters {K : Type} [Field K] (sym : CSym) (inc_mirror : Bool) :
    Except Fault (Dict K) :=
  let returnDict : Dict K := Dict.empty
  let nsym := sym.nsym
  if nsym ≤ 0 then
    .error (.InvalidValueException "Error, you must specify a positive non zero nsym")
  else
    let returnDict := if inc_mirror then returnDict.put "alt_max" 180
      else returnDict.put "alt_max" 90
    let returnDict := returnDict.put "az_max" (360 / (nsym : K))
    .ok returnDict

/-- `CSym::is_in_asym_unit(altitude, azimuth, inc_mirror)`. -/
def CSym.is_in_asym_unit {K : Type} [LinearOrderedField K] (sym : CSym)
    (altitude azimuth : K) (inc_mirror : Bool) : Except Fault Bool :=
  match CSym.get_delimiters sym inc_mirror with
  | .error e => .error e
  | .ok d =>
    let alt_max : K := d.get "alt_max"
    let az_max : K := d.get "az_max"
    let nsym := sym.nsym
    if nsym ≠ 1 ∧ azimuth < 0 then .ok false
    else if altitude ≤ alt_max ∧ azimuth ≤ az_max then .ok true
    else .ok false

/-- `DSym::get_delimiters(const bool inc_mirror)`. -/
def DSym.get_delimiters {K : Type} [Field K] (sym : DSym) (inc_mirror : Bool) :
    Except Fault (Dict K) :=
  let returnDict : Dict K := Dict.empty
  let nsym := sym.nsym
  if nsym ≤ 0 then
    .error (.InvalidValueException "Error, you must specify a positive non zero nsym")
  else
    let returnDict := returnDict.put "alt_max" 90
    let returnDict := if inc_mirror then returnDict.put "az_max" (360 / (nsym : K))
      else returnDict.put "az_max" (180 / (nsym : K))
    .ok returnDict

/-- `DSym::is_in_asym_unit(altitude, azimuth, inc_mirror)`. -/
def DSym.is_in_asym_unit {K : Type} [LinearOrderedField K] (sym : DSym)
    (altitude azimuth : K) (inc_mirror : Bool) : Except Fault Bool :=
  match DSym.get_delimiters sym inc_mirror with
  | .error e => .error e
  | .ok d =>
    let alt_max : K := d.get "alt_max"
    let az_max : K := d.get "az_max"
    let nsym := sym.nsym
    if nsym = 1 ∧ inc_mirror = true then
      if altitude ≥ 0 ∧ altitude ≤ alt_max ∧ azimuth ≤ az_max then .ok true else .ok false
    else
      if altitude ≥ 0 ∧ altitude ≤ alt_max ∧ azimuth ≤ az_max ∧ azimuth ≥ 0 then .ok true
      else .ok false

/-- `HSym`, with its parameters `nsym`, `equator_range` (default 5), `daz`,
`apix` (default 1) and `dz`. -/
structure HSym (K : Type) where
  nsym : Int
  equator_range : K
  daz : K
  apix : K
  dz : K

/-- `HSym::get_delimiters(const bool)`. -/
def HSym.get_delimiters {K : Type} [Field K] (sym : HSym K) (_inc_mirror : Bool) :
    Except Fault (Dict K) :=
  let returnDict : Dict K := Dict.empty
  let nsym := sym.nsym
  if nsym ≤ 0 then
    .error (.InvalidValueException "Error, you must specify a positive non zero nsym")
  else
    let equator_range := sym.equator_range
    let returnDict := returnDict.put "alt_max" (90 + equator_range)
    let returnDict := returnDict.put "alt_min" 90
    let returnDict := returnDict.put "az_max" (360 / (nsym : K))
    .ok returnDict

/-- `HSym::is_in_asym_unit(altitude, azimuth, inc_mirror)`. -/
def HSym.is_in_asym_unit {K : Type} [LinearOrderedField K] (sym : HSym K)
    (altitude azimuth : K) (inc_mirror : Bool) : Except Fault Bool :=
  match HSym.get_delimiters sym inc_mirror with
  | .error e => .error e
  | .ok d =>
    let alt_max : K := d.get "alt_max"
    let alt_min : K := d.get "alt_min"
    let alt_min := if inc_mirror then alt_min - sym.equator_range else alt_min
    let az_max : K := d.get "az_max"
    if altitude ≥ alt_min ∧ altitude ≤ alt_max ∧ azimuth ≤ az_max ∧ azimuth ≥ 0 then .ok true
    else .ok false

/-! ### Platonic groups: asymmetric unit -/

/-- Two further functions of the C mathematics library, `tan` and `atan`. -/
structure LibmExt (K : Type) where
  tan : K → K
  atan : K → K

/-- The three subclasses of `PlatonicSym`. -/
inductive PlatonicKind where
  | TetrahedralSym
  | OctahedralSym
  | IcosahedralSym
deriving DecidableEq

/-- `get_name()`: the constants `TetrahedralSym::NAME`, `OctahedralSym::NAME`
and `IcosahedralSym::NAME`. -/
def PlatonicKind.get_name : PlatonicKind → String
  | .TetrahedralSym => "tet"
  | .OctahedralSym => "oct"
  | .IcosahedralSym => "icos"

/-- Modelled from the spec: `get_max_csym()` of the platonic groups (declared in
the absent header), the principal C-symmetry: 3 for T, 4 for O, 5 for I. -/
def PlatonicKind.get_max_csym : PlatonicKind → Int
  | .TetrahedralSym => 3
  | .OctahedralSym => 4
  | .IcosahedralSym => 5

namespace PlatonicSym

variable {K : Type}

/-- `PlatonicSym::init`: the dictionary `platonic_params`. -/
def init [Field K] (L : Libm K) (E : LibmExt K) (kind : PlatonicKind) : Dict K :=
  let platonic_params : Dict K := Dict.empty
  let cap_sig : K := 2 * L.M_PI / ((kind.get_max_csym : Int) : K)
  let platonic_params := platonic_params.put "az_max" cap_sig
  let alpha : K := L.acos (1 / (L.sqrt 3 * E.tan (cap_sig / 2)))
  let platonic_params := platonic_params.put "alt_max" alpha
  let platonic_params := platonic_params.put "theta_c_on_two"
    (1 / 2 * L.acos (L.cos cap_sig / (1 - L.cos cap_sig)))
  platonic_params

/-- `PlatonicSym::get_delimiters(const bool inc_mirror)`. -/
def get_delimiters [Field K] (L : Libm K) (E : LibmExt K) (kind : PlatonicKind)
    (inc_mirror : Bool) : Dict K :=
  let platonic_params := init L E kind
  let ret : Dict K := Dict.empty
  let ret := ret.put "az_max" (EMConsts_rad2deg L * platonic_params.get "az_max")
  let ret :=
    if inc_mirror = false then
      if kind.get_name = "icos" ∨ kind.get_name = "oct" then
        ret.put "az_max" (1 / 2 * EMConsts_rad2deg L * platonic_params.get "az_max")
      else ret
    else ret
  let ret := ret.put "alt_max" (EMConsts_rad2deg L * platonic_params.get "alt_max")
  ret

/-- `PlatonicSym::platonic_alt_lower_bound(azimuth, alpha)`. -/
def platonic_alt_lower_bound [Field K] (L : Libm K) (E : LibmExt K) (kind : PlatonicKind)
    (azimuth alpha : K) : K :=
  let platonic_params := init L E kind
  let cap_sig : K := platonic_params.get "az_max"
  let theta_c_on_two : K := platonic_params.get "theta_c_on_two"
  let baldwin_lower_alt_bound := L.sin (cap_sig / 2 - azimuth) / E.tan theta_c_on_two
  let baldwin_lower_alt_bound := baldwin_lower_alt_bound + L.sin azimuth / E.tan alpha
  let baldwin_lower_alt_bound := baldwin_lower_alt_bound * (1 / L.sin (cap_sig / 2))
  let baldwin_lower_alt_bound := E.atan (1 / baldwin_lower_alt_bound)
  baldwin_lower_alt_bound

/-- `PlatonicSym::is_in_asym_unit(altitude, azimuth, inc_mirror)`, used by the
octahedral and icosahedral groups. -/
def is_in_asym_unit [LinearOrderedField K] (L : Libm K) (E : LibmExt K) (kind : PlatonicKind)
    (altitude azimuth : K) (inc_mirror : Bool) : Bool :=
  let platonic_params := init L E kind
  let d := get_delimiters L E kind inc_mirror
  let alt_max : K := d.get "alt_max"
  let az_max : K := d.get "az_max"
  if altitude ≥ 0 ∧ altitude ≤ alt_max ∧ azimuth ≤ az_max ∧ azimuth ≥ 0 then
    let tmpaz : K := EMConsts_deg2rad L * azimuth
    let cap_sig : K := platonic_params.get "az_max"
    let alt_max : K := platonic_params.get "alt_max"
    let tmpaz := if tmpaz > cap_sig / 2 then cap_sig - tmpaz else tmpaz
    let lower_alt_bound := platonic_alt_lower_bound L E kind tmpaz alt_max
    let tmpalt : K := EMConsts_deg2rad L * altitude
    if lower_alt_bound > tmpalt then
      if inc_mirror = false then
        if cap_sig / 2 < tmpaz then false else true
      else true
    else false
  else false

end PlatonicSym

/-- `TetrahedralSym::is_in_asym_unit(altitude, azimuth, inc_mirror)`. -/
def TetrahedralSym.is_in_asym_unit {K : Type} [LinearOrderedField K] (L : Libm K)
    (E : LibmExt K) (altitude azimuth : K) (inc_mirror : Bool) : Bool :=
  let kind := PlatonicKind.TetrahedralSym
  let platonic_params := PlatonicSym.init L E kind
  let d := PlatonicSym.get_delimiters L E kind inc_mirror
  let alt_max : K := d.get "alt_max"
  let az_max : K := d.get "az_max"
  if altitude ≥ 0 ∧ altitude ≤ alt_max ∧ azimuth ≤ az_max ∧ azimuth ≥ 0 then
    let tmpaz : K := EMConsts_deg2rad L * azimuth
    let cap_sig : K := platonic_params.get "az_max"
    let alt_max : K := platonic_params.get "alt_max"
    let tmpaz := if tmpaz > cap_sig / 2 then cap_sig - tmpaz else tmpaz
    let lower_alt_bound := PlatonicSym.platonic_alt_lower_bound L E kind tmpaz alt_max
    let tmpalt : K := EMConsts_deg2rad L * altitude
    if lower_alt_bound > tmpalt then
      if ¬ inc_mirror then
        let upper_alt_bound := PlatonicSym.platonic_alt_lower_bound L E kind tmpaz (alt_max / 2)
        if upper_alt_bound < tmpalt then false else true
      else true
    else false
  else false

/-- The bound `B(az', alpha)` in the words of the specification:
`atan(1 / ((sin(Σ/2 − az')/tan(θ_c/2) + sin(az')/tan(alpha)) / sin(Σ/2)))`, with
`Σ = 2π / max_csym`. -/
def specB {K : Type} [Field K] (L : Libm K) (E : LibmExt K) (kind : PlatonicKind)
    (az alpha : K) : K :=
  let capSigma : K := 2 * L.M_PI / ((kind.get_max_csym : Int) : K)
  let theta_c_on_two : K := 1 / 2 * L.acos (L.cos capSigma / (1 - L.cos capSigma))
  E.atan (1 / ((L.sin (capSigma / 2 - az) / E.tan theta_c_on_two + L.sin az / E.tan alpha)
    / L.sin (capSigma / 2)))

/-! ### `Symmetry3D::reduce` -/

namespace Vec3f

variable {K : Type}

/-- Modelled from the spec: `Vec3f::dot`, whose header is not among the
sources: the scalar product used by the ray-versus-triangle test. -/
def dot [Add K] [Mul K] (a b : Vec3f K) : K := a.x * b.x + a.y * b.y + a.z * b.z

/-- Modelled from the spec: `operator*` of a `Vec3f` and a scalar, whose header
is not among the sources: the componentwise product. -/
def scale [Mul K] (v : Vec3f K) (d : K) : Vec3f K := ⟨v.x * d, v.y * d, v.z * d⟩

end Vec3f

namespace Transform3D

variable {K : Type}

/-- `Transform3D::transpose()`: the loops `for (i < 3) for (j < i)` swap
`matrix[i][j]` and `matrix[j][i]`. -/
def transpose (t : Transform3D K) : Transform3D K :=
  idx3.foldl (fun t i =>
    (idx3.filter (fun j => decide (j < i))).foldl (fun t j =>
      let tempij := t.matrix i j
      (t.set i j (t.matrix j i)).set j i tempij) t) t

/-- `EMAN::operator*(const Vec3f & v, const Transform3D & M)`: the row vector
`v` times the 3x3 block. -/
def vec_mul [Add K] [Mul K] (v : Vec3f K) (M : Transform3D K) : Vec3f K :=
  let x := v.get 0 * M.matrix 0 0 + v.get 1 * M.matrix 1 0 + v.get 2 * M.matrix 2 0
  let y := v.get 0 * M.matrix 0 1 + v.get 1 * M.matrix 1 1 + v.get 2 * M.matrix 2 1
  let z := v.get 0 * M.matrix 0 2 + v.get 1 * M.matrix 1 2 + v.get 2 * M.matrix 2 2
  ⟨x, y, z⟩

/-- `EMAN::operator*(const Transform3D & M, const Vec3f & v)`: the 3x3 block
times the column vector `v`, plus the translation column. -/
def mul_vec [Add K] [Mul K] (M : Transform3D K) (v : Vec3f K) : Vec3f K :=
  let x := M.matrix 0 0 * v.get 0 + M.matrix 0 1 * v.get 1 + M.matrix 0 2 * v.get 2
    + M.matrix 0 3
  let y := M.matrix 1 0 * v.get 0 + M.matrix 1 1 * v.get 1 + M.matrix 1 2 * v.get 2
    + M.matrix 1 3
  let z := M.matrix 2 0 * v.get 0 + M.matrix 2 1 * v.get 1 + M.matrix 2 2 * v.get 2
    + M.matrix 2 3
  ⟨x, y, z⟩

end Transform3D

/-- `equation_of_plane(v1, v2, v3, plane)`: the four coefficients written to
`plane[0..3]`. -/
def equation_of_plane {K : Type} [Field K] (v1 v2 v3 : Vec3f K) : Fin 4 → K :=
  let x : Fin 3 := 0
  let y : Fin 3 := 1
  let z : Fin 3 := 2
  let plane0 := v1.get y * (v2.get z - v3.get z) + v2.get y * (v3.get z - v1.get z)
    + v3.get y * (v1.get z - v2.get z)
  let plane1 := v1.get z * (v2.get x - v3.get x) + v2.get z * (v3.get x - v1.get x)
    + v3.get z * (v1.get x - v2.get x)
  let plane2 := v1.get x * (v2.get y - v3.get y) + v2.get x * (v3.get y - v1.get y)
    + v3.get x * (v1.get y - v2.get y)
  let plane3 := v1.get x * (v2.get y * v3.get z - v3.get y * v2.get z)
    + v2.get x * (v3.get y * v1.get z - v1.get y * v3.get z)
    + v3.get x * (v1.get y * v2.get z - v2.get y * v1.get z)
  let plane3 := -plane3
  ![plane0, plane1, plane2, plane3]

/-- A read `v[i]` of a `std::vector`: it is defined only inside the bounds. -/
def vecAt {α : Type} (v : List α) (i : Nat) : Except Fault α :=
  match v.get? i with
  | some a => .ok a
  | none => .error .OutOfBoundsRead

/-- The virtual member functions of the abstract class `Symmetry3D` that
`Symmetry3D::reduce` calls on `this`. -/
structure Symmetry3D (K : Type) where
  get_nsym : Int
  get_sym : Int → Except Fault (Transform3D K)
  get_asym_unit_triangles : Bool → Except Fault (List (List (Vec3f K)))

namespace Symmetry3D

variable {K : Type}

/-- The loop `for (it = points.begin(); ...) *it = (*it)*get_sym(i);` of
`reduce`. -/
def reduce_rotate [Add K] [Mul K] (get_sym : Int → Except Fault (Transform3D K)) (i : Int) :
    List (Vec3f K) → Except Fault (List (Vec3f K))
  | [] => .ok []
  | v :: rest =>
    match get_sym i with
    | .error e => .error e
    | .ok g =>
      match reduce_rotate get_sym i rest with
      | .error e => .error e
      | .ok r => .ok (Transform3D.vec_mul v g :: r)

/-- The body of the loop over the triangles in `reduce`, after the points were
rotated: `true` when the statement `soln = i; break;` is reached, `false` when
the iteration ends otherwise (by `continue` or by falling through). -/
def reduce_hit [LinearOrderedField K] (p : Vec3f K) (points : List (Vec3f K)) :
    Except Fault Bool := do
  let points0 ← vecAt points 0
  let points2 ← vecAt points 2
  let points1 ← vecAt points 1
  let plane := equation_of_plane points0 points2 points1
  let tmp := p
  let eqn := plane 0 * tmp.get 0 + plane 1 * tmp.get 1 + plane 2 * tmp.get 2
  if eqn ≠ 0 then
    let eqn := -plane 3 / eqn
    if eqn ≤ 0 then pure false
    else
      let pp := tmp.scale eqn
      let v := points2.sub points0
      let u := points1.sub points0
      let w := pp.sub points0
      let udotu := u.dot u
      let udotv := u.dot v
      let udotw := u.dot w
      let vdotv := v.dot v
      let vdotw := v.dot w
      let d := 1 / (udotv * udotv - udotu * vdotv)
      let s := udotv * vdotw - vdotv * udotw
      let s := s * d
      let t := udotv * udotw - udotu * vdotw
      let t := t * d
      let s := if |s| < Transform3D.ERR_LIMIT then 0 else s
      let t := if |t| < Transform3D.ERR_LIMIT then 0 else t
      let s := if |(|s| - 1)| < Transform3D.ERR_LIMIT then 1 else s
      let t := if |(|t| - 1)| < Transform3D.ERR_LIMIT then 1 else t
      if s ≥ 0 ∧ t ≥ 0 ∧ s + t ≤ 1 then pure true else pure false
  else pure false

/-- The loop over the triangles in `reduce` for the group index `i`: `true`
when it is left by `soln = i; break;`. -/
def reduce_triangles [LinearOrderedField K] (get_sym : Int → Except Fault (Transform3D K))
    (p : Vec3f K) (i : Int) : List (List (Vec3f K)) → Except Fault Bool
  | [] => .ok false
  | tri :: rest =>
    match (if i ≠ 0 then reduce_rotate get_sym i tri else .ok tri) with
    | .error e => .error e
    | .ok points =>
      match reduce_hit p points with
      | .error e => .error e
      | .ok true => .ok true
      | .ok false => reduce_triangles get_sym p i rest

/-- The loop `for (int i = 0; i < get_nsym(); ++i)` of `reduce`, over the
remaining indices, with the current value of `soln`. The `break` leaves the
loop over the triangles only, so the later indices are still visited. -/
def reduce_loop [LinearOrderedField K] (S : Symmetry3D K) (p : Vec3f K) :
    List Nat → Int → Except Fault Int
  | [], soln => .ok soln
  | i :: rest, soln =>
    match S.get_asym_unit_triangles true with
    | .error e => .error e
    | .ok triangles =>
      match reduce_triangles S.get_sym p (i : Int) triangles with
      | .error e => .error e
      | .ok hit => reduce_loop S p rest (if hit then (i : Int) else soln)

/-- `Symmetry3D::reduce(const Transform3D& t3d, int n)`. The statement `throw;`
outside a handler terminates the program. -/
def reduce [LinearOrderedField K] [FloorRing K] (L : Libm K) (S : Symmetry3D K)
    (t3d : Transform3D K) (n : Int) : Except Fault (Transform3D K) := do
  let p : Vec3f K := ⟨0, 0, 1⟩
  let _rotation ← t3d.get_rotation L .EMAN
  let o := t3d
  let o := o.transpose
  let p := o.mul_vec p
  let soln ← reduce_loop S p (List.range S.get_nsym.toNat) (-1)
  if soln = -1 then throw .Terminate
  else
    let nt ← S.get_sym soln
    let _rotation ← nt.get_rotation L .EMAN
    let nt := nt.transpose
    let nt := Transform3D.mul t3d nt
    if n ≠ 0 then
      let g ← S.get_sym n
      pure (Transform3D.mul nt g)
    else pure nt

end Symmetry3D

/-- `CSym::get_asym_unit_points(bool inc_mirror)`. -/
def CSym.get_asym_unit_points {K : Type} [Field K] (L : Libm K) (sym : CSym)
    (inc_mirror : Bool) : Except Fault (List (Vec3f K)) := do
  let delim ← @CSym.get_delimiters K _ sym inc_mirror
  let nsym := sym.nsym
  let ret : List (Vec3f K) := []
  if nsym = 1 then
    if inc_mirror = false then
      pure (ret ++ [⟨0, -1, 0⟩] ++ [⟨1, 0, 0⟩] ++ [⟨0, 1, 0⟩] ++ [⟨-1, 0, 0⟩])
    else pure ret
  else if nsym = 2 ∧ ¬ inc_mirror then
    pure (ret ++ [⟨0, 0, 1⟩] ++ [⟨0, -1, 0⟩] ++ [⟨1, 0, 0⟩] ++ [⟨0, 1, 0⟩])
  else
    let ret := ret ++ [⟨0, 0, 1⟩] ++ [⟨0, -1, 0⟩]
    let ret := if inc_mirror = true then ret ++ [⟨0, 0, -1⟩] else ret
    let angle := EMConsts_deg2rad L * delim.get "az_max"
    let y := -L.cos angle
    let x := L.sin angle
    pure (ret ++ [⟨x, y, 0⟩])

/-- `CSym::get_asym_unit_triangles(bool inc_mirror)`. -/
def CSym.get_asym_unit_triangles {K : Type} [Field K] (L : Libm K) (sym : CSym)
    (inc_mirror : Bool) : Except Fault (List (List (Vec3f K))) := do
  let v ← CSym.get_asym_unit_points L sym inc_mirror
  let nsym := sym.nsym
  let ret : List (List (Vec3f K)) := []
  if v.length = 0 then pure ret
  else if nsym = 1 ∧ ¬ inc_mirror then
    let z : Vec3f K := ⟨0, 0, 1⟩
    let tmp := [z, ← vecAt v 1, ← vecAt v 0]
    let tmp2 := [z, ← vecAt v 2, ← vecAt v 1]
    let tmp3 := [z, ← vecAt v 3, ← vecAt v 2]
    let tmp4 := [z, ← vecAt v 0, ← vecAt v 3]
    pure (ret ++ [tmp] ++ [tmp2] ++ [tmp3] ++ [tmp4])
  else if nsym = 2 ∧ inc_mirror then
    let x : Vec3f K := ⟨1, 0, 0⟩
    let tmp := [← vecAt v 1, ← vecAt v 0, x]
    let tmp2 := [← vecAt v 2, ← vecAt v 1, x]
    let tmp3 := [← vecAt v 3, ← vecAt v 2, x]
    let tmp4 := [← vecAt v 0, ← vecAt v 3, x]
    pure (ret ++ [tmp] ++ [tmp2] ++ [tmp3] ++ [tmp4])
  else if nsym = 2 ∧ ¬ inc_mirror then
    let tmp := [← vecAt v 0, ← vecAt v 2, ← vecAt v 1]
    let tmp2 := [← vecAt v 2, ← vecAt v 0, ← vecAt v 3]
    pure (ret ++ [tmp] ++ [tmp2])
  else if v.length = 3 then
    let tmp := [← vecAt v 0, ← vecAt v 2, ← vecAt v 1]
    pure (ret ++ [tmp])
  else if v.length = 4 then
    let tmp := [← vecAt v 0, ← vecAt v 3, ← vecAt v 1]
    let tmp2 := [← vecAt v 1, ← vecAt v 3, ← vecAt v 2]
    pure (ret ++ [tmp] ++ [tmp2])
  else pure ret

/-- Modelled from the spec: `CSym::get_nsym()`, declared in a header that is
not among the sources: the order of `C_n` is `n`, the parameter `nsym`. -/
def CSym.get_nsym (sym : CSym) : Int := sym.nsym

/-- The class `CSym` seen through the virtual member functions that `reduce`
calls. -/
def CSym.toSymmetry3D {K : Type} [LinearOrderedField K] [FloorRing K] (L : Libm K)
    (sym : CSym) : Symmetry3D K :=
  { get_nsym := sym.get_nsym
    get_sym := fun n => CSym.get_sym L sym n
    get_asym_unit_triangles := fun inc_mirror => CSym.get_asym_unit_triangles L sym inc_mirror }

/-! ### Orientation generators -/

/-- The conversion of a `float` to `int`: truncation towards zero. A value
outside the range of `int` has no defined result. -/
def castInt {K : Type} [LinearOrderedField K] [FloorRing K] (x : K) : Except Fault Int :=
  let t : Int := if 0 ≤ x then ⌊x⌋ else ⌈x⌉
  if -2147483648 ≤ t ∧ t ≤ 2147483647 then .ok t else .error .NotRepresentable

/-- A loop `for (x = x0; x <= max; x += step) body`, also written in the source
as `while (x <= max) { ... x += step; }` where every path through the body,
`continue` included, ends in `x += step`. The loop runs for at most `fuel`
iterations: the result is `none` when it is still running after them. -/
def floatLoop {K σ : Type} [LinearOrderedField K] (max step : K)
    (body : K → σ → Option (Except Fault σ)) : Nat → K → σ → Option (Except Fault σ)
  | 0, x, s => if x ≤ max then none else some (.ok s)
  | fuel + 1, x, s =>
    if x ≤ max then
      match body x s with
      | none => none
      | some (.error e) => some (.error e)
      | some (.ok s') => floatLoop max step body fuel (x + step) s'
    else some (.ok s)

/-- A loop `for (int i = lo; i < hi; ++i) body` with `count` iterations left,
the next one at `i`. -/
def intLoop {σ : Type} (body : Int → σ → Option (Except Fault σ)) :
    Nat → Int → σ → Option (Except Fault σ)
  | 0, _, s => some (.ok s)
  | count + 1, i, s =>
    match body i s with
    | none => none
    | some (.error e) => some (.error e)
    | some (.ok s') => intLoop body count (i + 1) s'

/-- The parameters of an orientation generator, as read by
`params.set_default`: `delta` (default 0), `n` (default 0), `inc_mirror`,
`perturb`, `random_phi` (default false) and `phitoo` (default 0). -/
structure GenParams (K : Type) where
  delta : K
  n : Int
  inc_mirror : Bool
  perturb : Bool
  random_phi : Bool
  phitoo : K

/-- The random number functions `Util::get_frand(low, high)` and
`Util::get_gauss_rand(mean, sigma)`, which are not among the sources, taken as
parameters: the first argument is the number of draws made before. -/
structure Rand (K : Type) where
  get_frand : Nat → K → K → K
  get_gauss_rand : Nat → K → K → K

/-- The state of a run of `gen_orientations`: the vector `ret` of transforms,
the number of random draws made so far, and the trace of the arguments
`(az, alt)` of the calls of `add_orientation`, in the order of the calls. -/
structure GenState (K : Type) where
  v : List (Transform3D K)
  rng : Nat
  calls : List (K × K)

/-- The member functions of `const Symmetry3D* sym` that the orientation
generators call. Modelled from the spec: the flags `is_c_sym`, `is_d_sym`,
`is_h_sym`, `is_tet_sym`, `is_platonic_sym`, `get_max_csym` and
`get_az_alignment_offset` are declared in a header that is not among the
sources. `equator_range` is `get_params()["equator_range"]`. -/
structure OrientationSym (K : Type) where
  get_nsym : Int
  get_max_csym : Int
  get_delimiters : Bool → Except Fault (Dict K)
  is_in_asym_unit : K → K → Bool → Except Fault Bool
  get_az_alignment_offset : K
  is_platonic_sym : Bool
  is_h_sym : Bool
  is_c_sym : Bool
  is_d_sym : Bool
  is_tet_sym : Bool
  equator_range : K

namespace OrientationGenerator

variable {K : Type}

/-- `OrientationGenerator::add_orientation(v, az, alt)`: the result and the
state after the call. -/
def add_orientation [LinearOrderedField K] [FloorRing K] (L : Libm K) (R : Rand K)
    (P : GenParams K) (fuel : Nat) (st : GenState K) (az alt : K) :
    Option (Except Fault (Bool × GenState K)) :=
  let st : GenState K := ⟨st.v, st.rng, st.calls ++ [(az, alt)]⟩
  let randphi := P.random_phi
  let phi : K := if randphi then R.get_frand st.rng 0 (35999999 / 100000) else 0
  let st : GenState K := if randphi then ⟨st.v, st.rng + 1, st.calls⟩ else st
  let phitoo := P.phitoo
  if phitoo < 0 then
    some (.error (.InvalidValueException "Error, if you specify phitoo is must be positive"))
  else
    match Transform3D.set_rotation_eman L Transform3D.new az alt phi with
    | .error e => some (.error e)
    | .ok t =>
      let st : GenState K := ⟨st.v ++ [t], st.rng, st.calls⟩
      if phitoo ≠ 0 then
        if phitoo < 0 then some (.ok (false, st))
        else
          match floatLoop (360 - phitoo) phitoo (fun p (st : GenState K) =>
              match Transform3D.set_rotation_eman L Transform3D.new az alt
                (fmod (phi + p) 360) with
              | .error e => some (.error e)
              | .ok t => some (.ok ⟨st.v ++ [t], st.rng, st.calls⟩)) fuel phitoo st with
          | none => none
          | some (.error e) => some (.error e)
          | some (.ok st) => some (.ok (true, st))
      else some (.ok (true, st))

/-- The loop of `OrientationGenerator::get_optimal_delta`, for at most `fuel`
iterations; `tally` is the virtual `get_orientations_tally(sym, ·)`. -/
def get_optimal_delta_loop [LinearOrderedField K] (tally : K → Option (Except Fault Int))
    (n : Int) : Nat → K → K → K → Option (Except Fault K)
  | 0, _, _, _ => none
  | fuel + 1, delta_soln, delta_upper_bound, delta_lower_bound =>
    match tally delta_soln with
    | none => none
    | some (.error e) => some (.error e)
    | some (.ok t) =>
      if t = n then some (.ok delta_soln)
      else if delta_upper_bound - delta_lower_bound < 1 / 10000 then
        some (.ok ((delta_upper_bound + delta_lower_bound) / 2))
      else if t < n then
        get_optimal_delta_loop tally n fuel
          (delta_soln - (delta_soln - delta_lower_bound) / 2) delta_soln delta_lower_bound
      else
        get_optimal_delta_loop tally n fuel
          (delta_soln + (delta_upper_bound - delta_soln) / 2) delta_upper_bound delta_soln

/-- `OrientationGenerator::get_optimal_delta(sym, n)`. -/
def get_optimal_delta [LinearOrderedField K] (S : OrientationSym K)
    (tally : K → Option (Except Fault Int)) (n : Int) (fuel : Nat) :
    Option (Except Fault K) :=
  let delta_soln : K := 360 / (S.get_max_csym : K)
  let delta_upper_bound := delta_soln
  let delta_lower_bound : K := 0
  get_optimal_delta_loop tally n fuel delta_soln delta_upper_bound delta_lower_bound

/-- The first statements of every `gen_orientations`: the checks of `delta`
and `n`, and the choice of `delta`. -/
def gen_delta [LinearOrderedField K] (S : OrientationSym K) (P : GenParams K)
    (tally : K → Option (Except Fault Int)) (fuel : Nat) : Option (Except Fault K) :=
  let delta := P.delta
  let n := P.n
  if delta ≤ 0 ∧ n ≤ 0 then
    some (.error (.InvalidParameterException
      "Error, you must specify a positive non-zero delta or n"))
  else if delta > 0 ∧ n > 0 then
    some (.error (.InvalidParameterException
      "Error, the delta and the n arguments are mutually exclusive"))
  else if n > 0 then get_optimal_delta S tally n fuel
  else some (.ok delta)

end OrientationGenerator

namespace EmanOrientationGenerator

variable {K : Type}

/-- `EmanOrientationGenerator::get_az_delta(delta, altitude, maxcsym)`. -/
def get_az_delta [LinearOrderedField K] [FloorRing K] (L : Libm K) (delta altitude : K)
    (maxcsym : Int) : Except Fault K :=
  let tmp : K := EMConsts_deg2rad L * altitude
  let h : K := ((⌊360 / (delta * (11547 / 10000))⌋ : Int) : K)
  match castInt (((⌊h * L.sin tmp + 1 / 2⌋ : Int) : K)) with
  | .error e => .error e
  | .ok hi =>
    let h : K := (hi : K)
    let h : K := if h = 0 then 1 else h
    let h : K := ((|maxcsym| : Int) : K) * ((⌊h / ((|maxcsym| : Int) : K) + 1 / 2⌋ : Int) : K)
    let h : K := if h = 0 then (maxcsym : K) else h
    let h : K := 2 * L.M_PI / h
    .ok (EMConsts_rad2deg L * h)

/-- The statements at the head of the loop over the altitude, which are the
same in `get_orientations_tally` and in `gen_orientations`: the azimuthal step
`h` and the bound `azmax_adjusted`. -/
def band [LinearOrderedField K] [FloorRing K] (L : Libm K) (S : OrientationSym K)
    (inc_mirror : Bool) (delta altmax azmax alt_iterator : K) : Except Fault (K × K) :=
  match get_az_delta L delta alt_iterator S.get_max_csym with
  | .error e => .error e
  | .ok h =>
    let h : K :=
      if alt_iterator > 0 ∧ azmax / h < 28 / 10 then azmax / (21 / 10)
      else if alt_iterator = 0 then azmax
      else h
    let azmax_adjusted : K := azmax
    let azmax_adjusted : K :=
      if S.is_c_sym = true ∧ inc_mirror = false ∧ alt_iterator = altmax
          ∧ Int.tmod S.get_nsym 2 = 1 then azmax_adjusted / 2
      else if S.is_c_sym = true ∨ S.is_tet_sym = true then azmax_adjusted - h / 4
      else if inc_mirror = true ∧ (S.is_d_sym = true ∨ S.is_platonic_sym = true) then
        azmax_adjusted - h / 4
      else azmax_adjusted
    .ok (h, azmax_adjusted)

/-- The body of the loop over the azimuth in
`EmanOrientationGenerator::get_orientations_tally`. -/
def tally_inner [LinearOrderedField K] (S : OrientationSym K) (inc_mirror : Bool)
    (delimiters : Dict K) (alt_iterator az_iterator : K) (tally : Int) :
    Option (Except Fault Int) :=
  if az_iterator > 180 ∧ alt_iterator > 180 / (2 - 1 / 1000)
      ∧ alt_iterator < 180 / (2 + 1 / 1000) then some (.ok tally)
  else
    match (if S.is_platonic_sym = true then
        S.is_in_asym_unit alt_iterator az_iterator inc_mirror else .ok true) with
    | .error e => some (.error e)
    | .ok false => some (.ok tally)
    | .ok true =>
      let tally := wrapInt (tally + 1)
      let tally :=
        if S.is_h_sym = true ∧ inc_mirror = true
            ∧ alt_iterator ≠ delimiters.get "alt_min" then wrapInt (tally + 1)
        else tally
      some (.ok tally)

/-- The body of the loop over the altitude in
`EmanOrientationGenerator::get_orientations_tally`. -/
def tally_outer [LinearOrderedField K] [FloorRing K] (L : Libm K) (S : OrientationSym K)
    (inc_mirror : Bool) (fuel : Nat) (delta : K) (delimiters : Dict K) (alt_iterator : K)
    (tally : Int) : Option (Except Fault Int) :=
  let altmax : K := delimiters.get "alt_max"
  let azmax : K := delimiters.get "az_max"
  match band L S inc_mirror delta altmax azmax alt_iterator with
  | .error e => some (.error e)
  | .ok (h, azmax_adjusted) =>
    let az_iterator : K := 0
    floatLoop azmax_adjusted h (tally_inner S inc_mirror delimiters alt_iterator)
      fuel az_iterator tally

/-- `EmanOrientationGenerator::get_orientations_tally(sym, delta)`. -/
def get_orientations_tally [LinearOrderedField K] [FloorRing K] (L : Libm K)
    (S : OrientationSym K) (P : GenParams K) (fuel : Nat) (delta : K) :
    Option (Except Fault Int) :=
  let inc_mirror := P.inc_mirror
  match S.get_delimiters inc_mirror with
  | .error e => some (.error e)
  | .ok delimiters =>
    let altmax : K := delimiters.get "alt_max"
    let alt_iterator : K := if S.is_h_sym = true then delimiters.get "alt_min" else 0
    let tally : Int := 0
    floatLoop altmax delta (tally_outer L S inc_mirror fuel delta delimiters)
      fuel alt_iterator tally

/-- The body of the loop over the azimuth in
`EmanOrientationGenerator::gen_orientations`. -/
def gen_inner [LinearOrderedField K] [FloorRing K] (L : Libm K) (R : Rand K)
    (S : OrientationSym K) (P : GenParams K) (fuel : Nat) (delta h : K)
    (delimiters : Dict K) (alt_iterator az_iterator : K) (ret : GenState K) :
    Option (Except Fault (GenState K)) :=
  let inc_mirror := P.inc_mirror
  let perturb := P.perturb
  let alt_soln : K := alt_iterator
  let az_soln : K := az_iterator
  match (if S.is_platonic_sym = true then
      S.is_in_asym_unit alt_soln az_soln inc_mirror else .ok true) with
  | .error e => some (.error e)
  | .ok false => some (.ok ret)
  | .ok true =>
    let az_soln : K :=
      if S.is_platonic_sym = true then az_soln + S.get_az_alignment_offset else az_soln
    let noise : Bool := decide (perturb = true ∧ alt_soln ≠ 0)
    let alt_soln : K :=
      if noise then alt_soln + R.get_gauss_rand ret.rng 0 (1 / 4 * delta) else alt_soln
    let az_soln : K :=
      if noise then az_soln + R.get_gauss_rand (ret.rng + 1) 0 (h / 4) else az_soln
    let ret : GenState K := if noise then ⟨ret.v, ret.rng + 2, ret.calls⟩ else ret
    match OrientationGenerator.add_orientation L R P fuel ret az_soln alt_soln with
    | none => none
    | some (.error e) => some (.error e)
    | some (.ok (_, ret)) =>
      if S.is_h_sym = true ∧ inc_mirror = true
          ∧ alt_iterator ≠ delimiters.get "alt_min" then
        match OrientationGenerator.add_orientation L R P fuel ret az_soln
            (2 * delimiters.get "alt_min" - alt_soln) with
        | none => none
        | some (.error e) => some (.error e)
        | some (.ok (_, ret)) => some (.ok ret)
      else some (.ok ret)

/-- The body of the loop over the altitude in
`EmanOrientationGenerator::gen_orientations`. -/
def gen_outer [LinearOrderedField K] [FloorRing K] (L : Libm K) (R : Rand K)
    (S : OrientationSym K) (P : GenParams K) (fuel : Nat) (delta : K)
    (delimiters : Dict K) (alt_iterator : K) (ret : GenState K) :
    Option (Except Fault (GenState K)) :=
  let altmax : K := delimiters.get "alt_max"
  let azmax : K := delimiters.get "az_max"
  match band L S P.inc_mirror delta altmax azmax alt_iterator with
  | .error e => some (.error e)
  | .ok (h, azmax_adjusted) =>
    let az_iterator : K := 0
    floatLoop azmax_adjusted h (gen_inner L R S P fuel delta h delimiters alt_iterator)
      fuel az_iterator ret

/-- `EmanOrientationGenerator::gen_orientations(sym)`, from the empty vector. -/
def gen_orientations [LinearOrderedField K] [FloorRing K] (L : Libm K) (R : Rand K)
    (S : OrientationSym K) (P : GenParams K) (fuel : Nat) :
    Option (Except Fault (GenState K)) :=
  match OrientationGenerator.gen_delta S P
      (fun d => get_orientations_tally L S P fuel d) fuel with
  | none => none
  | some (.error e) => some (.error e)
  | some (.ok delta) =>
    let inc_mirror := P.inc_mirror
    match S.get_delimiters inc_mirror with
    | .error e => some (.error e)
    | .ok delimiters =>
      let altmax : K := delimiters.get "alt_max"
      let alt_iterator : K := if S.is_h_sym = true then delimiters.get "alt_min" else 0
      let ret : GenState K := ⟨[], 0, []⟩
      floatLoop altmax delta (gen_outer L R S P fuel delta delimiters) fuel alt_iterator ret

end EmanOrientationGenerator

namespace EvenOrientationGenerator

variable {K : Type}

/-- The statements at the head of the loop over the altitude, which are the
same in `get_orientations_tally` and in `gen_orientations`: `detaz` and `lt`. -/
def band [LinearOrderedField K] [FloorRing K] (L : Libm K) (delta azmax alt : K) :
    Except Fault (K × Int) :=
  if 0 = alt ∨ 180 = alt then .ok (360, 1)
  else
    let detaz : K := delta / L.sin (alt * EMConsts_deg2rad L)
    match castInt (azmax / detaz) with
    | .error e => .error e
    | .ok c =>
      let lt : Int := wrapInt (c - 1)
      let lt : Int := if lt < 1 then 1 else lt
      let detaz : K := azmax / (lt : K)
      .ok (detaz, lt)

/-- The body of the loop `for (int i = 0; i < lt; i++)` in
`EvenOrientationGenerator::get_orientations_tally`. -/
def tally_inner [LinearOrderedField K] (S : OrientationSym K) (inc_mirror : Bool)
    (altmin alt detaz : K) (i : Int) (tally : Int) : Option (Except Fault Int) :=
  let az : K := (i : K) * detaz
  match (if S.is_platonic_sym = true then
      S.is_in_asym_unit alt az inc_mirror else .ok true) with
  | .error e => some (.error e)
  | .ok false => some (.ok tally)
  | .ok true =>
    let tally := wrapInt (tally + 1)
    let tally :=
      if S.is_h_sym = true ∧ inc_mirror = true ∧ alt ≠ altmin then wrapInt (tally + 1)
      else tally
    some (.ok tally)

/-- The body of the loop over the altitude in
`EvenOrientationGenerator::get_orientations_tally`. -/
def tally_outer [LinearOrderedField K] [FloorRing K] (L : Libm K) (S : OrientationSym K)
    (inc_mirror : Bool) (delta azmax altmin alt : K) (tally : Int) :
    Option (Except Fault Int) :=
  match band L delta azmax alt with
  | .error e => some (.error e)
  | .ok (detaz, lt) =>
    intLoop (tally_inner S inc_mirror altmin alt detaz) lt.toNat 0 tally

/-- `EvenOrientationGenerator::get_orientations_tally(sym, delta)`. -/
def get_orientations_tally [LinearOrderedField K] [FloorRing K] (L : Libm K)
    (S : OrientationSym K) (P : GenParams K) (fuel : Nat) (delta : K) :
    Option (Except Fault Int) :=
  let inc_mirror := P.inc_mirror
  match S.get_delimiters inc_mirror with
  | .error e => some (.error e)
  | .ok delimiters =>
    let altmax : K := delimiters.get "alt_max"
    let azmax : K := delimiters.get "az_max"
    let altmin : K := if S.is_h_sym = true then delimiters.get "alt_min" else 0
    let tally : Int := 0
    floatLoop altmax delta (tally_outer L S inc_mirror delta azmax altmin) fuel altmin tally

/-- The body of the loop `for (int i = 0; i < lt; i++)` in
`EvenOrientationGenerator::gen_orientations`. -/
def gen_inner [LinearOrderedField K] [FloorRing K] (L : Libm K) (R : Rand K)
    (S : OrientationSym K) (P : GenParams K) (fuel : Nat) (altmin alt detaz : K) (i : Int)
    (ret : GenState K) : Option (Except Fault (GenState K)) :=
  let inc_mirror := P.inc_mirror
  let az : K := (i : K) * detaz
  match (if S.is_platonic_sym = true then
      S.is_in_asym_unit alt az inc_mirror else .ok true) with
  | .error e => some (.error e)
  | .ok false => some (.ok ret)
  | .ok true =>
    match OrientationGenerator.add_orientation L R P fuel ret az alt with
    | none => none
    | some (.error e) => some (.error e)
    | some (.ok (_, ret)) =>
      if S.is_h_sym = true ∧ inc_mirror = true ∧ alt ≠ altmin then
        match OrientationGenerator.add_orientation L R P fuel ret az (2 * altmin - alt) with
        | none => none
        | some (.error e) => some (.error e)
        | some (.ok (_, ret)) => some (.ok ret)
      else some (.ok ret)

/-- The body of the loop over the altitude in
`EvenOrientationGenerator::gen_orientations`. -/
def gen_outer [LinearOrderedField K] [FloorRing K] (L : Libm K) (R : Rand K)
    (S : OrientationSym K) (P : GenParams K) (fuel : Nat) (delta azmax altmin alt : K)
    (ret : GenState K) : Option (Except Fault (GenState K)) :=
  match band L delta azmax alt with
  | .error e => some (.error e)
  | .ok (detaz, lt) =>
    intLoop (gen_inner L R S P fuel altmin alt detaz) lt.toNat 0 ret

/-- `EvenOrientationGenerator::gen_orientations(sym)`, from the empty vector. -/
def gen_orientations [LinearOrderedField K] [FloorRing K] (L : Libm K) (R : Rand K)
    (S : OrientationSym K) (P : GenParams K) (fuel : Nat) :
    Option (Except Fault (GenState K)) :=
  match OrientationGenerator.gen_delta S P
      (fun d => get_orientations_tally L S P fuel d) fuel with
  | none => none
  | some (.error e) => some (.error e)
  | some (.ok delta) =>
    let inc_mirror := P.inc_mirror
    match S.get_delimiters inc_mirror with
    | .error e => some (.error e)
    | .ok delimiters =>
      let altmax : K := delimiters.get "alt_max"
      let azmax : K := delimiters.get "az_max"
      let altmin : K := if S.is_h_sym = true then delimiters.get "alt_min" else 0
      let ret : GenState K := ⟨[], 0, []⟩
      floatLoop altmax delta (gen_outer L R S P fuel delta azmax altmin) fuel altmin ret

end EvenOrientationGenerator

namespace SaffOrientationGenerator

variable {K : Type}

/-- The statements before the loop, which are the same in
`get_orientations_tally` and in `gen_orientations`: `Deltaz`, `NumPoints` and
`dz`. -/
def setup [LinearOrderedField K] [FloorRing K] (L : Libm K) (S : OrientationSym K)
    (inc_mirror : Bool) (delta : K) (delimiters : Dict K) : Except Fault (K × Int × K) :=
  let altmax : K := delimiters.get "alt_max"
  let azmax : K := delimiters.get "az_max"
  let altmin : K :=
    if S.is_h_sym = true then
      if inc_mirror = true then delimiters.get "alt_min" - S.equator_range
      else delimiters.get "alt_min"
    else 0
  let Deltaz : K := L.cos (altmax * EMConsts_deg2rad L) - L.cos (altmin * EMConsts_deg2rad L)
  let s : K := delta * L.M_PI / 180
  let NFactor : K := 36 / 10 / s
  let wedgeFactor : K := |Deltaz * azmax / 720|
  match castInt (NFactor * NFactor * wedgeFactor) with
  | .error e => .error e
  | .ok NumPoints =>
    let dz : K := L.cos (altmin * EMConsts_deg2rad L)
    .ok (Deltaz, NumPoints, dz)

/-- The first statements of the body of the loop, which are the same in
`get_orientations_tally` and in `gen_orientations`: the new `az` and `alt`.
The quotient `delta/r` with `r = 0` and the remainder `fmod(·, 0)` are not real
numbers. -/
def step [LinearOrderedField K] [FloorRing K] (L : Libm K) (delta azmax Deltaz dz : K)
    (NumPoints i : Int) (az : K) : Except Fault (K × K) :=
  let z : K := dz + Deltaz * (i : K) / ((wrapInt (NumPoints - 1) : Int) : K)
  let r : K := L.sqrt (1 - z * z)
  if r = 0 ∨ azmax = 0 then .error .NotRepresentable
  else
    let az : K := fmod (az + delta / r) azmax
    let alt : K := L.acos z * EMConsts_rad2deg L
    .ok (az, alt)

/-- The body of the loop in `SaffOrientationGenerator::get_orientations_tally`,
on the pair of `tally` and `az`. -/
def tally_body [LinearOrderedField K] [FloorRing K] (L : Libm K) (S : OrientationSym K)
    (inc_mirror : Bool) (delta azmax Deltaz dz : K) (NumPoints i : Int) (s : Int × K) :
    Option (Except Fault (Int × K)) :=
  match step L delta azmax Deltaz dz NumPoints i s.2 with
  | .error e => some (.error e)
  | .ok (az, alt) =>
    match (if S.is_platonic_sym = true then
        S.is_in_asym_unit alt az inc_mirror else .ok true) with
    | .error e => some (.error e)
    | .ok false => some (.ok (s.1, az))
    | .ok true => some (.ok (wrapInt (s.1 + 1), az))

/-- `SaffOrientationGenerator::get_orientations_tally(sym, delta)`. -/
def get_orientations_tally [LinearOrderedField K] [FloorRing K] (L : Libm K)
    (S : OrientationSym K) (P : GenParams K) (delta : K) : Option (Except Fault Int) :=
  let inc_mirror := P.inc_mirror
  match S.get_delimiters inc_mirror with
  | .error e => some (.error e)
  | .ok delimiters =>
    let azmax : K := delimiters.get "az_max"
    match setup L S inc_mirror delta delimiters with
    | .error e => some (.error e)
    | .ok (Deltaz, NumPoints, dz) =>
      let tally : Int := 0
      let tally : Int := if S.is_h_sym = false then wrapInt (tally + 1) else tally
      let az : K := 0
      match intLoop (tally_body L S inc_mirror delta azmax Deltaz dz NumPoints)
          (NumPoints - 1).toNat 1 (tally, az) with
      | none => none
      | some (.error e) => some (.error e)
      | some (.ok s) => some (.ok s.1)

/-- The body of the loop in `SaffOrientationGenerator::gen_orientations`, on
the pair of `ret` and `az`. -/
def gen_body [LinearOrderedField K] [FloorRing K] (L : Libm K) (R : Rand K)
    (S : OrientationSym K) (P : GenParams K) (fuel : Nat) (delta azmax Deltaz dz : K)
    (NumPoints i : Int) (s : GenState K × K) : Option (Except Fault (GenState K × K)) :=
  match step L delta azmax Deltaz dz NumPoints i s.2 with
  | .error e => some (.error e)
  | .ok (az, alt) =>
    match (if S.is_platonic_sym = true then
        S.is_in_asym_unit alt az P.inc_mirror else .ok true) with
    | .error e => some (.error e)
    | .ok false => some (.ok (s.1, az))
    | .ok true =>
      match OrientationGenerator.add_orientation L R P fuel s.1 az alt with
      | none => none
      | some (.error e) => some (.error e)
      | some (.ok (_, ret)) => some (.ok (ret, az))

/-- `SaffOrientationGenerator::gen_orientations(sym)`, from the empty vector. -/
def gen_orientations [LinearOrderedField K] [FloorRing K] (L : Libm K) (R : Rand K)
    (S : OrientationSym K) (P : GenParams K) (fuel : Nat) :
    Option (Except Fault (GenState K)) :=
  match OrientationGenerator.gen_delta S P
      (fun d => get_orientations_tally L S P d) fuel with
  | none => none
  | some (.error e) => some (.error e)
  | some (.ok delta) =>
    let inc_mirror := P.inc_mirror
    match S.get_delimiters inc_mirror with
    | .error e => some (.error e)
    | .ok delimiters =>
      let azmax : K := delimiters.get "az_max"
      match setup L S inc_mirror delta delimiters with
      | .error e => some (.error e)
      | .ok (Deltaz, NumPoints, dz) =>
        let ret : GenState K := ⟨[], 0, []⟩
        match (if S.is_h_sym = false then
            OrientationGenerator.add_orientation L R P fuel ret 0 0
          else some (.ok (true, ret))) with
        | none => none
        | some (.error e) => some (.error e)
        | some (.ok (_, ret)) =>
          let az : K := 0
          match intLoop (gen_body L R S P fuel delta azmax Deltaz dz NumPoints)
              (NumPoints - 1).toNat 1 (ret, az) with
          | none => none
          | some (.error e) => some (.error e)
          | some (.ok s) => some (.ok s.1)

end SaffOrientationGenerator

/-! ### The six symmetry classes as seen by the generators -/

/-- Modelled from the spec: `DSym::get_nsym()`, declared in a header that is
not among the sources: the order of `D_n` is `2n`. -/
def DSym.get_nsym (sym : DSym) : Int := 2 * sym.nsym

/-- Modelled from the spec: the order of a platonic group, 12, 24 or 60
(`get_nsym()` is declared in a header that is not among the sources). -/
def PlatonicKind.get_nsym : PlatonicKind → Int
  | .TetrahedralSym => 12
  | .OctahedralSym => 24
  | .IcosahedralSym => 60

/-- `CSym` as the generators see it. Modelled from the spec: the flags, and
`get_max_csym()`, the order `nsym` of the principal axis. -/
def CSym.toOrientationSym {K : Type} [LinearOrderedField K] (sym : CSym) : OrientationSym K :=
  { get_nsym := sym.get_nsym
    get_max_csym := sym.nsym
    get_delimiters := fun inc_mirror => CSym.get_delimiters sym inc_mirror
    is_in_asym_unit := fun altitude azimuth inc_mirror =>
      CSym.is_in_asym_unit sym altitude azimuth inc_mirror
    get_az_alignment_offset := 0
    is_platonic_sym := false
    is_h_sym := false
    is_c_sym := true
    is_d_sym := false
    is_tet_sym := false
    equator_range := 0 }

/-- `DSym` as the generators see it. Modelled from the spec: the flags, and
`get_max_csym()`, the order `nsym` of the principal axis. -/
def DSym.toOrientationSym {K : Type} [LinearOrderedField K] (sym : DSym) : OrientationSym K :=
  { get_nsym := sym.get_nsym
    get_max_csym := sym.nsym
    get_delimiters := fun inc_mirror => DSym.get_delimiters sym inc_mirror
    is_in_asym_unit := fun altitude azimuth inc_mirror =>
      DSym.is_in_asym_unit sym altitude azimuth inc_mirror
    get_az_alignment_offset := 0
    is_platonic_sym := false
    is_h_sym := false
    is_c_sym := false
    is_d_sym := true
    is_tet_sym := false
    equator_range := 0 }

/-- `HSym` as the generators see it. Modelled from the spec: the flags, and
`get_nsym()` and `get_max_csym()`, both the parameter `nsym`. -/
def HSym.toOrientationSym {K : Type} [LinearOrderedField K] (sym : HSym K) :
    OrientationSym K :=
  { get_nsym := sym.nsym
    get_max_csym := sym.nsym
    get_delimiters := fun inc_mirror => HSym.get_delimiters sym inc_mirror
    is_in_asym_unit := fun altitude azimuth inc_mirror =>
      HSym.is_in_asym_unit sym altitude azimuth inc_mirror
    get_az_alignment_offset := 0
    is_platonic_sym := false
    is_h_sym := true
    is_c_sym := false
    is_d_sym := false
    is_tet_sym := false
    equator_range := sym.equator_range }

/-- The platonic classes as the generators see them. `get_az_alignment_offset`
is `0.0` in the source for the icosahedral and the tetrahedral class.
Modelled from the spec: the flags, and the offset `0` of the octahedral class
(inherited from a header that is not among the sources). -/
def PlatonicKind.toOrientationSym {K : Type} [LinearOrderedField K] (L : Libm K)
    (E : LibmExt K) (kind : PlatonicKind) : OrientationSym K :=
  { get_nsym := kind.get_nsym
    get_max_csym := kind.get_max_csym
    get_delimiters := fun inc_mirror => .ok (PlatonicSym.get_delimiters L E kind inc_mirror)
    is_in_asym_unit := fun altitude azimuth inc_mirror =>
      match kind with
      | .TetrahedralSym => .ok (TetrahedralSym.is_in_asym_unit L E altitude azimuth inc_mirror)
      | _ => .ok (PlatonicSym.is_in_asym_unit L E kind altitude azimuth inc_mirror)
    get_az_alignment_offset := 0
    is_platonic_sym := true
    is_h_sym := false
    is_c_sym := false
    is_d_sym := false
    is_tet_sym := decide (kind = .TetrahedralSym)
    equator_range := 0 }

/-- The two last branches of the loop of
`OrientationGenerator::get_optimal_delta`, taken when the loop does not exit:
the next `delta_soln`, `delta_upper_bound` and `delta_lower_bound` for the
tally `t`. -/
def OrientationGenerator.get_optimal_delta_bisect {K : Type} [LinearOrderedField K]
    (t n : Int) (delta_soln delta_upper_bound delta_lower_bound : K) : K × K × K :=
  if t < n then
    (delta_soln - (delta_soln - delta_lower_bound) / 2, delta_soln, delta_lower_bound)
  else
    (delta_soln + (delta_upper_bound - delta_soln) / 2, delta_upper_bound, delta_soln)

/-! ### The symmetry factory -/

/-- Modelled from the spec: the object that the factory returns, by the key
under which its class is registered and the parameter `nsym` when it has been
set. The classes and `Factory<T>::get(instancename, params)` are declared in
headers that are not among the sources. -/
structure SymmetryInstance where
  name : String
  nsym : Option Int
deriving DecidableEq

namespace Factory

/-- The keys of `my_dict` after the constructor `Factory<Symmetry3D>::Factory()`
(transform.cpp lines 1275-1283): the `NAME` of the six classes it adds. -/
def my_dict : List String := ["c", "d", "h", "tet", "oct", "icos"]

/-- Modelled from the spec: `Factory<Symmetry3D>::get(instancename, params)`,
the instance registered under the name with the parameters set. -/
def get_instance (instancename : String) (parms : Option Int) :
    Except Fault SymmetryInstance :=
  if instancename ∈ my_dict then .ok ⟨instancename, parms⟩
  else .error (.NotExistingObjectException "No such an instance existing")

/-- `Factory<Symmetry3D>::get(const string & instancename)`; the characters of
the name are single bytes. -/
def get (instancename : String) : Except Fault SymmetryInstance :=
  let n := instancename.data.length
  if n = 0 then .error (.NotExistingObjectException "Empty instance name!")
  else
    let leadingchar := instancename.data.headD (Char.ofNat 0)
    if leadingchar = 'c' ∨ leadingchar = 'd' ∨ leadingchar = 'h' then
      let parms : Option Int := if n > 1 then some (atoi (instancename.data.drop 1)) else none
      if leadingchar = 'c' then get_instance "c" parms
      else if leadingchar = 'd' then get_instance "d" parms
      else if leadingchar = 'h' then get_instance "h" parms
      else .error (.NotExistingObjectException "No such an instance existing")
    else if instancename = "icos" ∨ instancename = "oct" ∨ instancename = "tet" then
      if instancename ∈ my_dict then .ok ⟨instancename, none⟩
      else
        let lower : String := String.mk (instancename.data.map Char.toLower)
        if lower ∈ my_dict then .ok ⟨lower, none⟩
        else .error (.NotExistingObjectException "No such an instance existing")
    else .error (.NotExistingObjectException "No such an instance existing")

end Factory

/-- Modelled from the spec: the grammar of symmetry names,
`c[0-9]+ | d[0-9]+ | h[0-9]+ | tet | oct | icos | i`. -/
def specSymmetryName (name : String) : Bool :=
  (match name.data with
    | c :: ds => decide (c = 'c' ∨ c = 'd' ∨ c = 'h') && !ds.isEmpty && ds.all Char.isDigit
    | [] => false)
  || decide (name = "tet") || decide (name = "oct") || decide (name = "icos")
  || decide (name = "i")

/-! ### Three angles, scale, and divisions by zero -/

/-- `Transform3D::set_rotation(EulerType euler_type, float a1, float a2, float a3)`. -/
def Transform3D.set_rotation_euler {K : Type} [LinearOrderedField K] [FloorRing K]
    (L : Libm K) (t : Transform3D K) (euler_type : EulerType) (a1 a2 a3 : K) :
    Except Fault (Transform3D K) :=
  let t := Transform3D.init t
  let rot : Dict K := Dict.empty
  match euler_type with
  | .EMAN =>
      let rot := rot.put "az" a1
      let rot := rot.put "alt" a2
      let rot := rot.put "phi" a3
      Transform3D.set_rotation L t euler_type rot
  | .SPIDER =>
      let rot := rot.put "phi" a1
      let rot := rot.put "theta" a2
      let rot := rot.put "psi" a3
      Transform3D.set_rotation L t euler_type rot
  | _ => .error (.InvalidValueException "cannot instantiate this Euler Type")

/-- `Transform3D::apply_scale(float scale)`. -/
def Transform3D.apply_scale {K : Type} [Field K] (t : Transform3D K) (scale : K) :
    Transform3D K :=
  let t := idx3.foldl (fun t i =>
    idx4.foldl (fun t j => t.set i j (t.matrix i j * scale)) t) t
  idx3.foldl (fun t j => t.set 3 j (t.matrix 3 j * scale)) t

/-- `Transform3D::set_scale(float scale)`. The quotient `scale/OldScale` is a
number when `OldScale` is not 0. -/
def Transform3D.set_scale {K : Type} [Field K] (L : Libm K) (t : Transform3D K) (scale : K) :
    Transform3D K :=
  let OldScale := Transform3D.get_scale L t
  let Scale2Apply := scale / OldScale
  Transform3D.apply_scale t Scale2Apply

/-- The quotient of two `float`s: a division by zero raises no exception, its
result is an infinity or a NaN, which is no number (`none`). -/
def floatDiv {K : Type} [LinearOrderedField K] (x y : K) : Option K :=
  if y = 0 then none else some (x / y)

/-- `Transform3D::inverse` with its twelve quotients by `Det` as quotients of
`float`s: an entry of the result is `none` when it is no number. The body has
no `throw`, so the call returns its `invM`. -/
def Transform3D.inverse_float {K : Type} [LinearOrderedField K] (t : Transform3D K) :
    Except Fault (Transform3D (Option K)) :=
  let m00 := t.matrix 0 0
  let m01 := t.matrix 0 1
  let m02 := t.matrix 0 2
  let m10 := t.matrix 1 0
  let m11 := t.matrix 1 1
  let m12 := t.matrix 1 2
  let m20 := t.matrix 2 0
  let m21 := t.matrix 2 1
  let m22 := t.matrix 2 2
  let v0 := t.matrix 0 3
  let v1 := t.matrix 1 3
  let v2 := t.matrix 2 3
  let cof00 := m11 * m22 - m12 * m21
  let cof11 := m22 * m00 - m20 * m02
  let cof22 := m00 * m11 - m01 * m10
  let cof01 := m10 * m22 - m20 * m12
  let cof02 := m10 * m21 - m20 * m11
  let cof12 := m00 * m21 - m01 * m20
  let cof10 := m01 * m22 - m02 * m21
  let cof20 := m01 * m12 - m02 * m11
  let cof21 := m00 * m12 - m10 * m02
  let Det := m00 * cof00 + m02 * cof02 - m01 * cof01
  let invM : Transform3D (Option K) :=
    ⟨fun i j => some ((Transform3D.new : Transform3D K).matrix i j)⟩
  let invM := invM.set 0 0 (floatDiv cof00 Det)
  let invM := invM.set 0 1 ((floatDiv cof10 Det).map fun x => -x)
  let invM := invM.set 0 2 (floatDiv cof20 Det)
  let invM := invM.set 1 0 ((floatDiv cof01 Det).map fun x => -x)
  let invM := invM.set 1 1 (floatDiv cof11 Det)
  let invM := invM.set 1 2 ((floatDiv cof21 Det).map fun x => -x)
  let invM := invM.set 2 0 (floatDiv cof02 Det)
  let invM := invM.set 2 1 ((floatDiv cof12 Det).map fun x => -x)
  let invM := invM.set 2 2 (floatDiv cof22 Det)
  let invM := invM.set 0 3 (floatDiv (-cof00 * v0 + cof10 * v1 - cof20 * v2) Det)
  let invM := invM.set 1 3 (floatDiv (cof01 * v0 - cof11 * v1 + cof21 * v2) Det)
  let invM := invM.set 2 3 (floatDiv (-cof02 * v0 + cof12 * v1 - cof22 * v2) Det)
  .ok invM

/-- The divisor of the quotient `cosnTheta` in `Transform3D::get_rotation`
(transform.cpp line 858), `sqrt(1-cosOover2*cosOover2)`: the quotient is
computed before the `switch`, for every convention. -/
def Transform3D.get_rotation_divisor {K : Type} [LinearOrderedField K] [FloorRing K]
    (L : Libm K) (t : Transform3D K) : K :=
  let a := Transform3D.get_rotation_eman L t
  let az := a.az
  let alt := a.alt
  let phi := a.phi
  let cosOover2 := L.cos ((az + phi) * L.M_PI / 360) * L.cos (alt * L.M_PI / 360)
  L.sqrt (1 - cosOover2 * cosOover2)

/-! ### The axis-angle matrix, the asymmetric unit of the platonic groups -/

/-- Modelled from the spec: the axis-angle matrix of the comment in the source
(transform.cpp lines 516-531),
`R = cos(Omega) one + nhat nhat (1 - cos(Omega)) - sin(Omega) nhat cross`,
for the axis `(n1, n2, n3)` and the angle `Omega` in degrees. -/
def specAxisAngle {K : Type} [Field K] (L : Libm K) (n1 n2 n3 Omega : K) :
    Matrix (Fin 3) (Fin 3) K :=
  let c := L.cos (Omega * L.M_PI / 180)
  let s := L.sin (Omega * L.M_PI / 180)
  !![c + (1 - c) * (n1 * n1), (1 - c) * (n1 * n2) - s * (-n3), (1 - c) * (n1 * n3) - s * n2;
     (1 - c) * (n2 * n1) - s * n3, c + (1 - c) * (n2 * n2), (1 - c) * (n2 * n3) - s * (-n1);
     (1 - c) * (n3 * n1) - s * (-n2), (1 - c) * (n3 * n2) - s * n1, c + (1 - c) * (n3 * n3)]

/-- Modelled from the spec: `operator+` of two `Vec3f`, whose header is not
among the sources: the componentwise sum. -/
def Vec3f.add {K : Type} [Add K] (a b : Vec3f K) : Vec3f K := ⟨a.x + b.x, a.y + b.y, a.z + b.z⟩

/-- The offset `get_az_alignment_offset()` of a platonic class: `0.0` in the
source for the icosahedral and the tetrahedral class. Modelled from the spec:
the offset `0` of the octahedral class (inherited from a header that is not
among the sources). -/
def PlatonicKind.get_az_alignment_offset {K : Type} [Zero K] (_kind : PlatonicKind) : K := 0

/-- The loop at the end of the two `get_asym_unit_points` of the platonic
classes: with an alignment offset that is not 0, every point is multiplied by
`Transform3D(0, 0, get_az_alignment_offset())`. -/
def PlatonicSym.align_points {K : Type} [LinearOrderedField K] [FloorRing K] (L : Libm K)
    (kind : PlatonicKind) (ret : List (Vec3f K)) : Except Fault (List (Vec3f K)) :=
  if (kind.get_az_alignment_offset : K) ≠ 0 then
    match Transform3D.set_rotation_eman L Transform3D.new 0 0 kind.get_az_alignment_offset with
    | .error e => .error e
    | .ok t => .ok (ret.map fun it => Transform3D.vec_mul it t)
  else .ok ret

/-- `PlatonicSym::get_asym_unit_points(bool inc_mirror)`. The member function
`Vec3f::normalize`, whose header is not among the sources, is a parameter. -/
def PlatonicSym.get_asym_unit_points {K : Type} [LinearOrderedField K] [FloorRing K]
    (L : Libm K) (E : LibmExt K) (normalize : Vec3f K → Vec3f K) (kind : PlatonicKind)
    (inc_mirror : Bool) : Except Fault (List (Vec3f K)) :=
  let platonic_params := PlatonicSym.init L E kind
  let ret : List (Vec3f K) := []
  let b : Vec3f K := ⟨0, 0, 1⟩
  let ret := ret ++ [b]
  let theta_c_on_two : K := platonic_params.get "theta_c_on_two"
  let theta_c := 2 * theta_c_on_two
  let c_on_two : Vec3f K := ⟨0, -L.sin theta_c_on_two, L.cos theta_c_on_two⟩
  let c : Vec3f K := ⟨0, -L.sin theta_c, L.cos theta_c⟩
  let ret := ret ++ [c_on_two]
  let cap_sig : K := platonic_params.get "az_max"
  let a : Vec3f K :=
    ⟨L.sin theta_c * L.sin cap_sig, -L.sin theta_c * L.cos cap_sig, L.cos theta_c⟩
  let f := (a.add b).add c
  let f := normalize f
  let ret := ret ++ [f]
  let ret :=
    if inc_mirror then
      let a_on_two : Vec3f K := ⟨L.sin theta_c_on_two * L.sin cap_sig,
        -L.sin theta_c_on_two * L.cos cap_sig, L.cos theta_c_on_two⟩
      ret ++ [a_on_two]
    else ret
  PlatonicSym.align_points L kind ret

/-- `TetrahedralSym::get_asym_unit_points(bool inc_mirror)`. -/
def TetrahedralSym.get_asym_unit_points {K : Type} [LinearOrderedField K] [FloorRing K]
    (L : Libm K) (E : LibmExt K) (normalize : Vec3f K → Vec3f K) (inc_mirror : Bool) :
    Except Fault (List (Vec3f K)) :=
  let platonic_params := PlatonicSym.init L E .TetrahedralSym
  let ret : List (Vec3f K) := []
  let b : Vec3f K := ⟨0, 0, 1⟩
  let ret := ret ++ [b]
  let theta_c_on_two : K := platonic_params.get "theta_c_on_two"
  let theta_c := 2 * theta_c_on_two
  let c_on_two : Vec3f K := ⟨0, -L.sin theta_c_on_two, L.cos theta_c_on_two⟩
  let c : Vec3f K := ⟨0, -L.sin theta_c, L.cos theta_c⟩
  let ret := ret ++ [c_on_two]
  let cap_sig : K := platonic_params.get "az_max"
  let ret :=
    if inc_mirror then
      let a : Vec3f K :=
        ⟨L.sin theta_c * L.sin cap_sig, -L.sin theta_c * L.cos cap_sig, L.cos theta_c⟩
      let f := (a.add b).add c
      let f := normalize f
      ret ++ [f]
    else ret
  let a_on_two : Vec3f K := ⟨L.sin theta_c_on_two * L.sin cap_sig,
    -L.sin theta_c_on_two * L.cos cap_sig, L.cos theta_c_on_two⟩
  let ret := ret ++ [a_on_two]
  PlatonicSym.align_points L .TetrahedralSym ret

/-- The virtual call `get_asym_unit_points(inc_mirror)` on a platonic class:
`TetrahedralSym` overrides the function of `PlatonicSym`. -/
def PlatonicKind.get_asym_unit_points {K : Type} [LinearOrderedField K] [FloorRing K]
    (L : Libm K) (E : LibmExt K) (normalize : Vec3f K → Vec3f K) (kind : PlatonicKind)
    (inc_mirror : Bool) : Except Fault (List (Vec3f K)) :=
  match kind with
  | .TetrahedralSym => TetrahedralSym.get_asym_unit_points L E normalize inc_mirror
  | _ => PlatonicSym.get_asym_unit_points L E normalize kind inc_mirror

/-- `PlatonicSym::get_asym_unit_triangles(bool inc_mirror)`. -/
def PlatonicSym.get_asym_unit_triangles {K : Type} [LinearOrderedField K] [FloorRing K]
    (L : Libm K) (E : LibmExt K) (normalize : Vec3f K → Vec3f K) (kind : PlatonicKind)
    (inc_mirror : Bool) : Except Fault (List (List (Vec3f K))) := do
  let v ← kind.get_asym_unit_points L E normalize inc_mirror
  let ret : List (List (Vec3f K)) := []
  if v.length = 3 then
    let tmp := [← vecAt v 0, ← vecAt v 2, ← vecAt v 1]
    pure (ret ++ [tmp])
  else
    let tmp := [← vecAt v 0, ← vecAt v 2, ← vecAt v 1]
    let tmp2 := [← vecAt v 0, ← vecAt v 3, ← vecAt v 2]
    pure (ret ++ [tmp] ++ [tmp2])

/-- The triangles `(v0, b, a)` for the consecutive points `a, b` of a list. -/
def specFanFrom {α : Type} (v0 : α) : List α → List (List α)
  | a :: b :: rest => [v0, b, a] :: specFanFrom v0 (b :: rest)
  | _ => []

/-- Modelled from the spec: the fan convention on the points
`v0, v1, ..., v_{m-1}`: the triangles `(v0, v2, v1), (v0, v3, v2), ...,
(v0, v_{m-1}, v_{m-2})`. -/
def specFan {α : Type} : List α → List (List α)
  | [] => []
  | v0 :: rest => specFanFrom v0 rest

/-! ### The random orientation generator, pixel processors -/

/-- The direction that one iteration of the loop of
`RandomOrientationGenerator::gen_orientations` computes from the draw
`(u1, u2)` (transform.cpp lines 1651-1659), with its altitude and azimuth. -/
structure RandomDirection (K : Type) where
  x : K
  y : K
  z : K
  altitude : K
  azimuth : K

/-- The statements of the loop body of
`RandomOrientationGenerator::gen_orientations` from `s` to `azimuth`; `none`
is the `continue` of a rejected draw. -/
def RandomOrientationGenerator.direction {K : Type} [LinearOrderedField K] (L : Libm K)
    (u1 u2 : K) : Option (RandomDirection K) :=
  let s := u1 * u1 + u2 * u2
  if s > 1 then none
  else
    let alpha := 2 * L.sqrt (1 - s)
    let x := alpha * u1
    let y := alpha * u2
    let z := 2 * s - 1
    let altitude := EMConsts_rad2deg L * L.acos z
    let azimuth := EMConsts_rad2deg L * L.atan2 y x
    some ⟨x, y, z, altitude, azimuth⟩

/-- `CollapseProcessor` (processor.h): the members `range` and `value` that
`set_params` reads from the parameters. -/
structure CollapseProcessor (K : Type) where
  range : K
  value : K

/-- `CollapseProcessor::process_pixel(float *x)`: the new value of `*x`. -/
def CollapseProcessor.process_pixel {K : Type} [LinearOrderedField K]
    (p : CollapseProcessor K) (x : K) : K :=
  if x > p.range + p.value then x - p.range
  else if x < p.range - p.value then x + p.range
  else p.value

namespace BoxMedianProcessor

/-- The body of the inner loop of `BoxMedianProcessor::process_pixel`: the
exchange of `data[i]` and `data[j]` when `data[i] < data[j]`. -/
def exchange {K : Type} [LinearOrderedField K] (data : List K) (i j : Nat) : List K :=
  if data.getD i 0 < data.getD j 0 then
    let t := data.getD i 0
    let data := data.set i (data.getD j 0)
    data.set j t
  else data

/-- The two loops of `BoxMedianProcessor::process_pixel`:
`for (i = 0; i <= n / 2; i++) for (j = i + 1; j < n; j++)`. -/
def sort_half {K : Type} [LinearOrderedField K] (data : List K) (n : Nat) : List K :=
  (List.range (n / 2 + 1)).foldl (fun data i =>
    (List.range' (i + 1) (n - (i + 1))).foldl (fun data j => exchange data i j) data) data

/-- `BoxMedianProcessor::process_pixel(float *pixel, const float *array, int n)`
for `n ≥ 0`: the value written to `*pixel`. The copy `data` holds the first
`n` values of `array`; `array` is `const`. For `n = 0` the source reads
`data[-1]`, and `memcpy` reads outside `array` when it has fewer than `n`
values. -/
def process_pixel {K : Type} [LinearOrderedField K] (array : List K) (n : Nat) :
    Except Fault K :=
  if array.length < n then .error .OutOfBoundsRead
  else
    let data := array.take n
    let data := sort_half data n
    if n % 2 ≠ 0 then .ok (data.getD (n / 2) 0)
    else if n = 0 then .error .OutOfBoundsRead
    else .ok ((data.getD (n / 2) 0 + data.getD (n / 2 - 1) 0) / 2)

end BoxMedianProcessor

/-- Modelled from the spec: the median of a list of `n ≥ 1` values: the
element of rank `n / 2` of the values sorted in descending order for odd `n`,
the mean of the elements of rank `n / 2 - 1` and `n / 2` for even `n`. -/
def specMedian {K : Type} [LinearOrderedField K] (values : List K) : K :=
  let sorted := values.insertionSort (fun a b => a ≥ b)
  let n := values.length
  if n % 2 ≠ 0 then sorted.getD (n / 2) 0
  else (sorted.getD (n / 2 - 1) 0 + sorted.getD (n / 2) 0) / 2

/-! ## Theorems -/

namespace Transform3D

variable {K : Type}

theorem new_matrix [Field K] (i j : Fin 4) :
    (new : Transform3D K).matrix i j = if i = j then 1 else 0 := by
  fin_cases i <;> fin_cases j <;> rfl

theorem mul_matrix [Field K] (M2 M1 : Transform3D K) (i j : Fin 4) :
    (mul M2 M1).matrix i j =
      if i = 3 then (if j = 3 then 1 else M2.matrix 3 j)
      else if j = 3 then
        M2.matrix i 0 * M1.matrix 0 3 + M2.matrix i 1 * M1.matrix 1 3
          + M2.matrix i 2 * M1.matrix 2 3 + M2.matrix i 3
      else M2.matrix i 0 * M1.matrix 0 j + M2.matrix i 1 * M1.matrix 1 j
        + M2.matrix i 2 * M1.matrix 2 j := by
  fin_cases i <;> fin_cases j <;> rfl

theorem ext_entries {a b : Transform3D K}
    (h : ∀ i ∈ idx4, ∀ j ∈ idx4, a.matrix i j = b.matrix i j) : a = b := by
  ext i j
  exact h i (by fin_cases i <;> simp [idx4]) j (by fin_cases j <;> simp [idx4])

theorem inverse_00 [Field K] (t : Transform3D K) :
    (inverse t).matrix 0 0 =
      (t.matrix 1 1 * t.matrix 2 2 - t.matrix 1 2 * t.matrix 2 1) / Det t := rfl

theorem inverse_01 [Field K] (t : Transform3D K) :
    (inverse t).matrix 0 1 =
      -(t.matrix 0 1 * t.matrix 2 2 - t.matrix 0 2 * t.matrix 2 1) / Det t := rfl

theorem inverse_02 [Field K] (t : Transform3D K) :
    (inverse t).matrix 0 2 =
      (t.matrix 0 1 * t.matrix 1 2 - t.matrix 0 2 * t.matrix 1 1) / Det t := rfl

theorem inverse_03 [Field K] (t : Transform3D K) :
    (inverse t).matrix 0 3 =
      (-(t.matrix 1 1 * t.matrix 2 2 - t.matrix 1 2 * t.matrix 2 1) * t.matrix 0 3
        + (t.matrix 0 1 * t.matrix 2 2 - t.matrix 0 2 * t.matrix 2 1) * t.matrix 1 3
        - (t.matrix 0 1 * t.matrix 1 2 - t.matrix 0 2 * t.matrix 1 1) * t.matrix 2 3) / Det t := rfl

theorem inverse_10 [Field K] (t : Transform3D K) :
    (inverse t).matrix 1 0 =
      -(t.matrix 1 0 * t.matrix 2 2 - t.matrix 2 0 * t.matrix 1 2) / Det t := rfl

theorem inverse_11 [Field K] (t : Transform3D K) :
    (inverse t).matrix 1 1 =
      (t.matrix 2 2 * t.matrix 0 0 - t.matrix 2 0 * t.matrix 0 2) / Det t := rfl

theorem inverse_12 [Field K] (t : Transform3D K) :
    (inverse t).matrix 1 2 =
      -(t.matrix 0 0 * t.matrix 1 2 - t.matrix 1 0 * t.matrix 0 2) / Det t := rfl

theorem inverse_13 [Field K] (t : Transform3D K) :
    (inverse t).matrix 1 3 =
      ((t.matrix 1 0 * t.matrix 2 2 - t.matrix 2 0 * t.matrix 1 2) * t.matrix 0 3
        - (t.matrix 2 2 * t.matrix 0 0 - t.matrix 2 0 * t.matrix 0 2) * t.matrix 1 3
        + (t.matrix 0 0 * t.matrix 1 2 - t.matrix 1 0 * t.matrix 0 2) * t.matrix 2 3) / Det t := rfl

theorem inverse_20 [Field K] (t : Transform3D K) :
    (inverse t).matrix 2 0 =
      (t.matrix 1 0 * t.matrix 2 1 - t.matrix 2 0 * t.matrix 1 1) / Det t := rfl

theorem inverse_21 [Field K] (t : Transform3D K) :
    (inverse t).matrix 2 1 =
      -(t.matrix 0 0 * t.matrix 2 1 - t.matrix 0 1 * t.matrix 2 0) / Det t := rfl

theorem inverse_22 [Field K] (t : Transform3D K) :
    (inverse t).matrix 2 2 =
      (t.matrix 0 0 * t.matrix 1 1 - t.matrix 0 1 * t.matrix 1 0) / Det t := rfl

theorem inverse_23 [Field K] (t : Transform3D K) :
    (inverse t).matrix 2 3 =
      (-(t.matrix 1 0 * t.matrix 2 1 - t.matrix 2 0 * t.matrix 1 1) * t.matrix 0 3
        + (t.matrix 0 0 * t.matrix 2 1 - t.matrix 0 1 * t.matrix 2 0) * t.matrix 1 3
        - (t.matrix 0 0 * t.matrix 1 1 - t.matrix 0 1 * t.matrix 1 0) * t.matrix 2 3) / Det t := rfl

theorem inverse_30 [Field K] (t : Transform3D K) :
    (inverse t).matrix 3 0 =
      0 := rfl

theorem inverse_31 [Field K] (t : Transform3D K) :
    (inverse t).matrix 3 1 =
      0 := rfl

theorem inverse_32 [Field K] (t : Transform3D K) :
    (inverse t).matrix 3 2 =
      0 := rfl

theorem inverse_33 [Field K] (t : Transform3D K) :
    (inverse t).matrix 3 3 =
      1 := rfl

theorem Det_eq_det [Field K] (t : Transform3D K) : Det t = (block3 t).det := by
  rw [Matrix.det_fin_three]
  simp only [block3, Matrix.of_apply, up]
  have h0 : (Fin.castSucc (0 : Fin 3) : Fin 4) = 0 := rfl
  have h1 : (Fin.castSucc (1 : Fin 3) : Fin 4) = 1 := rfl
  have h2 : (Fin.castSucc (2 : Fin 3) : Fin 4) = 2 := rfl
  rw [h0, h1, h2, Det]
  ring

/-- C1: for every transform whose 3x3 block has non-zero determinant, the
product `inverse(t) * t` is exactly the identity transform (identity block,
zero total-translation column, zero post-translation row), so `is_identity()`
holds of it. -/
theorem inverse_mul_self [Field K] [DecidableEq K] (t : Transform3D K)
    (hdet : (block3 t).det ≠ 0) :
    mul (inverse t) t = new ∧ is_identity (mul (inverse t) t) = true := by
  have hD : Det t ≠ 0 := by rw [Det_eq_det]; exact hdet
  have key : mul (inverse t) t = new := by
    apply ext_entries
    simp only [idx4, List.forall_mem_cons, List.not_mem_nil, IsEmpty.forall_iff,
      implies_true, and_true, mul_matrix, new_matrix, inverse_00, inverse_01, inverse_02,
      inverse_03, inverse_10, inverse_11, inverse_12, inverse_13, inverse_20, inverse_21,
      inverse_22, inverse_23, inverse_30, inverse_31, inverse_32, inverse_33]
    simp only [Fin.reduceEq, if_true, if_false, Fin.isValue, reduceIte]
    have hD2 : Det t = t.matrix 0 0 * (t.matrix 1 1 * t.matrix 2 2 - t.matrix 1 2 * t.matrix 2 1)
      + t.matrix 0 2 * (t.matrix 1 0 * t.matrix 2 1 - t.matrix 2 0 * t.matrix 1 1)
      - t.matrix 0 1 * (t.matrix 1 0 * t.matrix 2 2 - t.matrix 2 0 * t.matrix 1 2) := rfl
    refine ⟨⟨?_, ?_, ?_, ?_⟩, ⟨?_, ?_, ?_, ?_⟩, ⟨?_, ?_, ?_, ?_⟩, ?_⟩
    all_goals first
      | trivial
      | (field_simp; (try rw [hD2]); ring)
  refine ⟨key, ?_⟩
  rw [key]
  simp [is_identity, idx4, new_matrix]


/-! ### `set_rotation`: closed forms -/

theorem set_rotation_eman_eq [LinearOrderedField K] [FloorRing K] (L : Libm K)
    (t : Transform3D K) (az alt phi : K) :
    set_rotation_eman L t az alt phi = .ok (set_rotation_fill L (emanLocals t az alt phi)) :=
  rfl

theorem fill_eman_block [LinearOrderedField K] [FloorRing K] (L : Libm K)
    (t : Transform3D K) (az alt phi : K) :
    block3 (set_rotation_fill L (emanLocals t az alt phi)) =
      !![L.cos (fmod phi 360 * L.M_PI / 180) * L.cos (fmod az 360 * L.M_PI / 180)
          - L.cos (alt * L.M_PI / 180) * L.sin (fmod az 360 * L.M_PI / 180)
            * L.sin (fmod phi 360 * L.M_PI / 180),
        L.cos (fmod phi 360 * L.M_PI / 180) * L.sin (fmod az 360 * L.M_PI / 180)
          + L.cos (alt * L.M_PI / 180) * L.cos (fmod az 360 * L.M_PI / 180)
            * L.sin (fmod phi 360 * L.M_PI / 180),
        L.sin (alt * L.M_PI / 180) * L.sin (fmod phi 360 * L.M_PI / 180);
        -L.sin (fmod phi 360 * L.M_PI / 180) * L.cos (fmod az 360 * L.M_PI / 180)
          - L.cos (alt * L.M_PI / 180) * L.sin (fmod az 360 * L.M_PI / 180)
            * L.cos (fmod phi 360 * L.M_PI / 180),
        -L.sin (fmod phi 360 * L.M_PI / 180) * L.sin (fmod az 360 * L.M_PI / 180)
          + L.cos (alt * L.M_PI / 180) * L.cos (fmod az 360 * L.M_PI / 180)
            * L.cos (fmod phi 360 * L.M_PI / 180),
        L.sin (alt * L.M_PI / 180) * L.cos (fmod phi 360 * L.M_PI / 180);
        L.sin (alt * L.M_PI / 180) * L.sin (fmod az 360 * L.M_PI / 180),
        -L.sin (alt * L.M_PI / 180) * L.cos (fmod az 360 * L.M_PI / 180),
        L.cos (alt * L.M_PI / 180)] := by
  ext i j
  fin_cases i <;> fin_cases j <;> rfl


theorem Det_exampleT : Det exampleT = 2 := by
  norm_num [Det, exampleT]

/-- Witness for C1: the rational transform `exampleT` has determinant 2 and
its inverse composed with it is the identity. -/
theorem inverse_mul_self_witness :
    (block3 exampleT).det ≠ 0 ∧
      (mul (inverse exampleT) exampleT = new ∧
        is_identity (mul (inverse exampleT) exampleT) = true) :=
  ⟨by rw [← Det_eq_det, Det_exampleT]; norm_num,
    inverse_mul_self exampleT (by rw [← Det_eq_det, Det_exampleT]; norm_num)⟩

/-- C2: composition is associative, entry for entry: `(a * b) * c = a * (b * c)`
on the 3x3 block, the total-translation column and the post-translation row. -/
theorem operator_mul_assoc [Field K] (a b c : Transform3D K) :
    mul (mul a b) c = mul a (mul b c) := by
  apply ext_entries
  simp only [idx4, List.forall_mem_cons, List.not_mem_nil, IsEmpty.forall_iff,
    implies_true, and_true, mul_matrix]
  simp only [Fin.reduceEq, if_true, if_false, Fin.isValue, reduceIte]
  refine ⟨⟨?_, ?_, ?_, ?_⟩, ⟨?_, ?_, ?_, ?_⟩, ⟨?_, ?_, ?_, ?_⟩, ?_⟩
  all_goals first
    | trivial
    | ring

/-! ### The C library over the reals -/

theorem fmod_eq_sub_int_mul [LinearOrderedField K] [FloorRing K] (x y : K) :
    ∃ n : Int, fmod x y = x - (n : K) * y :=
  ⟨_, rfl⟩

theorem cos_fmod (x : ℝ) :
    Real.cos (fmod x 360 * Real.pi / 180) = Real.cos (x * Real.pi / 180) := by
  obtain ⟨n, hn⟩ := fmod_eq_sub_int_mul x 360
  rw [hn, ← Real.cos_sub_int_mul_two_pi (x * Real.pi / 180) n]
  congr 1
  ring

theorem sin_fmod (x : ℝ) :
    Real.sin (fmod x 360 * Real.pi / 180) = Real.sin (x * Real.pi / 180) := by
  obtain ⟨n, hn⟩ := fmod_eq_sub_int_mul x 360
  rw [hn, ← Real.sin_sub_int_mul_two_pi (x * Real.pi / 180) n]
  congr 1
  ring

theorem fill_eman_block_real (t : Transform3D ℝ) (az alt phi : ℝ) :
    block3 (set_rotation_fill (Libm.mk Real.cos Real.sin Real.arccos Real.arcsin (fun y x => Complex.arg ⟨x, y⟩)
      Real.sqrt Real.pi)
      (emanLocals t az alt phi)) = specEmanTable (Libm.mk Real.cos Real.sin Real.arccos Real.arcsin (fun y x => Complex.arg ⟨x, y⟩)
      Real.sqrt Real.pi) az alt phi := by
  rw [fill_eman_block]
  simp only [cos_fmod, sin_fmod, specEmanTable, deg2rad]

theorem specEmanTable_eq_product {K : Type} [Field K] (L : Libm K) (az alt phi : K) :
    specEmanTable L az alt phi = specRz L phi * specRx L alt * specRz L az := by
  ext i j
  fin_cases i <;> fin_cases j <;>
    simp [specEmanTable, specRz, specRx, Matrix.mul_apply, Fin.sum_univ_three] <;> ring

/-- C3: for all angles `az`, `alt`, `phi` in degrees (and every transform it is
called on), `set_rotation(az, alt, phi)` succeeds and sets the 3x3 block to the
matrix product `Rz(phi)·Rx(alt)·Rz(az)`, whose nine entries are those of the
EMAN table of the specification. -/
theorem set_rotation_block (t : Transform3D ℝ) (az alt phi : ℝ) :
    ∃ t', set_rotation_eman (Libm.mk Real.cos Real.sin Real.arccos Real.arcsin (fun y x => Complex.arg ⟨x, y⟩)
      Real.sqrt Real.pi) t az alt phi = .ok t' ∧
      block3 t' = specRz (Libm.mk Real.cos Real.sin Real.arccos Real.arcsin (fun y x => Complex.arg ⟨x, y⟩)
      Real.sqrt Real.pi) phi * specRx (Libm.mk Real.cos Real.sin Real.arccos Real.arcsin (fun y x => Complex.arg ⟨x, y⟩)
      Real.sqrt Real.pi) alt * specRz (Libm.mk Real.cos Real.sin Real.arccos Real.arcsin (fun y x => Complex.arg ⟨x, y⟩)
      Real.sqrt Real.pi) az ∧
      block3 t' = specEmanTable (Libm.mk Real.cos Real.sin Real.arccos Real.arcsin (fun y x => Complex.arg ⟨x, y⟩)
      Real.sqrt Real.pi) az alt phi := by
  refine ⟨_, set_rotation_eman_eq _ t az alt phi, ?_, ?_⟩
  · rw [fill_eman_block_real, specEmanTable_eq_product]
  · rw [fill_eman_block_real]


/-! ### Rotations -/

theorem rotZ_orthogonal [Field K] (c s : K) (h : c * c + s * s = 1) :
    (!![c, s, 0; -s, c, 0; 0, 0, 1] : Matrix (Fin 3) (Fin 3) K)
        * (!![c, s, 0; -s, c, 0; 0, 0, 1] : Matrix (Fin 3) (Fin 3) K).transpose = 1
      ∧ (!![c, s, 0; -s, c, 0; 0, 0, 1] : Matrix (Fin 3) (Fin 3) K).det = 1 := by
  constructor
  · have hT : (!![c, s, 0; -s, c, 0; 0, 0, 1] : Matrix (Fin 3) (Fin 3) K).transpose
        = !![c, -s, 0; s, c, 0; 0, 0, 1] := by
      ext i j
      fin_cases i <;> fin_cases j <;> rfl
    rw [hT, Matrix.mul_fin_three, Matrix.one_fin_three]
    ext i j
    fin_cases i <;> fin_cases j <;> simp [Matrix.vecHead, Matrix.vecTail] <;>
      first
        | linear_combination h
        | ring
  · rw [Matrix.det_fin_three]
    simp
    linear_combination h

theorem rotX_orthogonal [Field K] (c s : K) (h : c * c + s * s = 1) :
    (!![1, 0, 0; 0, c, s; 0, -s, c] : Matrix (Fin 3) (Fin 3) K)
        * (!![1, 0, 0; 0, c, s; 0, -s, c] : Matrix (Fin 3) (Fin 3) K).transpose = 1
      ∧ (!![1, 0, 0; 0, c, s; 0, -s, c] : Matrix (Fin 3) (Fin 3) K).det = 1 := by
  constructor
  · have hT : (!![1, 0, 0; 0, c, s; 0, -s, c] : Matrix (Fin 3) (Fin 3) K).transpose
        = !![1, 0, 0; 0, c, -s; 0, s, c] := by
      ext i j
      fin_cases i <;> fin_cases j <;> rfl
    rw [hT, Matrix.mul_fin_three, Matrix.one_fin_three]
    ext i j
    fin_cases i <;> fin_cases j <;> simp [Matrix.vecHead, Matrix.vecTail] <;>
      first
        | linear_combination h
        | ring
  · rw [Matrix.det_fin_three]
    simp
    linear_combination h

theorem cos_sq_add_sin_sq_mul (x : ℝ) : Real.cos x * Real.cos x + Real.sin x * Real.sin x = 1 := by
  nlinarith [Real.sin_sq_add_cos_sq x]

theorem product_orthogonal [Field K] (A B C : Matrix (Fin 3) (Fin 3) K)
    (hA : A * A.transpose = 1 ∧ A.det = 1) (hB : B * B.transpose = 1 ∧ B.det = 1)
    (hC : C * C.transpose = 1 ∧ C.det = 1) :
    (A * B * C) * (A * B * C).transpose = 1 ∧ (A * B * C).det = 1 := by
  constructor
  · calc (A * B * C) * (A * B * C).transpose
        = A * (B * (C * C.transpose) * B.transpose) * A.transpose := by
          simp only [Matrix.transpose_mul, Matrix.mul_assoc]
      _ = 1 := by rw [hC.1, Matrix.mul_one, hB.1, Matrix.mul_one, hA.1]
  · rw [Matrix.det_mul, Matrix.det_mul, hA.2, hB.2, hC.2]
    norm_num

theorem fill_eman_isRotation (t : Transform3D ℝ) (az alt phi : ℝ) :
    IsRotation (set_rotation_fill (Libm.mk Real.cos Real.sin Real.arccos Real.arcsin (fun y x => Complex.arg ⟨x, y⟩)
      Real.sqrt Real.pi)
      (emanLocals t az alt phi)) := by
  unfold IsRotation
  rw [fill_eman_block_real, specEmanTable_eq_product]
  exact product_orthogonal _ _ _
    (rotZ_orthogonal _ _ (cos_sq_add_sin_sq_mul _))
    (rotX_orthogonal _ _ (cos_sq_add_sin_sq_mul _))
    (rotZ_orthogonal _ _ (cos_sq_add_sin_sq_mul _))

theorem set_rotation_eman_isRotation (t : Transform3D ℝ) (az alt phi : ℝ) :
    ∃ t', set_rotation_eman (Libm.mk Real.cos Real.sin Real.arccos Real.arcsin (fun y x => Complex.arg ⟨x, y⟩)
      Real.sqrt Real.pi) t az alt phi = .ok t' ∧ IsRotation t' :=
  ⟨_, set_rotation_eman_eq _ t az alt phi, fill_eman_isRotation t az alt phi⟩

end Transform3D

theorem tableRead_ok {K : Type} (table : List K) (i : Int) (h0 : 0 ≤ i)
    (h1 : i.toNat < table.length) : ∃ v, tableRead table i = .ok v := by
  unfold tableRead
  rw [if_pos h0, List.get?_eq_get h1]
  exact ⟨_, rfl⟩

theorem platonic_get_sym_total {K : Type} [LinearOrderedField K] [FloorRing K] (L : Libm K)
    (table : List K) (order : Int) (n : Int) (hlen : (table.length : Int) = 3 * order)
    (hn : 0 ≤ n) (ho : 0 < order) :
    ∃ a b c, platonic_get_sym L table order n
      = Transform3D.set_rotation_eman L Transform3D.new a b c := by
  have h0 : 0 ≤ Int.tmod n order := Int.tmod_nonneg _ hn
  have h1 : Int.tmod n order < order := Int.tmod_lt_of_pos _ ho
  obtain ⟨a, ha⟩ := tableRead_ok table (Int.tmod n order * 3) (by omega) (by omega)
  obtain ⟨b, hb⟩ := tableRead_ok table (Int.tmod n order * 3 + 1) (by omega) (by omega)
  obtain ⟨c, hc⟩ := tableRead_ok table (Int.tmod n order * 3 + 2) (by omega) (by omega)
  refine ⟨a, b, c, ?_⟩
  simp only [platonic_get_sym, ha, hb, hc]

theorem platonic_get_sym_ok {K : Type} [LinearOrderedField K] [FloorRing K] (L : Libm K)
    (table : List K) (order : Int) (n : Int) (r : Transform3D K)
    (h : platonic_get_sym L table order n = .ok r) :
    ∃ a b c, Transform3D.set_rotation_eman L Transform3D.new a b c = .ok r := by
  unfold platonic_get_sym at h
  dsimp only at h
  split at h
  · exact ⟨_, _, _, h⟩
  · cases h

namespace Transform3D

variable {K : Type}

theorem CSym_get_sym_eq [LinearOrderedField K] [FloorRing K] (L : Libm K) (sym : CSym)
    (n : Int) (h : 0 < sym.nsym) :
    CSym.get_sym L sym n = set_rotation_eman L new
      (((Int.tmod n sym.nsym : Int) : K) * 360 / (sym.nsym : K)) 0 0 := by
  unfold CSym.get_sym
  dsimp only
  rw [if_neg (not_le.2 h)]

theorem DSym_get_sym_eq [LinearOrderedField K] [FloorRing K] (L : Libm K) (sym : DSym)
    (n : Int) (h : 0 < sym.nsym) :
    ∃ a b : K, DSym.get_sym L sym n = set_rotation_eman L new a b 0 := by
  unfold DSym.get_sym
  dsimp only
  rw [if_neg (not_le.2 (by omega : 0 < 2 * sym.nsym))]
  split
  · exact ⟨_, _, rfl⟩
  · exact ⟨_, _, rfl⟩

theorem platonic_isRotation (table : List ℝ) (order : Int) (n : Int)
    (hlen : (table.length : Int) = 3 * order) (hn : 0 ≤ n) (ho : 0 < order) :
    ∃ r, platonic_get_sym (Libm.mk Real.cos Real.sin Real.arccos Real.arcsin (fun y x => Complex.arg ⟨x, y⟩)
      Real.sqrt Real.pi) table order n = .ok r ∧ IsRotation r := by
  obtain ⟨a, b, c, h⟩ := platonic_get_sym_total (Libm.mk Real.cos Real.sin Real.arccos Real.arcsin (fun y x => Complex.arg ⟨x, y⟩)
      Real.sqrt Real.pi) table order n hlen hn ho
  rw [h]
  exact set_rotation_eman_isRotation new a b c

theorem platonic_ok_isRotation (table : List ℝ) (order : Int) (n : Int) (r : Transform3D ℝ)
    (h : platonic_get_sym (Libm.mk Real.cos Real.sin Real.arccos Real.arcsin (fun y x => Complex.arg ⟨x, y⟩)
      Real.sqrt Real.pi) table order n = .ok r) : IsRotation r := by
  obtain ⟨a, b, c, h2⟩ := platonic_get_sym_ok _ table order n r h
  rw [set_rotation_eman_eq] at h2
  cases h2
  exact fill_eman_isRotation new a b c

/-- C4: for all angles the block `R` that `set_rotation(az, alt, phi)` produces
satisfies `R·Rᵀ = I` and `det R = 1`.  Consequently `get_sym(k)` is a rotation:
for `CSym` and `DSym` with `nsym ≥ 1` and every integer `k`; for the
tetrahedral, octahedral and icosahedral groups for every `k ≥ 0` (where the
table reads are in bounds), and for every integer `k` whenever a transform is
returned at all. -/
theorem set_rotation_is_rotation :
    (∀ (t : Transform3D ℝ) (az alt phi : ℝ),
      ∃ r, set_rotation_eman (Libm.mk Real.cos Real.sin Real.arccos Real.arcsin (fun y x => Complex.arg ⟨x, y⟩)
      Real.sqrt Real.pi) t az alt phi = .ok r ∧ IsRotation r) ∧
    (∀ (sym : CSym) (k : Int), 0 < sym.nsym →
      ∃ r, CSym.get_sym (Libm.mk Real.cos Real.sin Real.arccos Real.arcsin (fun y x => Complex.arg ⟨x, y⟩)
      Real.sqrt Real.pi) sym k = .ok r ∧ IsRotation r) ∧
    (∀ (sym : DSym) (k : Int), 0 < sym.nsym →
      ∃ r, DSym.get_sym (Libm.mk Real.cos Real.sin Real.arccos Real.arcsin (fun y x => Complex.arg ⟨x, y⟩)
      Real.sqrt Real.pi) sym k = .ok r ∧ IsRotation r) ∧
    (∀ k : Int, 0 ≤ k →
      (∃ r, TetrahedralSym.get_sym (Libm.mk Real.cos Real.sin Real.arccos Real.arcsin (fun y x => Complex.arg ⟨x, y⟩)
      Real.sqrt Real.pi) k = .ok r ∧ IsRotation r) ∧
      (∃ r, OctahedralSym.get_sym (Libm.mk Real.cos Real.sin Real.arccos Real.arcsin (fun y x => Complex.arg ⟨x, y⟩)
      Real.sqrt Real.pi) k = .ok r ∧ IsRotation r) ∧
      (∃ r, IcosahedralSym.get_sym (Libm.mk Real.cos Real.sin Real.arccos Real.arcsin (fun y x => Complex.arg ⟨x, y⟩)
      Real.sqrt Real.pi) k = .ok r ∧ IsRotation r)) ∧
    (∀ (k : Int) (r : Transform3D ℝ),
      (TetrahedralSym.get_sym (Libm.mk Real.cos Real.sin Real.arccos Real.arcsin (fun y x => Complex.arg ⟨x, y⟩)
      Real.sqrt Real.pi) k = .ok r ∨
        OctahedralSym.get_sym (Libm.mk Real.cos Real.sin Real.arccos Real.arcsin (fun y x => Complex.arg ⟨x, y⟩)
      Real.sqrt Real.pi) k = .ok r ∨
        IcosahedralSym.get_sym (Libm.mk Real.cos Real.sin Real.arccos Real.arcsin (fun y x => Complex.arg ⟨x, y⟩)
      Real.sqrt Real.pi) k = .ok r) → IsRotation r) := by
  refine ⟨set_rotation_eman_isRotation, ?_, ?_, ?_, ?_⟩
  · intro sym k h
    rw [CSym_get_sym_eq _ sym k h]
    exact set_rotation_eman_isRotation _ _ _ _
  · intro sym k h
    obtain ⟨a, b, hab⟩ := DSym_get_sym_eq (Libm.mk Real.cos Real.sin Real.arccos Real.arcsin (fun y x => Complex.arg ⟨x, y⟩)
      Real.sqrt Real.pi) sym k h
    rw [hab]
    exact set_rotation_eman_isRotation _ _ _ _
  · intro k hk
    exact ⟨platonic_isRotation TET 12 k rfl hk (by decide),
      platonic_isRotation OCT 24 k rfl hk (by decide),
      platonic_isRotation ICOS 60 k rfl hk (by decide)⟩
  · intro k r h
    rcases h with h | h | h
    · exact platonic_ok_isRotation TET 12 k r h
    · exact platonic_ok_isRotation OCT 24 k r h
    · exact platonic_ok_isRotation ICOS 60 k r h

/-- Witness for C4: element 1 of `c4`, element 5 of `d3` and element 59 of the
icosahedral group are rotations. -/
theorem set_rotation_is_rotation_witness :
    (∃ r, CSym.get_sym (Libm.mk Real.cos Real.sin Real.arccos Real.arcsin (fun y x => Complex.arg ⟨x, y⟩)
      Real.sqrt Real.pi) ⟨4⟩ 1 = .ok r ∧ IsRotation r) ∧
    (∃ r, DSym.get_sym (Libm.mk Real.cos Real.sin Real.arccos Real.arcsin (fun y x => Complex.arg ⟨x, y⟩)
      Real.sqrt Real.pi) ⟨3⟩ 5 = .ok r ∧ IsRotation r) ∧
    (∃ r, IcosahedralSym.get_sym (Libm.mk Real.cos Real.sin Real.arccos Real.arcsin (fun y x => Complex.arg ⟨x, y⟩)
      Real.sqrt Real.pi) 59 = .ok r ∧ IsRotation r) :=
  ⟨set_rotation_is_rotation.2.1 ⟨4⟩ 1 (by decide),
    set_rotation_is_rotation.2.2.1 ⟨3⟩ 5 (by decide),
    (set_rotation_is_rotation.2.2.2.1 59 (by decide)).2.2⟩


/-! ### Pre- and post-translation -/

theorem set_pretrans_00 [Field K] (t : Transform3D K) (preT : Vec3f K) :
    (set_pretrans t preT).matrix 0 0 =
      t.matrix 0 0 := rfl

theorem set_pretrans_01 [Field K] (t : Transform3D K) (preT : Vec3f K) :
    (set_pretrans t preT).matrix 0 1 =
      t.matrix 0 1 := rfl

theorem set_pretrans_02 [Field K] (t : Transform3D K) (preT : Vec3f K) :
    (set_pretrans t preT).matrix 0 2 =
      t.matrix 0 2 := rfl

theorem set_pretrans_03 [Field K] (t : Transform3D K) (preT : Vec3f K) :
    (set_pretrans t preT).matrix 0 3 =
      t.matrix 3 0 + t.matrix 0 0 * preT.get 0
        + t.matrix 0 1 * preT.get 1 + t.matrix 0 2 * preT.get 2 := rfl

theorem set_pretrans_10 [Field K] (t : Transform3D K) (preT : Vec3f K) :
    (set_pretrans t preT).matrix 1 0 =
      t.matrix 1 0 := rfl

theorem set_pretrans_11 [Field K] (t : Transform3D K) (preT : Vec3f K) :
    (set_pretrans t preT).matrix 1 1 =
      t.matrix 1 1 := rfl

theorem set_pretrans_12 [Field K] (t : Transform3D K) (preT : Vec3f K) :
    (set_pretrans t preT).matrix 1 2 =
      t.matrix 1 2 := rfl

theorem set_pretrans_13 [Field K] (t : Transform3D K) (preT : Vec3f K) :
    (set_pretrans t preT).matrix 1 3 =
      t.matrix 3 1 + t.matrix 1 0 * preT.get 0
        + t.matrix 1 1 * preT.get 1 + t.matrix 1 2 * preT.get 2 := rfl

theorem set_pretrans_20 [Field K] (t : Transform3D K) (preT : Vec3f K) :
    (set_pretrans t preT).matrix 2 0 =
      t.matrix 2 0 := rfl

theorem set_pretrans_21 [Field K] (t : Transform3D K) (preT : Vec3f K) :
    (set_pretrans t preT).matrix 2 1 =
      t.matrix 2 1 := rfl

theorem set_pretrans_22 [Field K] (t : Transform3D K) (preT : Vec3f K) :
    (set_pretrans t preT).matrix 2 2 =
      t.matrix 2 2 := rfl

theorem set_pretrans_23 [Field K] (t : Transform3D K) (preT : Vec3f K) :
    (set_pretrans t preT).matrix 2 3 =
      t.matrix 3 2 + t.matrix 2 0 * preT.get 0
        + t.matrix 2 1 * preT.get 1 + t.matrix 2 2 * preT.get 2 := rfl

theorem set_pretrans_30 [Field K] (t : Transform3D K) (preT : Vec3f K) :
    (set_pretrans t preT).matrix 3 0 =
      t.matrix 3 0 := rfl

theorem set_pretrans_31 [Field K] (t : Transform3D K) (preT : Vec3f K) :
    (set_pretrans t preT).matrix 3 1 =
      t.matrix 3 1 := rfl

theorem set_pretrans_32 [Field K] (t : Transform3D K) (preT : Vec3f K) :
    (set_pretrans t preT).matrix 3 2 =
      t.matrix 3 2 := rfl

theorem set_pretrans_33 [Field K] (t : Transform3D K) (preT : Vec3f K) :
    (set_pretrans t preT).matrix 3 3 =
      t.matrix 3 3 := rfl

theorem set_posttrans_00 [Field K] (t : Transform3D K) (posttrans : Vec3f K) :
    (set_posttrans t posttrans).matrix 0 0 =
      t.matrix 0 0 := rfl

theorem set_posttrans_01 [Field K] (t : Transform3D K) (posttrans : Vec3f K) :
    (set_posttrans t posttrans).matrix 0 1 =
      t.matrix 0 1 := rfl

theorem set_posttrans_02 [Field K] (t : Transform3D K) (posttrans : Vec3f K) :
    (set_posttrans t posttrans).matrix 0 2 =
      t.matrix 0 2 := rfl

theorem set_posttrans_03 [Field K] (t : Transform3D K) (posttrans : Vec3f K) :
    (set_posttrans t posttrans).matrix 0 3 =
      posttrans.get 0 + t.matrix 0 0 * (get_pretrans t 0).get 0
        + t.matrix 0 1 * (get_pretrans t 0).get 1 + t.matrix 0 2 * (get_pretrans t 0).get 2 := rfl

theorem set_posttrans_10 [Field K] (t : Transform3D K) (posttrans : Vec3f K) :
    (set_posttrans t posttrans).matrix 1 0 =
      t.matrix 1 0 := rfl

theorem set_posttrans_11 [Field K] (t : Transform3D K) (posttrans : Vec3f K) :
    (set_posttrans t posttrans).matrix 1 1 =
      t.matrix 1 1 := rfl

theorem set_posttrans_12 [Field K] (t : Transform3D K) (posttrans : Vec3f K) :
    (set_posttrans t posttrans).matrix 1 2 =
      t.matrix 1 2 := rfl

theorem set_posttrans_13 [Field K] (t : Transform3D K) (posttrans : Vec3f K) :
    (set_posttrans t posttrans).matrix 1 3 =
      posttrans.get 1 + t.matrix 1 0 * (get_pretrans t 0).get 0
        + t.matrix 1 1 * (get_pretrans t 0).get 1 + t.matrix 1 2 * (get_pretrans t 0).get 2 := rfl

theorem set_posttrans_20 [Field K] (t : Transform3D K) (posttrans : Vec3f K) :
    (set_posttrans t posttrans).matrix 2 0 =
      t.matrix 2 0 := rfl

theorem set_posttrans_21 [Field K] (t : Transform3D K) (posttrans : Vec3f K) :
    (set_posttrans t posttrans).matrix 2 1 =
      t.matrix 2 1 := rfl

theorem set_posttrans_22 [Field K] (t : Transform3D K) (posttrans : Vec3f K) :
    (set_posttrans t posttrans).matrix 2 2 =
      t.matrix 2 2 := rfl

theorem set_posttrans_23 [Field K] (t : Transform3D K) (posttrans : Vec3f K) :
    (set_posttrans t posttrans).matrix 2 3 =
      posttrans.get 2 + t.matrix 2 0 * (get_pretrans t 0).get 0
        + t.matrix 2 1 * (get_pretrans t 0).get 1 + t.matrix 2 2 * (get_pretrans t 0).get 2 := rfl

theorem set_posttrans_30 [Field K] (t : Transform3D K) (posttrans : Vec3f K) :
    (set_posttrans t posttrans).matrix 3 0 =
      posttrans.get 0 := rfl

theorem set_posttrans_31 [Field K] (t : Transform3D K) (posttrans : Vec3f K) :
    (set_posttrans t posttrans).matrix 3 1 =
      posttrans.get 1 := rfl

theorem set_posttrans_32 [Field K] (t : Transform3D K) (posttrans : Vec3f K) :
    (set_posttrans t posttrans).matrix 3 2 =
      posttrans.get 2 := rfl

theorem set_posttrans_33 [Field K] (t : Transform3D K) (posttrans : Vec3f K) :
    (set_posttrans t posttrans).matrix 3 3 =
      t.matrix 3 3 := rfl

theorem get_pretrans_zero [Field K] (t : Transform3D K) :
    get_pretrans t 0 =
      ⟨0 + (inverse t).matrix 0 0 * (t.matrix 0 3 - t.matrix 3 0)
          + (inverse t).matrix 0 1 * (t.matrix 1 3 - t.matrix 3 1)
          + (inverse t).matrix 0 2 * (t.matrix 2 3 - t.matrix 3 2),
        0 + (inverse t).matrix 1 0 * (t.matrix 0 3 - t.matrix 3 0)
          + (inverse t).matrix 1 1 * (t.matrix 1 3 - t.matrix 3 1)
          + (inverse t).matrix 1 2 * (t.matrix 2 3 - t.matrix 3 2),
        0 + (inverse t).matrix 2 0 * (t.matrix 0 3 - t.matrix 3 0)
          + (inverse t).matrix 2 1 * (t.matrix 1 3 - t.matrix 3 1)
          + (inverse t).matrix 2 2 * (t.matrix 2 3 - t.matrix 3 2)⟩ := rfl

theorem block3_apply (t : Transform3D K) (i j : Fin 3) :
    block3 t i j = t.matrix (up i) (up j) := rfl

theorem Det_congr [Field K] (a b : Transform3D K) (h : block3 a = block3 b) :
    Det a = Det b := by
  rw [Det_eq_det, Det_eq_det, h]

theorem block3_set_pretrans [Field K] (t : Transform3D K) (preT : Vec3f K) :
    block3 (set_pretrans t preT) = block3 t := by
  ext i j
  fin_cases i <;> fin_cases j <;> rfl

theorem block3_set_posttrans [Field K] (t : Transform3D K) (posttrans : Vec3f K) :
    block3 (set_posttrans t posttrans) = block3 t := by
  ext i j
  fin_cases i <;> fin_cases j <;> rfl

theorem Vec3f_get_0 (v : Vec3f K) : v.get 0 = v.x := rfl

theorem Vec3f_get_1 (v : Vec3f K) : v.get 1 = v.y := rfl

theorem Vec3f_get_2 (v : Vec3f K) : v.get 2 = v.z := rfl

theorem mulVec_three [Field K] (M : Matrix (Fin 3) (Fin 3) K) (v : Fin 3 → K) (i : Fin 3) :
    M.mulVec v i = M i 0 * v 0 + M i 1 * v 1 + M i 2 * v 2 := by
  simp [Matrix.mulVec, Matrix.dotProduct, Fin.sum_univ_three]

theorem get_pretrans_of_total [Field K] (t : Transform3D K) (p : Vec3f K) (hD : Det t ≠ 0)
    (h0 : t.matrix 0 3 = t.matrix 3 0 + t.matrix 0 0 * p.x + t.matrix 0 1 * p.y
      + t.matrix 0 2 * p.z)
    (h1 : t.matrix 1 3 = t.matrix 3 1 + t.matrix 1 0 * p.x + t.matrix 1 1 * p.y
      + t.matrix 1 2 * p.z)
    (h2 : t.matrix 2 3 = t.matrix 3 2 + t.matrix 2 0 * p.x + t.matrix 2 1 * p.y
      + t.matrix 2 2 * p.z) :
    get_pretrans t 0 = p := by
  have hD2 : Det t = t.matrix 0 0 * (t.matrix 1 1 * t.matrix 2 2 - t.matrix 1 2 * t.matrix 2 1)
      + t.matrix 0 2 * (t.matrix 1 0 * t.matrix 2 1 - t.matrix 2 0 * t.matrix 1 1)
      - t.matrix 0 1 * (t.matrix 1 0 * t.matrix 2 2 - t.matrix 2 0 * t.matrix 1 2) := rfl
  rw [get_pretrans_zero]
  obtain ⟨px, py, pz⟩ := p
  simp only [inverse_00, inverse_01, inverse_02, inverse_10, inverse_11, inverse_12,
    inverse_20, inverse_21, inverse_22, h0, h1, h2]
  congr 1
  · field_simp
    rw [hD2]
    ring
  · field_simp
    rw [hD2]
    ring
  · field_simp
    rw [hD2]
    ring

/-- C9: `set_pretrans(v)` leaves the 3x3 block `R` and the post-translation
row unchanged and sets the total-translation column to `p_post + R·v`; when
`det R ≠ 0`, `get_pretrans()` called afterwards returns `v`. -/
theorem set_pretrans_spec [Field K] (t : Transform3D K) (v : Vec3f K) :
    block3 (set_pretrans t v) = block3 t ∧
    get_posttrans (set_pretrans t v) 0 = get_posttrans t 0 ∧
    (∀ i : Fin 3, (set_pretrans t v).matrix (up i) 3
      = (get_posttrans t 0).get i + (block3 t).mulVec v.get i) ∧
    ((block3 t).det ≠ 0 → get_pretrans (set_pretrans t v) 0 = v) := by
  refine ⟨block3_set_pretrans t v, rfl, ?_, ?_⟩
  · intro i
    rw [mulVec_three]
    fin_cases i
    · show t.matrix 3 0 + t.matrix 0 0 * v.x + t.matrix 0 1 * v.y + t.matrix 0 2 * v.z
        = t.matrix 3 0 + (t.matrix 0 0 * v.x + t.matrix 0 1 * v.y + t.matrix 0 2 * v.z)
      ring
    · show t.matrix 3 1 + t.matrix 1 0 * v.x + t.matrix 1 1 * v.y + t.matrix 1 2 * v.z
        = t.matrix 3 1 + (t.matrix 1 0 * v.x + t.matrix 1 1 * v.y + t.matrix 1 2 * v.z)
      ring
    · show t.matrix 3 2 + t.matrix 2 0 * v.x + t.matrix 2 1 * v.y + t.matrix 2 2 * v.z
        = t.matrix 3 2 + (t.matrix 2 0 * v.x + t.matrix 2 1 * v.y + t.matrix 2 2 * v.z)
      ring
  · intro hdet
    have hD : Det (set_pretrans t v) ≠ 0 := by
      rw [Det_congr _ t (block3_set_pretrans t v), Det_eq_det]
      exact hdet
    apply get_pretrans_of_total _ _ hD <;>
      simp only [set_pretrans_00, set_pretrans_01, set_pretrans_02, set_pretrans_03,
        set_pretrans_10, set_pretrans_11, set_pretrans_12, set_pretrans_13, set_pretrans_20,
        set_pretrans_21, set_pretrans_22, set_pretrans_23, set_pretrans_30, set_pretrans_31,
        set_pretrans_32, Vec3f_get_0, Vec3f_get_1, Vec3f_get_2]

/-- Witness for C9: on the rational transform `exampleT` (determinant 2),
`get_pretrans()` after `set_pretrans((1, 2, 3))` returns `(1, 2, 3)`. -/
theorem set_pretrans_spec_witness :
    (block3 exampleT).det ≠ 0 ∧
      get_pretrans (set_pretrans exampleT ⟨1, 2, 3⟩) 0 = ⟨1, 2, 3⟩ :=
  ⟨by rw [← Det_eq_det, Det_exampleT]; norm_num,
    (set_pretrans_spec exampleT ⟨1, 2, 3⟩).2.2.2
      (by rw [← Det_eq_det, Det_exampleT]; norm_num)⟩

/-- C10: for every transform with `det R ≠ 0` and every vector `w`, after
`set_posttrans(w)`: `get_posttrans()` returns `w`, `get_pretrans()` returns the
same vector as before the call, the 3x3 block is unchanged, and the
total-translation column equals `w + R·p_pre`. -/
theorem set_posttrans_spec [Field K] (t : Transform3D K) (w : Vec3f K)
    (hdet : (block3 t).det ≠ 0) :
    get_posttrans (set_posttrans t w) 0 = w ∧
    get_pretrans (set_posttrans t w) 0 = get_pretrans t 0 ∧
    block3 (set_posttrans t w) = block3 t ∧
    (∀ i : Fin 3, (set_posttrans t w).matrix (up i) 3
      = w.get i + (block3 t).mulVec (get_pretrans t 0).get i) := by
  refine ⟨rfl, ?_, block3_set_posttrans t w, ?_⟩
  · have hD : Det (set_posttrans t w) ≠ 0 := by
      rw [Det_congr _ t (block3_set_posttrans t w), Det_eq_det]
      exact hdet
    apply get_pretrans_of_total _ _ hD <;>
      simp only [set_posttrans_00, set_posttrans_01, set_posttrans_02, set_posttrans_03,
        set_posttrans_10, set_posttrans_11, set_posttrans_12, set_posttrans_13,
        set_posttrans_20, set_posttrans_21, set_posttrans_22, set_posttrans_23,
        set_posttrans_30, set_posttrans_31, set_posttrans_32, Vec3f_get_0, Vec3f_get_1,
        Vec3f_get_2]
  · intro i
    rw [mulVec_three]
    fin_cases i
    · show w.x + t.matrix 0 0 * (get_pretrans t 0).x + t.matrix 0 1 * (get_pretrans t 0).y
          + t.matrix 0 2 * (get_pretrans t 0).z
        = w.x + (t.matrix 0 0 * (get_pretrans t 0).x + t.matrix 0 1 * (get_pretrans t 0).y
          + t.matrix 0 2 * (get_pretrans t 0).z)
      ring
    · show w.y + t.matrix 1 0 * (get_pretrans t 0).x + t.matrix 1 1 * (get_pretrans t 0).y
          + t.matrix 1 2 * (get_pretrans t 0).z
        = w.y + (t.matrix 1 0 * (get_pretrans t 0).x + t.matrix 1 1 * (get_pretrans t 0).y
          + t.matrix 1 2 * (get_pretrans t 0).z)
      ring
    · show w.z + t.matrix 2 0 * (get_pretrans t 0).x + t.matrix 2 1 * (get_pretrans t 0).y
          + t.matrix 2 2 * (get_pretrans t 0).z
        = w.z + (t.matrix 2 0 * (get_pretrans t 0).x + t.matrix 2 1 * (get_pretrans t 0).y
          + t.matrix 2 2 * (get_pretrans t 0).z)
      ring

/-- Witness for C10: `set_posttrans((7, 8, 9))` on the rational transform
`exampleT` (determinant 2). -/
theorem set_posttrans_spec_witness :
    (block3 exampleT).det ≠ 0 ∧
      (get_posttrans (set_posttrans exampleT ⟨7, 8, 9⟩) 0 = ⟨7, 8, 9⟩ ∧
      get_pretrans (set_posttrans exampleT ⟨7, 8, 9⟩) 0 = get_pretrans exampleT 0 ∧
      block3 (set_posttrans exampleT ⟨7, 8, 9⟩) = block3 exampleT ∧
      (∀ i : Fin 3, (set_posttrans exampleT ⟨7, 8, 9⟩).matrix (up i) 3
        = (⟨7, 8, 9⟩ : Vec3f ℚ).get i
          + (block3 exampleT).mulVec (get_pretrans exampleT 0).get i)) :=
  ⟨by rw [← Det_eq_det, Det_exampleT]; norm_num,
    set_posttrans_spec exampleT ⟨7, 8, 9⟩ (by rw [← Det_eq_det, Det_exampleT]; norm_num)⟩


/-! ### `get_rotation` after `set_rotation` -/

theorem fmod_of_floor {K : Type} [LinearOrderedField K] [FloorRing K] (x y : K) (n : Int)
    (hy : 0 < y) (hx : 0 ≤ x) (h1 : (n : K) * y ≤ x) (h2 : x < ((n : K) + 1) * y) :
    fmod x y = x - (n : K) * y := by
  unfold fmod
  rw [if_pos (div_nonneg hx hy.le)]
  have : Int.floor (x / y) = n := by
    rw [Int.floor_eq_iff]
    constructor
    · rw [le_div_iff₀ hy]; exact h1
    · rw [div_lt_iff₀ hy]; exact h2
  rw [this]

theorem arg_polar (s θ : ℝ) (hs : 0 < s) (h1 : -Real.pi < θ) (h2 : θ ≤ Real.pi) :
    Complex.arg ⟨s * Real.cos θ, s * Real.sin θ⟩ = θ := by
  have h := Complex.arg_mul_cos_add_sin_mul_I hs (Set.mem_Ioc.2 ⟨h1, h2⟩)
  have e : (⟨s * Real.cos θ, s * Real.sin θ⟩ : ℂ)
      = (s : ℂ) * (Complex.cos θ + Complex.sin θ * Complex.I) := by
    apply Complex.ext <;>
      simp [Complex.cos_ofReal_re, Complex.sin_ofReal_re, Complex.cos_ofReal_im,
        Complex.sin_ofReal_im]
  rw [e]
  exact h

/-- The normalisation of `get_rotation` gives back an angle of `[-180, 180)`. -/
theorem normalise_angle (s a : ℝ) (hs : 0 < s) (h1 : -180 ≤ a) (h2 : a < 180) :
    fmod (360 + (180 / Real.pi) * Complex.arg ⟨s * Real.cos (a * Real.pi / 180),
      s * Real.sin (a * Real.pi / 180)⟩ + 180) 360 - 180 = a := by
  have hpi := Real.pi_pos
  rcases eq_or_lt_of_le h1 with h | h
  · subst h
    have e1 : Real.cos (-180 * Real.pi / 180) = Real.cos Real.pi := by
      rw [show (-180 * Real.pi / 180 : ℝ) = -Real.pi by ring, Real.cos_neg]
    have e2 : Real.sin (-180 * Real.pi / 180) = Real.sin Real.pi := by
      rw [show (-180 * Real.pi / 180 : ℝ) = -Real.pi by ring, Real.sin_neg, Real.sin_pi, neg_zero]
    rw [e1, e2, arg_polar s Real.pi hs (by linarith) le_rfl]
    have e3 : (360 + 180 / Real.pi * Real.pi + 180 : ℝ) = 720 := by
      field_simp; ring
    rw [e3, fmod_of_floor 720 360 2 (by norm_num) (by norm_num) (by norm_num) (by norm_num)]
    norm_num
  · have hθ1 : -Real.pi < a * Real.pi / 180 := by
      have : (-180) * Real.pi < a * Real.pi := mul_lt_mul_of_pos_right h hpi
      linarith
    have hθ2 : a * Real.pi / 180 ≤ Real.pi := by
      have : a * Real.pi < 180 * Real.pi := mul_lt_mul_of_pos_right h2 hpi
      linarith
    rw [arg_polar s _ hs hθ1 hθ2]
    have e3 : (360 + 180 / Real.pi * (a * Real.pi / 180) + 180 : ℝ) = a + 540 := by
      field_simp; ring
    rw [e3, fmod_of_floor (a + 540) 360 1 (by norm_num) (by linarith) (by norm_num; linarith)
      (by norm_num; linarith)]
    norm_num
    ring

theorem get_scale_eq {K : Type} [Field K] (L : Libm K) (t : Transform3D K) :
    get_scale L t = L.sqrt ((0 + t.matrix 0 0 * t.matrix 0 0 + t.matrix 0 1 * t.matrix 0 1
      + t.matrix 0 2 * t.matrix 0 2 + t.matrix 1 0 * t.matrix 1 0 + t.matrix 1 1 * t.matrix 1 1
      + t.matrix 1 2 * t.matrix 1 2 + t.matrix 2 0 * t.matrix 2 0 + t.matrix 2 1 * t.matrix 2 1
      + t.matrix 2 2 * t.matrix 2 2) / 3) := rfl

theorem row_norm_of_orthogonal {K : Type} [Field K] (t : Transform3D K)
    (h : t.block3 * t.block3.transpose = 1) (i : Fin 3) :
    t.matrix (up i) 0 * t.matrix (up i) 0 + t.matrix (up i) 1 * t.matrix (up i) 1
      + t.matrix (up i) 2 * t.matrix (up i) 2 = 1 := by
  have h2 := congrFun (congrFun h i) i
  rw [Matrix.mul_apply, Fin.sum_univ_three] at h2
  simpa [Matrix.transpose_apply, block3_apply] using h2

theorem get_scale_of_rotation (t : Transform3D ℝ) (h : IsRotation t) :
    get_scale (Libm.mk Real.cos Real.sin Real.arccos Real.arcsin (fun y x => Complex.arg ⟨x, y⟩)
      Real.sqrt Real.pi) t = 1 := by
  have r0 := row_norm_of_orthogonal t h.1 0
  have r1 := row_norm_of_orthogonal t h.1 1
  have r2 := row_norm_of_orthogonal t h.1 2
  change t.matrix 0 0 * t.matrix 0 0 + t.matrix 0 1 * t.matrix 0 1
      + t.matrix 0 2 * t.matrix 0 2 = 1 at r0
  change t.matrix 1 0 * t.matrix 1 0 + t.matrix 1 1 * t.matrix 1 1
      + t.matrix 1 2 * t.matrix 1 2 = 1 at r1
  change t.matrix 2 0 * t.matrix 2 0 + t.matrix 2 1 * t.matrix 2 1
      + t.matrix 2 2 * t.matrix 2 2 = 1 at r2
  rw [get_scale_eq]
  have e : (0 + t.matrix 0 0 * t.matrix 0 0 + t.matrix 0 1 * t.matrix 0 1
      + t.matrix 0 2 * t.matrix 0 2 + t.matrix 1 0 * t.matrix 1 0 + t.matrix 1 1 * t.matrix 1 1
      + t.matrix 1 2 * t.matrix 1 2 + t.matrix 2 0 * t.matrix 2 0 + t.matrix 2 1 * t.matrix 2 1
      + t.matrix 2 2 * t.matrix 2 2) / 3 = 1 := by linarith
  rw [e]
  exact Real.sqrt_one

theorem get_rotation_eman_generic (t : Transform3D ℝ)
    (hs : get_scale (Libm.mk Real.cos Real.sin Real.arccos Real.arcsin
      (fun y x => Complex.arg ⟨x, y⟩) Real.sqrt Real.pi) t = 1)
    (hc : |t.matrix 2 2| ≤ 1 - 1 / 1000000) :
    get_rotation_eman (Libm.mk Real.cos Real.sin Real.arccos Real.arcsin
      (fun y x => Complex.arg ⟨x, y⟩) Real.sqrt Real.pi) t =
      ⟨fmod (360 + (180 / Real.pi) * Complex.arg ⟨-t.matrix 2 1, t.matrix 2 0⟩ + 180) 360 - 180,
        (180 / Real.pi) * Real.arccos (t.matrix 2 2),
        fmod (360 + (180 / Real.pi) * Complex.arg ⟨t.matrix 1 2, t.matrix 0 2⟩ + 180) 360 - 180,
        t.matrix 2 2⟩ := by
  have hc' := abs_le.1 hc
  unfold get_rotation_eman
  simp only [hs, div_one, ERR_LIMIT]
  rw [if_neg (by simp only [gt_iff_lt, not_lt]; exact hc'.2),
    if_neg (by simp only [not_lt]; exact hc'.1)]

theorem fill_eman_entries (t : Transform3D ℝ) (az alt phi : ℝ) :
    (set_rotation_fill (Libm.mk Real.cos Real.sin Real.arccos Real.arcsin
      (fun y x => Complex.arg ⟨x, y⟩) Real.sqrt Real.pi) (emanLocals t az alt phi)).matrix 2 2
        = Real.cos (alt * Real.pi / 180) ∧
    (set_rotation_fill (Libm.mk Real.cos Real.sin Real.arccos Real.arcsin
      (fun y x => Complex.arg ⟨x, y⟩) Real.sqrt Real.pi) (emanLocals t az alt phi)).matrix 2 0
        = Real.sin (alt * Real.pi / 180) * Real.sin (az * Real.pi / 180) ∧
    (set_rotation_fill (Libm.mk Real.cos Real.sin Real.arccos Real.arcsin
      (fun y x => Complex.arg ⟨x, y⟩) Real.sqrt Real.pi) (emanLocals t az alt phi)).matrix 2 1
        = -Real.sin (alt * Real.pi / 180) * Real.cos (az * Real.pi / 180) ∧
    (set_rotation_fill (Libm.mk Real.cos Real.sin Real.arccos Real.arcsin
      (fun y x => Complex.arg ⟨x, y⟩) Real.sqrt Real.pi) (emanLocals t az alt phi)).matrix 0 2
        = Real.sin (alt * Real.pi / 180) * Real.sin (phi * Real.pi / 180) ∧
    (set_rotation_fill (Libm.mk Real.cos Real.sin Real.arccos Real.arcsin
      (fun y x => Complex.arg ⟨x, y⟩) Real.sqrt Real.pi) (emanLocals t az alt phi)).matrix 1 2
        = Real.sin (alt * Real.pi / 180) * Real.cos (phi * Real.pi / 180) := by
  refine ⟨rfl, ?_, ?_, ?_, ?_⟩
  · show Real.sin (alt * Real.pi / 180) * Real.sin (fmod az 360 * Real.pi / 180) = _
    rw [sin_fmod]
  · show -Real.sin (alt * Real.pi / 180) * Real.cos (fmod az 360 * Real.pi / 180) = _
    rw [cos_fmod]
  · show Real.sin (alt * Real.pi / 180) * Real.sin (fmod phi 360 * Real.pi / 180) = _
    rw [sin_fmod]
  · show Real.sin (alt * Real.pi / 180) * Real.cos (fmod phi 360 * Real.pi / 180) = _
    rw [cos_fmod]

/-- The EMAN angles that `get_rotation` extracts from the transform that
`set_rotation(az, alt, phi)` produced, away from the poles. -/
theorem get_rotation_eman_of_fill (t : Transform3D ℝ) (az alt phi : ℝ)
    (haz : -180 ≤ az ∧ az < 180) (halt : 0 < alt ∧ alt < 180) (hphi : -180 ≤ phi ∧ phi < 180)
    (hpole : |Real.cos (alt * Real.pi / 180)| ≤ 1 - 1 / 1000000) :
    get_rotation_eman (Libm.mk Real.cos Real.sin Real.arccos Real.arcsin
      (fun y x => Complex.arg ⟨x, y⟩) Real.sqrt Real.pi)
      (set_rotation_fill (Libm.mk Real.cos Real.sin Real.arccos Real.arcsin
        (fun y x => Complex.arg ⟨x, y⟩) Real.sqrt Real.pi) (emanLocals t az alt phi))
      = ⟨az, alt, phi, Real.cos (alt * Real.pi / 180)⟩ := by
  have hpi := Real.pi_pos
  obtain ⟨e22, e20, e21, e02, e12⟩ := fill_eman_entries t az alt phi
  have hb0 : 0 < alt * Real.pi / 180 := by
    have : 0 < alt * Real.pi := mul_pos halt.1 hpi
    linarith
  have hb1 : alt * Real.pi / 180 < Real.pi := by
    have : alt * Real.pi < 180 * Real.pi := mul_lt_mul_of_pos_right halt.2 hpi
    linarith
  have hsin : 0 < Real.sin (alt * Real.pi / 180) := Real.sin_pos_of_pos_of_lt_pi hb0 hb1
  rw [get_rotation_eman_generic _ (get_scale_of_rotation _ (fill_eman_isRotation t az alt phi))
    (by rw [e22]; exact hpole)]
  rw [e22, e20, e21, e02, e12, neg_mul, neg_neg,
    normalise_angle _ az hsin haz.1 haz.2, normalise_angle _ phi hsin hphi.1 hphi.2,
    Real.arccos_cos hb0.le hb1.le]
  congr 1
  field_simp
  ring


theorem cos_ninety : Real.cos (90 * Real.pi / 180) = 0 := by
  rw [show (90 * Real.pi / 180 : ℝ) = Real.pi / 2 by ring, Real.cos_pi_div_two]

theorem sin_ninety : Real.sin (90 * Real.pi / 180) = 1 := by
  rw [show (90 * Real.pi / 180 : ℝ) = Real.pi / 2 by ring, Real.sin_pi_div_two]


theorem get_rotation_EMAN_eq {K : Type} [LinearOrderedField K] [FloorRing K] (L : Libm K)
    (t : Transform3D K) :
    get_rotation L t .EMAN = .ok (emanDict (get_rotation_eman L t).az
      (get_rotation_eman L t).alt (get_rotation_eman L t).phi) := rfl

/-- C5: EMAN round trip.  For `az` and `phi` in `[-180, 180)` and `alt` in
`(0, 180)` away from the poles (`|cos alt| ≤ 1 - 10⁻⁶`), `get_rotation(EMAN)`
applied to the fresh transform on which `set_rotation(EMAN, {az, alt, phi})`
was called returns exactly `az`, `alt` and `phi`. -/
theorem eman_round_trip (az alt phi : ℝ)
    (haz : -180 ≤ az ∧ az < 180) (halt : 0 < alt ∧ alt < 180) (hphi : -180 ≤ phi ∧ phi < 180)
    (hpole : |Real.cos (alt * Real.pi / 180)| ≤ 1 - 1 / 1000000) :
    ∃ r d, set_rotation (Libm.mk Real.cos Real.sin Real.arccos Real.arcsin
        (fun y x => Complex.arg ⟨x, y⟩) Real.sqrt Real.pi) new .EMAN (emanDict az alt phi)
        = .ok r ∧
      get_rotation (Libm.mk Real.cos Real.sin Real.arccos Real.arcsin
        (fun y x => Complex.arg ⟨x, y⟩) Real.sqrt Real.pi) r .EMAN = .ok d ∧
      d.get "az" = az ∧ d.get "alt" = alt ∧ d.get "phi" = phi := by
  have h := get_rotation_eman_of_fill new az alt phi haz halt hphi hpole
  refine ⟨set_rotation_fill _ (emanLocals new az alt phi), _, rfl, get_rotation_EMAN_eq _ _,
    ?_, ?_, ?_⟩
  · show (get_rotation_eman _ _).az = az
    rw [h]
  · show (get_rotation_eman _ _).alt = alt
    rw [h]
  · show (get_rotation_eman _ _).phi = phi
    rw [h]

/-- Witness for C5: the triple `(30, 90, 60)`. -/
theorem eman_round_trip_witness :
    ((-180 : ℝ) ≤ 30 ∧ (30 : ℝ) < 180) ∧ ((0 : ℝ) < 90 ∧ (90 : ℝ) < 180) ∧
    ((-180 : ℝ) ≤ 60 ∧ (60 : ℝ) < 180) ∧
    |Real.cos (90 * Real.pi / 180)| ≤ 1 - 1 / 1000000 ∧
    ∃ r d, set_rotation (Libm.mk Real.cos Real.sin Real.arccos Real.arcsin
        (fun y x => Complex.arg ⟨x, y⟩) Real.sqrt Real.pi) new .EMAN (emanDict 30 90 60)
        = .ok r ∧
      get_rotation (Libm.mk Real.cos Real.sin Real.arccos Real.arcsin
        (fun y x => Complex.arg ⟨x, y⟩) Real.sqrt Real.pi) r .EMAN = .ok d ∧
      d.get "az" = 30 ∧ d.get "alt" = 90 ∧ d.get "phi" = 60 :=
  ⟨by norm_num, by norm_num, by norm_num, by rw [cos_ninety]; norm_num,
    eman_round_trip 30 90 60 (by norm_num) (by norm_num) (by norm_num)
      (by rw [cos_ninety]; norm_num)⟩


/-! ### Other conventions -/

theorem get_rotation_SPIDER_eq {K : Type} [LinearOrderedField K] [FloorRing K] (L : Libm K)
    (t : Transform3D K) :
    get_rotation L t .SPIDER = .ok (((Dict.empty.put "phi"
        (fmod ((if |(get_rotation_eman L t).cosalt| > 1 - ERR_LIMIT then 0
          else (get_rotation_eman L t).az - 90) + 360) 360)).put "theta"
        (get_rotation_eman L t).alt).put "psi"
        (fmod ((if |(get_rotation_eman L t).cosalt| > 1 - ERR_LIMIT
          then (get_rotation_eman L t).phi else (get_rotation_eman L t).phi + 90) + 360) 360)) :=
  rfl

theorem cos_fortyfive_le : |Real.cos (45 * Real.pi / 180)| ≤ 1 - 1 / 1000000 := by
  rw [show (45 * Real.pi / 180 : ℝ) = Real.pi / 4 by ring, Real.cos_pi_div_four]
  have h2 : Real.sqrt 2 ≤ 3 / 2 := by
    rw [Real.sqrt_le_iff]
    constructor <;> norm_num
  have h0 : 0 ≤ Real.sqrt 2 := Real.sqrt_nonneg 2
  rw [abs_of_nonneg (by positivity)]
  linarith

/-- The values of scenario S1. -/
theorem s1_spider_dict :
    get_rotation (Libm.mk Real.cos Real.sin Real.arccos Real.arcsin
        (fun y x => Complex.arg ⟨x, y⟩) Real.sqrt Real.pi)
      (set_rotation_fill (Libm.mk Real.cos Real.sin Real.arccos Real.arcsin
        (fun y x => Complex.arg ⟨x, y⟩) Real.sqrt Real.pi) (emanLocals new 30 45 60)) .SPIDER
      = .ok (((Dict.empty.put "phi" 300).put "theta" 45).put "psi" 150) := by
  rw [get_rotation_SPIDER_eq, get_rotation_eman_of_fill new 30 45 60 (by norm_num) (by norm_num)
    (by norm_num) cos_fortyfive_le]
  simp only [ERR_LIMIT]
  rw [if_neg (not_lt.2 cos_fortyfive_le), if_neg (not_lt.2 cos_fortyfive_le)]
  rw [show ((30 : ℝ) - 90 + 360) = 300 by norm_num, show ((60 : ℝ) + 90 + 360) = 510 by norm_num,
    fmod_of_floor 300 360 0 (by norm_num) (by norm_num) (by norm_num) (by norm_num),
    fmod_of_floor 510 360 1 (by norm_num) (by norm_num) (by norm_num) (by norm_num)]
  norm_num

theorem ofEuler_s1 :
    ofEuler (Libm.mk Real.cos Real.sin Real.arccos Real.arcsin
        (fun y x => Complex.arg ⟨x, y⟩) Real.sqrt Real.pi) .EMAN 30 45 60
      = .ok (set_rotation_fill (Libm.mk Real.cos Real.sin Real.arccos Real.arcsin
        (fun y x => Complex.arg ⟨x, y⟩) Real.sqrt Real.pi) (emanLocals new 30 45 60)) := rfl

/-- C8 (amended): scenario S1.  For the transform constructed as
`Transform3D(EMAN, 30, 45, 60)`, `get_rotation(SPIDER)` returns `phi = 300`
(that is -60 placed in `[0, 360)`), `theta = 45` and `psi = 150`. -/
theorem s1_spider_angles :
    ∃ r d, ofEuler (Libm.mk Real.cos Real.sin Real.arccos Real.arcsin
        (fun y x => Complex.arg ⟨x, y⟩) Real.sqrt Real.pi) .EMAN 30 45 60 = .ok r ∧
      get_rotation (Libm.mk Real.cos Real.sin Real.arccos Real.arcsin
        (fun y x => Complex.arg ⟨x, y⟩) Real.sqrt Real.pi) r .SPIDER = .ok d ∧
      d.get "phi" = 300 ∧ d.get "theta" = 45 ∧ d.get "psi" = 150 :=
  ⟨_, _, ofEuler_s1, s1_spider_dict, rfl, rfl, rfl⟩

/-- C8 (counterexample): it is not the case that `get_rotation(SPIDER)` of
`Transform3D(EMAN, 30, 45, 60)` returns `phi = 300`, `theta = 45` and
`psi = 120`: the value of `psi` is `60 + 90 = 150`. -/
theorem s1_spider_psi_not_120 :
    ¬ ∃ r d, ofEuler (Libm.mk Real.cos Real.sin Real.arccos Real.arcsin
        (fun y x => Complex.arg ⟨x, y⟩) Real.sqrt Real.pi) .EMAN 30 45 60 = .ok r ∧
      get_rotation (Libm.mk Real.cos Real.sin Real.arccos Real.arcsin
        (fun y x => Complex.arg ⟨x, y⟩) Real.sqrt Real.pi) r .SPIDER = .ok d ∧
      d.get "phi" = 300 ∧ d.get "theta" = 45 ∧ d.get "psi" = 120 := by
  rintro ⟨r, d, h1, h2, -, -, h5⟩
  rw [ofEuler_s1] at h1
  cases h1
  rw [s1_spider_dict] at h2
  cases h2
  have h6 : (150 : ℝ) = 120 := h5
  norm_num at h6


theorem get_rotation_MRC_eq {K : Type} [LinearOrderedField K] [FloorRing K] (L : Libm K)
    (t : Transform3D K) :
    get_rotation L t .MRC = .ok (mrcDict
        (fmod ((if |(get_rotation_eman L t).cosalt| > 1 - ERR_LIMIT then 0
          else (get_rotation_eman L t).az - 90) + 360) 360)
        (get_rotation_eman L t).alt
        (-fmod ((if |(get_rotation_eman L t).cosalt| > 1 - ERR_LIMIT
          then (get_rotation_eman L t).phi else (get_rotation_eman L t).phi + 90) + 360) 360)) :=
  rfl

theorem set_rotation_MRC_eq {K : Type} [LinearOrderedField K] [FloorRing K] (L : Libm K)
    (t : Transform3D K) (phi theta omega : K) :
    set_rotation L t .MRC (mrcDict phi theta omega)
      = .ok (set_rotation_fill L (emanLocals t (phi + 90) theta (-omega + 90))) := rfl

theorem set_rotation_QUATERNION_eq {K : Type} [LinearOrderedField K] [FloorRing K]
    (L : Libm K) (t : Transform3D K) (e0 e1 e2 e3 : K) :
    set_rotation L t .QUATERNION (quaternionDict e0 e1 e2 e3)
      = .ok (set_rotation_fill L ⟨e0, e1, e2, e3, 0, 0, 0, 0, false, false, t⟩) := rfl

theorem fill_euler_block {K : Type} [LinearOrderedField K] [FloorRing K] (L : Libm K)
    (t : Transform3D K) (e0 e1 e2 e3 Omega az alt phi : K) :
    block3 (set_rotation_fill L ⟨e0, e1, e2, e3, Omega, az, alt, phi, false, false, t⟩) =
      block3 (set_rotation_fill L (emanLocals t az alt phi)) := by
  rw [fill_eman_block]
  ext i j
  fin_cases i <;> fin_cases j <;> rfl

theorem specEmanTable_zero :
    specEmanTable (Libm.mk Real.cos Real.sin Real.arccos Real.arcsin
      (fun y x => Complex.arg ⟨x, y⟩) Real.sqrt Real.pi) 0 0 0 = 1 := by
  rw [Matrix.one_fin_three]
  simp [specEmanTable, deg2rad]

/-- C7 (the code at the failing input): `set_rotation(QUATERNION, {e0..e3})`
leaves `is_quaternion` false, so on every transform and for every quaternion
it fills the block from the Euler angles `(0, 0, 0)`: the block is the
identity.  For the unit quaternion `(0, 1, 0, 0)` the standard
unit-quaternion matrix is not the identity. -/
theorem set_rotation_quaternion_identity :
    (∀ (t : Transform3D ℝ) (e0 e1 e2 e3 : ℝ),
      ∃ r, set_rotation (Libm.mk Real.cos Real.sin Real.arccos Real.arcsin
          (fun y x => Complex.arg ⟨x, y⟩) Real.sqrt Real.pi) t .QUATERNION
          (quaternionDict e0 e1 e2 e3) = .ok r ∧ block3 r = 1) ∧
    ((0 : ℝ) * 0 + 1 * 1 + 0 * 0 + 0 * 0 = 1 ∧
      specQuaternionMatrix (0 : ℝ) 1 0 0 ≠ 1) := by
  refine ⟨?_, by norm_num, ?_⟩
  · intro t e0 e1 e2 e3
    refine ⟨_, set_rotation_QUATERNION_eq _ t e0 e1 e2 e3, ?_⟩
    rw [fill_euler_block, fill_eman_block_real, specEmanTable_zero]
  · intro h
    have h11 := congrFun (congrFun h 1) 1
    simp [specQuaternionMatrix] at h11
    norm_num at h11

theorem sin_twoseventy : Real.sin (270 * Real.pi / 180) = -1 := by
  rw [show (270 * Real.pi / 180 : ℝ) = Real.pi / 2 + Real.pi by ring, Real.sin_add_pi,
    Real.sin_pi_div_two]

/-- C6 (the code at the failing input): `set_rotation(MRC, {phi = 0,
theta = 90, omega = 0})` on a fresh transform followed by `get_rotation(MRC)`
returns `phi = 0`, `theta = 90` and `omega = -180`, which is not `0` modulo
360; feeding the returned triple back into `set_rotation(MRC, ·)` gives a
different block (entry `R02` is `-1` instead of `1`). -/
theorem mrc_round_trip_omega :
    ∃ r d r2, set_rotation (Libm.mk Real.cos Real.sin Real.arccos Real.arcsin
        (fun y x => Complex.arg ⟨x, y⟩) Real.sqrt Real.pi) new .MRC (mrcDict 0 90 0) = .ok r ∧
      get_rotation (Libm.mk Real.cos Real.sin Real.arccos Real.arcsin
        (fun y x => Complex.arg ⟨x, y⟩) Real.sqrt Real.pi) r .MRC = .ok d ∧
      d.get "phi" = 0 ∧ d.get "theta" = 90 ∧ d.get "omega" = -180 ∧
      (∀ n : Int, d.get "omega" - 0 ≠ 360 * (n : ℝ)) ∧
      set_rotation (Libm.mk Real.cos Real.sin Real.arccos Real.arcsin
        (fun y x => Complex.arg ⟨x, y⟩) Real.sqrt Real.pi) new .MRC
        (mrcDict (d.get "phi") (d.get "theta") (d.get "omega")) = .ok r2 ∧
      block3 r 0 2 = 1 ∧ block3 r2 0 2 = -1 := by
  have hc : |Real.cos (90 * Real.pi / 180)| ≤ 1 - 1 / 1000000 := by
    rw [cos_ninety]; norm_num
  have e1 : set_rotation (Libm.mk Real.cos Real.sin Real.arccos Real.arcsin
        (fun y x => Complex.arg ⟨x, y⟩) Real.sqrt Real.pi) new .MRC (mrcDict 0 90 0)
      = .ok (set_rotation_fill (Libm.mk Real.cos Real.sin Real.arccos Real.arcsin
        (fun y x => Complex.arg ⟨x, y⟩) Real.sqrt Real.pi) (emanLocals new 90 90 90)) := by
    rw [set_rotation_MRC_eq]
    norm_num
  have e2 : get_rotation (Libm.mk Real.cos Real.sin Real.arccos Real.arcsin
        (fun y x => Complex.arg ⟨x, y⟩) Real.sqrt Real.pi)
      (set_rotation_fill (Libm.mk Real.cos Real.sin Real.arccos Real.arcsin
        (fun y x => Complex.arg ⟨x, y⟩) Real.sqrt Real.pi) (emanLocals new 90 90 90)) .MRC
      = .ok (mrcDict 0 90 (-180)) := by
    rw [get_rotation_MRC_eq, get_rotation_eman_of_fill new 90 90 90 (by norm_num) (by norm_num)
      (by norm_num) hc]
    simp only [ERR_LIMIT]
    rw [if_neg (not_lt.2 hc), if_neg (not_lt.2 hc)]
    rw [show ((90 : ℝ) - 90 + 360) = 360 by norm_num, show ((90 : ℝ) + 90 + 360) = 540 by norm_num,
      fmod_of_floor 360 360 1 (by norm_num) (by norm_num) (by norm_num) (by norm_num),
      fmod_of_floor 540 360 1 (by norm_num) (by norm_num) (by norm_num) (by norm_num)]
    norm_num
  have e3 : set_rotation (Libm.mk Real.cos Real.sin Real.arccos Real.arcsin
        (fun y x => Complex.arg ⟨x, y⟩) Real.sqrt Real.pi) new .MRC (mrcDict 0 90 (-180))
      = .ok (set_rotation_fill (Libm.mk Real.cos Real.sin Real.arccos Real.arcsin
        (fun y x => Complex.arg ⟨x, y⟩) Real.sqrt Real.pi) (emanLocals new 90 90 270)) := by
    rw [set_rotation_MRC_eq]
    norm_num
  refine ⟨_, _, _, e1, e2, rfl, rfl, rfl, ?_, e3, ?_, ?_⟩
  · intro n h
    have h2 : (-180 : ℝ) - 0 = 360 * (n : ℝ) := h
    have h3 : ((2 * n + 1 : Int) : ℝ) = 0 := by push_cast; linarith
    have h4 : (2 * n + 1 : Int) = 0 := by exact_mod_cast h3
    omega
  · rw [fill_eman_block_real]
    simp [specEmanTable, deg2rad, sin_ninety]
  · rw [fill_eman_block_real]
    simp [specEmanTable, deg2rad, sin_ninety, sin_twoseventy]


/-! ### Symmetry elements -/

theorem new_entries {K : Type} [Field K] :
    (new : Transform3D K).matrix 0 3 = 0 ∧ (new : Transform3D K).matrix 1 3 = 0 ∧
    (new : Transform3D K).matrix 2 3 = 0 ∧ (new : Transform3D K).matrix 3 0 = 0 ∧
    (new : Transform3D K).matrix 3 1 = 0 ∧ (new : Transform3D K).matrix 3 2 = 0 ∧
    (new : Transform3D K).matrix 3 3 = 1 :=
  ⟨rfl, rfl, rfl, rfl, rfl, rfl, rfl⟩

theorem get_pretrans_new [Field K] : get_pretrans (new : Transform3D K) 0 = ⟨0, 0, 0⟩ := by
  rw [get_pretrans_zero]
  obtain ⟨h03, h13, h23, h30, h31, h32, -⟩ := @new_entries K _
  rw [h03, h13, h23, h30, h31, h32]
  simp

/-- The translation column and the last row that `set_rotation` leaves on a
fresh transform. -/
theorem fill_eman_new_border [LinearOrderedField K] [FloorRing K] (L : Libm K)
    (az alt phi : K) :
    (set_rotation_fill L (emanLocals new az alt phi)).matrix 0 3 = 0 ∧
    (set_rotation_fill L (emanLocals new az alt phi)).matrix 1 3 = 0 ∧
    (set_rotation_fill L (emanLocals new az alt phi)).matrix 2 3 = 0 ∧
    (set_rotation_fill L (emanLocals new az alt phi)).matrix 3 0 = 0 ∧
    (set_rotation_fill L (emanLocals new az alt phi)).matrix 3 1 = 0 ∧
    (set_rotation_fill L (emanLocals new az alt phi)).matrix 3 2 = 0 ∧
    (set_rotation_fill L (emanLocals new az alt phi)).matrix 3 3 = 1 := by
  have hp : get_pretrans (new : Transform3D K) 0 = ⟨0, 0, 0⟩ := get_pretrans_new
  have e0 : (set_rotation_fill L (emanLocals new az alt phi)).matrix 0 3
      = (get_posttrans (new : Transform3D K) 0).get 0
        + (set_rotation_fill L (emanLocals new az alt phi)).matrix 0 0
          * (get_pretrans (new : Transform3D K) 0).get 0
        + (set_rotation_fill L (emanLocals new az alt phi)).matrix 0 1
          * (get_pretrans (new : Transform3D K) 0).get 1
        + (set_rotation_fill L (emanLocals new az alt phi)).matrix 0 2
          * (get_pretrans (new : Transform3D K) 0).get 2 := rfl
  have e1 : (set_rotation_fill L (emanLocals new az alt phi)).matrix 1 3
      = (get_posttrans (new : Transform3D K) 0).get 1
        + (set_rotation_fill L (emanLocals new az alt phi)).matrix 1 0
          * (get_pretrans (new : Transform3D K) 0).get 0
        + (set_rotation_fill L (emanLocals new az alt phi)).matrix 1 1
          * (get_pretrans (new : Transform3D K) 0).get 1
        + (set_rotation_fill L (emanLocals new az alt phi)).matrix 1 2
          * (get_pretrans (new : Transform3D K) 0).get 2 := rfl
  have e2 : (set_rotation_fill L (emanLocals new az alt phi)).matrix 2 3
      = (get_posttrans (new : Transform3D K) 0).get 2
        + (set_rotation_fill L (emanLocals new az alt phi)).matrix 2 0
          * (get_pretrans (new : Transform3D K) 0).get 0
        + (set_rotation_fill L (emanLocals new az alt phi)).matrix 2 1
          * (get_pretrans (new : Transform3D K) 0).get 1
        + (set_rotation_fill L (emanLocals new az alt phi)).matrix 2 2
          * (get_pretrans (new : Transform3D K) 0).get 2 := rfl
  have hq : get_posttrans (new : Transform3D K) 0 = ⟨0, 0, 0⟩ := rfl
  refine ⟨?_, ?_, ?_, rfl, rfl, rfl, rfl⟩
  · rw [e0, hp, hq]; simp [Vec3f_get_0, Vec3f_get_1, Vec3f_get_2]
  · rw [e1, hp, hq]; simp [Vec3f_get_0, Vec3f_get_1, Vec3f_get_2]
  · rw [e2, hp, hq]; simp [Vec3f_get_0, Vec3f_get_1, Vec3f_get_2]

/-- A transform is determined by its block, its translation column and its
last row. -/
theorem ext_block {a b : Transform3D K} (hb : block3 a = block3 b)
    (h03 : a.matrix 0 3 = b.matrix 0 3) (h13 : a.matrix 1 3 = b.matrix 1 3)
    (h23 : a.matrix 2 3 = b.matrix 2 3) (h30 : a.matrix 3 0 = b.matrix 3 0)
    (h31 : a.matrix 3 1 = b.matrix 3 1) (h32 : a.matrix 3 2 = b.matrix 3 2)
    (h33 : a.matrix 3 3 = b.matrix 3 3) : a = b := by
  have e : ∀ i j : Fin 3, a.matrix (up i) (up j) = b.matrix (up i) (up j) :=
    fun i j => congrFun (congrFun hb i) j
  apply ext_entries
  simp only [idx4, List.forall_mem_cons, List.not_mem_nil, IsEmpty.forall_iff,
    implies_true, and_true]
  exact ⟨⟨e 0 0, e 0 1, e 0 2, h03⟩, ⟨e 1 0, e 1 1, e 1 2, h13⟩, ⟨e 2 0, e 2 1, e 2 2, h23⟩,
    ⟨h30, h31, h32, h33⟩⟩

theorem block3_new [Field K] : block3 (new : Transform3D K) = 1 := by
  rw [Matrix.one_fin_three]
  ext i j
  fin_cases i <;> fin_cases j <;> rfl

/-- Two `set_rotation` results on a fresh transform are equal when their blocks are. -/
theorem fill_eman_new_ext [LinearOrderedField K] [FloorRing K] (L : Libm K)
    (az alt phi az2 alt2 phi2 : K)
    (h : block3 (set_rotation_fill L (emanLocals new az alt phi))
      = block3 (set_rotation_fill L (emanLocals new az2 alt2 phi2))) :
    set_rotation_fill L (emanLocals new az alt phi)
      = set_rotation_fill L (emanLocals new az2 alt2 phi2) := by
  obtain ⟨a1, a2, a3, a4, a5, a6, a7⟩ := fill_eman_new_border L az alt phi
  obtain ⟨b1, b2, b3, b4, b5, b6, b7⟩ := fill_eman_new_border L az2 alt2 phi2
  apply ext_block h <;> simp only [a1, a2, a3, a4, a5, a6, a7, b1, b2, b3, b4, b5, b6, b7]

theorem specEmanTable_rotZ (az : ℝ) :
    specEmanTable (Libm.mk Real.cos Real.sin Real.arccos Real.arcsin
      (fun y x => Complex.arg ⟨x, y⟩) Real.sqrt Real.pi) az 0 0
    = specRz (Libm.mk Real.cos Real.sin Real.arccos Real.arcsin
      (fun y x => Complex.arg ⟨x, y⟩) Real.sqrt Real.pi) az := by
  simp [specEmanTable, specRz, deg2rad]

theorem fill_eman_new_zero :
    set_rotation_fill (Libm.mk Real.cos Real.sin Real.arccos Real.arcsin
      (fun y x => Complex.arg ⟨x, y⟩) Real.sqrt Real.pi) (emanLocals new 0 0 0) = new := by
  obtain ⟨a1, a2, a3, a4, a5, a6, a7⟩ := fill_eman_new_border (Libm.mk Real.cos Real.sin
    Real.arccos Real.arcsin (fun y x => Complex.arg ⟨x, y⟩) Real.sqrt Real.pi) 0 0 0
  obtain ⟨b1, b2, b3, b4, b5, b6, b7⟩ := @new_entries ℝ _
  apply ext_block
  · rw [fill_eman_block_real, specEmanTable_zero, block3_new]
  all_goals simp only [a1, a2, a3, a4, a5, a6, a7, b1, b2, b3, b4, b5, b6, b7]


/-- C11: for every `n ≥ 1` and every integer `k ≥ 0`, `CSym` with `nsym = n`
returns as `get_sym(k)` the matrix of `set_rotation((k mod n)·360/n, 0, 0)`,
whose block is the rotation about z by that angle; `get_sym(n)` equals
`get_sym(0)`, which is the identity; and for c4, `get_sym(1)` is the rotation
with EMAN angles `(90, 0, 0)`. -/
theorem CSym_get_sym_rotation :
    (∀ n k : Int, 1 ≤ n → 0 ≤ k →
      ∃ r, CSym.get_sym (Libm.mk Real.cos Real.sin Real.arccos Real.arcsin
      (fun y x => Complex.arg ⟨x, y⟩) Real.sqrt Real.pi) ⟨n⟩ k = .ok r ∧
        set_rotation_eman (Libm.mk Real.cos Real.sin Real.arccos Real.arcsin
      (fun y x => Complex.arg ⟨x, y⟩) Real.sqrt Real.pi) new
          (((k % n : Int) : ℝ) * 360 / (n : ℝ)) 0 0 = .ok r ∧
        block3 r = specRz (Libm.mk Real.cos Real.sin Real.arccos Real.arcsin
      (fun y x => Complex.arg ⟨x, y⟩) Real.sqrt Real.pi) (((k % n : Int) : ℝ) * 360 / (n : ℝ))) ∧
    (∀ n : Int, 1 ≤ n →
      CSym.get_sym (Libm.mk Real.cos Real.sin Real.arccos Real.arcsin
      (fun y x => Complex.arg ⟨x, y⟩) Real.sqrt Real.pi) ⟨n⟩ n = CSym.get_sym (Libm.mk Real.cos Real.sin Real.arccos Real.arcsin
      (fun y x => Complex.arg ⟨x, y⟩) Real.sqrt Real.pi) ⟨n⟩ 0 ∧
      CSym.get_sym (Libm.mk Real.cos Real.sin Real.arccos Real.arcsin
      (fun y x => Complex.arg ⟨x, y⟩) Real.sqrt Real.pi) ⟨n⟩ 0 = .ok new ∧
      is_identity (new : Transform3D ℝ) = true) ∧
    CSym.get_sym (Libm.mk Real.cos Real.sin Real.arccos Real.arcsin
      (fun y x => Complex.arg ⟨x, y⟩) Real.sqrt Real.pi) ⟨4⟩ 1 = set_rotation_eman (Libm.mk Real.cos Real.sin Real.arccos Real.arcsin
      (fun y x => Complex.arg ⟨x, y⟩) Real.sqrt Real.pi) new 90 0 0 := by
  refine ⟨?_, ?_, ?_⟩
  · intro n k hn hk
    have e : Int.tmod k n = k % n := Int.tmod_eq_emod hk (by omega)
    refine ⟨_, ?_, set_rotation_eman_eq _ _ _ _ _, ?_⟩
    · rw [CSym_get_sym_eq _ ⟨n⟩ k (by show (0 : Int) < n; omega), set_rotation_eman_eq]
      show Except.ok (set_rotation_fill _ (emanLocals new (((Int.tmod k n : Int) : ℝ) * 360 / (n : ℝ)) 0 0)) = _
      rw [e]
    · rw [fill_eman_block_real, specEmanTable_rotZ]
  · intro n hn
    have h0 : CSym.get_sym (Libm.mk Real.cos Real.sin Real.arccos Real.arcsin
      (fun y x => Complex.arg ⟨x, y⟩) Real.sqrt Real.pi) ⟨n⟩ 0 = .ok new := by
      rw [CSym_get_sym_eq _ ⟨n⟩ 0 (by show (0 : Int) < n; omega), set_rotation_eman_eq]
      show Except.ok (set_rotation_fill _ (emanLocals new (((Int.tmod 0 n : Int) : ℝ) * 360 / (n : ℝ)) 0 0)) = _
      rw [Int.zero_tmod]
      simp only [Int.cast_zero, zero_mul, zero_div]
      rw [fill_eman_new_zero]
    have hn' : CSym.get_sym (Libm.mk Real.cos Real.sin Real.arccos Real.arcsin
      (fun y x => Complex.arg ⟨x, y⟩) Real.sqrt Real.pi) ⟨n⟩ n = .ok new := by
      rw [CSym_get_sym_eq _ ⟨n⟩ n (by show (0 : Int) < n; omega), set_rotation_eman_eq]
      show Except.ok (set_rotation_fill _ (emanLocals new (((Int.tmod n n : Int) : ℝ) * 360 / (n : ℝ)) 0 0)) = _
      rw [Int.tmod_self]
      simp only [Int.cast_zero, zero_mul, zero_div]
      rw [fill_eman_new_zero]
    refine ⟨by rw [h0, hn'], h0, ?_⟩
    simp [is_identity, idx4, new_matrix]
  · rw [CSym_get_sym_eq _ ⟨4⟩ 1 (by decide)]
    show set_rotation_eman _ new (((Int.tmod 1 4 : Int) : ℝ) * 360 / ((4 : Int) : ℝ)) 0 0 = _
    have : (((Int.tmod 1 4 : Int) : ℝ) * 360 / ((4 : Int) : ℝ)) = 90 := by
      rw [show Int.tmod 1 4 = 1 by decide]
      norm_num
    rw [this]


theorem DSym_get_sym_low [LinearOrderedField K] [FloorRing K] (L : Libm K) (n k : Int)
    (hn : 1 ≤ n) (hk : k < n) :
    DSym.get_sym L ⟨n⟩ k = set_rotation_eman L new
      (((Int.tmod k (2 * n) : Int) : K) * 360 / ((n : Int) : K)) 0 0 := by
  unfold DSym.get_sym
  dsimp only
  have h2 : Int.tdiv (2 * n) 2 = n := Int.mul_tdiv_cancel_left n (by decide)
  rw [if_neg (by omega), h2, if_neg (by omega)]

theorem DSym_get_sym_high [LinearOrderedField K] [FloorRing K] (L : Libm K) (n k : Int)
    (hn : 1 ≤ n) (hk : n ≤ k) :
    DSym.get_sym L ⟨n⟩ k = set_rotation_eman L new
      (((Int.tmod k (2 * n) - n : Int) : K) * 360 / ((n : Int) : K)) 180 0 := by
  unfold DSym.get_sym
  dsimp only
  have h2 : Int.tdiv (2 * n) 2 = n := Int.mul_tdiv_cancel_left n (by decide)
  rw [if_neg (by omega), h2, if_pos (by omega)]

theorem cos_oneeighty : Real.cos (180 * Real.pi / 180) = -1 := by
  rw [show (180 * Real.pi / 180 : ℝ) = Real.pi by ring, Real.cos_pi]

theorem sin_oneeighty : Real.sin (180 * Real.pi / 180) = 0 := by
  rw [show (180 * Real.pi / 180 : ℝ) = Real.pi by ring, Real.sin_pi]

theorem specRz_zero :
    specRz (Libm.mk Real.cos Real.sin Real.arccos Real.arcsin
      (fun y x => Complex.arg ⟨x, y⟩) Real.sqrt Real.pi) 0 = 1 := by
  rw [Matrix.one_fin_three]
  simp [specRz, deg2rad]

theorem specEmanTable_flip (az : ℝ) :
    specEmanTable (Libm.mk Real.cos Real.sin Real.arccos Real.arcsin
      (fun y x => Complex.arg ⟨x, y⟩) Real.sqrt Real.pi) az 180 0 = specRx (Libm.mk Real.cos Real.sin Real.arccos Real.arcsin
      (fun y x => Complex.arg ⟨x, y⟩) Real.sqrt Real.pi) 180 * specRz (Libm.mk Real.cos Real.sin Real.arccos Real.arcsin
      (fun y x => Complex.arg ⟨x, y⟩) Real.sqrt Real.pi) az := by
  rw [specEmanTable_eq_product, specRz_zero, Matrix.one_mul]

/-- The block of the 180 degree flip about x. -/
theorem specEmanTable_flip_zero :
    specEmanTable (Libm.mk Real.cos Real.sin Real.arccos Real.arcsin
      (fun y x => Complex.arg ⟨x, y⟩) Real.sqrt Real.pi) 0 180 0 = !![1, 0, 0; 0, -1, 0; 0, 0, -1] := by
  simp [specEmanTable, deg2rad, cos_oneeighty, sin_oneeighty]

theorem specEmanTable_flip_full :
    specEmanTable (Libm.mk Real.cos Real.sin Real.arccos Real.arcsin
      (fun y x => Complex.arg ⟨x, y⟩) Real.sqrt Real.pi) (-360) 180 0 = !![1, 0, 0; 0, -1, 0; 0, 0, -1] := by
  have hc : Real.cos (-360 * Real.pi / 180) = 1 := by
    rw [show (-360 * Real.pi / 180 : ℝ) = -(2 * Real.pi) by ring, Real.cos_neg, Real.cos_two_pi]
  have hs : Real.sin (-360 * Real.pi / 180) = 0 := by
    rw [show (-360 * Real.pi / 180 : ℝ) = -(2 * Real.pi) by ring, Real.sin_neg, Real.sin_two_pi,
      neg_zero]
  simp only [specEmanTable, deg2rad, cos_oneeighty, sin_oneeighty, hc, hs]
  simp


/-- C12 (the code at the failing input): for `DSym` with `nsym = 3` (order 6),
`get_sym(6)` takes the branch `n >= nsym/2` and is `set_rotation(-360, 180, 0)`,
the flip `diag(1, -1, -1)`, whereas `get_sym(0)` is the identity: the two
differ. -/
theorem DSym_get_sym_order_d3 :
    ∃ r, DSym.get_sym (Libm.mk Real.cos Real.sin Real.arccos Real.arcsin
      (fun y x => Complex.arg ⟨x, y⟩) Real.sqrt Real.pi) ⟨3⟩ 6 = .ok r ∧
      DSym.get_sym (Libm.mk Real.cos Real.sin Real.arccos Real.arcsin
      (fun y x => Complex.arg ⟨x, y⟩) Real.sqrt Real.pi) ⟨3⟩ 0 = .ok new ∧
      block3 r = !![1, 0, 0; 0, -1, 0; 0, 0, -1] ∧
      block3 (new : Transform3D ℝ) = 1 ∧ r ≠ new := by
  have h6 : DSym.get_sym (Libm.mk Real.cos Real.sin Real.arccos Real.arcsin
      (fun y x => Complex.arg ⟨x, y⟩) Real.sqrt Real.pi) ⟨3⟩ 6 = .ok (set_rotation_fill (Libm.mk Real.cos Real.sin Real.arccos Real.arcsin
      (fun y x => Complex.arg ⟨x, y⟩) Real.sqrt Real.pi) (emanLocals new (-360) 180 0)) := by
    rw [DSym_get_sym_high _ 3 6 (by decide) (by decide), set_rotation_eman_eq]
    have : (((Int.tmod 6 (2 * 3) - 3 : Int) : ℝ) * 360 / ((3 : Int) : ℝ)) = -360 := by
      rw [show Int.tmod 6 (2 * 3) - 3 = -3 by decide]
      norm_num
    rw [this]
  have h0 : DSym.get_sym (Libm.mk Real.cos Real.sin Real.arccos Real.arcsin
      (fun y x => Complex.arg ⟨x, y⟩) Real.sqrt Real.pi) ⟨3⟩ 0 = .ok new := by
    rw [DSym_get_sym_low _ 3 0 (by decide) (by decide), set_rotation_eman_eq]
    have : (((Int.tmod 0 (2 * 3) : Int) : ℝ) * 360 / ((3 : Int) : ℝ)) = 0 := by
      rw [show Int.tmod 0 (2 * 3) = 0 by decide]
      norm_num
    rw [this, fill_eman_new_zero]
  have hb : block3 (set_rotation_fill (Libm.mk Real.cos Real.sin Real.arccos Real.arcsin
      (fun y x => Complex.arg ⟨x, y⟩) Real.sqrt Real.pi) (emanLocals new (-360) 180 0))
      = !![1, 0, 0; 0, -1, 0; 0, 0, -1] := by
    rw [fill_eman_block_real, specEmanTable_flip_full]
  refine ⟨_, h6, h0, hb, block3_new, ?_⟩
  intro h
  have h2 := congrArg block3 h
  rw [hb, block3_new, Matrix.one_fin_three] at h2
  have h3 := congrFun (congrFun h2 1) 1
  simp at h3
  norm_num at h3

theorem get_rotation_eman_south (t : Transform3D ℝ)
    (hs : get_scale (Libm.mk Real.cos Real.sin Real.arccos Real.arcsin
      (fun y x => Complex.arg ⟨x, y⟩) Real.sqrt Real.pi) t = 1)
    (hc : t.matrix 2 2 < -(1 - 1 / 1000000)) :
    get_rotation_eman (Libm.mk Real.cos Real.sin Real.arccos Real.arcsin
      (fun y x => Complex.arg ⟨x, y⟩) Real.sqrt Real.pi) t =
      ⟨fmod (0 + 180) 360 - 180, 180,
        fmod (360 - (180 / Real.pi) * Complex.arg ⟨t.matrix 0 0, t.matrix 0 1⟩ + 180) 360 - 180,
        t.matrix 2 2⟩ := by
  unfold get_rotation_eman
  simp only [hs, div_one, ERR_LIMIT]
  rw [if_neg (by simp only [gt_iff_lt, not_lt]; linarith), if_pos hc]

/-- C13: for every `n ≥ 1` and `0 ≤ k < n`, `DSym` with `nsym = n` returns as
`get_sym(k)` the z-rotation by `k·360/n` degrees and as `get_sym(n + k)` the
matrix `Rx(180°)·Rz(k·360/n)` of `set_rotation(k·360/n, 180, 0)`; for d3,
`get_rotation(EMAN)` of `get_sym(3)` is `(az, alt, phi) = (0, 180, 0)`. -/
theorem DSym_get_sym_elements :
    (∀ n k : Int, 1 ≤ n → 0 ≤ k → k < n →
      (∃ r, DSym.get_sym (Libm.mk Real.cos Real.sin Real.arccos Real.arcsin
      (fun y x => Complex.arg ⟨x, y⟩) Real.sqrt Real.pi) ⟨n⟩ k = .ok r ∧
        block3 r = specRz (Libm.mk Real.cos Real.sin Real.arccos Real.arcsin
      (fun y x => Complex.arg ⟨x, y⟩) Real.sqrt Real.pi) ((k : ℝ) * 360 / (n : ℝ))) ∧
      (∃ r, DSym.get_sym (Libm.mk Real.cos Real.sin Real.arccos Real.arcsin
      (fun y x => Complex.arg ⟨x, y⟩) Real.sqrt Real.pi) ⟨n⟩ (n + k) = .ok r ∧
        set_rotation_eman (Libm.mk Real.cos Real.sin Real.arccos Real.arcsin
      (fun y x => Complex.arg ⟨x, y⟩) Real.sqrt Real.pi) new ((k : ℝ) * 360 / (n : ℝ)) 180 0 = .ok r ∧
        block3 r = specRx (Libm.mk Real.cos Real.sin Real.arccos Real.arcsin
      (fun y x => Complex.arg ⟨x, y⟩) Real.sqrt Real.pi) 180 * specRz (Libm.mk Real.cos Real.sin Real.arccos Real.arcsin
      (fun y x => Complex.arg ⟨x, y⟩) Real.sqrt Real.pi) ((k : ℝ) * 360 / (n : ℝ)))) ∧
    (∃ r d, DSym.get_sym (Libm.mk Real.cos Real.sin Real.arccos Real.arcsin
      (fun y x => Complex.arg ⟨x, y⟩) Real.sqrt Real.pi) ⟨3⟩ 3 = .ok r ∧
      get_rotation (Libm.mk Real.cos Real.sin Real.arccos Real.arcsin
      (fun y x => Complex.arg ⟨x, y⟩) Real.sqrt Real.pi) r .EMAN = .ok d ∧
      d.get "az" = 0 ∧ d.get "alt" = 180 ∧ d.get "phi" = 0) := by
  constructor
  · intro n k hn hk0 hk
    constructor
    · have e : Int.tmod k (2 * n) = k := Int.tmod_eq_of_lt hk0 (by omega)
      refine ⟨set_rotation_fill (Libm.mk Real.cos Real.sin Real.arccos Real.arcsin
      (fun y x => Complex.arg ⟨x, y⟩) Real.sqrt Real.pi)
        (emanLocals new ((k : ℝ) * 360 / (n : ℝ)) 0 0), ?_, ?_⟩
      · rw [DSym_get_sym_low _ n k hn hk, e, set_rotation_eman_eq]
      · rw [fill_eman_block_real, specEmanTable_rotZ]
    · have e : Int.tmod (n + k) (2 * n) - n = k := by
        rw [Int.tmod_eq_of_lt (by omega) (by omega)]
        omega
      refine ⟨_, ?_, set_rotation_eman_eq _ _ _ _ _, ?_⟩
      · rw [DSym_get_sym_high _ n (n + k) hn (by omega), e, set_rotation_eman_eq]
      · rw [fill_eman_block_real, specEmanTable_flip]
  · have h3 : DSym.get_sym (Libm.mk Real.cos Real.sin Real.arccos Real.arcsin
      (fun y x => Complex.arg ⟨x, y⟩) Real.sqrt Real.pi) ⟨3⟩ 3 = .ok (set_rotation_fill (Libm.mk Real.cos Real.sin Real.arccos Real.arcsin
      (fun y x => Complex.arg ⟨x, y⟩) Real.sqrt Real.pi) (emanLocals new 0 180 0)) := by
      rw [DSym_get_sym_high _ 3 3 (by decide) (by decide), set_rotation_eman_eq]
      have : (((Int.tmod 3 (2 * 3) - 3 : Int) : ℝ) * 360 / ((3 : Int) : ℝ)) = 0 := by
        rw [show Int.tmod 3 (2 * 3) - 3 = 0 by decide]
        norm_num
      rw [this]
    have hb := fill_eman_block_real new 0 180 0
    rw [specEmanTable_flip_zero] at hb
    have e00 : (set_rotation_fill (Libm.mk Real.cos Real.sin Real.arccos Real.arcsin
      (fun y x => Complex.arg ⟨x, y⟩) Real.sqrt Real.pi) (emanLocals new 0 180 0)).matrix 0 0 = 1 :=
      congrFun (congrFun hb 0) 0
    have e01 : (set_rotation_fill (Libm.mk Real.cos Real.sin Real.arccos Real.arcsin
      (fun y x => Complex.arg ⟨x, y⟩) Real.sqrt Real.pi) (emanLocals new 0 180 0)).matrix 0 1 = 0 :=
      congrFun (congrFun hb 0) 1
    have e22 : (set_rotation_fill (Libm.mk Real.cos Real.sin Real.arccos Real.arcsin
      (fun y x => Complex.arg ⟨x, y⟩) Real.sqrt Real.pi) (emanLocals new 0 180 0)).matrix 2 2 = -1 :=
      congrFun (congrFun hb 2) 2
    have hg := get_rotation_eman_south _
      (get_scale_of_rotation _ (fill_eman_isRotation new 0 180 0)) (by rw [e22]; norm_num)
    rw [e00, e01, e22] at hg
    have harg : Complex.arg ⟨1, 0⟩ = 0 := by
      rw [show (⟨1, 0⟩ : ℂ) = 1 from rfl, Complex.arg_one]
    rw [harg, show ((0 : ℝ) + 180) = 180 by norm_num,
      show ((360 : ℝ) - 180 / Real.pi * 0 + 180) = 540 by norm_num,
      fmod_of_floor 180 360 0 (by norm_num) (by norm_num) (by norm_num) (by norm_num),
      fmod_of_floor 540 360 1 (by norm_num) (by norm_num) (by norm_num) (by norm_num)] at hg
    norm_num at hg
    refine ⟨_, _, h3, get_rotation_EMAN_eq _ _, ?_, ?_, ?_⟩
    · show (get_rotation_eman _ _).az = 0
      rw [hg]
    · show (get_rotation_eman _ _).alt = 180
      rw [hg]
    · show (get_rotation_eman _ _).phi = 0
      rw [hg]


/-- Witness for C11: element 5 of c4. -/
theorem CSym_get_sym_rotation_witness :
    ∃ r, CSym.get_sym (Libm.mk Real.cos Real.sin Real.arccos Real.arcsin
      (fun y x => Complex.arg ⟨x, y⟩) Real.sqrt Real.pi) ⟨4⟩ 5 = .ok r ∧
      set_rotation_eman (Libm.mk Real.cos Real.sin Real.arccos Real.arcsin
      (fun y x => Complex.arg ⟨x, y⟩) Real.sqrt Real.pi) new
        (((5 % 4 : Int) : ℝ) * 360 / ((4 : Int) : ℝ)) 0 0 = .ok r ∧
      block3 r = specRz (Libm.mk Real.cos Real.sin Real.arccos Real.arcsin
      (fun y x => Complex.arg ⟨x, y⟩) Real.sqrt Real.pi) (((5 % 4 : Int) : ℝ) * 360 / ((4 : Int) : ℝ)) :=
  CSym_get_sym_rotation.1 4 5 (by decide) (by decide)

/-- Witness for C13: elements 2 and 5 of d3. -/
theorem DSym_get_sym_elements_witness :
    (∃ r, DSym.get_sym (Libm.mk Real.cos Real.sin Real.arccos Real.arcsin
      (fun y x => Complex.arg ⟨x, y⟩) Real.sqrt Real.pi) ⟨3⟩ 2 = .ok r ∧
      block3 r = specRz (Libm.mk Real.cos Real.sin Real.arccos Real.arcsin
      (fun y x => Complex.arg ⟨x, y⟩) Real.sqrt Real.pi) (((2 : Int) : ℝ) * 360 / ((3 : Int) : ℝ))) ∧
    (∃ r, DSym.get_sym (Libm.mk Real.cos Real.sin Real.arccos Real.arcsin
      (fun y x => Complex.arg ⟨x, y⟩) Real.sqrt Real.pi) ⟨3⟩ (3 + 2) = .ok r ∧
      set_rotation_eman (Libm.mk Real.cos Real.sin Real.arccos Real.arcsin
      (fun y x => Complex.arg ⟨x, y⟩) Real.sqrt Real.pi) new (((2 : Int) : ℝ) * 360 / ((3 : Int) : ℝ)) 180 0 = .ok r ∧
      block3 r = specRx (Libm.mk Real.cos Real.sin Real.arccos Real.arcsin
      (fun y x => Complex.arg ⟨x, y⟩) Real.sqrt Real.pi) 180 * specRz (Libm.mk Real.cos Real.sin Real.arccos Real.arcsin
      (fun y x => Complex.arg ⟨x, y⟩) Real.sqrt Real.pi) (((2 : Int) : ℝ) * 360 / ((3 : Int) : ℝ))) :=
  DSym_get_sym_elements.1 3 2 (by decide) (by decide) (by decide)

end Transform3D

/-! ### Symmetry names and asymmetric units -/

theorem digitChar_isDigit (d : Fin 10) : (digitChar d).isDigit = true := by
  fin_cases d <;> rfl

theorem digitChar_value (d : Fin 10) : (((digitChar d).toNat - 48 : Nat) : Int) = (d.val : Int) := by
  fin_cases d <;> rfl

theorem digitChar_not_alpha (d : Fin 10) : (digitChar d).isAlpha = false := by
  fin_cases d <;> rfl

theorem digitChar_not_space (d : Fin 10) : (digitChar d).isWhitespace = false := by
  fin_cases d <;> rfl

theorem digitChar_ne_sign (d : Fin 10) : digitChar d ≠ '-' ∧ digitChar d ≠ '+' := by
  fin_cases d <;> exact ⟨by decide, by decide⟩

theorem atoiDigits_digits (ds : List (Fin 10)) (acc : Int) :
    atoiDigits (ds.map digitChar) acc = ds.foldl (fun a d => 10 * a + (d.val : Int)) acc := by
  induction ds generalizing acc with
  | nil => rfl
  | cons d ds ih =>
    simp only [List.map_cons, atoiDigits, digitChar_isDigit, if_true, List.foldl_cons]
    rw [ih, digitChar_value]

theorem atoi_digits (ds : List (Fin 10)) :
    atoi (ds.map digitChar) = wrapInt (decimalValue ds) := by
  cases ds with
  | nil => rfl
  | cons d ds =>
    unfold atoi
    simp only [List.map_cons]
    rw [List.dropWhile_cons_of_neg (by simp [digitChar_not_space])]
    simp only [(digitChar_ne_sign d).1, (digitChar_ne_sign d).2, if_false]
    rw [← List.map_cons, atoiDigits_digits]
    rfl

theorem wrapInt_of_range (x : Int) (h0 : -2147483648 ≤ x) (h1 : x ≤ 2147483647) :
    wrapInt x = x := by
  unfold wrapInt
  omega

theorem decimalValue_nonneg_aux (ds : List (Fin 10)) (acc : Int) (h : 0 ≤ acc) :
    0 ≤ ds.foldl (fun a d => 10 * a + (d.val : Int)) acc := by
  induction ds generalizing acc with
  | nil => exact h
  | cons d ds ih =>
    simp only [List.foldl_cons]
    apply ih
    have := d.val.zero_le
    omega

theorem decimalValue_nonneg (ds : List (Fin 10)) : 0 ≤ decimalValue ds :=
  decimalValue_nonneg_aux ds 0 le_rfl

theorem lower_digits (ds : List (Fin 10)) :
    (ds.map digitChar).map (fun c => if c.isAlpha then c.toLower else c) = ds.map digitChar := by
  induction ds with
  | nil => rfl
  | cons d ds ih =>
    simp only [List.map_cons, digitChar_not_alpha]
    rw [ih]
    simp


theorem isUpper_iff (c : Char) : c.isUpper = true ↔ 65 ≤ c.toNat ∧ c.toNat ≤ 90 := by
  simp only [Char.isUpper, Bool.and_eq_true, decide_eq_true_eq, Char.toNat, ge_iff_le]
  constructor
  · rintro ⟨h1, h2⟩
    exact ⟨h1, h2⟩
  · rintro ⟨h1, h2⟩
    exact ⟨h1, h2⟩

theorem toLower_of_not_upper (c : Char) (h : c.isUpper = false) : c.toLower = c := by
  have h2 : ¬ (65 ≤ c.toNat ∧ c.toNat ≤ 90) := by
    rw [← isUpper_iff, h]; simp
  unfold Char.toLower
  simp only [ge_iff_le, h2, if_false]

theorem toLower_upper (c : Char) (h : c.isUpper = true) :
    c.toLower.isUpper = false ∧ c.toLower.isLower = true := by
  have h2 := (isUpper_iff c).1 h
  have hc : c = Char.ofNat c.toNat := (Char.ofNat_toNat c).symm
  generalize c.toNat = n at h2 hc
  subst hc
  obtain ⟨h3, h4⟩ := h2
  interval_cases n <;> exact ⟨rfl, rfl⟩

theorem lower_idem (c : Char) :
    (if (if c.isAlpha then c.toLower else c).isAlpha then (if c.isAlpha then c.toLower else c).toLower
      else (if c.isAlpha then c.toLower else c)) = (if c.isAlpha then c.toLower else c) := by
  cases hU : c.isUpper
  · rw [toLower_of_not_upper c hU]
    simp only [ite_self]
    rw [toLower_of_not_upper c hU]
    simp
  · obtain ⟨h1, h2⟩ := toLower_upper c hU
    have hA : c.isAlpha = true := by simp [Char.isAlpha, hU]
    simp only [hA, if_true]
    rw [toLower_of_not_upper _ h1]
    simp

/-- What `get_nsym` computes on a cache that misses `name`. -/
theorem get_nsym_miss (m : SymmetryMap) (name : String) (h : m name = none) :
    get_nsym m name =
      (match nsymOfType (get_sym_type (lowerName name)) (lowerName name) name with
        | .ok nsym => .ok (nsym, m.insert (lowerName name) nsym)
        | .error e => .error e) := by
  unfold get_nsym
  simp only [h]

/-- On a sound cache `get_nsym` returns the value it computes on the empty cache. -/
theorem get_nsym_of_cold (m : SymmetryMap) (hm : CacheSound m) (name : String) (v : Int)
    (m0 : SymmetryMap) (hcold : get_nsym (fun _ => none) name = .ok (v, m0)) :
    ∃ m2, get_nsym m name = .ok (v, m2) := by
  cases h : m name with
  | some w =>
    obtain ⟨m3, h3⟩ := hm name w h
    rw [hcold] at h3
    cases h3
    exact ⟨m, by unfold get_nsym; simp only [h]⟩
  | none =>
    rw [get_nsym_miss m name h]
    rw [get_nsym_miss (fun _ => none) name rfl] at hcold
    revert hcold
    generalize nsymOfType (get_sym_type (lowerName name)) (lowerName name) name = r
    intro hcold
    cases r with
    | error e => cases hcold
    | ok nsym =>
      simp only [Except.ok.injEq, Prod.mk.injEq] at hcold
      exact ⟨_, by rw [hcold.1]⟩

theorem lowerName_symName (c : Char) (hc : (if c.isAlpha then c.toLower else c) = c)
    (ds : List (Fin 10)) : lowerName (symName c ds) = symName c ds := by
  show String.mk ((c :: (ds.map digitChar)).map _) = _
  rw [List.map_cons, lower_digits, hc]
  rfl

theorem get_nsym_cold_c (ds : List (Fin 10)) :
    ∃ m0, get_nsym (fun _ => none) (symName 'c' ds) = .ok (wrapInt (decimalValue ds), m0) := by
  rw [get_nsym_miss _ _ rfl]
  rw [lowerName_symName 'c' rfl ds]
  have t : get_sym_type (symName 'c' ds) = .CSYM := rfl
  rw [t]
  have a : atoi ((symName 'c' ds).data.drop 1) = wrapInt (decimalValue ds) := atoi_digits ds
  simp only [nsymOfType, a]
  exact ⟨_, rfl⟩

theorem get_nsym_cold_d (ds : List (Fin 10)) :
    ∃ m0, get_nsym (fun _ => none) (symName 'd' ds)
      = .ok (wrapInt (wrapInt (decimalValue ds) * 2), m0) := by
  rw [get_nsym_miss _ _ rfl]
  rw [lowerName_symName 'd' rfl ds]
  have t : get_sym_type (symName 'd' ds) = .DSYM := rfl
  rw [t]
  have a : atoi ((symName 'd' ds).data.drop 1) = wrapInt (decimalValue ds) := atoi_digits ds
  simp only [nsymOfType, a]
  exact ⟨_, rfl⟩

/-- C14: on every sound cache (in particular the empty one),
`Transform3D::get_nsym` returns the group order of a symmetry name: `n` for
`c<n>` and `2n` for `d<n>`, for every `n ≥ 1` written as a string of decimal
digits whose order fits the C `int`, 12 for `tet`, 24 for `oct`, 60 for `icos`
and 1 for the bare name `i`. -/
theorem get_nsym_order (m : SymmetryMap) (hm : CacheSound m) :
    (∀ ds : List (Fin 10), 1 ≤ decimalValue ds → decimalValue ds ≤ 2147483647 →
      ∃ m2, get_nsym m (symName 'c' ds) = .ok (decimalValue ds, m2)) ∧
    (∀ ds : List (Fin 10), 1 ≤ decimalValue ds → 2 * decimalValue ds ≤ 2147483647 →
      ∃ m2, get_nsym m (symName 'd' ds) = .ok (2 * decimalValue ds, m2)) ∧
    (∃ m2, get_nsym m "tet" = .ok (12, m2)) ∧
    (∃ m2, get_nsym m "oct" = .ok (24, m2)) ∧
    (∃ m2, get_nsym m "icos" = .ok (60, m2)) ∧
    (∃ m2, get_nsym m "i" = .ok (1, m2)) := by
  refine ⟨?_, ?_, ?_, ?_, ?_, ?_⟩
  · intro ds h1 h2
    obtain ⟨m0, h0⟩ := get_nsym_cold_c ds
    rw [wrapInt_of_range _ (by omega) h2] at h0
    exact get_nsym_of_cold m hm _ _ m0 h0
  · intro ds h1 h2
    obtain ⟨m0, h0⟩ := get_nsym_cold_d ds
    rw [wrapInt_of_range (decimalValue ds) (by omega) (by omega),
      wrapInt_of_range _ (by omega) (by omega), mul_comm] at h0
    exact get_nsym_of_cold m hm _ _ m0 h0
  · exact get_nsym_of_cold m hm "tet" 12 _ rfl
  · exact get_nsym_of_cold m hm "oct" 24 _ rfl
  · exact get_nsym_of_cold m hm "icos" 60 _ rfl
  · exact get_nsym_of_cold m hm "i" 1 _ rfl


theorem lowerName_idem (name : String) : lowerName (lowerName name) = lowerName name := by
  unfold lowerName
  simp only [List.map_map]
  congr 1
  apply List.map_congr_left
  intro c _
  exact lower_idem c

theorem nsymOfType_ok (t : SymType) (s n1 n2 : String) (v : Int)
    (h : nsymOfType t s n1 = .ok v) : nsymOfType t s n2 = .ok v := by
  cases t <;> first
    | exact h
    | cases h

theorem cacheSound_empty : CacheSound (fun _ => none) := by
  intro key v h
  cases h

/-- A call of `get_nsym` keeps the cache sound. -/
theorem get_nsym_preserves (m : SymmetryMap) (hm : CacheSound m) (name : String) (v : Int)
    (m2 : SymmetryMap) (h : get_nsym m name = .ok (v, m2)) : CacheSound m2 := by
  cases hn : m name with
  | some w =>
    have : get_nsym m name = .ok (w, m) := by unfold get_nsym; simp only [hn]
    rw [this] at h
    cases h
    exact hm
  | none =>
    rw [get_nsym_miss m name hn] at h
    cases hr : nsymOfType (get_sym_type (lowerName name)) (lowerName name) name with
    | error e => rw [hr] at h; cases h
    | ok nsym =>
      rw [hr] at h
      simp only [Except.ok.injEq, Prod.mk.injEq] at h
      obtain ⟨h1, h2⟩ := h
      subst h1 h2
      intro key u hk
      unfold SymmetryMap.insert at hk
      by_cases e : key = lowerName name
      · rw [if_pos e] at hk
        cases hk
        refine ⟨SymmetryMap.insert (fun _ => none) (lowerName name) nsym, ?_⟩
        rw [e, get_nsym_miss _ _ rfl, lowerName_idem,
          nsymOfType_ok _ _ name (lowerName name) _ hr]
      · rw [if_neg e] at hk
        exact hm key u hk

/-- Witness for C14: the name `c12` on the empty cache. -/
theorem get_nsym_order_witness :
    CacheSound (fun _ => none) ∧
      (1 : Int) ≤ decimalValue [1, 2] ∧ decimalValue [1, 2] ≤ 2147483647 ∧
      ∃ m2, get_nsym (fun _ => none) (symName 'c' [1, 2]) = .ok (decimalValue [1, 2], m2) :=
  ⟨cacheSound_empty, by decide, by decide,
    (get_nsym_order (fun _ => none) cacheSound_empty).1 [1, 2] (by decide) (by decide)⟩

theorem CSym_is_in_asym_unit_eq {K : Type} [LinearOrderedField K] (n : Int) (hn : 2 ≤ n)
    (alt az : K) (inc_mirror : Bool) :
    CSym.is_in_asym_unit ⟨n⟩ alt az inc_mirror
      = .ok (decide (0 ≤ az ∧ alt ≤ (if inc_mirror then 180 else 90) ∧ az ≤ 360 / (n : K))) := by
  have hd : @CSym.get_delimiters K _ ⟨n⟩ inc_mirror
      = .ok ((if inc_mirror then (Dict.empty : Dict K).put "alt_max" 180
          else (Dict.empty : Dict K).put "alt_max" 90).put "az_max" (360 / (n : K))) := by
    unfold CSym.get_delimiters
    dsimp only
    rw [if_neg (by omega)]
  unfold CSym.is_in_asym_unit
  rw [hd]
  have e1 : (((if inc_mirror then (Dict.empty : Dict K).put "alt_max" 180
          else (Dict.empty : Dict K).put "alt_max" 90).put "az_max" (360 / (n : K))).get "alt_max")
      = (if inc_mirror then 180 else 90) := by
    cases inc_mirror <;> rfl
  have e2 : (((if inc_mirror then (Dict.empty : Dict K).put "alt_max" 180
          else (Dict.empty : Dict K).put "alt_max" 90).put "az_max" (360 / (n : K))).get "az_max")
      = 360 / (n : K) := rfl
  simp only [e1, e2]
  have hn1 : n ≠ 1 := by omega
  by_cases haz : az < 0
  · rw [if_pos ⟨hn1, haz⟩]
    simp [not_le.2 haz]
  · rw [if_neg (by simp [haz])]
    have haz2 : 0 ≤ az := not_lt.1 haz
    by_cases hb : alt ≤ (if inc_mirror then 180 else 90) ∧ az ≤ 360 / (n : K)
    · rw [if_pos hb]
      simp [haz2, hb.1, hb.2]
    · rw [if_neg hb]
      simp only [haz2, true_and]
      simp [hb]

/-- C15 (the code at the failing input): `CSym::is_in_asym_unit` never tests
`altitude >= 0`; for `nsym = 2`, `altitude = -10`, `azimuth = 0` and
`inc_mirror = false` it returns true although the altitude is below 0. -/
theorem CSym_is_in_asym_unit_negative_alt :
    CSym.is_in_asym_unit ⟨2⟩ (-10 : ℝ) 0 false = .ok true ∧
      ¬ ((0 : ℝ) ≤ -10 ∧ (-10 : ℝ) ≤ 90 ∧ (0 : ℝ) ≤ 0 ∧ (0 : ℝ) ≤ 360 / 2) := by
  constructor
  · rw [CSym_is_in_asym_unit_eq 2 (by decide)]
    norm_num
  · norm_num


/-! ### The asymmetric unit of the platonic groups -/

namespace PlatonicSym

variable {K : Type}

theorem platonic_alt_lower_bound_eq_specB [Field K] (L : Libm K) (E : LibmExt K)
    (kind : PlatonicKind) (az alpha : K) :
    platonic_alt_lower_bound L E kind az alpha = specB L E kind az alpha := by
  show E.atan (1 / ((_ + _) * (1 / _))) = E.atan (1 / ((_ + _) / _))
  rw [mul_one_div]
  rfl

/-- What `PlatonicSym::is_in_asym_unit` computes inside the box when the mirror
is included. -/
theorem is_in_asym_unit_mirror [LinearOrderedField K] (L : Libm K) (E : LibmExt K)
    (kind : PlatonicKind) (altitude azimuth : K)
    (hbox : altitude ≥ 0 ∧ altitude ≤ (get_delimiters L E kind true).get "alt_max" ∧
      azimuth ≤ (get_delimiters L E kind true).get "az_max" ∧ azimuth ≥ 0) :
    is_in_asym_unit L E kind altitude azimuth true =
      decide (platonic_alt_lower_bound L E kind
        (if EMConsts_deg2rad L * azimuth > (init L E kind).get "az_max" / 2
          then (init L E kind).get "az_max" - EMConsts_deg2rad L * azimuth
          else EMConsts_deg2rad L * azimuth)
        ((init L E kind).get "alt_max") > EMConsts_deg2rad L * altitude) := by
  unfold is_in_asym_unit
  simp only [if_pos hbox]
  by_cases h : platonic_alt_lower_bound L E kind
        (if EMConsts_deg2rad L * azimuth > (init L E kind).get "az_max" / 2
          then (init L E kind).get "az_max" - EMConsts_deg2rad L * azimuth
          else EMConsts_deg2rad L * azimuth)
        ((init L E kind).get "alt_max") > EMConsts_deg2rad L * altitude
  · rw [if_pos h]
    simp [h]
  · rw [if_neg h]
    simp [h]

theorem init_az_max [Field K] (L : Libm K) (E : LibmExt K) (kind : PlatonicKind) :
    (init L E kind).get "az_max" = 2 * L.M_PI / ((kind.get_max_csym : Int) : K) := rfl

theorem fold_eq_min [LinearOrderedField K] (a c : K) :
    (if a > c / 2 then c - a else a) = min a (c - a) := by
  by_cases h : a > c / 2
  · rw [if_pos h, min_eq_right]
    linarith
  · rw [if_neg h, min_eq_left]
    have := not_lt.1 h
    linarith

theorem is_in_asym_unit_iff_lt [LinearOrderedField K] (L : Libm K) (E : LibmExt K)
    (kind : PlatonicKind) (alt az : K)
    (halt : 0 ≤ alt ∧ alt ≤ (get_delimiters L E kind true).get "alt_max")
    (haz : 0 ≤ az ∧ az ≤ (get_delimiters L E kind true).get "az_max") :
    is_in_asym_unit L E kind alt az true = true ↔
      EMConsts_deg2rad L * alt <
        specB L E kind
          (min (EMConsts_deg2rad L * az)
            (2 * L.M_PI / ((kind.get_max_csym : Int) : K) - EMConsts_deg2rad L * az))
          ((init L E kind).get "alt_max") := by
  rw [is_in_asym_unit_mirror L E kind alt az ⟨halt.1, halt.2, haz.2, haz.1⟩,
    platonic_alt_lower_bound_eq_specB, fold_eq_min, init_az_max]
  simp


theorem oct_cap_sig :
    (2 * Real.pi / (((PlatonicKind.OctahedralSym).get_max_csym : Int) : ℝ)) = Real.pi / 2 := by
  show 2 * Real.pi / ((4 : Int) : ℝ) = Real.pi / 2
  push_cast
  ring

theorem oct_box :
    (0 : ℝ) ≤ (get_delimiters (Libm.mk Real.cos Real.sin Real.arccos Real.arcsin
      (fun y x => Complex.arg ⟨x, y⟩) Real.sqrt Real.pi) (LibmExt.mk Real.tan Real.arctan) .OctahedralSym true).get "alt_max" ∧
    (0 : ℝ) ≤ (get_delimiters (Libm.mk Real.cos Real.sin Real.arccos Real.arcsin
      (fun y x => Complex.arg ⟨x, y⟩) Real.sqrt Real.pi) (LibmExt.mk Real.tan Real.arctan) .OctahedralSym true).get "az_max" := by
  have hpi := Real.pi_pos
  constructor
  · show (0 : ℝ) ≤ 180 / Real.pi * Real.arccos _
    exact mul_nonneg (by positivity) (Real.arccos_nonneg _)
  · show (0 : ℝ) ≤ 180 / Real.pi * (2 * Real.pi / ((4 : Int) : ℝ))
    push_cast
    positivity

theorem oct_specB_zero (alpha : ℝ) :
    specB (Libm.mk Real.cos Real.sin Real.arccos Real.arcsin
      (fun y x => Complex.arg ⟨x, y⟩) Real.sqrt Real.pi) (LibmExt.mk Real.tan Real.arctan) .OctahedralSym 0 alpha = Real.pi / 4 := by
  have hs : Real.sin (Real.pi / 4) ≠ 0 := by
    rw [Real.sin_pi_div_four]
    positivity
  show Real.arctan (1 / ((Real.sin (2 * Real.pi / ((4 : Int) : ℝ) / 2 - 0)
      / Real.tan (1 / 2 * Real.arccos (Real.cos (2 * Real.pi / ((4 : Int) : ℝ))
        / (1 - Real.cos (2 * Real.pi / ((4 : Int) : ℝ)))))
      + Real.sin 0 / Real.tan alpha) / Real.sin (2 * Real.pi / ((4 : Int) : ℝ) / 2))) = _
  have e1 : (2 * Real.pi / ((4 : Int) : ℝ)) = Real.pi / 2 := by push_cast; ring
  rw [e1, Real.cos_pi_div_two, show Real.pi / 2 / 2 - 0 = Real.pi / 4 by ring,
    show Real.pi / 2 / 2 = Real.pi / 4 by ring]
  simp only [zero_div, Real.arccos_zero, Real.sin_zero, add_zero]
  rw [show (1 / 2 * (Real.pi / 2) : ℝ) = Real.pi / 4 by ring, Real.tan_pi_div_four, div_one,
    div_self hs, div_one, Real.arctan_one]

/-- C16 (counterexample): for the octahedral group with `inc_mirror = true`,
the pole `(alt, az) = (0, 0)` lies inside the box and `is_in_asym_unit` is
true there, although `alt ≥ B(az')` fails: `B(0) = π/4 > 0`. -/
theorem oct_pole_in_asym_unit :
    ((0 : ℝ) ≤ 0 ∧ (0 : ℝ) ≤ (get_delimiters (Libm.mk Real.cos Real.sin Real.arccos Real.arcsin
      (fun y x => Complex.arg ⟨x, y⟩) Real.sqrt Real.pi) (LibmExt.mk Real.tan Real.arctan) .OctahedralSym true).get "alt_max") ∧
    ((0 : ℝ) ≤ 0 ∧ (0 : ℝ) ≤ (get_delimiters (Libm.mk Real.cos Real.sin Real.arccos Real.arcsin
      (fun y x => Complex.arg ⟨x, y⟩) Real.sqrt Real.pi) (LibmExt.mk Real.tan Real.arctan) .OctahedralSym true).get "az_max") ∧
    is_in_asym_unit (Libm.mk Real.cos Real.sin Real.arccos Real.arcsin
      (fun y x => Complex.arg ⟨x, y⟩) Real.sqrt Real.pi) (LibmExt.mk Real.tan Real.arctan) .OctahedralSym 0 0 true = true ∧
    ¬ (EMConsts_deg2rad (Libm.mk Real.cos Real.sin Real.arccos Real.arcsin
      (fun y x => Complex.arg ⟨x, y⟩) Real.sqrt Real.pi) * 0 ≥
        specB (Libm.mk Real.cos Real.sin Real.arccos Real.arcsin
      (fun y x => Complex.arg ⟨x, y⟩) Real.sqrt Real.pi) (LibmExt.mk Real.tan Real.arctan) .OctahedralSym
          (min (EMConsts_deg2rad (Libm.mk Real.cos Real.sin Real.arccos Real.arcsin
      (fun y x => Complex.arg ⟨x, y⟩) Real.sqrt Real.pi) * 0)
            (2 * Real.pi / (((PlatonicKind.OctahedralSym).get_max_csym : Int) : ℝ)
              - EMConsts_deg2rad (Libm.mk Real.cos Real.sin Real.arccos Real.arcsin
      (fun y x => Complex.arg ⟨x, y⟩) Real.sqrt Real.pi) * 0))
          ((init (Libm.mk Real.cos Real.sin Real.arccos Real.arcsin
      (fun y x => Complex.arg ⟨x, y⟩) Real.sqrt Real.pi) (LibmExt.mk Real.tan Real.arctan) .OctahedralSym).get "alt_max")) := by
  have hpi := Real.pi_pos
  have hB : specB (Libm.mk Real.cos Real.sin Real.arccos Real.arcsin
      (fun y x => Complex.arg ⟨x, y⟩) Real.sqrt Real.pi) (LibmExt.mk Real.tan Real.arctan) .OctahedralSym
          (min (EMConsts_deg2rad (Libm.mk Real.cos Real.sin Real.arccos Real.arcsin
      (fun y x => Complex.arg ⟨x, y⟩) Real.sqrt Real.pi) * 0)
            (2 * Real.pi / (((PlatonicKind.OctahedralSym).get_max_csym : Int) : ℝ)
              - EMConsts_deg2rad (Libm.mk Real.cos Real.sin Real.arccos Real.arcsin
      (fun y x => Complex.arg ⟨x, y⟩) Real.sqrt Real.pi) * 0))
          ((init (Libm.mk Real.cos Real.sin Real.arccos Real.arcsin
      (fun y x => Complex.arg ⟨x, y⟩) Real.sqrt Real.pi) (LibmExt.mk Real.tan Real.arctan) .OctahedralSym).get "alt_max") = Real.pi / 4 := by
    rw [oct_cap_sig, mul_zero, sub_zero, min_eq_left (by positivity), oct_specB_zero]
  refine ⟨⟨le_rfl, oct_box.1⟩, ⟨le_rfl, oct_box.2⟩, ?_, ?_⟩
  · rw [is_in_asym_unit_iff_lt (Libm.mk Real.cos Real.sin Real.arccos Real.arcsin
      (fun y x => Complex.arg ⟨x, y⟩) Real.sqrt Real.pi) (LibmExt.mk Real.tan Real.arctan) .OctahedralSym 0 0 ⟨le_rfl, oct_box.1⟩
      ⟨le_rfl, oct_box.2⟩]
    show EMConsts_deg2rad (Libm.mk Real.cos Real.sin Real.arccos Real.arcsin
      (fun y x => Complex.arg ⟨x, y⟩) Real.sqrt Real.pi) * 0 < specB (Libm.mk Real.cos Real.sin Real.arccos Real.arcsin
      (fun y x => Complex.arg ⟨x, y⟩) Real.sqrt Real.pi) (LibmExt.mk Real.tan Real.arctan) .OctahedralSym
          (min (EMConsts_deg2rad (Libm.mk Real.cos Real.sin Real.arccos Real.arcsin
      (fun y x => Complex.arg ⟨x, y⟩) Real.sqrt Real.pi) * 0)
            (2 * Real.pi / (((PlatonicKind.OctahedralSym).get_max_csym : Int) : ℝ)
              - EMConsts_deg2rad (Libm.mk Real.cos Real.sin Real.arccos Real.arcsin
      (fun y x => Complex.arg ⟨x, y⟩) Real.sqrt Real.pi) * 0))
          ((init (Libm.mk Real.cos Real.sin Real.arccos Real.arcsin
      (fun y x => Complex.arg ⟨x, y⟩) Real.sqrt Real.pi) (LibmExt.mk Real.tan Real.arctan) .OctahedralSym).get "alt_max")
    rw [hB, mul_zero]
    positivity
  · rw [hB, mul_zero]
    intro h
    have : 0 < Real.pi / 4 := by positivity
    linarith


/-- C16 (amended): for `PlatonicSym::is_in_asym_unit`, the test of the
octahedral and icosahedral groups, with `inc_mirror = true` and every
`(alt, az)` inside the box `0 ≤ alt ≤ alt_max`, `0 ≤ az ≤ az_max`: the result
is true if and only if `alt` (in radians) is strictly below `B(az')`, where
`az' = min(az, Σ − az)` in radians, `Σ = 2π / max_csym` and `B` is the bound
of the specification, equal to `platonic_alt_lower_bound(az', alpha)`. -/
theorem is_in_asym_unit_iff_below [LinearOrderedField K] (L : Libm K) (E : LibmExt K)
    (kind : PlatonicKind) (alt az : K)
    (halt : 0 ≤ alt ∧ alt ≤ (get_delimiters L E kind true).get "alt_max")
    (haz : 0 ≤ az ∧ az ≤ (get_delimiters L E kind true).get "az_max") :
    (is_in_asym_unit L E kind alt az true = true ↔
      EMConsts_deg2rad L * alt <
        specB L E kind
          (min (EMConsts_deg2rad L * az)
            (2 * L.M_PI / ((kind.get_max_csym : Int) : K) - EMConsts_deg2rad L * az))
          ((init L E kind).get "alt_max")) ∧
    specB L E kind
      (min (EMConsts_deg2rad L * az)
        (2 * L.M_PI / ((kind.get_max_csym : Int) : K) - EMConsts_deg2rad L * az))
      ((init L E kind).get "alt_max")
      = platonic_alt_lower_bound L E kind
        (min (EMConsts_deg2rad L * az)
          (2 * L.M_PI / ((kind.get_max_csym : Int) : K) - EMConsts_deg2rad L * az))
        ((init L E kind).get "alt_max") :=
  ⟨is_in_asym_unit_iff_lt L E kind alt az halt haz,
    (platonic_alt_lower_bound_eq_specB L E kind _ _).symm⟩

/-- Witness for C16: the octahedral group at the pole `(alt, az) = (0, 0)`. -/
theorem is_in_asym_unit_iff_below_witness :
    ((0 : ℝ) ≤ 0 ∧ (0 : ℝ) ≤ (get_delimiters (Libm.mk Real.cos Real.sin Real.arccos Real.arcsin
      (fun y x => Complex.arg ⟨x, y⟩) Real.sqrt Real.pi) (LibmExt.mk Real.tan Real.arctan) .OctahedralSym true).get "alt_max") ∧
    ((0 : ℝ) ≤ 0 ∧ (0 : ℝ) ≤ (get_delimiters (Libm.mk Real.cos Real.sin Real.arccos Real.arcsin
      (fun y x => Complex.arg ⟨x, y⟩) Real.sqrt Real.pi) (LibmExt.mk Real.tan Real.arctan) .OctahedralSym true).get "az_max") ∧
    (is_in_asym_unit (Libm.mk Real.cos Real.sin Real.arccos Real.arcsin
      (fun y x => Complex.arg ⟨x, y⟩) Real.sqrt Real.pi) (LibmExt.mk Real.tan Real.arctan) .OctahedralSym 0 0 true = true ↔
      EMConsts_deg2rad (Libm.mk Real.cos Real.sin Real.arccos Real.arcsin
      (fun y x => Complex.arg ⟨x, y⟩) Real.sqrt Real.pi) * 0 <
        specB (Libm.mk Real.cos Real.sin Real.arccos Real.arcsin
      (fun y x => Complex.arg ⟨x, y⟩) Real.sqrt Real.pi) (LibmExt.mk Real.tan Real.arctan) .OctahedralSym
          (min (EMConsts_deg2rad (Libm.mk Real.cos Real.sin Real.arccos Real.arcsin
      (fun y x => Complex.arg ⟨x, y⟩) Real.sqrt Real.pi) * 0)
            (2 * Real.pi / (((PlatonicKind.OctahedralSym).get_max_csym : Int) : ℝ)
              - EMConsts_deg2rad (Libm.mk Real.cos Real.sin Real.arccos Real.arcsin
      (fun y x => Complex.arg ⟨x, y⟩) Real.sqrt Real.pi) * 0))
          ((init (Libm.mk Real.cos Real.sin Real.arccos Real.arcsin
      (fun y x => Complex.arg ⟨x, y⟩) Real.sqrt Real.pi) (LibmExt.mk Real.tan Real.arctan) .OctahedralSym).get "alt_max")) :=
  ⟨⟨le_rfl, oct_box.1⟩, ⟨le_rfl, oct_box.2⟩,
    (is_in_asym_unit_iff_below (Libm.mk Real.cos Real.sin Real.arccos Real.arcsin
      (fun y x => Complex.arg ⟨x, y⟩) Real.sqrt Real.pi) (LibmExt.mk Real.tan Real.arctan) .OctahedralSym 0 0 ⟨le_rfl, oct_box.1⟩
      ⟨le_rfl, oct_box.2⟩).1⟩

end PlatonicSym

/-! ### `Symmetry3D::reduce` -/

namespace Symmetry3D

variable {K : Type}

theorem transpose_matrix (t : Transform3D K) (i j : Fin 4) :
    (Transform3D.transpose t).matrix i j
      = if i = 3 ∨ j = 3 then t.matrix i j else t.matrix j i := by
  fin_cases i <;> fin_cases j <;> rfl

theorem CSym_one_triangles [LinearOrderedField K] [FloorRing K] (L : Libm K) :
    (CSym.toSymmetry3D L ⟨1⟩).get_asym_unit_triangles true = .ok [] := rfl

theorem reduce_loop_C1 [LinearOrderedField K] [FloorRing K] (L : Libm K) (p : Vec3f K) :
    reduce_loop (CSym.toSymmetry3D L ⟨1⟩) p
      (List.range (CSym.toSymmetry3D L ⟨1⟩).get_nsym.toNat) (-1) = .ok (-1) := by
  show reduce_loop (CSym.toSymmetry3D L ⟨1⟩) p [0] (-1) = .ok (-1)
  unfold reduce_loop
  rw [CSym_one_triangles]
  rfl

theorem reduce_eq_of_loop [LinearOrderedField K] [FloorRing K] (L : Libm K)
    (S : Symmetry3D K) (t3d : Transform3D K) (n : Int) (soln : Int)
    (h : reduce_loop S ((Transform3D.transpose t3d).mul_vec ⟨0, 0, 1⟩)
      (List.range S.get_nsym.toNat) (-1) = .ok soln) :
    reduce L S t3d n =
      if soln = -1 then .error .Terminate
      else
        match S.get_sym soln with
        | .error e => .error e
        | .ok nt =>
          if n ≠ 0 then
            match S.get_sym n with
            | .error e => .error e
            | .ok g => .ok (Transform3D.mul (Transform3D.mul t3d nt.transpose) g)
          else .ok (Transform3D.mul t3d nt.transpose) := by
  unfold reduce
  rw [Transform3D.get_rotation_EMAN_eq]
  simp only [bind, Except.bind, h]
  by_cases hs : soln = -1
  · rw [if_pos hs, if_pos hs]; rfl
  · rw [if_neg hs, if_neg hs]
    cases hg : S.get_sym soln with
    | error e => rfl
    | ok nt =>
      simp only [Transform3D.get_rotation_EMAN_eq]
      by_cases hn : n = 0
      · simp [hn, pure, Except.pure]
      · simp only [ne_eq, hn, not_false_eq_true, if_true]
        cases S.get_sym n <;> rfl

/-- C18 (the code at the failing inputs): for `CSym` with `nsym = 1`, whose
asymmetric unit with mirror is the whole sphere and whose triangle list is
empty, `Symmetry3D::reduce(t, n)` finds no solution and reaches the bare
`throw;` for every transform `t` and every `n`: it never returns a
transform. -/
theorem reduce_C1_terminates [LinearOrderedField K] [FloorRing K] (L : Libm K)
    (t : Transform3D K) (n : Int) :
    reduce L (CSym.toSymmetry3D L ⟨1⟩) t n = .error .Terminate := by
  rw [reduce_eq_of_loop L _ t n (-1) (reduce_loop_C1 L _)]
  rfl


/-- A triangle with the pole as its vertex `points[0]` is hit by the pole's
ray, when the plane of the triangle is not vertical. -/
theorem reduce_hit_pole [LinearOrderedField K] (b c : Vec3f K)
    (h : c.x * b.y - b.x * c.y ≠ 0) :
    reduce_hit (⟨0, 0, 1⟩ : Vec3f K) [⟨0, 0, 1⟩, b, c] = .ok true := by
  have hp2 : equation_of_plane (⟨0, 0, 1⟩ : Vec3f K) c b 2 = c.x * b.y - b.x * c.y := by
    show (0 : K) * (c.y - b.y) + c.x * (b.y - 0) + b.x * (0 - c.y) = _
    ring
  have hp3 : equation_of_plane (⟨0, 0, 1⟩ : Vec3f K) c b 3 = -(c.x * b.y - b.x * c.y) := by
    show -((0 : K) * (c.y * b.z - b.y * c.z) + c.x * (b.y * 1 - 0 * b.z)
      + b.x * (0 * c.z - c.y * 1)) = _
    ring
  have heqn : equation_of_plane (⟨0, 0, 1⟩ : Vec3f K) c b 0 * (0 : K)
      + equation_of_plane (⟨0, 0, 1⟩ : Vec3f K) c b 1 * 0
      + equation_of_plane (⟨0, 0, 1⟩ : Vec3f K) c b 2 * 1 = c.x * b.y - b.x * c.y := by
    rw [hp2]; ring
  have hE : (0 : K) < Transform3D.ERR_LIMIT := by
    show (0 : K) < 1 / 1000000
    norm_num
  have hE1 : ¬ ((1 : K) < Transform3D.ERR_LIMIT) := by
    show ¬ ((1 : K) < 1 / 1000000)
    norm_num
  have hg0 : (⟨0, 0, 1⟩ : Vec3f K).get 0 = 0 := rfl
  have hg1 : (⟨0, 0, 1⟩ : Vec3f K).get 1 = 0 := rfl
  have hg2 : (⟨0, 0, 1⟩ : Vec3f K).get 2 = 1 := rfl
  show (if equation_of_plane (⟨0, 0, 1⟩ : Vec3f K) c b 0 * (⟨0, 0, 1⟩ : Vec3f K).get 0
      + equation_of_plane (⟨0, 0, 1⟩ : Vec3f K) c b 1 * (⟨0, 0, 1⟩ : Vec3f K).get 1
      + equation_of_plane (⟨0, 0, 1⟩ : Vec3f K) c b 2 * (⟨0, 0, 1⟩ : Vec3f K).get 2 ≠ 0
      then _ else _) = _
  simp only [hg0, hg1, hg2, heqn, hp3, neg_neg, div_self h]
  rw [if_pos h, if_neg (by norm_num)]
  simp [Vec3f.scale, Vec3f.sub, Vec3f.dot, hE, hE1, pure, Except.pure]

theorem vec_mul_pole [Field K] (g : Transform3D K) :
    Transform3D.vec_mul (⟨0, 0, 1⟩ : Vec3f K) g = ⟨g.matrix 2 0, g.matrix 2 1, g.matrix 2 2⟩ := by
  simp [Transform3D.vec_mul, Vec3f.get]

/-- For a group index `i ≠ 0` whose element fixes the pole, the first triangle
`(v0, v3, v1)` of a cyclic group with mirror, once rotated, is hit by the pole. -/
theorem reduce_triangles_pole [LinearOrderedField K]
    (get_sym : Int → Except Fault (Transform3D K)) (i : Int) (hi : i ≠ 0)
    (g : Transform3D K) (hg : get_sym i = .ok g)
    (h20 : g.matrix 2 0 = 0) (h21 : g.matrix 2 1 = 0) (h22 : g.matrix 2 2 = 1)
    (hdet : g.matrix 0 0 * g.matrix 1 1 - g.matrix 1 0 * g.matrix 0 1 ≠ 0)
    (rest : List (List (Vec3f K))) :
    reduce_triangles get_sym ⟨0, 0, 1⟩ i
      ([⟨0, 0, 1⟩, ⟨1, 0, 0⟩, ⟨0, -1, 0⟩] :: rest) = .ok true := by
  have hrot : reduce_rotate get_sym i [(⟨0, 0, 1⟩ : Vec3f K), ⟨1, 0, 0⟩, ⟨0, -1, 0⟩]
      = .ok [⟨0, 0, 1⟩, Transform3D.vec_mul ⟨1, 0, 0⟩ g, Transform3D.vec_mul ⟨0, -1, 0⟩ g] := by
    simp only [reduce_rotate, hg, vec_mul_pole, h20, h21, h22]
  unfold reduce_triangles
  rw [if_pos hi, hrot]
  dsimp only
  rw [reduce_hit_pole]
  simp only [Transform3D.vec_mul, Vec3f.get]
  intro h
  apply hdet
  linear_combination h

theorem reduce_triangles_pole_zero [LinearOrderedField K]
    (get_sym : Int → Except Fault (Transform3D K)) (rest : List (List (Vec3f K))) :
    reduce_triangles get_sym ⟨0, 0, 1⟩ 0
      ([⟨0, 0, 1⟩, ⟨1, 0, 0⟩, ⟨0, -1, 0⟩] :: rest) = .ok true := by
  unfold reduce_triangles
  rw [if_neg (by simp)]
  dsimp only
  rw [reduce_hit_pole]
  norm_num


/-- The entries of the block of a rotation about z that `set_rotation` fills
in on a fresh transform. -/
theorem rotZ_entries (az : ℝ) :
    (Transform3D.set_rotation_fill (Libm.mk Real.cos Real.sin Real.arccos Real.arcsin
      (fun y x => Complex.arg ⟨x, y⟩) Real.sqrt Real.pi)
      (Transform3D.emanLocals Transform3D.new az 0 0)).matrix 2 0 = 0 ∧
    (Transform3D.set_rotation_fill (Libm.mk Real.cos Real.sin Real.arccos Real.arcsin
      (fun y x => Complex.arg ⟨x, y⟩) Real.sqrt Real.pi)
      (Transform3D.emanLocals Transform3D.new az 0 0)).matrix 2 1 = 0 ∧
    (Transform3D.set_rotation_fill (Libm.mk Real.cos Real.sin Real.arccos Real.arcsin
      (fun y x => Complex.arg ⟨x, y⟩) Real.sqrt Real.pi)
      (Transform3D.emanLocals Transform3D.new az 0 0)).matrix 2 2 = 1 ∧
    (Transform3D.set_rotation_fill (Libm.mk Real.cos Real.sin Real.arccos Real.arcsin
      (fun y x => Complex.arg ⟨x, y⟩) Real.sqrt Real.pi)
      (Transform3D.emanLocals Transform3D.new az 0 0)).matrix 0 0
        = Real.cos (az * Real.pi / 180) ∧
    (Transform3D.set_rotation_fill (Libm.mk Real.cos Real.sin Real.arccos Real.arcsin
      (fun y x => Complex.arg ⟨x, y⟩) Real.sqrt Real.pi)
      (Transform3D.emanLocals Transform3D.new az 0 0)).matrix 0 1
        = Real.sin (az * Real.pi / 180) ∧
    (Transform3D.set_rotation_fill (Libm.mk Real.cos Real.sin Real.arccos Real.arcsin
      (fun y x => Complex.arg ⟨x, y⟩) Real.sqrt Real.pi)
      (Transform3D.emanLocals Transform3D.new az 0 0)).matrix 1 0
        = -Real.sin (az * Real.pi / 180) ∧
    (Transform3D.set_rotation_fill (Libm.mk Real.cos Real.sin Real.arccos Real.arcsin
      (fun y x => Complex.arg ⟨x, y⟩) Real.sqrt Real.pi)
      (Transform3D.emanLocals Transform3D.new az 0 0)).matrix 1 1
        = Real.cos (az * Real.pi / 180) := by
  have h := Transform3D.fill_eman_block_real Transform3D.new az 0 0
  rw [Transform3D.specEmanTable_rotZ] at h
  have e : ∀ i j : Fin 3, (Transform3D.set_rotation_fill (Libm.mk Real.cos Real.sin
      Real.arccos Real.arcsin (fun y x => Complex.arg ⟨x, y⟩) Real.sqrt Real.pi)
      (Transform3D.emanLocals Transform3D.new az 0 0)).matrix (up i) (up j)
      = Transform3D.specRz (Libm.mk Real.cos Real.sin Real.arccos Real.arcsin
      (fun y x => Complex.arg ⟨x, y⟩) Real.sqrt Real.pi) az i j :=
    fun i j => congrFun (congrFun h i) j
  exact ⟨e 2 0, e 2 1, e 2 2, e 0 0, e 0 1, e 1 0, e 1 1⟩

theorem CSym_four_triangles :
    (CSym.toSymmetry3D (Libm.mk Real.cos Real.sin Real.arccos Real.arcsin
      (fun y x => Complex.arg ⟨x, y⟩) Real.sqrt Real.pi) ⟨4⟩).get_asym_unit_triangles true
      = .ok [[⟨0, 0, 1⟩, ⟨1, 0, 0⟩, ⟨0, -1, 0⟩], [⟨0, -1, 0⟩, ⟨1, 0, 0⟩, ⟨0, 0, -1⟩]] := by
  have ha : Real.pi / 180 * (360 / ((4 : Int) : ℝ)) = 90 * Real.pi / 180 := by
    push_cast; ring
  show Except.ok [[(⟨0, 0, 1⟩ : Vec3f ℝ),
      ⟨Real.sin (Real.pi / 180 * (360 / ((4 : Int) : ℝ))),
        -Real.cos (Real.pi / 180 * (360 / ((4 : Int) : ℝ))), 0⟩, ⟨0, -1, 0⟩],
    [⟨0, -1, 0⟩, ⟨Real.sin (Real.pi / 180 * (360 / ((4 : Int) : ℝ))),
        -Real.cos (Real.pi / 180 * (360 / ((4 : Int) : ℝ))), 0⟩, ⟨0, 0, -1⟩]] = _
  rw [ha, Transform3D.cos_ninety, Transform3D.sin_ninety, neg_zero]

/-- Every element of `c4` with a positive index passes the hit test of the
first triangle at the pole. -/
theorem reduce_triangles_c4 (i : Int) (hi : i ≠ 0) (rest : List (List (Vec3f ℝ))) :
    reduce_triangles (CSym.toSymmetry3D (Libm.mk Real.cos Real.sin Real.arccos Real.arcsin
      (fun y x => Complex.arg ⟨x, y⟩) Real.sqrt Real.pi) ⟨4⟩).get_sym ⟨0, 0, 1⟩ i
      ([⟨0, 0, 1⟩, ⟨1, 0, 0⟩, ⟨0, -1, 0⟩] :: rest) = .ok true := by
  obtain ⟨h20, h21, h22, h00, h01, h10, h11⟩ :=
    rotZ_entries (((Int.tmod i 4 : Int) : ℝ) * 360 / ((4 : Int) : ℝ))
  have hg : (CSym.toSymmetry3D (Libm.mk Real.cos Real.sin Real.arccos Real.arcsin
      (fun y x => Complex.arg ⟨x, y⟩) Real.sqrt Real.pi) ⟨4⟩).get_sym i
      = .ok (Transform3D.set_rotation_fill (Libm.mk Real.cos Real.sin Real.arccos Real.arcsin
      (fun y x => Complex.arg ⟨x, y⟩) Real.sqrt Real.pi)
      (Transform3D.emanLocals Transform3D.new
        (((Int.tmod i 4 : Int) : ℝ) * 360 / ((4 : Int) : ℝ)) 0 0)) :=
    (Transform3D.CSym_get_sym_eq _ ⟨4⟩ i (by decide)).trans
      (Transform3D.set_rotation_eman_eq _ _ _ _ _)
  refine reduce_triangles_pole _ i hi _ hg h20 h21 h22 ?_ rest
  rw [h00, h01, h10, h11]
  have := Transform3D.cos_sq_add_sin_sq_mul
    (((Int.tmod i 4 : Int) : ℝ) * 360 / ((4 : Int) : ℝ) * Real.pi / 180)
  intro h
  linarith

/-- The loop of `reduce` for `c4` at the pole ends with `soln = 3`: every group
index hits, and the last one is kept. -/
theorem reduce_loop_c4 :
    reduce_loop (CSym.toSymmetry3D (Libm.mk Real.cos Real.sin Real.arccos Real.arcsin
      (fun y x => Complex.arg ⟨x, y⟩) Real.sqrt Real.pi) ⟨4⟩) ⟨0, 0, 1⟩
      (List.range (CSym.toSymmetry3D (Libm.mk Real.cos Real.sin Real.arccos Real.arcsin
      (fun y x => Complex.arg ⟨x, y⟩) Real.sqrt Real.pi) ⟨4⟩).get_nsym.toNat) (-1) = .ok 3 := by
  show reduce_loop _ _ [0, 1, 2, 3] (-1) = _
  simp only [reduce_loop, CSym_four_triangles]
  rw [show ((0 : Nat) : Int) = 0 from rfl, reduce_triangles_pole_zero]
  dsimp only
  rw [reduce_triangles_c4 _ (by decide), reduce_triangles_c4 _ (by decide),
    reduce_triangles_c4 _ (by decide)]
  rfl


theorem pole_of_identity {K : Type} [Field K] :
    (Transform3D.transpose (Transform3D.new : Transform3D K)).mul_vec ⟨0, 0, 1⟩
      = ⟨0, 0, 1⟩ := by
  simp [Transform3D.mul_vec, transpose_matrix, Transform3D.new_matrix, Vec3f.get]

/-- C17 (the code at the failing input): for `CSym` with `nsym = 4`,
`reduce(identity, 0)` leaves its loop with `soln = 3`, the highest group index
whose triangle contains the pole, not the lowest, and returns
`identity · g_3ᵀ`, whose entry `(0, 1)` is `1`: the result is not the
identity. -/
theorem reduce_c4_identity :
    reduce_loop (CSym.toSymmetry3D (Libm.mk Real.cos Real.sin Real.arccos Real.arcsin
      (fun y x => Complex.arg ⟨x, y⟩) Real.sqrt Real.pi) ⟨4⟩)
      ((Transform3D.transpose (Transform3D.new : Transform3D ℝ)).mul_vec ⟨0, 0, 1⟩)
      (List.range (CSym.toSymmetry3D (Libm.mk Real.cos Real.sin Real.arccos Real.arcsin
      (fun y x => Complex.arg ⟨x, y⟩) Real.sqrt Real.pi) ⟨4⟩).get_nsym.toNat) (-1) = .ok 3 ∧
    ∃ T : Transform3D ℝ,
      reduce (Libm.mk Real.cos Real.sin Real.arccos Real.arcsin
        (fun y x => Complex.arg ⟨x, y⟩) Real.sqrt Real.pi)
        (CSym.toSymmetry3D (Libm.mk Real.cos Real.sin Real.arccos Real.arcsin
        (fun y x => Complex.arg ⟨x, y⟩) Real.sqrt Real.pi) ⟨4⟩) Transform3D.new 0 = .ok T ∧
      T.matrix 0 1 = 1 ∧ T ≠ Transform3D.new ∧ Transform3D.is_identity T = false := by
  have hl := reduce_loop_c4
  rw [← @pole_of_identity ℝ _] at hl
  have hg : (CSym.toSymmetry3D (Libm.mk Real.cos Real.sin Real.arccos Real.arcsin
      (fun y x => Complex.arg ⟨x, y⟩) Real.sqrt Real.pi) ⟨4⟩).get_sym 3
      = .ok (Transform3D.set_rotation_fill (Libm.mk Real.cos Real.sin Real.arccos Real.arcsin
      (fun y x => Complex.arg ⟨x, y⟩) Real.sqrt Real.pi)
      (Transform3D.emanLocals Transform3D.new
        (((Int.tmod 3 4 : Int) : ℝ) * 360 / ((4 : Int) : ℝ)) 0 0)) :=
    (Transform3D.CSym_get_sym_eq _ ⟨4⟩ 3 (by decide)).trans
      (Transform3D.set_rotation_eman_eq _ _ _ _ _)
  have haz : (((Int.tmod 3 4 : Int) : ℝ) * 360 / ((4 : Int) : ℝ)) = 270 := by
    rw [show Int.tmod 3 4 = 3 by decide]
    norm_num
  rw [haz] at hg
  obtain ⟨-, -, -, -, -, h10, -⟩ := rotZ_entries 270
  rw [Transform3D.sin_twoseventy, neg_neg] at h10
  have h01 : (Transform3D.mul (Transform3D.new : Transform3D ℝ)
      (Transform3D.transpose (Transform3D.set_rotation_fill (Libm.mk Real.cos Real.sin
        Real.arccos Real.arcsin (fun y x => Complex.arg ⟨x, y⟩) Real.sqrt Real.pi)
        (Transform3D.emanLocals Transform3D.new 270 0 0)))).matrix 0 1 = 1 := by
    rw [Transform3D.mul_matrix]
    simp [transpose_matrix, Transform3D.new_matrix, h10]
  refine ⟨hl, _, ?_, h01, ?_, ?_⟩
  · rw [reduce_eq_of_loop _ _ _ 0 3 hl, if_neg (by decide), hg]
    rfl
  · intro h
    rw [h, Transform3D.new_matrix] at h01
    norm_num at h01
  · unfold Transform3D.is_identity
    simp [idx4, h01]

end Symmetry3D


/-! ### The tally of a generator and the length of its result -/

/-- With `phitoo = 0`, `add_orientation` returns `true` and appends one
transform and one entry of the trace. -/
theorem add_orientation_phitoo_zero {K : Type} [LinearOrderedField K] [FloorRing K]
    (L : Libm K) (R : Rand K) (P : GenParams K) (hp : P.phitoo = 0) (fuel : Nat)
    (st : GenState K) (az alt : K) :
    ∃ st' : GenState K,
      OrientationGenerator.add_orientation L R P fuel st az alt = some (.ok (true, st')) ∧
      st'.v.length = st.v.length + 1 ∧ st'.calls = st.calls ++ [(az, alt)] := by
  unfold OrientationGenerator.add_orientation
  simp only [hp, lt_irrefl, if_false, Transform3D.set_rotation_eman_eq, ne_eq, not_true_eq_false]
  exact ⟨_, rfl, by simp only [List.length_append, List.length_singleton]; split <;> rfl,
    by split <;> rfl⟩

theorem gen_delta_of_delta {K : Type} [LinearOrderedField K] (S : OrientationSym K)
    (P : GenParams K) (tally : K → Option (Except Fault Int)) (fuel : Nat)
    (hd : 0 < P.delta) (hn : P.n ≤ 0) :
    OrientationGenerator.gen_delta S P tally fuel = some (.ok P.delta) := by
  unfold OrientationGenerator.gen_delta
  simp only [not_le.2 hd, false_and, if_false, not_lt.2 hn, and_false, gt_iff_lt]

theorem floatLoop_step {K σ : Type} [LinearOrderedField K] (max step : K)
    (body : K → σ → Option (Except Fault σ)) (fuel : Nat) (x : K) (s s' : σ)
    (hx : x ≤ max) (hb : body x s = some (.ok s')) :
    floatLoop max step body (fuel + 1) x s = floatLoop max step body fuel (x + step) s' := by
  rw [floatLoop, if_pos hx, hb]

theorem floatLoop_done {K σ : Type} [LinearOrderedField K] (max step : K)
    (body : K → σ → Option (Except Fault σ)) (fuel : Nat) (x : K) (s : σ) (h : max < x) :
    floatLoop max step body fuel x s = some (.ok s) := by
  cases fuel with
  | zero => unfold floatLoop; rw [if_neg (not_le.2 h)]
  | succ fuel => unfold floatLoop; rw [if_neg (not_le.2 h)]

theorem fmod_range {K : Type} [LinearOrderedField K] [FloorRing K] (x y : K)
    (hx : 0 ≤ x) (hy : 0 < y) : 0 ≤ fmod x y ∧ fmod x y < y := by
  unfold fmod
  rw [if_pos (div_nonneg hx hy.le)]
  have h1 : ((⌊x / y⌋ : Int) : K) ≤ x / y := Int.floor_le _
  have h2 : x / y < ((⌊x / y⌋ : Int) : K) + 1 := Int.lt_floor_add_one _
  rw [le_div_iff₀ hy] at h1
  rw [div_lt_iff₀ hy] at h2
  constructor <;> linarith

theorem floor_real_eq (x : ℝ) (z : Int) (h1 : (z : ℝ) ≤ x) (h2 : x < (z : ℝ) + 1) :
    ⌊x⌋ = z := Int.floor_eq_iff.2 ⟨h1, h2⟩

theorem castInt_small (z : Int) (h1 : -2147483648 ≤ z) (h2 : z ≤ 2147483647) :
    castInt ((z : ℝ)) = .ok z := by
  unfold castInt
  dsimp only
  have e : (if (0 : ℝ) ≤ (z : ℝ) then ⌊(z : ℝ)⌋ else ⌈(z : ℝ)⌉) = z := by
    split
    · exact Int.floor_intCast z
    · exact Int.ceil_intCast z
  rw [e, if_pos ⟨h1, h2⟩]

/-- The body of the loop over the azimuth of the Eman generator for a class
that is neither platonic nor helical, with `phitoo = 0`: one transform more. -/
theorem eman_inner_length {K : Type} [LinearOrderedField K] [FloorRing K] (L : Libm K)
    (R : Rand K) (S : OrientationSym K) (P : GenParams K) (hpl : S.is_platonic_sym = false)
    (hh : S.is_h_sym = false) (hp : P.phitoo = 0) (fuel : Nat) (delta h : K)
    (delimiters : Dict K) (alt az : K) (ret : GenState K) :
    ∃ ret' : GenState K,
      EmanOrientationGenerator.gen_inner L R S P fuel delta h delimiters alt az ret
        = some (.ok ret') ∧ ret'.v.length = ret.v.length + 1 := by
  unfold EmanOrientationGenerator.gen_inner
  simp only [hpl, hh, Bool.false_eq_true, if_false, false_and]
  obtain ⟨r2, e2, l2, -⟩ := add_orientation_phitoo_zero L R P hp fuel
    (if decide (P.perturb = true ∧ alt ≠ 0) = true
      then ⟨ret.v, ret.rng + 2, ret.calls⟩ else ret)
    (if decide (P.perturb = true ∧ alt ≠ 0) = true then
      az + R.get_gauss_rand (ret.rng + 1) 0 (h / 4) else az)
    (if decide (P.perturb = true ∧ alt ≠ 0) = true then
      alt + R.get_gauss_rand ret.rng 0 (1 / 4 * delta) else alt)
  rw [e2]
  refine ⟨r2, rfl, ?_⟩
  rw [l2]
  congr 1
  split <;> rfl

/-- The loop over the azimuth of the Eman generator, for a class that is
neither platonic nor helical and `phitoo = 0`: when the azimuths
`x, x + h, ..., x + (m - 1) h` are at most the bound and `x + m h` is above
it, the loop appends `m` transforms. -/
theorem eman_inner_count {K : Type} [LinearOrderedField K] [FloorRing K] (L : Libm K)
    (R : Rand K) (S : OrientationSym K) (P : GenParams K) (hpl : S.is_platonic_sym = false)
    (hh : S.is_h_sym = false) (hp : P.phitoo = 0) (fuel0 : Nat) (delta h : K)
    (delimiters : Dict K) (alt amax : K) (m : Nat) :
    ∀ (fuel : Nat) (x : K) (ret : GenState K), m ≤ fuel →
      (∀ j : Nat, j < m → x + (j : K) * h ≤ amax) → amax < x + (m : K) * h →
      ∃ ret' : GenState K,
        floatLoop amax h (EmanOrientationGenerator.gen_inner L R S P fuel0 delta h
          delimiters alt) fuel x ret = some (.ok ret') ∧
        ret'.v.length = ret.v.length + m := by
  induction m with
  | zero =>
    intro fuel x ret _ _ h2
    rw [Nat.cast_zero, zero_mul, add_zero] at h2
    exact ⟨ret, floatLoop_done _ _ _ _ _ _ h2, rfl⟩
  | succ m ih =>
    intro fuel x ret hf h1 h2
    obtain ⟨f, rfl⟩ : ∃ f, fuel = f + 1 := ⟨fuel - 1, by omega⟩
    obtain ⟨r1, e1, l1⟩ := eman_inner_length L R S P hpl hh hp fuel0 delta h delimiters
      alt x ret
    have hx : x ≤ amax := by
      have := h1 0 (Nat.succ_pos m)
      rwa [Nat.cast_zero, zero_mul, add_zero] at this
    obtain ⟨r2, e2, l2⟩ := ih f (x + h) r1 (by omega)
      (fun j hj => by
        have := h1 (j + 1) (by omega)
        rw [Nat.cast_succ] at this
        linarith)
      (by rw [Nat.cast_succ] at h2; linarith)
    refine ⟨r2, ?_, ?_⟩
    · rw [floatLoop_step _ _ _ f x ret r1 hx e1, e2]
    · rw [l2, l1]; omega

/-- The azimuthal step of the Eman generator for `delta = 30` and a principal
axis of order 1, at an altitude where `10 sin(altitude)` rounds to `c`. -/
theorem get_az_delta_30 (L : Libm ℝ) (hs : L.sin = Real.sin) (hp : L.M_PI = Real.pi)
    (alt : ℝ) (c : Int) (hc : 0 < c) (hc2 : c ≤ 10)
    (hf : ⌊10 * Real.sin (Real.pi / 180 * alt) + 1 / 2⌋ = c) :
    EmanOrientationGenerator.get_az_delta L 30 alt 1 = .ok (360 / (c : ℝ)) := by
  have hpi := Real.pi_pos
  have hcR : (0 : ℝ) < (c : ℝ) := by exact_mod_cast hc
  unfold EmanOrientationGenerator.get_az_delta
  dsimp only
  have e0 : ⌊(360 : ℝ) / (30 * (11547 / 10000))⌋ = 10 :=
    floor_real_eq _ 10 (by norm_num) (by norm_num)
  have e1 : ⌊((10 : Int) : ℝ) * L.sin (EMConsts_deg2rad L * alt) + 1 / 2⌋ = c := by
    rw [hs]
    show ⌊((10 : Int) : ℝ) * Real.sin (L.M_PI / 180 * alt) + 1 / 2⌋ = c
    rw [hp]
    rw [← hf]
    norm_num
  rw [e0, e1, castInt_small c (by omega) (by omega)]
  dsimp only
  have e2 : ⌊(if (c : ℝ) = 0 then (1 : ℝ) else (c : ℝ))
      / ((|(1 : Int)| : Int) : ℝ) + 1 / 2⌋ = c := by
    rw [if_neg (ne_of_gt hcR)]
    exact floor_real_eq _ c (by norm_num) (by norm_num)
  rw [e2]
  have e3 : ((|(1 : Int)| : Int) : ℝ) * (c : ℝ) = c := by norm_num
  rw [e3, if_neg (ne_of_gt hcR)]
  congr 1
  show 180 / L.M_PI * (2 * L.M_PI / c) = 360 / c
  rw [hp]
  field_simp
  ring


theorem get_az_delta_30_pole (L : Libm ℝ) (hs : L.sin = Real.sin) :
    ∃ h, EmanOrientationGenerator.get_az_delta L 30 0 1 = .ok h := by
  unfold EmanOrientationGenerator.get_az_delta
  dsimp only
  have e : ⌊((⌊(360 : ℝ) / (30 * (11547 / 10000))⌋ : Int) : ℝ)
      * L.sin (EMConsts_deg2rad L * 0) + 1 / 2⌋ = 0 := by
    rw [mul_zero, hs, Real.sin_zero, mul_zero, zero_add]
    exact floor_real_eq _ 0 (by norm_num) (by norm_num)
  rw [e, castInt_small 0 (by decide) (by decide)]
  exact ⟨_, rfl⟩

theorem sqrt_three_bounds : (17 / 10 : ℝ) < Real.sqrt 3 ∧ Real.sqrt 3 < 19 / 10 := by
  have h3 : Real.sqrt 3 * Real.sqrt 3 = 3 := Real.mul_self_sqrt (by norm_num)
  have h0 : 0 ≤ Real.sqrt 3 := Real.sqrt_nonneg 3
  constructor
  · by_contra h
    rw [not_lt] at h
    nlinarith
  · by_contra h
    rw [not_lt] at h
    nlinarith

/-- The heads of the four iterations of the loop over the altitude of the Eman
generator on `c1` without mirror, for `delta = 30`: the azimuthal step and the
bound of the azimuth at the altitudes 0, 30, 60 and 90. -/
theorem eman_band_c1_30 (L : Libm ℝ) (hs : L.sin = Real.sin) (hp : L.M_PI = Real.pi) :
    EmanOrientationGenerator.band L (CSym.toOrientationSym ⟨1⟩) false 30 90 360 0
      = .ok (360, 270) ∧
    EmanOrientationGenerator.band L (CSym.toOrientationSym ⟨1⟩) false 30 90 360 30
      = .ok (72, 342) ∧
    EmanOrientationGenerator.band L (CSym.toOrientationSym ⟨1⟩) false 30 90 360 60
      = .ok (40, 350) ∧
    EmanOrientationGenerator.band L (CSym.toOrientationSym ⟨1⟩) false 30 90 360 90
      = .ok (36, 180) := by
  have hm : (CSym.toOrientationSym ⟨1⟩ : OrientationSym ℝ).get_max_csym = 1 := rfl
  have d30 := get_az_delta_30 L hs hp 30 5 (by decide) (by decide) (by
    rw [show Real.pi / 180 * 30 = Real.pi / 6 by ring, Real.sin_pi_div_six]
    exact floor_real_eq _ 5 (by norm_num) (by norm_num))
  have d60 := get_az_delta_30 L hs hp 60 9 (by decide) (by decide) (by
    rw [show Real.pi / 180 * 60 = Real.pi / 3 by ring, Real.sin_pi_div_three]
    obtain ⟨b1, b2⟩ := sqrt_three_bounds
    exact floor_real_eq _ 9 (by push_cast; linarith) (by push_cast; linarith))
  have d90 := get_az_delta_30 L hs hp 90 10 (by decide) (by decide) (by
    rw [show Real.pi / 180 * 90 = Real.pi / 2 by ring, Real.sin_pi_div_two]
    exact floor_real_eq _ 10 (by norm_num) (by norm_num))
  refine ⟨?_, ?_, ?_, ?_⟩
  · obtain ⟨h, e⟩ := get_az_delta_30_pole L hs
    unfold EmanOrientationGenerator.band
    rw [hm, e]
    simp only [CSym.toOrientationSym, CSym.get_nsym]
    norm_num
  · unfold EmanOrientationGenerator.band
    rw [hm, d30]
    simp only [CSym.toOrientationSym, CSym.get_nsym]
    norm_num
  · unfold EmanOrientationGenerator.band
    rw [hm, d60]
    simp only [CSym.toOrientationSym, CSym.get_nsym]
    norm_num
  · unfold EmanOrientationGenerator.band
    rw [hm, d90]
    simp only [CSym.toOrientationSym, CSym.get_nsym]
    norm_num
    decide


/-- One iteration of the loop over the altitude of the Eman generator on `c1`,
`delta = 30`, `phitoo = 0`: when the head of the iteration gives the step `h`
and the bound `amax`, and `m` azimuths fit, `m` transforms are appended. -/
theorem eman_outer_c1_30 (L : Libm ℝ) (R : Rand ℝ) (perturb random_phi : Bool)
    (fuel0 : Nat) (alt h amax : ℝ) (m : Nat) (hm : m ≤ fuel0)
    (hb : EmanOrientationGenerator.band L (CSym.toOrientationSym ⟨1⟩) false 30 90 360 alt
      = .ok (h, amax))
    (h1 : ∀ j : Nat, j < m → 0 + (j : ℝ) * h ≤ amax) (h2 : amax < 0 + (m : ℝ) * h)
    (ret : GenState ℝ) :
    ∃ ret' : GenState ℝ,
      EmanOrientationGenerator.gen_outer L R (CSym.toOrientationSym ⟨1⟩)
        (GenParams.mk 30 0 false perturb random_phi 0) fuel0 30
        ((Dict.empty.put "alt_max" 90).put "az_max" 360) alt ret = some (.ok ret') ∧
      ret'.v.length = ret.v.length + m := by
  have hb' : EmanOrientationGenerator.band L (CSym.toOrientationSym ⟨1⟩)
      (GenParams.mk (30 : ℝ) 0 false perturb random_phi 0).inc_mirror 30
      (((Dict.empty.put "alt_max" 90).put "az_max" 360 : Dict ℝ).get "alt_max")
      (((Dict.empty.put "alt_max" 90).put "az_max" 360 : Dict ℝ).get "az_max") alt
      = .ok (h, amax) := hb
  unfold EmanOrientationGenerator.gen_outer
  dsimp only
  rw [hb']
  dsimp only
  exact eman_inner_count L R (CSym.toOrientationSym ⟨1⟩)
    (GenParams.mk 30 0 false perturb random_phi 0) rfl rfl rfl fuel0 30 h
    ((Dict.empty.put "alt_max" 90).put "az_max" 360) alt amax m fuel0 0 ret hm h1 h2

/-- The Eman generator on `c1` without mirror, `delta = 30`, `phitoo = 0`:
for every fuel of at least 9 the run returns 21 orientations (1, 5, 9 and 6 at
the altitudes 0, 30, 60 and 90). -/
theorem eman_c1_30_run (L : Libm ℝ) (hs : L.sin = Real.sin) (hp : L.M_PI = Real.pi)
    (R : Rand ℝ) (perturb random_phi : Bool) (k : Nat) :
    ∃ st : GenState ℝ,
      EmanOrientationGenerator.gen_orientations L R (CSym.toOrientationSym ⟨1⟩)
        (GenParams.mk 30 0 false perturb random_phi 0) (k + 9) = some (.ok st) ∧
      st.v.length = 21 := by
  obtain ⟨b0, b30, b60, b90⟩ := eman_band_c1_30 L hs hp
  have hd : (CSym.toOrientationSym ⟨1⟩ : OrientationSym ℝ).get_delimiters false
      = .ok ((Dict.empty.put "alt_max" 90).put "az_max" (360 / ((1 : Int) : ℝ))) := rfl
  have hA : (360 : ℝ) / ((1 : Int) : ℝ) = 360 := by norm_num
  rw [hA] at hd
  have a1 : (0 : ℝ) + 30 = 30 := by norm_num
  have a2 : (30 : ℝ) + 30 = 60 := by norm_num
  have a3 : (60 : ℝ) + 30 = 90 := by norm_num
  obtain ⟨s1, e1, l1⟩ := eman_outer_c1_30 L R perturb random_phi (k + 5 + 1 + 1 + 1 + 1)
    0 360 270 1 (by omega) b0
    (fun j hj => by interval_cases j; norm_num) (by norm_num) ⟨[], 0, []⟩
  obtain ⟨s2, e2, l2⟩ := eman_outer_c1_30 L R perturb random_phi (k + 5 + 1 + 1 + 1 + 1)
    30 72 342 5 (by omega) b30
    (fun j hj => by interval_cases j <;> norm_num) (by norm_num) s1
  obtain ⟨s3, e3, l3⟩ := eman_outer_c1_30 L R perturb random_phi (k + 5 + 1 + 1 + 1 + 1)
    60 40 350 9 (by omega) b60
    (fun j hj => by interval_cases j <;> norm_num) (by norm_num) s2
  obtain ⟨s4, e4, l4⟩ := eman_outer_c1_30 L R perturb random_phi (k + 5 + 1 + 1 + 1 + 1)
    90 36 180 6 (by omega) b90
    (fun j hj => by interval_cases j <;> norm_num) (by norm_num) s3
  have e : k + 9 = k + 5 + 1 + 1 + 1 + 1 := rfl
  refine ⟨s4, ?_, ?_⟩
  · rw [e]
    unfold EmanOrientationGenerator.gen_orientations
    rw [gen_delta_of_delta _ _ _ _ (by norm_num) (le_refl _)]
    dsimp only
    rw [hd]
    dsimp only
    have hmx : (((Dict.empty.put "alt_max" 90).put "az_max" 360 : Dict ℝ).get "alt_max") = 90 :=
      rfl
    rw [hmx, if_neg (by decide)]
    rw [floatLoop_step _ _ _ _ 0 _ s1 (by norm_num) e1, a1,
      floatLoop_step _ _ _ _ 30 _ s2 (by norm_num) e2, a2,
      floatLoop_step _ _ _ _ 60 _ s3 (by norm_num) e3, a3,
      floatLoop_step _ _ _ _ 90 _ s4 (by norm_num) e4,
      floatLoop_done _ _ _ _ _ _ (by norm_num)]
  · rw [l4, l3, l2, l1]; rfl


/-- C21 (counterexample): the Eman generator with `delta = 30`,
`inc_mirror = false`, `perturb = false` and `phitoo = 0` on `c1` returns a
vector whose length is not between 40 and 44. -/
theorem eman_c1_30_not_42 :
    ∃ st : GenState ℝ,
      EmanOrientationGenerator.gen_orientations (Libm.mk Real.cos Real.sin Real.arccos
        Real.arcsin (fun y x => Complex.arg ⟨x, y⟩) Real.sqrt Real.pi)
        (Rand.mk (fun _ _ _ => 0) (fun _ _ _ => 0)) (CSym.toOrientationSym ⟨1⟩)
        (GenParams.mk 30 0 false false false 0) 9 = some (.ok st) ∧
      ¬ (40 ≤ st.v.length ∧ st.v.length ≤ 44) := by
  obtain ⟨st, e, l⟩ := eman_c1_30_run (Libm.mk Real.cos Real.sin Real.arccos
    Real.arcsin (fun y x => Complex.arg ⟨x, y⟩) Real.sqrt Real.pi) rfl rfl
    (Rand.mk (fun _ _ _ => 0) (fun _ _ _ => 0)) false false 0
  refine ⟨st, e, ?_⟩
  rw [l]
  decide

/-- C21 (amended): the Eman generator with `delta = 30`, `inc_mirror = false`,
`perturb = false` and `phitoo = 0` on `CSym` with `nsym = 1` returns, for
every source of random numbers and every fuel of at least 9, and the vector
it returns has exactly 21 orientations. -/
theorem eman_c1_30_returns_21 (R : Rand ℝ) (k : Nat) :
    ∃ st : GenState ℝ,
      EmanOrientationGenerator.gen_orientations (Libm.mk Real.cos Real.sin Real.arccos
        Real.arcsin (fun y x => Complex.arg ⟨x, y⟩) Real.sqrt Real.pi) R
        (CSym.toOrientationSym ⟨1⟩) (GenParams.mk 30 0 false false false 0) (k + 9)
        = some (.ok st) ∧
      st.v.length = 21 :=
  eman_c1_30_run (Libm.mk Real.cos Real.sin Real.arccos
    Real.arcsin (fun y x => Complex.arg ⟨x, y⟩) Real.sqrt Real.pi) rfl rfl R false false k

/-! ### C22: the bisection of `get_optimal_delta` -/

/-- One iteration of the loop of `get_optimal_delta` whose tally is `t`: the
three ways it goes on. -/
theorem get_optimal_delta_loop_succ {K : Type} [LinearOrderedField K]
    (tally : K → Option (Except Fault Int)) (n : Int) (fuel : Nat) (soln ub lb : K) (t : Int)
    (ht : tally soln = some (.ok t)) :
    (t = n → OrientationGenerator.get_optimal_delta_loop tally n (fuel + 1) soln ub lb
      = some (.ok soln)) ∧
    (t ≠ n → ub - lb < 1 / 10000 →
      OrientationGenerator.get_optimal_delta_loop tally n (fuel + 1) soln ub lb
        = some (.ok ((ub + lb) / 2))) ∧
    (t ≠ n → ¬ ub - lb < 1 / 10000 →
      OrientationGenerator.get_optimal_delta_loop tally n (fuel + 1) soln ub lb
        = OrientationGenerator.get_optimal_delta_loop tally n fuel
            (OrientationGenerator.get_optimal_delta_bisect t n soln ub lb).1
            (OrientationGenerator.get_optimal_delta_bisect t n soln ub lb).2.1
            (OrientationGenerator.get_optimal_delta_bisect t n soln ub lb).2.2) := by
  refine ⟨fun h => ?_, fun h hw => ?_, fun h hw => ?_⟩
  · rw [OrientationGenerator.get_optimal_delta_loop, ht]
    dsimp only
    rw [if_pos h]
  · rw [OrientationGenerator.get_optimal_delta_loop, ht]
    dsimp only
    rw [if_neg h, if_pos hw]
  · rw [OrientationGenerator.get_optimal_delta_loop, ht]
    dsimp only
    rw [if_neg h, if_neg hw]
    unfold OrientationGenerator.get_optimal_delta_bisect
    by_cases hl : t < n
    · rw [if_pos hl, if_pos hl]
    · rw [if_neg hl, if_neg hl]

/-- After an iteration that does not exit, `delta_soln` is the midpoint of the
bracket. -/
theorem get_optimal_delta_bisect_mid {K : Type} [LinearOrderedField K] (t n : Int)
    (soln ub lb : K) :
    (OrientationGenerator.get_optimal_delta_bisect t n soln ub lb).1
      = ((OrientationGenerator.get_optimal_delta_bisect t n soln ub lb).2.1
        + (OrientationGenerator.get_optimal_delta_bisect t n soln ub lb).2.2) / 2 := by
  unfold OrientationGenerator.get_optimal_delta_bisect
  by_cases hl : t < n
  · rw [if_pos hl]
    dsimp only
    ring
  · rw [if_neg hl]
    dsimp only
    ring

/-- An iteration that starts at the midpoint and does not exit halves the
bracket. -/
theorem get_optimal_delta_bisect_width {K : Type} [LinearOrderedField K] (t n : Int)
    (soln ub lb : K) (h : soln = (ub + lb) / 2) :
    (OrientationGenerator.get_optimal_delta_bisect t n soln ub lb).2.1
      - (OrientationGenerator.get_optimal_delta_bisect t n soln ub lb).2.2 = (ub - lb) / 2 := by
  unfold OrientationGenerator.get_optimal_delta_bisect
  by_cases hl : t < n
  · rw [if_pos hl]
    dsimp only
    rw [h]
    ring
  · rw [if_neg hl]
    dsimp only
    rw [h]
    ring

/-- From a state whose `delta_soln` is the midpoint of a bracket of width
below `2^k / 10000`, the loop returns within `k + 1` iterations, with a result
that does not depend on the fuel. -/
theorem get_optimal_delta_loop_returns {K : Type} [LinearOrderedField K]
    (tally : K → Option (Except Fault Int)) (n : Int) (htot : ∀ d, tally d ≠ none) (k : Nat) :
    ∀ soln ub lb : K, soln = (ub + lb) / 2 → ub - lb < 2 ^ k * (1 / 10000) →
      ∃ r, ∀ fuel, k + 1 ≤ fuel →
        OrientationGenerator.get_optimal_delta_loop tally n fuel soln ub lb = some r := by
  induction k with
  | zero =>
    intro soln ub lb _ hw
    rw [pow_zero, one_mul] at hw
    cases ht : tally soln with
    | none => exact absurd ht (htot soln)
    | some r =>
      cases r with
      | error e =>
        refine ⟨.error e, fun fuel hf => ?_⟩
        obtain ⟨f, rfl⟩ : ∃ f, fuel = f + 1 := ⟨fuel - 1, by omega⟩
        rw [OrientationGenerator.get_optimal_delta_loop, ht]
      | ok t =>
        by_cases h : t = n
        · refine ⟨.ok soln, fun fuel hf => ?_⟩
          obtain ⟨f, rfl⟩ : ∃ f, fuel = f + 1 := ⟨fuel - 1, by omega⟩
          exact (get_optimal_delta_loop_succ tally n f soln ub lb t ht).1 h
        · refine ⟨.ok ((ub + lb) / 2), fun fuel hf => ?_⟩
          obtain ⟨f, rfl⟩ : ∃ f, fuel = f + 1 := ⟨fuel - 1, by omega⟩
          exact (get_optimal_delta_loop_succ tally n f soln ub lb t ht).2.1 h hw
  | succ k ih =>
    intro soln ub lb hm hw
    cases ht : tally soln with
    | none => exact absurd ht (htot soln)
    | some r =>
      cases r with
      | error e =>
        refine ⟨.error e, fun fuel hf => ?_⟩
        obtain ⟨f, rfl⟩ : ∃ f, fuel = f + 1 := ⟨fuel - 1, by omega⟩
        rw [OrientationGenerator.get_optimal_delta_loop, ht]
      | ok t =>
        by_cases h : t = n
        · refine ⟨.ok soln, fun fuel hf => ?_⟩
          obtain ⟨f, rfl⟩ : ∃ f, fuel = f + 1 := ⟨fuel - 1, by omega⟩
          exact (get_optimal_delta_loop_succ tally n f soln ub lb t ht).1 h
        · by_cases hw0 : ub - lb < 1 / 10000
          · refine ⟨.ok ((ub + lb) / 2), fun fuel hf => ?_⟩
            obtain ⟨f, rfl⟩ : ∃ f, fuel = f + 1 := ⟨fuel - 1, by omega⟩
            exact (get_optimal_delta_loop_succ tally n f soln ub lb t ht).2.1 h hw0
          · obtain ⟨r, hr⟩ := ih _ _ _
              (get_optimal_delta_bisect_mid t n soln ub lb)
              (by
                rw [get_optimal_delta_bisect_width t n soln ub lb hm]
                rw [pow_succ] at hw
                linarith)
            refine ⟨r, fun fuel hf => ?_⟩
            obtain ⟨f, rfl⟩ : ∃ f, fuel = f + 1 := ⟨fuel - 1, by omega⟩
            rw [(get_optimal_delta_loop_succ tally n f soln ub lb t ht).2.2 h hw0]
            exact hr f (by omega)

/-- From the first state of `get_optimal_delta`, where `delta_soln` is the
upper bound, the loop returns, with a result that does not depend on the
fuel. -/
theorem get_optimal_delta_loop_returns_first {K : Type} [LinearOrderedField K] [FloorRing K]
    (tally : K → Option (Except Fault Int)) (n : Int) (htot : ∀ d, tally d ≠ none)
    (ub lb : K) :
    ∃ F r, ∀ fuel, F ≤ fuel →
      OrientationGenerator.get_optimal_delta_loop tally n fuel ub ub lb = some r := by
  cases ht : tally ub with
  | none => exact absurd ht (htot ub)
  | some r =>
    cases r with
    | error e =>
      refine ⟨1, .error e, fun fuel hf => ?_⟩
      obtain ⟨f, rfl⟩ : ∃ f, fuel = f + 1 := ⟨fuel - 1, by omega⟩
      rw [OrientationGenerator.get_optimal_delta_loop, ht]
    | ok t =>
      by_cases h : t = n
      · refine ⟨1, .ok ub, fun fuel hf => ?_⟩
        obtain ⟨f, rfl⟩ : ∃ f, fuel = f + 1 := ⟨fuel - 1, by omega⟩
        exact (get_optimal_delta_loop_succ tally n f ub ub lb t ht).1 h
      · by_cases hw0 : ub - lb < 1 / 10000
        · refine ⟨1, .ok ((ub + lb) / 2), fun fuel hf => ?_⟩
          obtain ⟨f, rfl⟩ : ∃ f, fuel = f + 1 := ⟨fuel - 1, by omega⟩
          exact (get_optimal_delta_loop_succ tally n f ub ub lb t ht).2.1 h hw0
        · obtain ⟨k, hk⟩ := pow_unbounded_of_one_lt
            (((OrientationGenerator.get_optimal_delta_bisect t n ub ub lb).2.1
              - (OrientationGenerator.get_optimal_delta_bisect t n ub ub lb).2.2) * 10000)
            (one_lt_two : (1 : K) < 2)
          obtain ⟨r, hr⟩ := get_optimal_delta_loop_returns tally n htot k _ _ _
            (get_optimal_delta_bisect_mid t n ub ub lb)
            (by linarith)
          refine ⟨k + 2, r, fun fuel hf => ?_⟩
          obtain ⟨f, rfl⟩ : ∃ f, fuel = f + 1 := ⟨fuel - 1, by omega⟩
          rw [(get_optimal_delta_loop_succ tally n f ub ub lb t ht).2.2 h hw0]
          exact hr f (by omega)

/-- C22: `get_optimal_delta(sym, n)` terminates for every `n` and every tally
oracle that returns: from some fuel on it gives one and the same result. An
iteration exits with `delta_soln` when the tally is `n`, exits with the
midpoint of the bracket when it is not and the width of the bracket is below
`10^-4`, and otherwise goes on with the bisected bracket; after an iteration
that does not exit `delta_soln` is the midpoint of the bracket (so from the
first iteration on), and an iteration that starts at the midpoint and does not
exit halves the bracket. -/
theorem get_optimal_delta_terminates {K : Type} [LinearOrderedField K] [FloorRing K]
    (S : OrientationSym K) (tally : K → Option (Except Fault Int)) (n : Int)
    (htot : ∀ d, tally d ≠ none) :
    (∃ F r, ∀ fuel, F ≤ fuel →
      OrientationGenerator.get_optimal_delta S tally n fuel = some r) ∧
    (∀ (fuel : Nat) (soln ub lb : K) (t : Int), tally soln = some (.ok t) →
      (t = n → OrientationGenerator.get_optimal_delta_loop tally n (fuel + 1) soln ub lb
        = some (.ok soln)) ∧
      (t ≠ n → ub - lb < 1 / 10000 →
        OrientationGenerator.get_optimal_delta_loop tally n (fuel + 1) soln ub lb
          = some (.ok ((ub + lb) / 2))) ∧
      (t ≠ n → ¬ ub - lb < 1 / 10000 →
        OrientationGenerator.get_optimal_delta_loop tally n (fuel + 1) soln ub lb
          = OrientationGenerator.get_optimal_delta_loop tally n fuel
              (OrientationGenerator.get_optimal_delta_bisect t n soln ub lb).1
              (OrientationGenerator.get_optimal_delta_bisect t n soln ub lb).2.1
              (OrientationGenerator.get_optimal_delta_bisect t n soln ub lb).2.2)) ∧
    (∀ (t : Int) (soln ub lb : K),
      (OrientationGenerator.get_optimal_delta_bisect t n soln ub lb).1
        = ((OrientationGenerator.get_optimal_delta_bisect t n soln ub lb).2.1
          + (OrientationGenerator.get_optimal_delta_bisect t n soln ub lb).2.2) / 2) ∧
    (∀ (t : Int) (soln ub lb : K), soln = (ub + lb) / 2 →
      (OrientationGenerator.get_optimal_delta_bisect t n soln ub lb).2.1
        - (OrientationGenerator.get_optimal_delta_bisect t n soln ub lb).2.2
        = (ub - lb) / 2) :=
  ⟨get_optimal_delta_loop_returns_first tally n htot _ _,
    fun fuel soln ub lb t ht => get_optimal_delta_loop_succ tally n fuel soln ub lb t ht,
    fun t soln ub lb => get_optimal_delta_bisect_mid t n soln ub lb,
    fun t soln ub lb h => get_optimal_delta_bisect_width t n soln ub lb h⟩

/-- C22 (witness): the tally that is 5 at every `delta`, for `n = 7`, on `c1`
over the rationals. -/
theorem get_optimal_delta_terminates_witness :
    (∀ d : ℚ, (fun _ : ℚ => (some (.ok 5) : Option (Except Fault Int))) d ≠ none) ∧
    (∃ F r, ∀ fuel, F ≤ fuel →
      OrientationGenerator.get_optimal_delta (CSym.toOrientationSym ⟨1⟩ : OrientationSym ℚ)
        (fun _ => some (.ok 5)) 7 fuel = some r) :=
  ⟨fun _ h => Option.noConfusion h,
    (get_optimal_delta_terminates (CSym.toOrientationSym ⟨1⟩ : OrientationSym ℚ)
      (fun _ => some (.ok 5)) 7 (fun _ h => Option.noConfusion h)).1⟩

/-! ### C23: `add_orientation` with `phitoo` set -/

theorem genState_eta {K : Type} (st : GenState K) :
    (⟨st.v ++ [], st.rng, st.calls⟩ : GenState K) = st := by
  cases st
  simp only [List.append_nil]

/-- The loop of `add_orientation` over `p`, from `p = j * phitoo` with `r`
values left below 360: it appends the rotations with the third angles
`j * phitoo, ..., (j + r - 1) * phitoo`. -/
theorem add_orientation_loop {K : Type} [LinearOrderedField K] [FloorRing K] (L : Libm K)
    (p : K) (hp : 0 < p) (m : Nat) (hm : (m : K) * p = 360) (az alt : K) (r : Nat) :
    ∀ (j fuel : Nat) (st : GenState K), j + r = m → r ≤ fuel →
      floatLoop (360 - p) p (fun (x : K) (st : GenState K) =>
          (some (.ok ⟨st.v ++ [Transform3D.set_rotation_fill L
            (Transform3D.emanLocals Transform3D.new az alt (fmod (0 + x) 360))],
            st.rng, st.calls⟩) : Option (Except Fault (GenState K))))
        fuel ((j : K) * p) st
      = some (.ok ⟨st.v ++ (List.range r).map (fun i => Transform3D.set_rotation_fill L
          (Transform3D.emanLocals Transform3D.new az alt (((j + i : Nat) : K) * p))),
          st.rng, st.calls⟩) := by
  induction r with
  | zero =>
    intro j fuel st hj _
    rw [add_zero] at hj
    rw [floatLoop_done _ _ _ _ _ _ (by rw [hj, hm]; linarith)]
    rw [List.range_zero, List.map_nil, genState_eta]
  | succ r ih =>
    intro j fuel st hj hf
    obtain ⟨f, rfl⟩ : ∃ f, fuel = f + 1 := ⟨fuel - 1, by omega⟩
    have hjm : ((j : K) + 1) * p ≤ 360 := by
      rw [← hm]
      have : ((j + 1 : Nat) : K) ≤ (m : K) := Nat.cast_le.2 (by omega)
      rw [Nat.cast_succ] at this
      exact mul_le_mul_of_nonneg_right this hp.le
    have hj0 : (0 : K) ≤ (j : K) * p := mul_nonneg (Nat.cast_nonneg j) hp.le
    have hx : (j : K) * p ≤ 360 - p := by linarith
    have hfm : fmod (0 + (j : K) * p) 360 = (j : K) * p := by
      rw [zero_add, Transform3D.fmod_of_floor _ 360 0 (by norm_num) hj0 (by simpa using hj0)
        (by rw [Int.cast_zero, zero_add, one_mul]; linarith)]
      rw [Int.cast_zero, zero_mul, sub_zero]
    rw [floatLoop_step _ _ _ f _ st _ hx rfl]
    have hn : (j : K) * p + p = ((j + 1 : Nat) : K) * p := by
      rw [Nat.cast_succ]; ring
    rw [hn, ih (j + 1) f _ (by omega) (by omega)]
    dsimp only
    have hmap : (List.range r).map (fun i => Transform3D.set_rotation_fill L
          (Transform3D.emanLocals Transform3D.new az alt (((j + 1 + i : Nat) : K) * p)))
        = (List.range r).map ((fun i => Transform3D.set_rotation_fill L
          (Transform3D.emanLocals Transform3D.new az alt (((j + i : Nat) : K) * p)))
            ∘ Nat.succ) := by
      apply List.map_congr_left
      intro i _
      show Transform3D.set_rotation_fill L (Transform3D.emanLocals Transform3D.new az alt
        (((j + 1 + i : Nat) : K) * p)) = Transform3D.set_rotation_fill L
        (Transform3D.emanLocals Transform3D.new az alt (((j + (i + 1) : Nat) : K) * p))
      rw [show j + 1 + i = j + (i + 1) by omega]
    rw [hfm, List.range_succ_eq_map, List.map_cons, List.map_map, List.append_assoc,
      List.singleton_append, add_zero, hmap]

/-- C23: for `phitoo = p > 0` with `m p = 360` and `random_phi = false`,
`add_orientation(v, az, alt)` returns `true` (for every fuel of at least
`m - 1`) and the vector after the call is `v` followed by the `m` rotations
with the EMAN angles `(az, alt, j p)`, `j = 0, ..., m - 1`, in that order. -/
theorem add_orientation_phitoo_spec {K : Type} [LinearOrderedField K] [FloorRing K]
    (L : Libm K) (R : Rand K) (P : GenParams K) (p : K) (m : Nat) (hp : 0 < p) (hm : (m : K) * p = 360)
    (hP : P.phitoo = p) (hr : P.random_phi = false) (fuel : Nat) (hf : m - 1 ≤ fuel)
    (st : GenState K) (az alt : K) :
    ∃ st' : GenState K,
      OrientationGenerator.add_orientation L R P fuel st az alt = some (.ok (true, st')) ∧
      st'.v = st.v ++ (List.range m).map (fun (j : Nat) => Transform3D.set_rotation_fill L
        (Transform3D.emanLocals Transform3D.new az alt ((j : K) * p))) := by
  have hm1 : 1 ≤ m := by
    rcases Nat.eq_zero_or_pos m with h | h
    · rw [h, Nat.cast_zero, zero_mul] at hm
      norm_num at hm
    · exact h
  obtain ⟨q, rfl⟩ : ∃ q, m = q + 1 := ⟨m - 1, by omega⟩
  have hl := add_orientation_loop L p hp (q + 1) hm az alt q 1 fuel
    ⟨st.v ++ [Transform3D.set_rotation_fill L
      (Transform3D.emanLocals Transform3D.new az alt 0)], st.rng, st.calls ++ [(az, alt)]⟩
    (by omega) (by omega)
  rw [Nat.cast_one, one_mul] at hl
  unfold OrientationGenerator.add_orientation
  simp only [hP, hr, Bool.false_eq_true, if_false, not_lt.2 hp.le,
    Transform3D.set_rotation_eman_eq, ne_eq, ne_of_gt hp, not_false_eq_true, if_true]
  rw [hl]
  refine ⟨_, rfl, ?_⟩
  dsimp only
  have hmap : (List.range q).map (fun i => Transform3D.set_rotation_fill L
        (Transform3D.emanLocals Transform3D.new az alt (((1 + i : Nat) : K) * p)))
      = (List.range q).map ((fun (j : Nat) => Transform3D.set_rotation_fill L
        (Transform3D.emanLocals Transform3D.new az alt ((j : K) * p))) ∘ Nat.succ) := by
    apply List.map_congr_left
    intro i _
    show Transform3D.set_rotation_fill L (Transform3D.emanLocals Transform3D.new az alt
      (((1 + i : Nat) : K) * p)) = Transform3D.set_rotation_fill L
      (Transform3D.emanLocals Transform3D.new az alt (((i + 1 : Nat) : K) * p))
    rw [show 1 + i = i + 1 by omega]
  rw [List.range_succ_eq_map, List.map_cons, List.map_map, List.append_assoc,
    List.singleton_append, Nat.cast_zero, zero_mul, hmap]

/-- C23 (witness): `phitoo = 90` on the empty vector, four rotations. -/
theorem add_orientation_phitoo_spec_witness :
    (0 : ℝ) < 90 ∧ ((4 : Nat) : ℝ) * 90 = 360 ∧
    ∃ st' : GenState ℝ,
      OrientationGenerator.add_orientation (Libm.mk Real.cos Real.sin Real.arccos
        Real.arcsin (fun y x => Complex.arg ⟨x, y⟩) Real.sqrt Real.pi)
        (Rand.mk (fun _ _ _ => 0) (fun _ _ _ => 0)) (GenParams.mk 30 0 false false false 90) 3
        ⟨[], 0, []⟩ 10 20 = some (.ok (true, st')) ∧
      st'.v = [] ++ (List.range 4).map (fun (j : Nat) => Transform3D.set_rotation_fill
        (Libm.mk Real.cos Real.sin Real.arccos Real.arcsin (fun y x => Complex.arg ⟨x, y⟩)
          Real.sqrt Real.pi)
        (Transform3D.emanLocals Transform3D.new 10 20 ((j : ℝ) * 90))) :=
  ⟨by norm_num, by norm_num,
    add_orientation_phitoo_spec (Libm.mk Real.cos Real.sin Real.arccos
      Real.arcsin (fun y x => Complex.arg ⟨x, y⟩) Real.sqrt Real.pi)
      (Rand.mk (fun _ _ _ => 0) (fun _ _ _ => 0)) (GenParams.mk 30 0 false false false 90)
      90 4 (by norm_num) (by norm_num) rfl rfl 3 (by decide) ⟨[], 0, []⟩ 10 20⟩

/-! ### C24: letter case in `Factory<Symmetry3D>::get` -/

/-- C24 (the code at the failing input): `Factory<Symmetry3D>::get` accepts
`c4`, `d3` and `icos` and throws `NotExistingObjectException` on `C4`, `D3`,
`ICOS` and `Icos`: the leading character is compared with the lower-case
letters, and the lower-casing of the name is inside the branch that only the
lower-case names `icos`, `oct` and `tet` enter. -/
theorem Factory_get_upper_case :
    Factory.get "c4" = .ok ⟨"c", some 4⟩ ∧
    Factory.get "d3" = .ok ⟨"d", some 3⟩ ∧
    Factory.get "icos" = .ok ⟨"icos", none⟩ ∧
    Factory.get "C4" = .error (.NotExistingObjectException "No such an instance existing") ∧
    Factory.get "D3" = .error (.NotExistingObjectException "No such an instance existing") ∧
    Factory.get "ICOS" = .error (.NotExistingObjectException "No such an instance existing") ∧
    Factory.get "Icos" = .error (.NotExistingObjectException "No such an instance existing") := by
  refine ⟨?_, ?_, ?_, ?_, ?_, ?_, ?_⟩ <;> rfl

/-! ### C25: names outside the grammar -/

/-- C25 (counterexample): the lower-case names `cx` and `dog` and the empty
name do not match the grammar, and `get_sym_type` gives `CSYM`, `DSYM` and
`ISYM` for them; `get_nsym` returns 0, 0 and 1 on the empty cache. -/
theorem get_sym_type_cx :
    lowerName "cx" = "cx" ∧ specSymmetryName "cx" = false ∧
    get_sym_type "cx" = .CSYM ∧
    (∃ m2, get_nsym (fun _ => none) "cx" = .ok (0, m2)) ∧
    specSymmetryName "dog" = false ∧ get_sym_type "dog" = .DSYM ∧
    (∃ m2, get_nsym (fun _ => none) "dog" = .ok (0, m2)) ∧
    specSymmetryName "" = false ∧ get_sym_type "" = .ISYM ∧
    (∃ m2, get_nsym (fun _ => none) "" = .ok (1, m2)) := by
  refine ⟨by decide, by decide, by decide, ⟨_, rfl⟩, by decide, by decide, ⟨_, rfl⟩,
    by decide, by decide, ⟨_, rfl⟩⟩

theorem get_sym_type_unknown (name : String)
    (hc : name.data.headD (Char.ofNat 0) ≠ 'c') (hd : name.data.headD (Char.ofNat 0) ≠ 'd')
    (h1 : name ≠ "icos") (h2 : name ≠ "oct") (h3 : name ≠ "tet") (h4 : name ≠ "i")
    (h5 : name ≠ "") : get_sym_type name = .UNKNOWN_SYM := by
  unfold get_sym_type
  simp only [hc, hd, h1, h2, h3, h4, h5, if_false, or_self]

theorem specSymmetryName_false (name : String) (h : specSymmetryName name = false) :
    name ≠ "icos" ∧ name ≠ "oct" ∧ name ≠ "tet" ∧ name ≠ "i" := by
  unfold specSymmetryName at h
  simp only [Bool.or_eq_false_iff, decide_eq_false_iff_not] at h
  exact ⟨h.1.2, h.1.1.2, h.1.1.1.2, h.2⟩

/-- C25 (amended): for every lower-case name outside the grammar that is not
empty and does not start with `c` or `d`, `get_sym_type` yields `UNKNOWN_SYM`
and, on every sound cache, `get_nsym` raises `InvalidValueException`. -/
theorem get_nsym_unknown (name : String) (hl : lowerName name = name)
    (hg : specSymmetryName name = false) (he : name ≠ "")
    (hc : name.data.headD (Char.ofNat 0) ≠ 'c') (hd : name.data.headD (Char.ofNat 0) ≠ 'd') :
    get_sym_type name = .UNKNOWN_SYM ∧
    ∀ m : SymmetryMap, CacheSound m →
      get_nsym m name = .error (.InvalidValueException name) := by
  obtain ⟨h1, h2, h3, h4⟩ := specSymmetryName_false name hg
  have ht := get_sym_type_unknown name hc hd h1 h2 h3 h4 he
  refine ⟨ht, ?_⟩
  have cold : ∀ m : SymmetryMap, m name = none →
      get_nsym m name = .error (.InvalidValueException name) := by
    intro m hm
    unfold get_nsym
    simp only [hm, hl, ht, nsymOfType]
  intro m hm
  cases hn : m name with
  | none => exact cold m hn
  | some v =>
    obtain ⟨m2, e⟩ := hm name v hn
    rw [cold (fun _ => none) rfl] at e
    cases e

/-- C25 (witness): the name `xyz` on the empty cache. -/
theorem get_nsym_unknown_witness :
    lowerName "xyz" = "xyz" ∧ specSymmetryName "xyz" = false ∧
    get_sym_type "xyz" = .UNKNOWN_SYM ∧
    get_nsym (fun _ => none) "xyz" = .error (.InvalidValueException "xyz") :=
  ⟨by decide, by decide,
    (get_nsym_unknown "xyz" (by decide) (by decide) (by decide) (by decide) (by decide)).1,
    (get_nsym_unknown "xyz" (by decide) (by decide) (by decide) (by decide) (by decide)).2
      (fun _ => none) cacheSound_empty⟩

/-! ### C26: construction from a convention and three angles -/

theorem init_eq_new {K : Type} [Field K] (t : Transform3D K) :
    Transform3D.init t = Transform3D.new := by
  apply Transform3D.ext
  funext i j
  fin_cases i <;> fin_cases j <;> rfl

/-- C26 (counterexample): with the convention `IMAGIC` (and `MRC`, `XYZ`) the
constructor and `set_rotation(euler_type, a1, a2, a3)` throw
`InvalidValueException`, for the angles 0, 0, 0. -/
theorem ofEuler_imagic_throws :
    Transform3D.ofEuler (Libm.mk Real.cos Real.sin Real.arccos Real.arcsin
      (fun y x => Complex.arg ⟨x, y⟩) Real.sqrt Real.pi) .IMAGIC 0 0 0
      = .error (.InvalidValueException "cannot instantiate this Euler Type") ∧
    Transform3D.set_rotation_euler (Libm.mk Real.cos Real.sin Real.arccos Real.arcsin
      (fun y x => Complex.arg ⟨x, y⟩) Real.sqrt Real.pi) Transform3D.new .IMAGIC 0 0 0
      = .error (.InvalidValueException "cannot instantiate this Euler Type") ∧
    Transform3D.ofEuler (Libm.mk Real.cos Real.sin Real.arccos Real.arcsin
      (fun y x => Complex.arg ⟨x, y⟩) Real.sqrt Real.pi) .MRC 0 0 0
      = .error (.InvalidValueException "cannot instantiate this Euler Type") ∧
    Transform3D.ofEuler (Libm.mk Real.cos Real.sin Real.arccos Real.arcsin
      (fun y x => Complex.arg ⟨x, y⟩) Real.sqrt Real.pi) .XYZ 0 0 0
      = .error (.InvalidValueException "cannot instantiate this Euler Type") :=
  ⟨rfl, rfl, rfl, rfl⟩

/-- C26 (amended): for the conventions `EMAN` and `SPIDER` and all angles, the
constructor `Transform3D(euler_type, a1, a2, a3)` and
`set_rotation(euler_type, a1, a2, a3)` succeed and give what
`set_rotation(euler_type, dict)` gives on a fresh transform for the same
angles (the translations of the object are reset); for every other
convention both throw `InvalidValueException`. -/
theorem ofEuler_spec {K : Type} [LinearOrderedField K] [FloorRing K] (L : Libm K)
    (euler_type : EulerType) (t : Transform3D K) (a1 a2 a3 : K) :
    match euler_type with
    | .EMAN =>
      (∃ r, Transform3D.set_rotation L Transform3D.new .EMAN
        (((Dict.empty.put "az" a1).put "alt" a2).put "phi" a3) = .ok r ∧
        Transform3D.ofEuler L .EMAN a1 a2 a3 = .ok r ∧
        Transform3D.set_rotation_euler L t .EMAN a1 a2 a3 = .ok r)
    | .SPIDER =>
      (∃ r, Transform3D.set_rotation L Transform3D.new .SPIDER
        (((Dict.empty.put "phi" a1).put "theta" a2).put "psi" a3) = .ok r ∧
        Transform3D.ofEuler L .SPIDER a1 a2 a3 = .ok r ∧
        Transform3D.set_rotation_euler L t .SPIDER a1 a2 a3 = .ok r)
    | e =>
      Transform3D.ofEuler L e a1 a2 a3
        = .error (.InvalidValueException "cannot instantiate this Euler Type") ∧
      Transform3D.set_rotation_euler L t e a1 a2 a3
        = .error (.InvalidValueException "cannot instantiate this Euler Type") := by
  cases euler_type
  case EMAN =>
    refine ⟨_, rfl, rfl, ?_⟩
    unfold Transform3D.set_rotation_euler
    rw [init_eq_new]
    rfl
  case SPIDER =>
    refine ⟨_, rfl, rfl, ?_⟩
    unfold Transform3D.set_rotation_euler
    rw [init_eq_new]
    rfl
  all_goals exact ⟨rfl, rfl⟩

/-! ### C27: `inverse` of a singular transform -/

theorem floatDiv_zero {K : Type} [LinearOrderedField K] (x : K) : floatDiv x 0 = none := by
  unfold floatDiv
  rw [if_pos rfl]

theorem floatDiv_of_ne {K : Type} [LinearOrderedField K] (x y : K) (h : y ≠ 0) :
    floatDiv x y = some (x / y) := by
  unfold floatDiv
  rw [if_neg h]

/-- The entries of the result of `inverse_float`: the quotients by `Det` in
the first three rows, and the last row of the fresh `invM`. -/
theorem inverse_float_eq {K : Type} [LinearOrderedField K] (t : Transform3D K) :
    ∃ r : Transform3D (Option K), Transform3D.inverse_float t = .ok r ∧
      (∀ i j : Fin 4, i ≠ 3 → ∃ x : K, r.matrix i j = floatDiv x (Transform3D.Det t)
        ∨ r.matrix i j = (floatDiv x (Transform3D.Det t)).map fun x => -x) ∧
      (∀ j : Fin 4, r.matrix 3 j = some (if j = 3 then 1 else 0)) := by
  refine ⟨_, rfl, ?_, ?_⟩
  · intro i j hi
    fin_cases i
    · fin_cases j
      · exact ⟨_, Or.inl rfl⟩
      · exact ⟨_, Or.inr rfl⟩
      · exact ⟨_, Or.inl rfl⟩
      · exact ⟨_, Or.inl rfl⟩
    · fin_cases j
      · exact ⟨_, Or.inr rfl⟩
      · exact ⟨_, Or.inl rfl⟩
      · exact ⟨_, Or.inr rfl⟩
      · exact ⟨_, Or.inl rfl⟩
    · fin_cases j
      · exact ⟨_, Or.inl rfl⟩
      · exact ⟨_, Or.inr rfl⟩
      · exact ⟨_, Or.inl rfl⟩
      · exact ⟨_, Or.inl rfl⟩
    · exact absurd rfl hi
  · intro j
    fin_cases j <;> rfl

/-- With `Det` not 0 the float quotients are numbers, and `inverse_float`
returns the entries of `inverse`. -/
theorem inverse_float_of_det_ne_zero {K : Type} [LinearOrderedField K] (t : Transform3D K)
    (h : Transform3D.Det t ≠ 0) :
    Transform3D.inverse_float t
      = .ok ⟨fun i j => some ((Transform3D.inverse t).matrix i j)⟩ := by
  have hd : t.matrix 0 0 * (t.matrix 1 1 * t.matrix 2 2 - t.matrix 1 2 * t.matrix 2 1)
    + t.matrix 0 2 * (t.matrix 1 0 * t.matrix 2 1 - t.matrix 2 0 * t.matrix 1 1)
    - t.matrix 0 1 * (t.matrix 1 0 * t.matrix 2 2 - t.matrix 2 0 * t.matrix 1 2) ≠ 0 := h
  unfold Transform3D.inverse_float
  simp only [floatDiv_of_ne _ _ hd, Option.map_some']
  congr 1
  apply Transform3D.ext
  funext i j
  fin_cases i <;> fin_cases j <;>
    first
    | rfl
    | (show some _ = some _; congr 1; exact (neg_div _ _).symm)

/-- For a singular transform `inverse_float` returns, and the twelve entries
of the first three rows of its result are not numbers. -/
theorem inverse_float_singular {K : Type} [LinearOrderedField K] (t : Transform3D K)
    (h : Transform3D.Det t = 0) :
    ∃ r : Transform3D (Option K), Transform3D.inverse_float t = .ok r ∧
      (∀ i j : Fin 4, i ≠ 3 → r.matrix i j = none) ∧
      (∀ j : Fin 4, r.matrix 3 j = some (if j = 3 then 1 else 0)) := by
  obtain ⟨r, e, h1, h2⟩ := inverse_float_eq t
  refine ⟨r, e, ?_, h2⟩
  intro i j hi
  obtain ⟨x, hx | hx⟩ := h1 i j hi
  · rw [hx, h, floatDiv_zero]
  · rw [hx, h, floatDiv_zero]; rfl

theorem zero_block_det :
    Transform3D.Det (⟨fun i j => if i = 3 ∧ j = 3 then 1 else 0⟩ : Transform3D ℚ) = 0 := by
  have h : ∀ a b : Fin 4, a ≠ 3 →
      (⟨fun i j => if i = 3 ∧ j = 3 then 1 else 0⟩ : Transform3D ℚ).matrix a b = 0 :=
    fun a b h => if_neg (fun c => h c.1)
  unfold Transform3D.Det
  rw [h 0 0 (by decide), h 0 1 (by decide), h 0 2 (by decide)]
  norm_num

/-- C27 (counterexample): the transform whose matrix is 0 except for
`matrix[3][3] = 1` has `Det = 0`, and `inverse` returns a transform for it:
the call does not fail. -/
theorem inverse_float_zero_block :
    Transform3D.Det (⟨fun i j => if i = 3 ∧ j = 3 then 1 else 0⟩ : Transform3D ℚ) = 0 ∧
    ∃ r : Transform3D (Option ℚ),
      Transform3D.inverse_float (⟨fun i j => if i = 3 ∧ j = 3 then 1 else 0⟩ : Transform3D ℚ)
        = .ok r :=
  ⟨zero_block_det, (inverse_float_singular _ zero_block_det).imp fun _ h => h.1⟩

/-- C27 (amended): for every transform whose 3x3 block has determinant 0,
`inverse()` does not fail: it returns a transform whose twelve entries in the
first three rows are quotients by zero, infinite or NaN, and whose last row
is `(0, 0, 0, 1)`. -/
theorem inverse_singular_returns {K : Type} [LinearOrderedField K] (t : Transform3D K)
    (h : Transform3D.Det t = 0) :
    ∃ r : Transform3D (Option K), Transform3D.inverse_float t = .ok r ∧
      (∀ i j : Fin 4, i ≠ 3 → r.matrix i j = none) ∧
      (∀ j : Fin 4, r.matrix 3 j = some (if j = 3 then 1 else 0)) :=
  inverse_float_singular t h

/-- C27 (witness): the transform whose matrix is 0 except for
`matrix[3][3] = 1`. -/
theorem inverse_singular_returns_witness :
    Transform3D.Det (⟨fun i j => if i = 3 ∧ j = 3 then 1 else 0⟩ : Transform3D ℚ) = 0 ∧
    ∃ r : Transform3D (Option ℚ),
      Transform3D.inverse_float (⟨fun i j => if i = 3 ∧ j = 3 then 1 else 0⟩ : Transform3D ℚ)
        = .ok r ∧
      (∀ i j : Fin 4, i ≠ 3 → r.matrix i j = none) ∧
      (∀ j : Fin 4, r.matrix 3 j = some (if j = 3 then 1 else 0)) :=
  ⟨zero_block_det, inverse_singular_returns _ zero_block_det⟩

/-! ### C28, C29: `set_scale` -/

theorem apply_scale_matrix {K : Type} [Field K] (t : Transform3D K) (scale : K)
    (i j : Fin 4) :
    (Transform3D.apply_scale t scale).matrix i j
      = if i = 3 ∧ j = 3 then t.matrix 3 3 else t.matrix i j * scale := by
  fin_cases i <;> fin_cases j <;> rfl

theorem set_scale_zero {K : Type} [Field K] (L : Libm K) (t : Transform3D K) :
    Transform3D.set_scale L t 0
      = ⟨fun i j => if i = 3 ∧ j = 3 then t.matrix 3 3 else 0⟩ := by
  apply Transform3D.ext
  funext i j
  unfold Transform3D.set_scale
  dsimp only
  rw [apply_scale_matrix, zero_div, mul_zero]

theorem get_scale_new :
    Transform3D.get_scale (Libm.mk Real.cos Real.sin Real.arccos Real.arcsin
      (fun y x => Complex.arg ⟨x, y⟩) Real.sqrt Real.pi) (Transform3D.new : Transform3D ℝ)
      = 1 := by
  have e : Transform3D.get_scale (Libm.mk Real.cos Real.sin Real.arccos Real.arcsin
      (fun y x => Complex.arg ⟨x, y⟩) Real.sqrt Real.pi) (Transform3D.new : Transform3D ℝ)
      = Real.sqrt ((0 + 1 * 1 + 0 * 0 + 0 * 0 + 0 * 0 + 1 * 1 + 0 * 0 + 0 * 0 + 0 * 0 + 1 * 1)
        / 3) := rfl
  rw [e]
  norm_num

/-- C28 (counterexample): the identity has the scale 1, and `set_scale(0)`
changes it: the entry `matrix[0][0]` is 0 after the call. -/
theorem set_scale_zero_modifies :
    Transform3D.get_scale (Libm.mk Real.cos Real.sin Real.arccos Real.arcsin
      (fun y x => Complex.arg ⟨x, y⟩) Real.sqrt Real.pi) (Transform3D.new : Transform3D ℝ)
      ≠ 0 ∧
    (Transform3D.set_scale (Libm.mk Real.cos Real.sin Real.arccos Real.arcsin
      (fun y x => Complex.arg ⟨x, y⟩) Real.sqrt Real.pi) (Transform3D.new : Transform3D ℝ)
      0).matrix 0 0 = 0 ∧
    (Transform3D.new : Transform3D ℝ).matrix 0 0 = 1 ∧
    Transform3D.set_scale (Libm.mk Real.cos Real.sin Real.arccos Real.arcsin
      (fun y x => Complex.arg ⟨x, y⟩) Real.sqrt Real.pi) (Transform3D.new : Transform3D ℝ) 0
      ≠ Transform3D.new := by
  have h0 : (Transform3D.set_scale (Libm.mk Real.cos Real.sin Real.arccos Real.arcsin
      (fun y x => Complex.arg ⟨x, y⟩) Real.sqrt Real.pi) (Transform3D.new : Transform3D ℝ)
      0).matrix 0 0 = 0 := by
    rw [set_scale_zero]
    rfl
  refine ⟨by rw [get_scale_new]; norm_num, h0, rfl, ?_⟩
  intro h
  rw [h] at h0
  have h1 : (Transform3D.new : Transform3D ℝ).matrix 0 0 = 1 := rfl
  rw [h1] at h0
  norm_num at h0

/-- C28 (amended): for every transform with non-zero scale, `set_scale(0)`
does not fail: the factor is `0/OldScale = 0`, and the call sets every entry
of the matrix except `matrix[3][3]` to 0. -/
theorem set_scale_zero_spec {K : Type} [Field K] (L : Libm K) (t : Transform3D K)
    (_h : Transform3D.get_scale L t ≠ 0) :
    Transform3D.set_scale L t 0
      = ⟨fun i j => if i = 3 ∧ j = 3 then t.matrix 3 3 else 0⟩ :=
  set_scale_zero L t

/-- C28 (witness): the identity. -/
theorem set_scale_zero_spec_witness :
    Transform3D.get_scale (Libm.mk Real.cos Real.sin Real.arccos Real.arcsin
      (fun y x => Complex.arg ⟨x, y⟩) Real.sqrt Real.pi) (Transform3D.new : Transform3D ℝ)
      ≠ 0 ∧
    Transform3D.set_scale (Libm.mk Real.cos Real.sin Real.arccos Real.arcsin
      (fun y x => Complex.arg ⟨x, y⟩) Real.sqrt Real.pi) (Transform3D.new : Transform3D ℝ) 0
      = ⟨fun i j => if i = 3 ∧ j = 3 then (Transform3D.new : Transform3D ℝ).matrix 3 3
          else 0⟩ :=
  ⟨by rw [get_scale_new]; norm_num,
    set_scale_zero_spec _ _ (by rw [get_scale_new]; norm_num)⟩

/-- C29: over the reals, for every transform whose scale is not 0 and every
`s > 0`, the scale recomputed by `get_scale()` after `set_scale(s)` is `s`. -/
theorem get_scale_set_scale (t : Transform3D ℝ) (s : ℝ)
    (h : Transform3D.get_scale (Libm.mk Real.cos Real.sin Real.arccos Real.arcsin
      (fun y x => Complex.arg ⟨x, y⟩) Real.sqrt Real.pi) t ≠ 0) (hs : 0 < s) :
    Transform3D.get_scale (Libm.mk Real.cos Real.sin Real.arccos Real.arcsin
      (fun y x => Complex.arg ⟨x, y⟩) Real.sqrt Real.pi)
      (Transform3D.set_scale (Libm.mk Real.cos Real.sin Real.arccos Real.arcsin
        (fun y x => Complex.arg ⟨x, y⟩) Real.sqrt Real.pi) t s) = s := by
  have hq : Transform3D.get_scale (Libm.mk Real.cos Real.sin Real.arccos Real.arcsin
      (fun y x => Complex.arg ⟨x, y⟩) Real.sqrt Real.pi) t
      = Real.sqrt ((0 + t.matrix 0 0 * t.matrix 0 0 + t.matrix 0 1 * t.matrix 0 1
      + t.matrix 0 2 * t.matrix 0 2 + t.matrix 1 0 * t.matrix 1 0 + t.matrix 1 1 * t.matrix 1 1
      + t.matrix 1 2 * t.matrix 1 2 + t.matrix 2 0 * t.matrix 2 0 + t.matrix 2 1 * t.matrix 2 1
      + t.matrix 2 2 * t.matrix 2 2) / 3) := rfl
  unfold Transform3D.set_scale
  dsimp only
  generalize hold : Transform3D.get_scale (Libm.mk Real.cos Real.sin Real.arccos Real.arcsin
      (fun y x => Complex.arg ⟨x, y⟩) Real.sqrt Real.pi) t = old at h hq
  have hpos : 0 < old := lt_of_le_of_ne (by rw [hq]; exact Real.sqrt_nonneg _) (Ne.symm h)
  have hsq : old * old = (0 + t.matrix 0 0 * t.matrix 0 0 + t.matrix 0 1 * t.matrix 0 1
      + t.matrix 0 2 * t.matrix 0 2 + t.matrix 1 0 * t.matrix 1 0 + t.matrix 1 1 * t.matrix 1 1
      + t.matrix 1 2 * t.matrix 1 2 + t.matrix 2 0 * t.matrix 2 0 + t.matrix 2 1 * t.matrix 2 1
      + t.matrix 2 2 * t.matrix 2 2) / 3 := by
    rw [hq]
    apply Real.mul_self_sqrt
    apply div_nonneg _ (by norm_num)
    linarith [mul_self_nonneg (t.matrix 0 0), mul_self_nonneg (t.matrix 0 1),
      mul_self_nonneg (t.matrix 0 2), mul_self_nonneg (t.matrix 1 0),
      mul_self_nonneg (t.matrix 1 1), mul_self_nonneg (t.matrix 1 2),
      mul_self_nonneg (t.matrix 2 0), mul_self_nonneg (t.matrix 2 1),
      mul_self_nonneg (t.matrix 2 2)]
  have e : Transform3D.get_scale (Libm.mk Real.cos Real.sin Real.arccos Real.arcsin
      (fun y x => Complex.arg ⟨x, y⟩) Real.sqrt Real.pi)
      (Transform3D.apply_scale t (s / old))
      = Real.sqrt ((0 + t.matrix 0 0 * (s / old) * (t.matrix 0 0 * (s / old))
        + t.matrix 0 1 * (s / old) * (t.matrix 0 1 * (s / old))
        + t.matrix 0 2 * (s / old) * (t.matrix 0 2 * (s / old))
        + t.matrix 1 0 * (s / old) * (t.matrix 1 0 * (s / old))
        + t.matrix 1 1 * (s / old) * (t.matrix 1 1 * (s / old))
        + t.matrix 1 2 * (s / old) * (t.matrix 1 2 * (s / old))
        + t.matrix 2 0 * (s / old) * (t.matrix 2 0 * (s / old))
        + t.matrix 2 1 * (s / old) * (t.matrix 2 1 * (s / old))
        + t.matrix 2 2 * (s / old) * (t.matrix 2 2 * (s / old))) / 3) := rfl
  rw [e]
  have e2 : (0 + t.matrix 0 0 * (s / old) * (t.matrix 0 0 * (s / old))
        + t.matrix 0 1 * (s / old) * (t.matrix 0 1 * (s / old))
        + t.matrix 0 2 * (s / old) * (t.matrix 0 2 * (s / old))
        + t.matrix 1 0 * (s / old) * (t.matrix 1 0 * (s / old))
        + t.matrix 1 1 * (s / old) * (t.matrix 1 1 * (s / old))
        + t.matrix 1 2 * (s / old) * (t.matrix 1 2 * (s / old))
        + t.matrix 2 0 * (s / old) * (t.matrix 2 0 * (s / old))
        + t.matrix 2 1 * (s / old) * (t.matrix 2 1 * (s / old))
        + t.matrix 2 2 * (s / old) * (t.matrix 2 2 * (s / old))) / 3 = s * s := by
    have : (0 + t.matrix 0 0 * (s / old) * (t.matrix 0 0 * (s / old))
        + t.matrix 0 1 * (s / old) * (t.matrix 0 1 * (s / old))
        + t.matrix 0 2 * (s / old) * (t.matrix 0 2 * (s / old))
        + t.matrix 1 0 * (s / old) * (t.matrix 1 0 * (s / old))
        + t.matrix 1 1 * (s / old) * (t.matrix 1 1 * (s / old))
        + t.matrix 1 2 * (s / old) * (t.matrix 1 2 * (s / old))
        + t.matrix 2 0 * (s / old) * (t.matrix 2 0 * (s / old))
        + t.matrix 2 1 * (s / old) * (t.matrix 2 1 * (s / old))
        + t.matrix 2 2 * (s / old) * (t.matrix 2 2 * (s / old))) / 3
        = (s / old) * (s / old) * (old * old) := by
      rw [hsq]; ring
    rw [this]
    field_simp
  rw [e2, Real.sqrt_mul_self hs.le]

/-- C29 (witness): the identity and `s = 2`. -/
theorem get_scale_set_scale_witness :
    Transform3D.get_scale (Libm.mk Real.cos Real.sin Real.arccos Real.arcsin
      (fun y x => Complex.arg ⟨x, y⟩) Real.sqrt Real.pi) (Transform3D.new : Transform3D ℝ)
      ≠ 0 ∧ (0 : ℝ) < 2 ∧
    Transform3D.get_scale (Libm.mk Real.cos Real.sin Real.arccos Real.arcsin
      (fun y x => Complex.arg ⟨x, y⟩) Real.sqrt Real.pi)
      (Transform3D.set_scale (Libm.mk Real.cos Real.sin Real.arccos Real.arcsin
        (fun y x => Complex.arg ⟨x, y⟩) Real.sqrt Real.pi) Transform3D.new 2) = 2 :=
  ⟨by rw [get_scale_new]; norm_num, by norm_num,
    get_scale_set_scale _ 2 (by rw [get_scale_new]; norm_num) (by norm_num)⟩

/-! ### C30: the division in `get_rotation` -/

theorem arg_one_zero : Complex.arg (⟨1, 0⟩ : ℂ) = 0 := by
  have e : (⟨1, 0⟩ : ℂ) = 1 := Complex.ext rfl rfl
  rw [e, Complex.arg_one]

theorem fmod_180 : fmod (180 : ℝ) 360 = 180 := by
  rw [Transform3D.fmod_of_floor 180 360 0 (by norm_num) (by norm_num) (by norm_num)
    (by norm_num)]
  norm_num

/-- The EMAN angles that `get_rotation` extracts from the identity: all 0. -/
theorem get_rotation_eman_new :
    Transform3D.get_rotation_eman (Libm.mk Real.cos Real.sin Real.arccos Real.arcsin
      (fun y x => Complex.arg ⟨x, y⟩) Real.sqrt Real.pi) (Transform3D.new : Transform3D ℝ)
      = ⟨0, 0, 0, 1⟩ := by
  unfold Transform3D.get_rotation_eman
  dsimp only
  rw [get_scale_new]
  have m22 : (Transform3D.new : Transform3D ℝ).matrix 2 2 = 1 := rfl
  have m01 : (Transform3D.new : Transform3D ℝ).matrix 0 1 = 0 := rfl
  have m00 : (Transform3D.new : Transform3D ℝ).matrix 0 0 = 1 := rfl
  rw [m22, m01, m00]
  have hc : (1 : ℝ) / 1 > 1 - Transform3D.ERR_LIMIT := by
    unfold Transform3D.ERR_LIMIT
    norm_num
  rw [if_pos hc]
  dsimp only
  rw [arg_one_zero, mul_zero, zero_add, fmod_180]
  norm_num

/-- The entry `n3` that `get_rotation(SPIN)` returns is the quotient
`cosnTheta` by `get_rotation_divisor`, with the sign of `cosOover2`. -/
theorem get_rotation_spin_n3 {K : Type} [LinearOrderedField K] [FloorRing K] (L : Libm K)
    (t : Transform3D K) :
    ∃ d : Dict K, Transform3D.get_rotation L t .SPIN = .ok d ∧
      d.get "n3" =
        (if L.cos (((Transform3D.get_rotation_eman L t).az
              + (Transform3D.get_rotation_eman L t).phi) * L.M_PI / 360)
            * L.cos ((Transform3D.get_rotation_eman L t).alt * L.M_PI / 360) < 0 then
          L.sin (((Transform3D.get_rotation_eman L t).az
              + (Transform3D.get_rotation_eman L t).phi) * L.M_PI / 360)
            * L.cos ((Transform3D.get_rotation_eman L t).alt * L.M_PI / 360)
            / Transform3D.get_rotation_divisor L t * -1
        else
          L.sin (((Transform3D.get_rotation_eman L t).az
              + (Transform3D.get_rotation_eman L t).phi) * L.M_PI / 360)
            * L.cos ((Transform3D.get_rotation_eman L t).alt * L.M_PI / 360)
            / Transform3D.get_rotation_divisor L t) := by
  refine ⟨_, rfl, ?_⟩
  by_cases h : L.cos (((Transform3D.get_rotation_eman L t).az
              + (Transform3D.get_rotation_eman L t).phi) * L.M_PI / 360)
            * L.cos ((Transform3D.get_rotation_eman L t).alt * L.M_PI / 360) < 0
  · rw [if_pos h]
    show (if decide (_ < 0) = true then _ else _) = _
    rw [if_pos (decide_eq_true h)]
    rfl
  · rw [if_neg h]
    show (if decide (_ < 0) = true then _ else _) = _
    rw [if_neg (by simpa using h)]
    rfl

/-- C30 (the code at the failing input): the identity has the scale 1, and
the divisor `sqrt(1 - cosOover2*cosOover2)` of the quotient `cosnTheta`, which
`get_rotation` computes for every convention, is 0 for it; the entry `n3`
that `get_rotation(SPIN)` returns for the identity is the quotient of 0 by
this divisor. -/
theorem get_rotation_divisor_identity :
    Transform3D.get_scale (Libm.mk Real.cos Real.sin Real.arccos Real.arcsin
      (fun y x => Complex.arg ⟨x, y⟩) Real.sqrt Real.pi) (Transform3D.new : Transform3D ℝ)
      ≠ 0 ∧
    Transform3D.get_rotation_divisor (Libm.mk Real.cos Real.sin Real.arccos Real.arcsin
      (fun y x => Complex.arg ⟨x, y⟩) Real.sqrt Real.pi) (Transform3D.new : Transform3D ℝ)
      = 0 ∧
    ∃ d : Dict ℝ, Transform3D.get_rotation (Libm.mk Real.cos Real.sin Real.arccos Real.arcsin
      (fun y x => Complex.arg ⟨x, y⟩) Real.sqrt Real.pi) (Transform3D.new : Transform3D ℝ)
      .SPIN = .ok d ∧
      d.get "n3" = 0 / Transform3D.get_rotation_divisor (Libm.mk Real.cos Real.sin
        Real.arccos Real.arcsin (fun y x => Complex.arg ⟨x, y⟩) Real.sqrt Real.pi)
        (Transform3D.new : Transform3D ℝ) := by
  refine ⟨by rw [get_scale_new]; norm_num, ?_, ?_⟩
  · unfold Transform3D.get_rotation_divisor
    rw [get_rotation_eman_new]
    dsimp only
    norm_num
  · obtain ⟨d, e, h⟩ := get_rotation_spin_n3 (Libm.mk Real.cos Real.sin Real.arccos
      Real.arcsin (fun y x => Complex.arg ⟨x, y⟩) Real.sqrt Real.pi)
      (Transform3D.new : Transform3D ℝ)
    refine ⟨d, e, ?_⟩
    rw [h, get_rotation_eman_new]
    dsimp only
    rw [if_neg (by norm_num)]
    congr 1
    norm_num

namespace Transform3D

/-! ### C31: the range of the angles of `get_rotation(EMAN)` -/

theorem arg_bounds_deg (x y : ℝ) :
    -180 < 180 / Real.pi * Complex.arg ⟨x, y⟩ ∧ 180 / Real.pi * Complex.arg ⟨x, y⟩ ≤ 180 := by
  have hpi := Real.pi_pos
  have h1 := Complex.neg_pi_lt_arg ⟨x, y⟩
  have h2 := Complex.arg_le_pi ⟨x, y⟩
  have e : 180 / Real.pi * Complex.arg ⟨x, y⟩ = Complex.arg ⟨x, y⟩ / Real.pi * 180 := by ring
  rw [e]
  constructor
  · have : -1 < Complex.arg ⟨x, y⟩ / Real.pi := by
      rw [lt_div_iff₀ hpi]; linarith
    linarith
  · have : Complex.arg ⟨x, y⟩ / Real.pi ≤ 1 := by
      rw [div_le_iff₀ hpi]; linarith
    linarith

theorem normalised_range (a : ℝ) (h : -180 ≤ a) :
    -180 ≤ fmod (a + 180) 360 - 180 ∧ fmod (a + 180) 360 - 180 < 180 := by
  obtain ⟨h1, h2⟩ := fmod_range (a + 180) 360 (by linarith) (by norm_num)
  constructor <;> linarith

/-- The angles `az` and `phi` that `get_rotation` extracts lie in
`[-180, 180)`. -/
theorem eman_angles_range (t : Transform3D ℝ) :
    (-180 ≤ (get_rotation_eman (Libm.mk Real.cos Real.sin Real.arccos Real.arcsin
      (fun y x => Complex.arg ⟨x, y⟩) Real.sqrt Real.pi) t).az ∧
    (get_rotation_eman (Libm.mk Real.cos Real.sin Real.arccos Real.arcsin
      (fun y x => Complex.arg ⟨x, y⟩) Real.sqrt Real.pi) t).az < 180) ∧
    (-180 ≤ (get_rotation_eman (Libm.mk Real.cos Real.sin Real.arccos Real.arcsin
      (fun y x => Complex.arg ⟨x, y⟩) Real.sqrt Real.pi) t).phi ∧
    (get_rotation_eman (Libm.mk Real.cos Real.sin Real.arccos Real.arcsin
      (fun y x => Complex.arg ⟨x, y⟩) Real.sqrt Real.pi) t).phi < 180) := by
  have b1 := arg_bounds_deg (t.matrix 0 0) (t.matrix 0 1)
  have b2 := arg_bounds_deg (-t.matrix 2 1) (t.matrix 2 0)
  have b3 := arg_bounds_deg (t.matrix 1 2) (t.matrix 0 2)
  unfold get_rotation_eman
  dsimp only
  split
  · exact ⟨normalised_range _ (by norm_num), normalised_range _ (by linarith [b1.1])⟩
  · split
    · exact ⟨normalised_range _ (by norm_num), normalised_range _ (by linarith [b1.2])⟩
    · exact ⟨normalised_range _ (by linarith [b2.1]), normalised_range _ (by linarith [b3.1])⟩

theorem arg_neg_one_zero : Complex.arg (⟨-1, 0⟩ : ℂ) = Real.pi := by
  have e : (⟨-1, 0⟩ : ℂ) = -1 := Complex.ext rfl (by simp)
  rw [e, Complex.arg_neg_one]

/-- The rotation built with `az = 180`, `alt = 90`, `phi = 0` on a fresh
transform has the scale 1 and the extracted `az` is `-180`. -/
theorem eman_az_180_reported :
    get_scale (Libm.mk Real.cos Real.sin Real.arccos Real.arcsin
      (fun y x => Complex.arg ⟨x, y⟩) Real.sqrt Real.pi)
      (set_rotation_fill (Libm.mk Real.cos Real.sin Real.arccos Real.arcsin
        (fun y x => Complex.arg ⟨x, y⟩) Real.sqrt Real.pi) (emanLocals new 180 90 0)) = 1 ∧
    (get_rotation_eman (Libm.mk Real.cos Real.sin Real.arccos Real.arcsin
      (fun y x => Complex.arg ⟨x, y⟩) Real.sqrt Real.pi)
      (set_rotation_fill (Libm.mk Real.cos Real.sin Real.arccos Real.arcsin
        (fun y x => Complex.arg ⟨x, y⟩) Real.sqrt Real.pi) (emanLocals new 180 90 0))).az
      = -180 := by
  obtain ⟨e22, e20, e21, -, -⟩ := fill_eman_entries new 180 90 0
  have hs := get_scale_of_rotation _ (fill_eman_isRotation new 180 90 0)
  refine ⟨hs, ?_⟩
  rw [get_rotation_eman_generic _ hs (by rw [e22, cos_ninety]; norm_num)]
  dsimp only
  rw [e20, e21, sin_ninety, cos_oneeighty, sin_oneeighty]
  have e : (⟨-(-1 * -1), 1 * 0⟩ : ℂ) = ⟨-1, 0⟩ := by
    apply Complex.ext <;> norm_num
  rw [e, arg_neg_one_zero]
  have hpi := Real.pi_pos
  have e3 : (360 + 180 / Real.pi * Real.pi + 180 : ℝ) = 720 := by
    field_simp; ring
  rw [e3, fmod_of_floor 720 360 2 (by norm_num) (by norm_num) (by norm_num) (by norm_num)]
  norm_num

/-- C31 (counterexample): the rotation built with `az = 180`, `alt = 90`,
`phi = 0` on a fresh transform has the scale 1, and `get_rotation(EMAN)`
reports `az = -180` for it, which is not in `(-180, 180]`. -/
theorem get_rotation_az_180 :
    ∃ (r : Transform3D ℝ) (d : Dict ℝ),
      set_rotation (Libm.mk Real.cos Real.sin Real.arccos Real.arcsin
        (fun y x => Complex.arg ⟨x, y⟩) Real.sqrt Real.pi) new .EMAN (emanDict 180 90 0)
        = .ok r ∧
      get_scale (Libm.mk Real.cos Real.sin Real.arccos Real.arcsin
        (fun y x => Complex.arg ⟨x, y⟩) Real.sqrt Real.pi) r = 1 ∧
      get_rotation (Libm.mk Real.cos Real.sin Real.arccos Real.arcsin
        (fun y x => Complex.arg ⟨x, y⟩) Real.sqrt Real.pi) r .EMAN = .ok d ∧
      d.get "az" = -180 ∧ ¬ (-180 < d.get "az" ∧ d.get "az" ≤ 180) := by
  refine ⟨_, _, rfl, eman_az_180_reported.1, get_rotation_EMAN_eq _ _,
    eman_az_180_reported.2, ?_⟩
  intro h
  have h1 : (-180 : ℝ) < -180 := lt_of_lt_of_eq h.1 eman_az_180_reported.2
  exact lt_irrefl _ h1

/-- C31 (amended): for every transform with scale 1, the `az` and `phi` values
returned by `get_rotation(EMAN)` lie in the half-open interval `[-180, 180)`;
for instance the rotation built with `az = 180`, `alt = 90`, `phi = 0` is
reported with `az = -180`. -/
theorem get_rotation_EMAN_range (t : Transform3D ℝ)
    (_hs : get_scale (Libm.mk Real.cos Real.sin Real.arccos Real.arcsin
      (fun y x => Complex.arg ⟨x, y⟩) Real.sqrt Real.pi) t = 1) :
    (∃ d : Dict ℝ,
      get_rotation (Libm.mk Real.cos Real.sin Real.arccos Real.arcsin
        (fun y x => Complex.arg ⟨x, y⟩) Real.sqrt Real.pi) t .EMAN = .ok d ∧
      (-180 ≤ d.get "az" ∧ d.get "az" < 180) ∧ (-180 ≤ d.get "phi" ∧ d.get "phi" < 180)) ∧
    (∃ (r : Transform3D ℝ) (d : Dict ℝ),
      set_rotation (Libm.mk Real.cos Real.sin Real.arccos Real.arcsin
        (fun y x => Complex.arg ⟨x, y⟩) Real.sqrt Real.pi) new .EMAN (emanDict 180 90 0)
        = .ok r ∧
      get_rotation (Libm.mk Real.cos Real.sin Real.arccos Real.arcsin
        (fun y x => Complex.arg ⟨x, y⟩) Real.sqrt Real.pi) r .EMAN = .ok d ∧
      d.get "az" = -180) :=
  ⟨⟨_, get_rotation_EMAN_eq _ _, (eman_angles_range t).1, (eman_angles_range t).2⟩,
    ⟨_, _, rfl, get_rotation_EMAN_eq _ _, eman_az_180_reported.2⟩⟩

/-- C31 (witness): the identity. -/
theorem get_rotation_EMAN_range_witness :
    get_scale (Libm.mk Real.cos Real.sin Real.arccos Real.arcsin
      (fun y x => Complex.arg ⟨x, y⟩) Real.sqrt Real.pi) (new : Transform3D ℝ) = 1 ∧
    ∃ d : Dict ℝ,
      get_rotation (Libm.mk Real.cos Real.sin Real.arccos Real.arcsin
        (fun y x => Complex.arg ⟨x, y⟩) Real.sqrt Real.pi) (new : Transform3D ℝ) .EMAN
        = .ok d ∧
      (-180 ≤ d.get "az" ∧ d.get "az" < 180) ∧ (-180 ≤ d.get "phi" ∧ d.get "phi" < 180) :=
  ⟨get_scale_new, (get_rotation_EMAN_range new get_scale_new).1⟩

end Transform3D

namespace Transform3D

/-! ### C32: `set_rotation(SPIN, ...)` -/

/-- The dictionary `{Omega, n1, n2, n3}` of the SPIN convention. -/
theorem set_rotation_SPIN_eq {K : Type} [LinearOrderedField K] [FloorRing K]
    (L : Libm K) (t : Transform3D K) (n1 n2 n3 Omega : K) :
    set_rotation L t .SPIN ((((Dict.empty.put "Omega" Omega).put "n1" n1).put "n2" n2).put
      "n3" n3)
      = .ok (set_rotation_fill L ⟨L.cos (Omega * L.M_PI / 360),
          L.sin (Omega * L.M_PI / 360) * n1, L.sin (Omega * L.M_PI / 360) * n2,
          L.sin (Omega * L.M_PI / 360) * n3, Omega, 0, 0, 0, true, false, t⟩) := rfl

theorem fill_quaternion_block {K : Type} [LinearOrderedField K] [FloorRing K]
    (L : Libm K) (t : Transform3D K) (e0 e1 e2 e3 Omega : K) :
    block3 (set_rotation_fill L ⟨e0, e1, e2, e3, Omega, 0, 0, 0, true, false, t⟩)
      = !![e0 * e0 + e1 * e1 - e2 * e2 - e3 * e3, 2 * (e1 * e2 + e0 * e3),
            2 * (e1 * e3 - e0 * e2);
          2 * (e2 * e1 - e0 * e3), e0 * e0 - e1 * e1 + e2 * e2 - e3 * e3,
            2 * (e2 * e3 + e0 * e1);
          2 * (e3 * e1 + e0 * e2), 2 * (e3 * e2 - e0 * e1),
            e0 * e0 - e1 * e1 - e2 * e2 + e3 * e3] := by
  ext i j
  fin_cases i <;> fin_cases j <;> rfl

theorem quaternion_axis_angle (n1 n2 n3 Omega : ℝ) (hn : n1 * n1 + n2 * n2 + n3 * n3 = 1) :
    !![Real.cos (Omega * Real.pi / 360) * Real.cos (Omega * Real.pi / 360)
          + Real.sin (Omega * Real.pi / 360) * n1 * (Real.sin (Omega * Real.pi / 360) * n1)
          - Real.sin (Omega * Real.pi / 360) * n2 * (Real.sin (Omega * Real.pi / 360) * n2)
          - Real.sin (Omega * Real.pi / 360) * n3 * (Real.sin (Omega * Real.pi / 360) * n3),
        2 * (Real.sin (Omega * Real.pi / 360) * n1 * (Real.sin (Omega * Real.pi / 360) * n2)
          + Real.cos (Omega * Real.pi / 360) * (Real.sin (Omega * Real.pi / 360) * n3)),
        2 * (Real.sin (Omega * Real.pi / 360) * n1 * (Real.sin (Omega * Real.pi / 360) * n3)
          - Real.cos (Omega * Real.pi / 360) * (Real.sin (Omega * Real.pi / 360) * n2));
        2 * (Real.sin (Omega * Real.pi / 360) * n2 * (Real.sin (Omega * Real.pi / 360) * n1)
          - Real.cos (Omega * Real.pi / 360) * (Real.sin (Omega * Real.pi / 360) * n3)),
        Real.cos (Omega * Real.pi / 360) * Real.cos (Omega * Real.pi / 360)
          - Real.sin (Omega * Real.pi / 360) * n1 * (Real.sin (Omega * Real.pi / 360) * n1)
          + Real.sin (Omega * Real.pi / 360) * n2 * (Real.sin (Omega * Real.pi / 360) * n2)
          - Real.sin (Omega * Real.pi / 360) * n3 * (Real.sin (Omega * Real.pi / 360) * n3),
        2 * (Real.sin (Omega * Real.pi / 360) * n2 * (Real.sin (Omega * Real.pi / 360) * n3)
          + Real.cos (Omega * Real.pi / 360) * (Real.sin (Omega * Real.pi / 360) * n1));
        2 * (Real.sin (Omega * Real.pi / 360) * n3 * (Real.sin (Omega * Real.pi / 360) * n1)
          + Real.cos (Omega * Real.pi / 360) * (Real.sin (Omega * Real.pi / 360) * n2)),
        2 * (Real.sin (Omega * Real.pi / 360) * n3 * (Real.sin (Omega * Real.pi / 360) * n2)
          - Real.cos (Omega * Real.pi / 360) * (Real.sin (Omega * Real.pi / 360) * n1)),
        Real.cos (Omega * Real.pi / 360) * Real.cos (Omega * Real.pi / 360)
          - Real.sin (Omega * Real.pi / 360) * n1 * (Real.sin (Omega * Real.pi / 360) * n1)
          - Real.sin (Omega * Real.pi / 360) * n2 * (Real.sin (Omega * Real.pi / 360) * n2)
          + Real.sin (Omega * Real.pi / 360) * n3 * (Real.sin (Omega * Real.pi / 360) * n3)]
    = specAxisAngle (Libm.mk Real.cos Real.sin Real.arccos Real.arcsin
        (fun y x => Complex.arg ⟨x, y⟩) Real.sqrt Real.pi) n1 n2 n3 Omega := by
  have hcs : Real.sin (Omega * Real.pi / 360) * Real.sin (Omega * Real.pi / 360)
      + Real.cos (Omega * Real.pi / 360) * Real.cos (Omega * Real.pi / 360) = 1 := by
    have := Real.sin_sq_add_cos_sq (Omega * Real.pi / 360)
    rw [sq, sq] at this
    exact this
  have hx : Omega * Real.pi / 180 = 2 * (Omega * Real.pi / 360) := by ring
  have hc2 : Real.cos (Omega * Real.pi / 180)
      = Real.cos (Omega * Real.pi / 360) * Real.cos (Omega * Real.pi / 360)
        - Real.sin (Omega * Real.pi / 360) * Real.sin (Omega * Real.pi / 360) := by
    rw [hx, Real.cos_two_mul, sq]
    linear_combination hcs
  have hs2 : Real.sin (Omega * Real.pi / 180)
      = 2 * Real.sin (Omega * Real.pi / 360) * Real.cos (Omega * Real.pi / 360) := by
    rw [hx, Real.sin_two_mul]
  simp only [specAxisAngle]
  rw [hc2, hs2]
  generalize Real.sin (Omega * Real.pi / 360) = s at hcs
  generalize Real.cos (Omega * Real.pi / 360) = c at hcs
  ext i j
  fin_cases i <;> fin_cases j <;>
    simp only [Matrix.of_apply, Matrix.cons_val', Matrix.cons_val_zero, Matrix.cons_val_one,
      Matrix.head_cons, Matrix.empty_val', Matrix.cons_val_fin_one, Matrix.cons_val_two,
      Matrix.tail_cons, Fin.zero_eta, Fin.mk_one, Fin.reduceFinMk, Fin.isValue] <;>
    try simp only [Matrix.vecHead]
  · linear_combination (-(s * s)) * hn + (n1 * n1) * hcs
  · linear_combination (n1 * n2) * hcs
  · linear_combination (n1 * n3) * hcs
  · linear_combination (n2 * n1) * hcs
  · linear_combination (-(s * s)) * hn + (n2 * n2) * hcs
  · linear_combination (n2 * n3) * hcs
  · linear_combination (n3 * n1) * hcs
  · linear_combination (n3 * n2) * hcs
  · linear_combination (-(s * s)) * hn + (n3 * n3) * hcs

theorem specAxisAngle_z (Omega : ℝ) :
    specAxisAngle (Libm.mk Real.cos Real.sin Real.arccos Real.arcsin
        (fun y x => Complex.arg ⟨x, y⟩) Real.sqrt Real.pi) 0 0 1 Omega
    = specEmanTable (Libm.mk Real.cos Real.sin Real.arccos Real.arcsin
        (fun y x => Complex.arg ⟨x, y⟩) Real.sqrt Real.pi) Omega 0 0 := by
  rw [specEmanTable_rotZ]
  simp only [specAxisAngle, specRz, deg2rad]
  ext i j
  fin_cases i <;> fin_cases j <;> simp

/-- C32: over the reals, for every unit axis `(n1, n2, n3)` and every angle
`Omega` in degrees, `set_rotation(SPIN, {n1, n2, n3, Omega})` returns a
transform whose 3x3 block is the axis-angle matrix of the comment in the
source; for the axis `(0, 0, 1)` the block is that of
`set_rotation(EMAN, az = Omega, alt = 0, phi = 0)`. -/
theorem set_rotation_SPIN_block (t : Transform3D ℝ) (n1 n2 n3 Omega : ℝ)
    (hn : n1 * n1 + n2 * n2 + n3 * n3 = 1) :
    (∃ r : Transform3D ℝ,
      set_rotation (Libm.mk Real.cos Real.sin Real.arccos Real.arcsin
        (fun y x => Complex.arg ⟨x, y⟩) Real.sqrt Real.pi) t .SPIN
        ((((Dict.empty.put "Omega" Omega).put "n1" n1).put "n2" n2).put "n3" n3) = .ok r ∧
      block3 r = specAxisAngle (Libm.mk Real.cos Real.sin Real.arccos Real.arcsin
        (fun y x => Complex.arg ⟨x, y⟩) Real.sqrt Real.pi) n1 n2 n3 Omega) ∧
    (∃ r e : Transform3D ℝ,
      set_rotation (Libm.mk Real.cos Real.sin Real.arccos Real.arcsin
        (fun y x => Complex.arg ⟨x, y⟩) Real.sqrt Real.pi) t .SPIN
        ((((Dict.empty.put "Omega" Omega).put "n1" 0).put "n2" 0).put "n3" 1) = .ok r ∧
      set_rotation (Libm.mk Real.cos Real.sin Real.arccos Real.arcsin
        (fun y x => Complex.arg ⟨x, y⟩) Real.sqrt Real.pi) t .EMAN (emanDict Omega 0 0)
        = .ok e ∧
      block3 r = block3 e) := by
  constructor
  · refine ⟨_, set_rotation_SPIN_eq _ t n1 n2 n3 Omega, ?_⟩
    rw [fill_quaternion_block]
    exact quaternion_axis_angle n1 n2 n3 Omega hn
  · refine ⟨_, _, set_rotation_SPIN_eq _ t 0 0 1 Omega, rfl, ?_⟩
    rw [fill_quaternion_block]
    have h := quaternion_axis_angle 0 0 1 Omega (by norm_num)
    have e : block3 (set_rotation_fill (Libm.mk Real.cos Real.sin Real.arccos Real.arcsin
        (fun y x => Complex.arg ⟨x, y⟩) Real.sqrt Real.pi)
        (emanLocals t Omega 0 0)) = _ := fill_eman_block_real t Omega 0 0
    exact h.trans ((specAxisAngle_z Omega).trans e.symm)

/-- C32 (witness): the axis `(0, 0, 1)` and the angle 90 on a fresh
transform. -/
theorem set_rotation_SPIN_block_witness :
    (0 : ℝ) * 0 + 0 * 0 + 1 * 1 = 1 ∧
    ∃ r : Transform3D ℝ,
      set_rotation (Libm.mk Real.cos Real.sin Real.arccos Real.arcsin
        (fun y x => Complex.arg ⟨x, y⟩) Real.sqrt Real.pi) new .SPIN
        ((((Dict.empty.put "Omega" 90).put "n1" 0).put "n2" 0).put "n3" 1) = .ok r ∧
      block3 r = specAxisAngle (Libm.mk Real.cos Real.sin Real.arccos Real.arcsin
        (fun y x => Complex.arg ⟨x, y⟩) Real.sqrt Real.pi) 0 0 1 90 :=
  ⟨by norm_num, (set_rotation_SPIN_block new 0 0 1 90 (by norm_num)).1⟩

end Transform3D

/-! ### C33: the triangles of the asymmetric unit -/

theorem CSym_points_ge3 {K : Type} [Field K] (L : Libm K) (n : Int) (hn : 3 ≤ n) :
    ∃ p : Vec3f K,
      CSym.get_asym_unit_points L ⟨n⟩ false = .ok [⟨0, 0, 1⟩, ⟨0, -1, 0⟩, p] ∧
      CSym.get_asym_unit_points L ⟨n⟩ true
        = .ok [⟨0, 0, 1⟩, ⟨0, -1, 0⟩, ⟨0, 0, -1⟩, p] := by
  have h1 : ¬ n = 1 := by omega
  have h2 : ¬ n = 2 := by omega
  have h0 : ¬ n ≤ 0 := by omega
  refine ⟨⟨L.sin (EMConsts_deg2rad L * (360 / (n : K))),
    -L.cos (EMConsts_deg2rad L * (360 / (n : K))), 0⟩, ?_, ?_⟩
  · unfold CSym.get_asym_unit_points CSym.get_delimiters
    simp only [h0, h1, h2, if_false, false_and, bind, Except.bind, pure, Except.pure]
    rfl
  · unfold CSym.get_asym_unit_points CSym.get_delimiters
    simp only [h0, h1, h2, if_false, false_and, bind, Except.bind, pure, Except.pure]
    rfl

theorem CSym_triangles_ge3 {K : Type} [Field K] (L : Libm K) (n : Int) (hn : 3 ≤ n)
    (p : Vec3f K)
    (hf : CSym.get_asym_unit_points L ⟨n⟩ false = .ok [⟨0, 0, 1⟩, ⟨0, -1, 0⟩, p])
    (ht : CSym.get_asym_unit_points L ⟨n⟩ true
      = .ok [⟨0, 0, 1⟩, ⟨0, -1, 0⟩, ⟨0, 0, -1⟩, p]) :
    CSym.get_asym_unit_triangles L ⟨n⟩ false = .ok [[⟨0, 0, 1⟩, p, ⟨0, -1, 0⟩]] ∧
    CSym.get_asym_unit_triangles L ⟨n⟩ true
      = .ok [[⟨0, 0, 1⟩, p, ⟨0, -1, 0⟩], [⟨0, -1, 0⟩, p, ⟨0, 0, -1⟩]] := by
  have h1 : ¬ n = 1 := by omega
  have h2 : ¬ n = 2 := by omega
  constructor
  · unfold CSym.get_asym_unit_triangles
    rw [hf]
    simp only [h1, h2, false_and, if_false, bind, Except.bind, pure, Except.pure,
      List.length_cons, List.length_nil]
    rfl
  · unfold CSym.get_asym_unit_triangles
    rw [ht]
    simp only [h1, h2, false_and, if_false, bind, Except.bind, pure, Except.pure,
      List.length_cons, List.length_nil]
    rfl

theorem align_points_eq {K : Type} [LinearOrderedField K] [FloorRing K] (L : Libm K)
    (kind : PlatonicKind) (ret : List (Vec3f K)) :
    PlatonicSym.align_points L kind ret = .ok ret := by
  unfold PlatonicSym.align_points
  rw [if_neg (by simp [PlatonicKind.get_az_alignment_offset])]

theorem platonic_points_length {K : Type} [LinearOrderedField K] [FloorRing K] (L : Libm K)
    (E : LibmExt K) (normalize : Vec3f K → Vec3f K) (kind : PlatonicKind)
    (inc_mirror : Bool) :
    ∃ v : List (Vec3f K),
      PlatonicSym.get_asym_unit_points L E normalize kind inc_mirror = .ok v ∧
      (v.length = 3 ∨ v.length = 4) := by
  unfold PlatonicSym.get_asym_unit_points
  dsimp only
  rw [align_points_eq]
  refine ⟨_, rfl, ?_⟩
  cases inc_mirror
  · exact Or.inl rfl
  · exact Or.inr rfl

theorem tet_points_length {K : Type} [LinearOrderedField K] [FloorRing K] (L : Libm K)
    (E : LibmExt K) (normalize : Vec3f K → Vec3f K) (inc_mirror : Bool) :
    ∃ v : List (Vec3f K),
      TetrahedralSym.get_asym_unit_points L E normalize inc_mirror = .ok v ∧
      (v.length = 3 ∨ v.length = 4) := by
  unfold TetrahedralSym.get_asym_unit_points
  dsimp only
  rw [align_points_eq]
  refine ⟨_, rfl, ?_⟩
  cases inc_mirror
  · exact Or.inl rfl
  · exact Or.inr rfl

theorem platonic_kind_points_length {K : Type} [LinearOrderedField K] [FloorRing K]
    (L : Libm K) (E : LibmExt K) (normalize : Vec3f K → Vec3f K) (kind : PlatonicKind)
    (inc_mirror : Bool) :
    ∃ v : List (Vec3f K),
      kind.get_asym_unit_points L E normalize inc_mirror = .ok v ∧
      (v.length = 3 ∨ v.length = 4) := by
  cases kind
  · exact tet_points_length L E normalize inc_mirror
  · exact platonic_points_length L E normalize .OctahedralSym inc_mirror
  · exact platonic_points_length L E normalize .IcosahedralSym inc_mirror

/-- The triangles that `PlatonicSym::get_asym_unit_triangles` makes of three
points and of four points are the fan. -/
theorem platonic_triangles_of_points {K : Type} [LinearOrderedField K] [FloorRing K]
    (L : Libm K) (E : LibmExt K) (normalize : Vec3f K → Vec3f K) (kind : PlatonicKind)
    (inc_mirror : Bool) (v : List (Vec3f K)) (hl : v.length = 3 ∨ v.length = 4)
    (hv : kind.get_asym_unit_points L E normalize inc_mirror = .ok v) :
    PlatonicSym.get_asym_unit_triangles L E normalize kind inc_mirror = .ok (specFan v) := by
  unfold PlatonicSym.get_asym_unit_triangles
  rw [hv]
  rcases hl with h | h
  · match v, h with
    | [a, b, c], _ => rfl
  · match v, h with
    | [a, b, c, d], _ => rfl

/-- C33 (counterexample): for `CSym` with `nsym = 3` and `inc_mirror = true`
the four points do not give the fan: the second vertex of the first triangle
is `v3`, not `v2`. -/
theorem CSym_triangles_not_fan :
    ∃ (v : List (Vec3f ℝ)) (tr : List (List (Vec3f ℝ))),
      CSym.get_asym_unit_points (Libm.mk Real.cos Real.sin Real.arccos Real.arcsin
        (fun y x => Complex.arg ⟨x, y⟩) Real.sqrt Real.pi) ⟨3⟩ true = .ok v ∧
      CSym.get_asym_unit_triangles (Libm.mk Real.cos Real.sin Real.arccos Real.arcsin
        (fun y x => Complex.arg ⟨x, y⟩) Real.sqrt Real.pi) ⟨3⟩ true = .ok tr ∧
      tr ≠ specFan v := by
  obtain ⟨p, hf, ht⟩ := CSym_points_ge3 (Libm.mk Real.cos Real.sin Real.arccos Real.arcsin
    (fun y x => Complex.arg ⟨x, y⟩) Real.sqrt Real.pi) 3 (by decide)
  obtain ⟨-, h2⟩ := CSym_triangles_ge3 _ 3 (by decide) p hf ht
  refine ⟨_, _, ht, h2, ?_⟩
  intro h
  have h3 : ([[⟨0, 0, 1⟩, p, ⟨0, -1, 0⟩], [⟨0, -1, 0⟩, p, ⟨0, 0, -1⟩]] : List (List (Vec3f ℝ)))
      = [[⟨0, 0, 1⟩, ⟨0, 0, -1⟩, ⟨0, -1, 0⟩], [⟨0, 0, 1⟩, p, ⟨0, 0, -1⟩]] := h
  simp only [List.cons.injEq, Vec3f.mk.injEq, and_true, true_and] at h3
  norm_num at h3

/-- C33 (amended): `get_asym_unit_triangles` follows the fan convention on
`get_asym_unit_points` for `CSym` with `nsym ≥ 3` and `inc_mirror = false`,
and for the platonic groups with either value of `inc_mirror`: the triangles
are `(v0, v2, v1), (v0, v3, v2), ...` in that order. For `CSym` with
`nsym ≥ 3` and `inc_mirror = true` the points `v0, v1, v2, v3` give the two
triangles `(v0, v3, v1)` and `(v1, v3, v2)`. -/
theorem asym_unit_triangles_fan {K : Type} [LinearOrderedField K] [FloorRing K]
    (L : Libm K) (E : LibmExt K) (normalize : Vec3f K → Vec3f K) (n : Int) (hn : 3 ≤ n) :
    (∃ v : List (Vec3f K), CSym.get_asym_unit_points L ⟨n⟩ false = .ok v ∧
      CSym.get_asym_unit_triangles L ⟨n⟩ false = .ok (specFan v)) ∧
    (∀ (kind : PlatonicKind) (inc_mirror : Bool),
      ∃ v : List (Vec3f K), kind.get_asym_unit_points L E normalize inc_mirror = .ok v ∧
        PlatonicSym.get_asym_unit_triangles L E normalize kind inc_mirror
          = .ok (specFan v)) ∧
    (∃ v0 v1 v2 v3 : Vec3f K,
      CSym.get_asym_unit_points L ⟨n⟩ true = .ok [v0, v1, v2, v3] ∧
      CSym.get_asym_unit_triangles L ⟨n⟩ true = .ok [[v0, v3, v1], [v1, v3, v2]]) := by
  obtain ⟨p, hf, ht⟩ := CSym_points_ge3 L n hn
  obtain ⟨h1, h2⟩ := CSym_triangles_ge3 L n hn p hf ht
  refine ⟨⟨_, hf, h1⟩, ?_, ⟨_, _, _, _, ht, h2⟩⟩
  intro kind inc_mirror
  obtain ⟨v, hv, hl⟩ := platonic_kind_points_length L E normalize kind inc_mirror
  exact ⟨v, hv, platonic_triangles_of_points L E normalize kind inc_mirror v hl hv⟩

/-- C33 (witness): `CSym` with `nsym = 3` without mirror, over the reals. -/
theorem asym_unit_triangles_fan_witness :
    (3 : Int) ≤ 3 ∧
    ∃ v : List (Vec3f ℝ),
      CSym.get_asym_unit_points (Libm.mk Real.cos Real.sin Real.arccos Real.arcsin
        (fun y x => Complex.arg ⟨x, y⟩) Real.sqrt Real.pi) ⟨3⟩ false = .ok v ∧
      CSym.get_asym_unit_triangles (Libm.mk Real.cos Real.sin Real.arccos Real.arcsin
        (fun y x => Complex.arg ⟨x, y⟩) Real.sqrt Real.pi) ⟨3⟩ false = .ok (specFan v) :=
  ⟨le_refl _, (asym_unit_triangles_fan (Libm.mk Real.cos Real.sin Real.arccos Real.arcsin
    (fun y x => Complex.arg ⟨x, y⟩) Real.sqrt Real.pi) (LibmExt.mk Real.tan Real.arctan)
    (fun v => v) 3 (le_refl _)).1⟩

/-! ### C34: the direction of the random orientation generator -/

/-- C34: over the reals, for every draw `(u1, u2)` with
`s = u1² + u2² ≤ 1` the loop body does not reject the draw, the direction it
computes is `(2 u1 sqrt(1 - s), 2 u2 sqrt(1 - s), 2 s - 1)`, it has unit
length, and `z` lies in `[-1, 1]`, the domain of `acos`. -/
theorem random_direction_unit (u1 u2 : ℝ) (h : u1 * u1 + u2 * u2 ≤ 1) :
    ∃ d : RandomDirection ℝ,
      RandomOrientationGenerator.direction (Libm.mk Real.cos Real.sin Real.arccos
        Real.arcsin (fun y x => Complex.arg ⟨x, y⟩) Real.sqrt Real.pi) u1 u2 = some d ∧
      d.x = 2 * u1 * Real.sqrt (1 - (u1 * u1 + u2 * u2)) ∧
      d.y = 2 * u2 * Real.sqrt (1 - (u1 * u1 + u2 * u2)) ∧
      d.z = 2 * (u1 * u1 + u2 * u2) - 1 ∧
      d.x * d.x + d.y * d.y + d.z * d.z = 1 ∧ -1 ≤ d.z ∧ d.z ≤ 1 := by
  have hs : Real.sqrt (1 - (u1 * u1 + u2 * u2)) * Real.sqrt (1 - (u1 * u1 + u2 * u2))
      = 1 - (u1 * u1 + u2 * u2) := Real.mul_self_sqrt (by linarith)
  have h0 : 0 ≤ u1 * u1 + u2 * u2 := add_nonneg (mul_self_nonneg _) (mul_self_nonneg _)
  unfold RandomOrientationGenerator.direction
  dsimp only
  rw [if_neg (not_lt.2 h)]
  refine ⟨_, rfl, by ring, by ring, rfl, ?_, by dsimp only; linarith, by dsimp only; linarith⟩
  dsimp only
  generalize Real.sqrt (1 - (u1 * u1 + u2 * u2)) = r at hs
  have e : 2 * r * u1 * (2 * r * u1) + 2 * r * u2 * (2 * r * u2)
      + (2 * (u1 * u1 + u2 * u2) - 1) * (2 * (u1 * u1 + u2 * u2) - 1)
      = 4 * (r * r) * (u1 * u1 + u2 * u2)
        + (2 * (u1 * u1 + u2 * u2) - 1) * (2 * (u1 * u1 + u2 * u2) - 1) := by ring
  rw [e, hs]
  ring

/-- C34 (witness): the draw `(1/2, 1/2)`. -/
theorem random_direction_unit_witness :
    (1 / 2 : ℝ) * (1 / 2) + (1 / 2) * (1 / 2) ≤ 1 ∧
    ∃ d : RandomDirection ℝ,
      RandomOrientationGenerator.direction (Libm.mk Real.cos Real.sin Real.arccos
        Real.arcsin (fun y x => Complex.arg ⟨x, y⟩) Real.sqrt Real.pi) (1 / 2) (1 / 2)
        = some d ∧
      d.x * d.x + d.y * d.y + d.z * d.z = 1 :=
  ⟨by norm_num,
    (random_direction_unit (1 / 2) (1 / 2) (by norm_num)).imp
      fun _ hd => ⟨hd.1, hd.2.2.2.2.1⟩⟩

/-! ### C40: the table reads of the platonic `get_sym` -/

/-- C40 (the code at the failing input): for `n = -1` the truncated remainder
`idx = n % order` is `-1` for the orders 60, 24 and 12, and the three
`get_sym` read their tables at the index `3 * idx = -3`, outside the bounds. -/
theorem platonic_get_sym_negative {K : Type} [LinearOrderedField K] [FloorRing K]
    (L : Libm K) :
    Int.tmod (-1) 60 = -1 ∧ Int.tmod (-1) 24 = -1 ∧ Int.tmod (-1) 12 = -1 ∧
    tableRead (ICOS : List K) (Int.tmod (-1) 60 * 3) = .error .OutOfBoundsRead ∧
    IcosahedralSym.get_sym L (-1) = .error .OutOfBoundsRead ∧
    OctahedralSym.get_sym L (-1) = .error .OutOfBoundsRead ∧
    TetrahedralSym.get_sym L (-1) = .error .OutOfBoundsRead :=
  ⟨by decide, by decide, by decide, rfl, rfl, rfl, rfl⟩

/-! ### C35: `CollapseProcessor::process_pixel` -/

/-- C35 (the code at the failing input): with `value = 10` and `range = 1` the
pixel `x = 5` is below `v - r = 9`, where the documented function is `x + r =
6`; the code compares `x` with `range - value = -9` and returns `value = 10`. -/
theorem collapse_process_pixel_low :
    (0 : ℚ) ≤ 1 ∧ (5 : ℚ) < 10 - 1 ∧
    CollapseProcessor.process_pixel (⟨1, 10⟩ : CollapseProcessor ℚ) 5 = 10 ∧
    (10 : ℚ) ≠ 5 + 1 := by
  refine ⟨by norm_num, by norm_num, ?_, by norm_num⟩
  unfold CollapseProcessor.process_pixel
  norm_num

/-! ### C36: `BoxMedianProcessor::process_pixel` -/

theorem getD_set_eq {K : Type} (l : List K) (i m : Nat) (x d : K) :
    (l.set i x).getD m d = if m = i ∧ i < l.length then x else l.getD m d := by
  rw [List.getD_eq_getElem?_getD, List.getD_eq_getElem?_getD, List.getElem?_set]
  by_cases h : i = m
  · subst h
    by_cases h2 : i < l.length
    · simp [h2]
    · have h3 : l[i]? = none := List.getElem?_eq_none (by omega)
      simp [h2, h3]
  · have h' : ¬ m = i := fun e => h e.symm
    simp [h, h']

theorem exchange_length {K : Type} [LinearOrderedField K] (l : List K) (i j : Nat) :
    (BoxMedianProcessor.exchange l i j).length = l.length := by
  unfold BoxMedianProcessor.exchange
  split
  · simp only [List.length_set]
  · rfl

theorem exchange_getD {K : Type} [LinearOrderedField K] (l : List K) (i j m : Nat)
    (hi : i < l.length) (hj : j < l.length) :
    (BoxMedianProcessor.exchange l i j).getD m 0
      = if l.getD i 0 < l.getD j 0 then
          (if m = j then l.getD i 0 else if m = i then l.getD j 0 else l.getD m 0)
        else l.getD m 0 := by
  unfold BoxMedianProcessor.exchange
  by_cases h : l.getD i 0 < l.getD j 0
  · rw [if_pos h, if_pos h]
    dsimp only
    rw [getD_set_eq, getD_set_eq, List.length_set]
    by_cases hm : m = j
    · rw [if_pos ⟨hm, hj⟩, if_pos hm]
    · rw [if_neg (fun c => hm c.1), if_neg hm]
      by_cases hm2 : m = i
      · rw [if_pos ⟨hm2, hi⟩, if_pos hm2]
      · rw [if_neg (fun c => hm2 c.1), if_neg hm2]
  · rw [if_neg h, if_neg h]

theorem exchange_countP {K : Type} [LinearOrderedField K] (p : K → Bool) (l : List K)
    (i j : Nat) (hi : i < l.length) (hj : j < l.length) (hij : i ≠ j) :
    (BoxMedianProcessor.exchange l i j).countP p = l.countP p := by
  unfold BoxMedianProcessor.exchange
  split
  · dsimp only
    have hj2 : j < (l.set i (l.getD j 0)).length := by rw [List.length_set]; exact hj
    rw [List.countP_set p _ j _ hj2, List.countP_set p l i _ hi]
    have e1 : (l.set i (l.getD j 0))[j] = l[j] := by
      rw [List.getElem_set]
      rw [if_neg hij]
    have e2 : l.getD j 0 = l[j] := List.getD_eq_getElem l 0 hj
    have e3 : l.getD i 0 = l[i] := List.getD_eq_getElem l 0 hi
    rw [e1, e2, e3]
    have b1 := List.boole_getElem_le_countP p l i hi
    have b2 := List.boole_getElem_le_countP p l j hj
    by_cases pi : p l[i] = true <;> by_cases pj : p l[j] = true <;>
      simp only [pi, pj, if_true, if_false] at b1 b2 ⊢ <;> omega
  · rfl

/-- One iteration of the inner loop, at `j`: the length and the counts are
kept, the positions before `i` still dominate the positions after them, and
`data[i]` dominates the positions up to `j`. -/
theorem exchange_step {K : Type} [LinearOrderedField K] (n i j : Nat) (l : List K)
    (hij : i < j) (hj : j < n) (hl : l.length = n)
    (hD : ∀ k, k < i → ∀ m, k < m → m < n → l.getD m 0 ≤ l.getD k 0)
    (hP : ∀ m, i < m → m < j → l.getD m 0 ≤ l.getD i 0) :
    (BoxMedianProcessor.exchange l i j).length = n ∧
    (∀ p : K → Bool, (BoxMedianProcessor.exchange l i j).countP p = l.countP p) ∧
    (∀ k, k < i → ∀ m, k < m → m < n →
      (BoxMedianProcessor.exchange l i j).getD m 0
        ≤ (BoxMedianProcessor.exchange l i j).getD k 0) ∧
    (∀ m, i < m → m < j + 1 →
      (BoxMedianProcessor.exchange l i j).getD m 0
        ≤ (BoxMedianProcessor.exchange l i j).getD i 0) := by
  have hi' : i < l.length := by omega
  have hj' : j < l.length := by omega
  have hne : i ≠ j := by omega
  refine ⟨by rw [exchange_length, hl], fun p => exchange_countP p l i j hi' hj' hne, ?_, ?_⟩
  · intro k hk m hkm hm
    rw [exchange_getD l i j m hi' hj', exchange_getD l i j k hi' hj']
    by_cases h : l.getD i 0 < l.getD j 0
    · rw [if_pos h, if_pos h, if_neg (by omega : ¬ k = j), if_neg (by omega : ¬ k = i)]
      by_cases hm1 : m = j
      · rw [if_pos hm1]; exact hD k hk i (by omega) (by omega)
      · rw [if_neg hm1]
        by_cases hm2 : m = i
        · rw [if_pos hm2]; exact hD k hk j (by omega) (by omega)
        · rw [if_neg hm2]; exact hD k hk m hkm hm
    · rw [if_neg h, if_neg h]; exact hD k hk m hkm hm
  · intro m him hmj
    rw [exchange_getD l i j m hi' hj', exchange_getD l i j i hi' hj']
    by_cases h : l.getD i 0 < l.getD j 0
    · rw [if_pos h, if_pos h, if_neg hne, if_pos rfl]
      by_cases hm1 : m = j
      · rw [if_pos hm1]; exact h.le
      · rw [if_neg hm1, if_neg (by omega : ¬ m = i)]
        exact (hP m him (by omega)).trans h.le
    · rw [if_neg h, if_neg h]
      by_cases hm1 : m = j
      · rw [hm1]; exact not_lt.1 h
      · exact hP m him (by omega)

/-- The inner loop of the partial sort, run from `j0` for `c` iterations. -/
theorem sort_inner {K : Type} [LinearOrderedField K] (n i : Nat) :
    ∀ (c j0 : Nat) (l : List K), i < j0 → j0 + c ≤ n → l.length = n →
      (∀ k, k < i → ∀ m, k < m → m < n → l.getD m 0 ≤ l.getD k 0) →
      (∀ m, i < m → m < j0 → l.getD m 0 ≤ l.getD i 0) →
      ((List.range' j0 c).foldl (fun data j => BoxMedianProcessor.exchange data i j) l).length = n ∧
      (∀ p : K → Bool,
        ((List.range' j0 c).foldl (fun data j => BoxMedianProcessor.exchange data i j) l).countP p
          = l.countP p) ∧
      (∀ k, k < i → ∀ m, k < m → m < n →
        ((List.range' j0 c).foldl (fun data j => BoxMedianProcessor.exchange data i j) l).getD m 0
          ≤ ((List.range' j0 c).foldl
              (fun data j => BoxMedianProcessor.exchange data i j) l).getD k 0) ∧
      (∀ m, i < m → m < j0 + c →
        ((List.range' j0 c).foldl (fun data j => BoxMedianProcessor.exchange data i j) l).getD m 0
          ≤ ((List.range' j0 c).foldl
              (fun data j => BoxMedianProcessor.exchange data i j) l).getD i 0) := by
  intro c
  induction c with
  | zero =>
    intro j0 l _ _ hl hD hP
    exact ⟨hl, fun _ => rfl, hD, hP⟩
  | succ c ih =>
    intro j0 l hij hjn hl hD hP
    have hs := exchange_step n i j0 l hij (by omega) hl hD hP
    have h := ih (j0 + 1) (BoxMedianProcessor.exchange l i j0) (by omega) (by omega)
      hs.1 hs.2.2.1 hs.2.2.2
    rw [List.range'_succ, List.foldl_cons]
    refine ⟨h.1, fun p => (h.2.1 p).trans (hs.2.1 p), h.2.2.1, ?_⟩
    intro m him hm
    exact h.2.2.2 m him (by omega)

/-- The outer loop of the partial sort after `t` rounds: the counts are
kept and the first `t` positions dominate everything after them. -/
theorem sort_outer {K : Type} [LinearOrderedField K] (n : Nat) (v : List K)
    (hv : v.length = n) :
    ∀ t, t ≤ n →
      ((List.range t).foldl (fun data i =>
          (List.range' (i + 1) (n - (i + 1))).foldl
            (fun data j => BoxMedianProcessor.exchange data i j) data) v).length = n ∧
      (∀ p : K → Bool,
        ((List.range t).foldl (fun data i =>
          (List.range' (i + 1) (n - (i + 1))).foldl
            (fun data j => BoxMedianProcessor.exchange data i j) data) v).countP p = v.countP p) ∧
      (∀ k, k < t → ∀ m, k < m → m < n →
        ((List.range t).foldl (fun data i =>
          (List.range' (i + 1) (n - (i + 1))).foldl
            (fun data j => BoxMedianProcessor.exchange data i j) data) v).getD m 0
        ≤ ((List.range t).foldl (fun data i =>
          (List.range' (i + 1) (n - (i + 1))).foldl
            (fun data j => BoxMedianProcessor.exchange data i j) data) v).getD k 0) := by
  intro t
  induction t with
  | zero =>
    intro _
    exact ⟨hv, fun _ => rfl, fun k hk => absurd hk (Nat.not_lt_zero k)⟩
  | succ t ih =>
    intro ht
    have h := ih (by omega)
    rw [List.range_succ, List.foldl_append, List.foldl_cons, List.foldl_nil]
    generalize (List.range t).foldl (fun data i =>
          (List.range' (i + 1) (n - (i + 1))).foldl
            (fun data j => BoxMedianProcessor.exchange data i j) data) v = l at h ⊢
    have hi := sort_inner n t (n - (t + 1)) (t + 1) l (by omega) (by omega) h.1 h.2.2
      (fun m h1 h2 => absurd h2 (by omega))
    refine ⟨hi.1, fun p => (hi.2.1 p).trans (h.2.1 p), ?_⟩
    intro k hk m hkm hm
    by_cases hkt : k < t
    · exact hi.2.2.1 k hkt m hkm hm
    · have hkt2 : k = t := by omega
      subst hkt2
      exact hi.2.2.2 m hkm (by omega)

/-- Rank of the entry at position `k` of a list whose position `k` is
dominated by the earlier positions and dominates the later ones. -/
theorem rank_of_dominance {K : Type} [LinearOrderedField K] (l : List K) (k : Nat)
    (hk : k < l.length)
    (hlo : ∀ m, k < m → m < l.length → l.getD m 0 ≤ l.getD k 0)
    (hhi : ∀ m, m < k → l.getD k 0 ≤ l.getD m 0) :
    l.countP (fun x => decide (l.getD k 0 < x)) ≤ k ∧
    k + 1 ≤ l.countP (fun x => decide (l.getD k 0 ≤ x)) := by
  constructor
  · have e : l.countP (fun x => decide (l.getD k 0 < x))
        = (l.take k).countP (fun x => decide (l.getD k 0 < x))
          + (l.drop k).countP (fun x => decide (l.getD k 0 < x)) := by
      rw [← List.countP_append, List.take_append_drop]
    have z : (l.drop k).countP (fun x => decide (l.getD k 0 < x)) = 0 := by
      rw [List.countP_eq_zero]
      intro a ha
      rw [List.mem_drop_iff_getElem] at ha
      obtain ⟨i, hi, rfl⟩ := ha
      have e2 : l[k + i] = l.getD (k + i) 0 := (List.getD_eq_getElem l 0 (by omega)).symm
      rw [e2]
      simp only [decide_eq_true_eq, not_lt]
      by_cases h0 : i = 0
      · subst h0; exact le_refl _
      · exact hlo (k + i) (by omega) (by omega)
    have b := List.countP_le_length (fun x => decide (l.getD k 0 < x)) (l := l.take k)
    rw [List.length_take] at b
    omega
  · have e : l.countP (fun x => decide (l.getD k 0 ≤ x))
        = (l.take (k + 1)).countP (fun x => decide (l.getD k 0 ≤ x))
          + (l.drop (k + 1)).countP (fun x => decide (l.getD k 0 ≤ x)) := by
      rw [← List.countP_append, List.take_append_drop]
    have z : (l.take (k + 1)).countP (fun x => decide (l.getD k 0 ≤ x))
        = (l.take (k + 1)).length := by
      rw [List.countP_eq_length]
      intro a ha
      rw [List.mem_take_iff_getElem] at ha
      obtain ⟨i, hi, rfl⟩ := ha
      have hi2 : i < k + 1 := lt_of_lt_of_le hi (min_le_left _ _)
      have e2 : l[i] = l.getD i 0 := (List.getD_eq_getElem l 0 (by omega)).symm
      rw [e2]
      simp only [decide_eq_true_eq]
      by_cases h0 : i = k
      · subst h0; exact le_refl _
      · exact hhi i (by omega)
    rw [List.length_take] at z
    have : min (k + 1) l.length = k + 1 := by omega
    omega

/-- Two values of the same rank in lists with the same counts are equal. -/
theorem rank_unique {K : Type} [LinearOrderedField K] (l s : List K) (k : Nat) (a b : K)
    (hc : ∀ p : K → Bool, l.countP p = s.countP p)
    (ha1 : l.countP (fun x => decide (a < x)) ≤ k)
    (ha2 : k + 1 ≤ l.countP (fun x => decide (a ≤ x)))
    (hb1 : s.countP (fun x => decide (b < x)) ≤ k)
    (hb2 : k + 1 ≤ s.countP (fun x => decide (b ≤ x))) : a = b := by
  rcases lt_trichotomy a b with h | h | h
  · exfalso
    have m : s.countP (fun x => decide (b ≤ x)) ≤ s.countP (fun x => decide (a < x)) := by
      apply List.countP_mono_left
      intro x _ hx
      simp only [decide_eq_true_eq] at hx ⊢
      exact lt_of_lt_of_le h hx
    rw [hc] at ha1
    omega
  · exact h
  · exfalso
    have m : l.countP (fun x => decide (a ≤ x)) ≤ l.countP (fun x => decide (b < x)) := by
      apply List.countP_mono_left
      intro x _ hx
      simp only [decide_eq_true_eq] at hx ⊢
      exact lt_of_lt_of_le h hx
    rw [← hc] at hb1
    omega

/-- Entries of a descending sorted list dominate the later entries. -/
theorem sorted_dominance {K : Type} [LinearOrderedField K] (v : List K) (k m : Nat)
    (hkm : k < m) (hm : m < v.length) :
    (v.insertionSort (fun a b => a ≥ b)).getD m 0
      ≤ (v.insertionSort (fun a b => a ≥ b)).getD k 0 := by
  have hs : List.Sorted (fun a b : K => a ≥ b) (v.insertionSort (fun a b => a ≥ b)) :=
    List.sorted_insertionSort _ v
  have hlen : (v.insertionSort (fun a b => a ≥ b)).length = v.length :=
    List.length_insertionSort _ v
  rw [List.getD_eq_getElem _ 0 (by omega : m < (v.insertionSort (fun a b => a ≥ b)).length),
    List.getD_eq_getElem _ 0 (by omega : k < (v.insertionSort (fun a b => a ≥ b)).length)]
  exact (List.pairwise_iff_getElem.1 hs) k m (by omega) (by omega) hkm

/-- The partial sort puts at every position up to the middle the entry a
full descending sort puts there. -/
theorem sort_half_getD {K : Type} [LinearOrderedField K] (v : List K) (n k : Nat)
    (hv : v.length = n) (hk : k ≤ n / 2) (hkn : k < n) :
    (BoxMedianProcessor.sort_half v n).getD k 0
      = (v.insertionSort (fun a b => a ≥ b)).getD k 0 := by
  have ho := sort_outer n v hv (n / 2 + 1) (by omega)
  unfold BoxMedianProcessor.sort_half
  generalize (List.range (n / 2 + 1)).foldl (fun data i =>
          (List.range' (i + 1) (n - (i + 1))).foldl
            (fun data j => BoxMedianProcessor.exchange data i j) data) v = l at ho ⊢
  have hlen : (v.insertionSort (fun a b => a ≥ b)).length = n :=
    (List.length_insertionSort _ v).trans hv
  have r1 := rank_of_dominance l k (by omega)
    (fun m h1 h2 => ho.2.2 k (by omega) m h1 (by omega))
    (fun m h1 => ho.2.2 m (by omega) k h1 hkn)
  have r2 := rank_of_dominance (v.insertionSort (fun a b => a ≥ b)) k (by omega)
    (fun m h1 h2 => sorted_dominance v k m h1 (by omega))
    (fun m h1 => sorted_dominance v m k h1 (by omega))
  have hc : ∀ p : K → Bool, l.countP p = (v.insertionSort (fun a b => a ≥ b)).countP p := by
    intro p
    rw [ho.2.1 p]
    exact ((List.perm_insertionSort _ v).countP_eq p).symm
  exact rank_unique l _ k _ _ hc r1.1 r1.2 r2.1 r2.2

/-- C36: for a box of `n ≥ 1` values (the first `n` entries of `array`),
`BoxMedianProcessor::process_pixel` returns the statistical median of the
box: the middle entry of the sorted values when `n` is odd, the mean of the
two middle entries when `n` is even. The result is the returned pixel only;
the input list is a value and stays as it is. -/
theorem BoxMedianProcessor_process_pixel_median {K : Type} [LinearOrderedField K]
    (array : List K) (n : Nat) (h1 : 1 ≤ n) (hn : n ≤ array.length) :
    BoxMedianProcessor.process_pixel array n = .ok (specMedian (array.take n)) := by
  have hlen : (array.take n).length = n := by
    rw [List.length_take]; omega
  have hmid := sort_half_getD (array.take n) n (n / 2) hlen (le_refl _) (by omega)
  unfold BoxMedianProcessor.process_pixel specMedian
  rw [if_neg (by omega : ¬ array.length < n)]
  dsimp only
  rw [hlen]
  by_cases hodd : n % 2 ≠ 0
  · rw [if_pos hodd, if_pos hodd, hmid]
  · rw [if_neg hodd, if_neg hodd, if_neg (by omega : ¬ n = 0)]
    have hlow := sort_half_getD (array.take n) n (n / 2 - 1) hlen (by omega) (by omega)
    rw [hmid, hlow, add_comm]

/-- Witness for C36: the box 3, 1, 2, 5 of four rationals (with a fifth entry
after it that is not part of the box). -/
theorem BoxMedianProcessor_process_pixel_median_witness :
    1 ≤ 4 ∧ 4 ≤ ([3, 1, 2, 5, 7] : List ℚ).length ∧
    BoxMedianProcessor.process_pixel ([3, 1, 2, 5, 7] : List ℚ) 4
      = .ok (specMedian (([3, 1, 2, 5, 7] : List ℚ).take 4)) :=
  ⟨by decide, by decide,
    BoxMedianProcessor_process_pixel_median ([3, 1, 2, 5, 7] : List ℚ) 4 (by decide) (by decide)⟩

namespace Transform3D

/-! ### C37: `set_rotation` and the translations -/

/-- The total-translation column and the last row that `set_rotation` leaves:
the column is `postT + R preT` with the translations read before the block is
written, and the last row is untouched. -/
theorem fill_eman_border {K : Type} [LinearOrderedField K] [FloorRing K] (L : Libm K)
    (t : Transform3D K) (az alt phi : K) :
    (∀ i : Fin 3, (set_rotation_fill L (emanLocals t az alt phi)).matrix (up i) 3
      = (get_posttrans t 0).get i
        + (set_rotation_fill L (emanLocals t az alt phi)).matrix (up i) 0
          * (get_pretrans t 0).get 0
        + (set_rotation_fill L (emanLocals t az alt phi)).matrix (up i) 1
          * (get_pretrans t 0).get 1
        + (set_rotation_fill L (emanLocals t az alt phi)).matrix (up i) 2
          * (get_pretrans t 0).get 2) ∧
    (∀ j : Fin 4, (set_rotation_fill L (emanLocals t az alt phi)).matrix 3 j = t.matrix 3 j) := by
  constructor
  · intro i
    fin_cases i <;> rfl
  · intro j
    fin_cases j <;> rfl

/-- C37: over the reals, for every transform `t` with `det R ≠ 0` and all
angles, `set_rotation(az, alt, phi)` and `set_rotation(EMAN, dict)` return the
same transform: its block is the matrix of the angles, `get_pretrans()` and
`get_posttrans()` are those of `t`, and the total-translation column is
`p_post + R_new p_pre`. -/
theorem set_rotation_keeps_translations (t : Transform3D ℝ) (az alt phi : ℝ)
    (_hdet : (block3 t).det ≠ 0) :
    ∃ r : Transform3D ℝ,
      set_rotation_eman (Libm.mk Real.cos Real.sin Real.arccos Real.arcsin
        (fun y x => Complex.arg ⟨x, y⟩) Real.sqrt Real.pi) t az alt phi = .ok r ∧
      set_rotation (Libm.mk Real.cos Real.sin Real.arccos Real.arcsin
        (fun y x => Complex.arg ⟨x, y⟩) Real.sqrt Real.pi) t .EMAN (emanDict az alt phi)
        = .ok r ∧
      block3 r = specEmanTable (Libm.mk Real.cos Real.sin Real.arccos Real.arcsin
        (fun y x => Complex.arg ⟨x, y⟩) Real.sqrt Real.pi) az alt phi ∧
      get_pretrans r 0 = get_pretrans t 0 ∧
      get_posttrans r 0 = get_posttrans t 0 ∧
      ∀ i : Fin 3, r.matrix (up i) 3
        = (get_posttrans t 0).get i + (block3 r).mulVec (get_pretrans t 0).get i := by
  obtain ⟨hc, hr⟩ := fill_eman_border (Libm.mk Real.cos Real.sin Real.arccos Real.arcsin
    (fun y x => Complex.arg ⟨x, y⟩) Real.sqrt Real.pi) t az alt phi
  have hrot := fill_eman_isRotation t az alt phi
  have hD : Det (set_rotation_fill (Libm.mk Real.cos Real.sin Real.arccos Real.arcsin
      (fun y x => Complex.arg ⟨x, y⟩) Real.sqrt Real.pi) (emanLocals t az alt phi)) ≠ 0 := by
    rw [Det_eq_det, hrot.2]
    norm_num
  have hpost : get_posttrans (set_rotation_fill (Libm.mk Real.cos Real.sin Real.arccos
      Real.arcsin (fun y x => Complex.arg ⟨x, y⟩) Real.sqrt Real.pi)
      (emanLocals t az alt phi)) 0 = get_posttrans t 0 := rfl
  refine ⟨_, set_rotation_eman_eq _ t az alt phi, rfl, fill_eman_block_real t az alt phi,
    ?_, hpost, ?_⟩
  · have h0 := hc 0
    have h1 := hc 1
    have h2 := hc 2
    generalize set_rotation_fill (Libm.mk Real.cos Real.sin Real.arccos Real.arcsin
      (fun y x => Complex.arg ⟨x, y⟩) Real.sqrt Real.pi) (emanLocals t az alt phi) = r
      at hD h0 h1 h2 hr ⊢
    apply get_pretrans_of_total r _ hD
    · rw [hr 0]; exact h0
    · rw [hr 1]; exact h1
    · rw [hr 2]; exact h2
  · intro i
    have h := hc i
    generalize set_rotation_fill (Libm.mk Real.cos Real.sin Real.arccos Real.arcsin
      (fun y x => Complex.arg ⟨x, y⟩) Real.sqrt Real.pi) (emanLocals t az alt phi) = r
      at h ⊢
    rw [h, mulVec_three, block3_apply, block3_apply, block3_apply]
    have u0 : up (0 : Fin 3) = 0 := rfl
    have u1 : up (1 : Fin 3) = 1 := rfl
    have u2 : up (2 : Fin 3) = 2 := rfl
    rw [u0, u1, u2]
    ring

/-- C37 (witness): the transform with the identity block, the total
translation `(1, 2, 3)` and the post-translation `(4, 5, 6)`, and the angles
`(10, 20, 30)`. -/
theorem set_rotation_keeps_translations_witness :
    (block3 (⟨fun i j => ![![1, 0, 0, 1], ![0, 1, 0, 2], ![0, 0, 1, 3], ![4, 5, 6, 1]] i j⟩ :
      Transform3D ℝ)).det ≠ 0 ∧
    ∃ r : Transform3D ℝ,
      set_rotation_eman (Libm.mk Real.cos Real.sin Real.arccos Real.arcsin
        (fun y x => Complex.arg ⟨x, y⟩) Real.sqrt Real.pi)
        ⟨fun i j => ![![1, 0, 0, 1], ![0, 1, 0, 2], ![0, 0, 1, 3], ![4, 5, 6, 1]] i j⟩
        10 20 30 = .ok r ∧
      get_pretrans r 0 = get_pretrans (⟨fun i j =>
        ![![1, 0, 0, 1], ![0, 1, 0, 2], ![0, 0, 1, 3], ![4, 5, 6, 1]] i j⟩ : Transform3D ℝ) 0 ∧
      get_posttrans r 0 = ⟨4, 5, 6⟩ := by
  have hd : (block3 (⟨fun i j =>
      ![![1, 0, 0, 1], ![0, 1, 0, 2], ![0, 0, 1, 3], ![4, 5, 6, 1]] i j⟩ :
      Transform3D ℝ)).det ≠ 0 := by
    rw [← Det_eq_det]
    norm_num [Det]
  obtain ⟨r, h1, -, -, h4, h5, -⟩ := set_rotation_keeps_translations
    ⟨fun i j => ![![1, 0, 0, 1], ![0, 1, 0, 2], ![0, 0, 1, 3], ![4, 5, 6, 1]] i j⟩ 10 20 30 hd
  exact ⟨hd, r, h1, h4, h5⟩

end Transform3D

namespace Transform3D

variable {K : Type}

/-! ### C38: the right product `t * inverse(t)` -/

theorem mul_inverse_entries [Field K] (t : Transform3D K) (hdet : (block3 t).det ≠ 0)
    (i j : Fin 4) :
    (mul t (inverse t)).matrix i j
      = if i = 3 then (if j = 3 then 1 else t.matrix 3 j) else if i = j then 1 else 0 := by
  have hD : Det t ≠ 0 := by rw [Det_eq_det]; exact hdet
  have hD2 : Det t = t.matrix 0 0 * (t.matrix 1 1 * t.matrix 2 2 - t.matrix 1 2 * t.matrix 2 1)
      + t.matrix 0 2 * (t.matrix 1 0 * t.matrix 2 1 - t.matrix 2 0 * t.matrix 1 1)
      - t.matrix 0 1 * (t.matrix 1 0 * t.matrix 2 2 - t.matrix 2 0 * t.matrix 1 2) := rfl
  rw [mul_matrix]
  fin_cases i <;> fin_cases j <;>
    simp only [Fin.reduceEq, if_true, if_false, Fin.isValue, Fin.zero_eta, Fin.mk_one,
      Fin.reduceFinMk, inverse_00, inverse_01, inverse_02,
      inverse_03, inverse_10, inverse_11, inverse_12, inverse_13, inverse_20, inverse_21,
      inverse_22, inverse_23, inverse_30, inverse_31, inverse_32, inverse_33] <;>
    first
      | rfl
      | (field_simp; (try rw [hD2]); ring)

/-- C38: for every transform whose block has a non-zero determinant, the
product `t * inverse(t)` has the identity block, a zero total-translation
column and the post-translation row of `t`; the post-translation row of
`inverse(t)` is zero; and `t * inverse(t)` satisfies `is_identity()` if and
only if `get_posttrans()` of `t` is the zero vector. -/
theorem mul_inverse_self [Field K] [DecidableEq K] (t : Transform3D K)
    (hdet : (block3 t).det ≠ 0) :
    block3 (mul t (inverse t)) = 1 ∧
    (∀ i : Fin 3, (mul t (inverse t)).matrix (up i) 3 = 0) ∧
    (∀ j : Fin 3, (mul t (inverse t)).matrix 3 (up j) = t.matrix 3 (up j)) ∧
    (mul t (inverse t)).matrix 3 3 = 1 ∧
    get_posttrans (inverse t) 0 = ⟨0, 0, 0⟩ ∧
    (is_identity (mul t (inverse t)) = true ↔ get_posttrans t 0 = ⟨0, 0, 0⟩) := by
  have e := mul_inverse_entries t hdet
  refine ⟨?_, ?_, ?_, ?_, rfl, ?_⟩
  · ext i j
    rw [block3_apply, e]
    fin_cases i <;> fin_cases j <;> rfl
  · intro i
    rw [e]
    fin_cases i <;> rfl
  · intro j
    rw [e]
    fin_cases j <;> rfl
  · rw [e]; rfl
  · have hp : get_posttrans t 0 = ⟨t.matrix 3 0, t.matrix 3 1, t.matrix 3 2⟩ := rfl
    rw [hp]
    simp only [is_identity, idx4, List.all_cons, List.all_nil, e, Bool.and_true,
      Bool.and_eq_true, Bool.not_eq_true', decide_eq_false_iff_not, Fin.reduceEq,
      if_true, if_false, Fin.isValue, ne_eq, not_true_eq_false, and_false, not_false_eq_true,
      and_true, true_and, not_not, false_and, Vec3f.mk.injEq]

/-- C38 (witness): the transform `exampleT`. -/
theorem mul_inverse_self_witness :
    (block3 (exampleT : Transform3D ℚ)).det ≠ 0 ∧
    (is_identity (mul (exampleT : Transform3D ℚ) (inverse exampleT)) = true
      ↔ get_posttrans (exampleT : Transform3D ℚ) 0 = ⟨0, 0, 0⟩) :=
  ⟨by rw [← Det_eq_det, Det_exampleT]; norm_num,
    (mul_inverse_self exampleT (by rw [← Det_eq_det, Det_exampleT]; norm_num)).2.2.2.2.2⟩

end Transform3D

namespace Transform3D

/-! ### C39: composition of the elements of `CSym` -/

theorem block3_mul {K : Type} [Field K] (M2 M1 : Transform3D K) :
    block3 (mul M2 M1) = block3 M2 * block3 M1 := by
  ext i j
  rw [block3_apply, mul_matrix, Matrix.mul_apply, Fin.sum_univ_three]
  fin_cases i <;> fin_cases j <;> rfl

theorem specRz_mul (a b c : ℝ) (m : Int) (h : c = a + b + 360 * (m : ℝ)) :
    specRz (Libm.mk Real.cos Real.sin Real.arccos Real.arcsin
      (fun y x => Complex.arg ⟨x, y⟩) Real.sqrt Real.pi) a
    * specRz (Libm.mk Real.cos Real.sin Real.arccos Real.arcsin
      (fun y x => Complex.arg ⟨x, y⟩) Real.sqrt Real.pi) b
    = specRz (Libm.mk Real.cos Real.sin Real.arccos Real.arcsin
      (fun y x => Complex.arg ⟨x, y⟩) Real.sqrt Real.pi) c := by
  have hc : c * Real.pi / 180 = a * Real.pi / 180 + b * Real.pi / 180
      + (m : ℝ) * (2 * Real.pi) := by rw [h]; ring
  have e1 : Real.cos (c * Real.pi / 180)
      = Real.cos (a * Real.pi / 180) * Real.cos (b * Real.pi / 180)
        - Real.sin (a * Real.pi / 180) * Real.sin (b * Real.pi / 180) := by
    rw [hc, Real.cos_add_int_mul_two_pi, Real.cos_add]
  have e2 : Real.sin (c * Real.pi / 180)
      = Real.sin (a * Real.pi / 180) * Real.cos (b * Real.pi / 180)
        + Real.cos (a * Real.pi / 180) * Real.sin (b * Real.pi / 180) := by
    rw [hc, Real.sin_add_int_mul_two_pi, Real.sin_add]
  simp only [specRz, deg2rad]
  rw [e1, e2]
  ext i j
  fin_cases i <;> fin_cases j <;>
    simp [Matrix.mul_apply, Fin.sum_univ_three] <;> ring

/-- The product of two transforms without translations is the transform
without translations whose block is the product of the blocks. -/
theorem mul_of_block {K : Type} [LinearOrderedField K] (X Y Z : Transform3D K)
    (hb : block3 X * block3 Y = block3 Z)
    (x03 : X.matrix 0 3 = 0) (x13 : X.matrix 1 3 = 0) (x23 : X.matrix 2 3 = 0)
    (x30 : X.matrix 3 0 = 0) (x31 : X.matrix 3 1 = 0) (x32 : X.matrix 3 2 = 0)
    (y03 : Y.matrix 0 3 = 0) (y13 : Y.matrix 1 3 = 0) (y23 : Y.matrix 2 3 = 0)
    (z03 : Z.matrix 0 3 = 0) (z13 : Z.matrix 1 3 = 0) (z23 : Z.matrix 2 3 = 0)
    (z30 : Z.matrix 3 0 = 0) (z31 : Z.matrix 3 1 = 0) (z32 : Z.matrix 3 2 = 0)
    (z33 : Z.matrix 3 3 = 1) : mul X Y = Z := by
  apply ext_block
  · rw [block3_mul, hb]
  all_goals
    rw [mul_matrix]
    simp only [Fin.reduceEq, if_true, if_false, Fin.isValue, x03, x13, x23, x30, x31, x32,
      y03, y13, y23, z03, z13, z23, z30, z31, z32, z33, mul_zero, add_zero]

/-- The product of two rotations about z built by `set_rotation` on fresh
transforms is the rotation by the sum of the angles, up to full turns. -/
theorem mul_fill_rotZ (a b c : ℝ) (m : Int) (h : c = a + b + 360 * (m : ℝ)) :
    mul (set_rotation_fill (Libm.mk Real.cos Real.sin Real.arccos Real.arcsin
        (fun y x => Complex.arg ⟨x, y⟩) Real.sqrt Real.pi) (emanLocals new a 0 0))
      (set_rotation_fill (Libm.mk Real.cos Real.sin Real.arccos Real.arcsin
        (fun y x => Complex.arg ⟨x, y⟩) Real.sqrt Real.pi) (emanLocals new b 0 0))
    = set_rotation_fill (Libm.mk Real.cos Real.sin Real.arccos Real.arcsin
        (fun y x => Complex.arg ⟨x, y⟩) Real.sqrt Real.pi) (emanLocals new c 0 0) := by
  obtain ⟨a1, a2, a3, a4, a5, a6, -⟩ := fill_eman_new_border (Libm.mk Real.cos Real.sin
    Real.arccos Real.arcsin (fun y x => Complex.arg ⟨x, y⟩) Real.sqrt Real.pi) a 0 0
  obtain ⟨b1, b2, b3, -, -, -, -⟩ := fill_eman_new_border (Libm.mk Real.cos Real.sin
    Real.arccos Real.arcsin (fun y x => Complex.arg ⟨x, y⟩) Real.sqrt Real.pi) b 0 0
  obtain ⟨c1, c2, c3, c4, c5, c6, c7⟩ := fill_eman_new_border (Libm.mk Real.cos Real.sin
    Real.arccos Real.arcsin (fun y x => Complex.arg ⟨x, y⟩) Real.sqrt Real.pi) c 0 0
  have hb : block3 (set_rotation_fill (Libm.mk Real.cos Real.sin Real.arccos Real.arcsin
        (fun y x => Complex.arg ⟨x, y⟩) Real.sqrt Real.pi) (emanLocals new a 0 0))
      * block3 (set_rotation_fill (Libm.mk Real.cos Real.sin Real.arccos Real.arcsin
        (fun y x => Complex.arg ⟨x, y⟩) Real.sqrt Real.pi) (emanLocals new b 0 0))
      = block3 (set_rotation_fill (Libm.mk Real.cos Real.sin Real.arccos Real.arcsin
        (fun y x => Complex.arg ⟨x, y⟩) Real.sqrt Real.pi) (emanLocals new c 0 0)) := by
    rw [fill_eman_block_real, fill_eman_block_real, fill_eman_block_real,
      specEmanTable_rotZ, specEmanTable_rotZ, specEmanTable_rotZ]
    exact specRz_mul a b c m h
  generalize set_rotation_fill (Libm.mk Real.cos Real.sin Real.arccos Real.arcsin
        (fun y x => Complex.arg ⟨x, y⟩) Real.sqrt Real.pi) (emanLocals new a 0 0) = X
    at hb a1 a2 a3 a4 a5 a6 ⊢
  generalize set_rotation_fill (Libm.mk Real.cos Real.sin Real.arccos Real.arcsin
        (fun y x => Complex.arg ⟨x, y⟩) Real.sqrt Real.pi) (emanLocals new b 0 0) = Y
    at hb b1 b2 b3 ⊢
  generalize set_rotation_fill (Libm.mk Real.cos Real.sin Real.arccos Real.arcsin
        (fun y x => Complex.arg ⟨x, y⟩) Real.sqrt Real.pi) (emanLocals new c 0 0) = Z
    at hb c1 c2 c3 c4 c5 c6 c7 ⊢
  exact mul_of_block X Y Z hb a1 a2 a3 a4 a5 a6 b1 b2 b3 c1 c2 c3 c4 c5 c6 c7

/-- C39: for every `n ≥ 1` and all integers `j, k` (the negative ones
included), the three elements `get_sym(j)`, `get_sym(k)` and `get_sym(j + k)`
of `CSym` with `nsym = n` are returned, and the product of the first two is
the third, over the reals. -/
theorem CSym_get_sym_mul (n j k : Int) (hn : 1 ≤ n) :
    ∃ a b c : Transform3D ℝ,
      CSym.get_sym (Libm.mk Real.cos Real.sin Real.arccos Real.arcsin
        (fun y x => Complex.arg ⟨x, y⟩) Real.sqrt Real.pi) ⟨n⟩ j = .ok a ∧
      CSym.get_sym (Libm.mk Real.cos Real.sin Real.arccos Real.arcsin
        (fun y x => Complex.arg ⟨x, y⟩) Real.sqrt Real.pi) ⟨n⟩ k = .ok b ∧
      CSym.get_sym (Libm.mk Real.cos Real.sin Real.arccos Real.arcsin
        (fun y x => Complex.arg ⟨x, y⟩) Real.sqrt Real.pi) ⟨n⟩ (j + k) = .ok c ∧
      mul a b = c := by
  have hn0 : (0 : Int) < (⟨n⟩ : CSym).nsym := by show (0 : Int) < n; omega
  have hnR : (n : ℝ) ≠ 0 := by
    have : (0 : ℝ) < (n : ℝ) := by exact_mod_cast (by omega : (0 : Int) < n)
    exact ne_of_gt this
  refine ⟨_, _, _,
    (CSym_get_sym_eq _ ⟨n⟩ j hn0).trans (set_rotation_eman_eq _ _ _ _ _),
    (CSym_get_sym_eq _ ⟨n⟩ k hn0).trans (set_rotation_eman_eq _ _ _ _ _),
    (CSym_get_sym_eq _ ⟨n⟩ (j + k) hn0).trans (set_rotation_eman_eq _ _ _ _ _), ?_⟩
  · apply mul_fill_rotZ _ _ _ (Int.tdiv j n + Int.tdiv k n - Int.tdiv (j + k) n)
    show ((Int.tmod (j + k) n : Int) : ℝ) * 360 / (n : ℝ)
      = ((Int.tmod j n : Int) : ℝ) * 360 / (n : ℝ) + ((Int.tmod k n : Int) : ℝ) * 360 / (n : ℝ)
        + 360 * ((Int.tdiv j n + Int.tdiv k n - Int.tdiv (j + k) n : Int) : ℝ)
    have e1 : Int.tmod j n = j - n * Int.tdiv j n := by
      have := Int.tmod_add_tdiv j n; omega
    have e2 : Int.tmod k n = k - n * Int.tdiv k n := by
      have := Int.tmod_add_tdiv k n; omega
    have e3 : Int.tmod (j + k) n = j + k - n * Int.tdiv (j + k) n := by
      have := Int.tmod_add_tdiv (j + k) n; omega
    rw [e1, e2, e3]
    push_cast
    field_simp
    ring

/-- C39 (witness): `c4`, `get_sym(3) * get_sym(2) = get_sym(5)`. -/
theorem CSym_get_sym_mul_witness :
    ∃ a b c : Transform3D ℝ,
      CSym.get_sym (Libm.mk Real.cos Real.sin Real.arccos Real.arcsin
        (fun y x => Complex.arg ⟨x, y⟩) Real.sqrt Real.pi) ⟨4⟩ 3 = .ok a ∧
      CSym.get_sym (Libm.mk Real.cos Real.sin Real.arccos Real.arcsin
        (fun y x => Complex.arg ⟨x, y⟩) Real.sqrt Real.pi) ⟨4⟩ 2 = .ok b ∧
      CSym.get_sym (Libm.mk Real.cos Real.sin Real.arccos Real.arcsin
        (fun y x => Complex.arg ⟨x, y⟩) Real.sqrt Real.pi) ⟨4⟩ (3 + 2) = .ok c ∧
      mul a b = c :=
  CSym_get_sym_mul 4 3 2 (by decide)

end Transform3D

end EMAN
